import Mathlib

/-!
# Deluge arpeggiator

A shallow embedding of `src/deluge/modulation/arpeggiator.cpp` and theorems about it.

Conventions of the embedding

* Every C++ member function becomes a function from the state before the call (and the
  environment: the transport clock, the random draws, whether an allocation succeeds) to the
  state after it. A function returns `none` exactly where the C++ has no defined result: an
  integer modulo by zero, a read or delete outside a collection, the use of a pointer that was
  never assigned, a negative shift count, and the diagnostic freeze `E404`.
* The field widths are declared in `modulation/arpeggiator.h`, which is not among the sources at
  hand. Fields are integers (`Int` where the code lets them go negative, `Nat` otherwise); the
  casts that the source itself spells out are kept (`(uint8_t)` is `% 256`). The octave index
  `currentOctave` is the one member that the source casts up before it computes with it
  (`(int32_t)currentOctave`): it is an 8-bit signed member, and every store into it goes through
  `toInt8`.
* The random sources `getRandom255()` and `random(65535)` are not among the sources either: the
  value each call returns is an argument of the embedding, so every theorem holds for every draw.
-/

namespace Deluge

/-! ## Settings -/

/-- Arpeggiator mode. The source only ever tests it against `OFF`. -/
inductive ArpMode where
  | OFF
  | ARP
  deriving DecidableEq, Repr

/-- Note traversal mode. -/
inductive ArpNoteMode where
  | UP
  | DOWN
  | UP_DOWN
  | RANDOM
  | AS_PLAYED
  deriving DecidableEq, Repr

/-- Octave traversal mode. -/
inductive ArpOctaveMode where
  | UP
  | DOWN
  | UP_DOWN
  | ALTERNATE
  | RANDOM
  deriving DecidableEq, Repr

/-- Subdivision type of the sync level. -/
inductive SyncType where
  | SYNC_TYPE_EVEN
  | SYNC_TYPE_TRIPLET
  | SYNC_TYPE_DOTTED
  deriving DecidableEq, Repr

/-- Modelled from the spec: the sync level "0 = unsynced, else a power-of-two tick-subdivision
index"; the enumeration `SyncLevel` is declared in `definitions_cxx.hpp`, which is not among the
sources. Level 8 is the 128th note. -/
def SYNC_LEVEL_128TH : Nat := 8

/-- Modelled from the spec: the finest sync level of the enumeration `SyncLevel` (declared in
`definitions_cxx.hpp`, not among the sources), the 256th note. -/
def SYNC_LEVEL_256TH : Nat := 9

/-- The fields of `ArpeggiatorSettings` that the engine reads. -/
structure ArpeggiatorSettings where
  mode : ArpMode
  noteMode : ArpNoteMode
  octaveMode : ArpOctaveMode
  numOctaves : Nat
  syncLevel : Nat
  syncType : SyncType
  flagForceArpRestart : Bool
  deriving DecidableEq, Repr

/-! ## Engine state shared by both variants -/

/-- The data members of `ArpeggiatorBase`. -/
structure ArpeggiatorBase where
  ratchetingIsAvailable : Bool
  gateCurrentlyActive : Bool
  gatePos : Nat
  currentOctave : Int
  currentDirection : Int
  currentOctaveDirection : Int
  playedFirstArpeggiatedNoteYet : Bool
  lastVelocity : Int
  noteCodeCurrentlyOnPostArp : Int
  outputMIDIChannelForNoteCurrentlyOnPostArp : Int
  notesPlayedFromSequence : Nat
  randomNotesPlayedFromOctave : Nat
  ratchetNotesIndex : Nat
  ratchetNotesMultiplier : Nat
  ratchetNotesNumber : Nat
  isRatcheting : Bool
  ratchetProbability : Nat
  maxSequenceLength : Nat
  ratchetAmount : Nat
  deriving DecidableEq, Repr

/-- Modelled from the spec: the store into the member `currentOctave` ("octave index"). The
member is declared in `modulation/arpeggiator.h`, which is not among the sources; the source
casts it up with `(int32_t)currentOctave` where it multiplies or compares it, so the member is
narrower than `int32_t`, and it is taken to be `int8_t`: a store keeps the value modulo 256 in
the range -128 to 127. -/
def toInt8 (x : Int) : Int :=
  (x + 128) % 256 - 128

/-- The C++ operator `a % d` on non-negative operands: no result when `d` is zero. -/
def modChecked (a d : Nat) : Option Nat :=
  if d = 0 then none else some (a % d)

/-- The method `ArpeggiatorBase::resetRatchet`. -/
def resetRatchet (b : ArpeggiatorBase) : ArpeggiatorBase :=
  { b with
    ratchetNotesIndex := 0
    ratchetNotesMultiplier := 0
    ratchetNotesNumber := 0
    isRatcheting := false }

/-- The method `ArpeggiatorBase::carryOnSequenceForSingleNoteArpeggio`; `rnd` is the value that
`getRandom255()` returns if it is called. -/
def carryOnSequenceForSingleNoteArpeggio (settings : ArpeggiatorSettings) (rnd : Nat)
    (b : ArpeggiatorBase) : Option ArpeggiatorBase :=
  if settings.numOctaves = 1 then
    some { b with currentOctave := 0, currentOctaveDirection := 1 }
  else if settings.octaveMode = ArpOctaveMode.RANDOM then
    (modChecked rnd settings.numOctaves).map fun (r : Nat) =>
      { b with currentOctave := toInt8 (r : Int), currentOctaveDirection := 1 }
  else if settings.octaveMode = ArpOctaveMode.UP_DOWN
      ∨ settings.octaveMode = ArpOctaveMode.ALTERNATE then
    let oct := toInt8 (b.currentOctave + b.currentOctaveDirection)
    if oct > (settings.numOctaves : Int) - 1 then
      -- Now go down
      if settings.octaveMode = ArpOctaveMode.ALTERNATE then
        some { b with currentOctaveDirection := -1
                      currentOctave := toInt8 ((settings.numOctaves : Int) - 2) }
      else
        some { b with currentOctaveDirection := -1
                      currentOctave := toInt8 ((settings.numOctaves : Int) - 1) }
    else if oct < 0 then
      -- Now go up
      if settings.octaveMode = ArpOctaveMode.ALTERNATE then
        some { b with currentOctaveDirection := 1, currentOctave := 1 }
      else
        some { b with currentOctaveDirection := 1, currentOctave := 0 }
    else
      some { b with currentOctave := oct }
  else
    -- Have to reset this, in case the user changed the setting.
    let dir : Int := if settings.octaveMode = ArpOctaveMode.DOWN then -1 else 1
    let oct := toInt8 (b.currentOctave + dir)
    if oct ≥ (settings.numOctaves : Int) then
      some { b with currentOctaveDirection := dir, currentOctave := 0 }
    else if oct < 0 then
      some { b with currentOctaveDirection := dir
                    currentOctave := toInt8 ((settings.numOctaves : Int) - 1) }
    else
      some { b with currentOctaveDirection := dir, currentOctave := oct }

/-! ## Held notes, the two collections and the instruction -/

/-- One held input note (`ArpNote`): `noteCode` is `inputCharacteristics[NOTE]`, `channel` is
`inputCharacteristics[CHANNEL]`. -/
structure ArpNote where
  noteCode : Int
  channel : Int
  mpeValues : List Int
  velocity : Int
  outputMemberChannel : Int
  deriving DecidableEq, Repr

/-- Modelled from the spec: the output-channel sentinel that means "unassigned"
(`MIDI_CHANNEL_NONE`, declared in `definitions_cxx.hpp`, which is not among the sources). -/
def MIDI_CHANNEL_NONE : Int := 255

/-- Modelled from the spec: the instruction's "no note" value (`ARP_NOTE_NONE`, declared in
`modulation/arpeggiator.h`, which is not among the sources). -/
def ARP_NOTE_NONE : Int := 32767

/-- The output record `ArpReturnInstruction`. The pointer `arpNoteOn` is kept as the note it
points to at the time it is assigned (`none` while it is unassigned). -/
structure ArpReturnInstruction where
  noteCodeOffPostArp : Int
  noteCodeOnPostArp : Int
  sampleSyncLengthOn : Nat
  arpNoteOn : Option ArpNote
  outputMIDIChannelOff : Int
  deriving DecidableEq, Repr

/-- Modelled from the spec: the instruction "created fresh by the caller before each engine
call", as the constructor in `modulation/arpeggiator.h` (not among the sources) leaves it. -/
def ArpReturnInstruction.fresh : ArpReturnInstruction :=
  { noteCodeOffPostArp := ARP_NOTE_NONE
    noteCodeOnPostArp := ARP_NOTE_NONE
    sampleSyncLengthOn := 0
    arpNoteOn := none
    outputMIDIChannelOff := 0 }

/-- Modelled from the spec: `find(key)` "returns the position of the first element whose identity
is ≥ key"; this is `OrderedResizeableArray::search(key, GREATER_OR_EQUAL)`, whose code is not
among the sources. The position is the element count when there is no such element. -/
def search : List ArpNote → Int → Nat
  | [], _ => 0
  | x :: xs, key => if x.noteCode ≥ key then 0 else search xs key + 1

/-- Modelled from the spec: `insertAt(position)` "allocates a slot without initializing fields";
this is `ResizeableArray::insertAtIndex`, whose code is not among the sources. `slot` is what
the new slot happens to hold; the result is `none` when the allocation fails (the C++ then
returns an error code and leaves the collection as it was). -/
def insertAtIndex (xs : List ArpNote) (i : Nat) (slot : ArpNote) (allocationOk : Bool) :
    Option (List ArpNote) :=
  if allocationOk then some (xs.take i ++ slot :: xs.drop i) else none

/-- Modelled from the spec: `deleteAt(position)` "removes a slot, shifting subsequent elements";
this is `ResizeableArray::deleteAtIndex`, whose code is not among the sources. -/
def deleteAtIndex (xs : List ArpNote) (i : Nat) : List ArpNote :=
  xs.eraseIdx i

/-- The loop `for (i = 0; i < notesAsPlayed.getNumElements(); i++) if (... == noteCode) break`
of `noteOn` and `noteOff`: the first position whose note has this identity, if there is one. -/
def findAsPlayed : List ArpNote → Int → Option Nat
  | [], _ => none
  | x :: xs, noteCode =>
    if x.noteCode = noteCode then some 0 else (findAsPlayed xs noteCode).map (· + 1)

/-- The element access `getElementAddress(i)` for a signed index: no result outside the
collection. -/
def getElement (xs : List ArpNote) (i : Int) : Option ArpNote :=
  if 0 ≤ i then xs[i.toNat]? else none

/-- The melodic engine `Arpeggiator`: the base members, the sorted collection `notes`, the
insertion-order collection `notesAsPlayed` and the sounding index. -/
structure Arpeggiator extends ArpeggiatorBase where
  notes : List ArpNote
  notesAsPlayed : List ArpNote
  whichNoteCurrentlyOnPostArp : Int
  deriving DecidableEq, Repr

/-- The test `(settings != nullptr) && settings->mode != ArpMode::OFF`. -/
def isArpActive (settings : Option ArpeggiatorSettings) : Bool :=
  match settings with
  | none => false
  | some s => decide (s.mode ≠ ArpMode.OFF)

/-- The method `Arpeggiator::hasAnyInputNotesActive`. -/
def Arpeggiator.hasAnyInputNotesActive (a : Arpeggiator) : Bool :=
  decide (a.notes.length ≠ 0)

/-- The method `ArpeggiatorBase::switchAnyNoteOff`; `clockActive` is what
`playbackHandler.isEitherClockActive()` returns. -/
def switchAnyNoteOff (clockActive : Bool) (b : ArpeggiatorBase)
    (instruction : ArpReturnInstruction) : ArpeggiatorBase × ArpReturnInstruction :=
  if b.gateCurrentlyActive then
    let instruction := { instruction with
      noteCodeOffPostArp := b.noteCodeCurrentlyOnPostArp
      outputMIDIChannelOff := b.outputMIDIChannelForNoteCurrentlyOnPostArp }
    let b := { b with gateCurrentlyActive := false }
    if b.isRatcheting ∧ (b.ratchetNotesIndex ≥ b.ratchetNotesNumber ∨ clockActive = false) then
      (resetRatchet b, instruction)
    else
      (b, instruction)
  else
    (b, instruction)

/-- The method `ArpeggiatorBase::maybeSetupNewRatchet`; `rndChance` and `rndMultiplier` are the
values of the first and the second call of `random(65535)`. The multiplier and the count are
`uint8_t` members (the type that `std::max((uint8_t)2, ...)` fixes); with a ratchet amount of at
most 3, the only values `render` assigns, both stay below 256 and nothing is cut off. -/
def maybeSetupNewRatchet (settings : ArpeggiatorSettings) (rndChance rndMultiplier : Nat)
    (b : ArpeggiatorBase) : ArpeggiatorBase :=
  let isRatcheting : Bool := decide (b.ratchetProbability > rndChance ∧ b.ratchetAmount > 0)
  if isRatcheting then
    let multiplier := rndMultiplier % (b.ratchetAmount + 1)
    let number := 1 <<< multiplier
    if settings.syncLevel = SYNC_LEVEL_256TH then
      { b with isRatcheting := isRatcheting, ratchetNotesMultiplier := 1, ratchetNotesNumber := 2,
               ratchetNotesIndex := 0 }
    else if settings.syncLevel = SYNC_LEVEL_128TH then
      { b with isRatcheting := isRatcheting, ratchetNotesMultiplier := max 2 multiplier,
               ratchetNotesNumber := max 4 number, ratchetNotesIndex := 0 }
    else
      { b with isRatcheting := isRatcheting, ratchetNotesMultiplier := multiplier,
               ratchetNotesNumber := number, ratchetNotesIndex := 0 }
  else
    { b with isRatcheting := isRatcheting, ratchetNotesMultiplier := 0, ratchetNotesNumber := 0,
             ratchetNotesIndex := 0 }

/-! ## Step advance of the melodic engine -/

/-- The start of a fresh sequence in `Arpeggiator::switchNoteOn` (the branch
`if (!playedFirstArpeggiatedNoteYet)`): initial note index and initial octave. -/
def Arpeggiator.startSequence (settings : ArpeggiatorSettings) (rndNote rndOctave : Nat)
    (a : Arpeggiator) : Option Arpeggiator :=
  -- NOTE
  let a := { a with notesPlayedFromSequence := 0, randomNotesPlayedFromOctave := 0 }
  let note : Option Arpeggiator :=
    if settings.noteMode = ArpNoteMode.RANDOM then
      (modChecked rndNote (a.notes.length % 256)).map fun (r : Nat) =>
        { a with whichNoteCurrentlyOnPostArp := (r : Int), currentDirection := 1 }
    else if settings.noteMode = ArpNoteMode.DOWN then
      some { a with whichNoteCurrentlyOnPostArp := (a.notes.length : Int) - 1
                    currentDirection := -1 }
    else
      some { a with whichNoteCurrentlyOnPostArp := 0, currentDirection := 1 }
  -- OCTAVE
  note.bind fun a =>
    if settings.octaveMode = ArpOctaveMode.RANDOM then
      (modChecked rndOctave settings.numOctaves).map fun (r : Nat) =>
        { a with currentOctave := toInt8 (r : Int), currentOctaveDirection := 1 }
    else if settings.octaveMode = ArpOctaveMode.DOWN
        ∨ (settings.octaveMode = ArpOctaveMode.ALTERNATE
          ∧ settings.noteMode = ArpNoteMode.DOWN) then
      some { a with currentOctave := toInt8 ((settings.numOctaves : Int) - 1)
                    currentOctaveDirection := -1 }
    else
      some { a with currentOctave := 0, currentOctaveDirection := 1 }

/-- The test shared by both edges of the multi-note traversal in `Arpeggiator::switchNoteOn`:
note mode UP, AS_PLAYED or DOWN together with octave mode ALTERNATE. -/
def alternateBounce (settings : ArpeggiatorSettings) : Bool :=
  decide ((settings.noteMode = ArpNoteMode.UP ∨ settings.noteMode = ArpNoteMode.AS_PLAYED
      ∨ settings.noteMode = ArpNoteMode.DOWN)
    ∧ settings.octaveMode = ArpOctaveMode.ALTERNATE)

/-- What the NOTE part of the multi-note branch hands to its OCTAVE part: the engine and the
two local flags. -/
structure NoteAdvance where
  arp : Arpeggiator
  changeOctave : Bool
  changingOctaveDirection : Bool

/-- The NOTE part of the branch of `Arpeggiator::switchNoteOn` for arpeggios of more than one
note. -/
def Arpeggiator.advanceNote (settings : ArpeggiatorSettings) (rndNote : Nat)
    (a : Arpeggiator) : Option NoteAdvance :=
  let n : Int := a.notes.length
  if settings.noteMode = ArpNoteMode.RANDOM then
    (modChecked rndNote (a.notes.length % 256)).map fun (r : Nat) =>
      { arp := { a with whichNoteCurrentlyOnPostArp := (r : Int) }
        changeOctave := decide (a.randomNotesPlayedFromOctave ≥ a.notes.length)
        changingOctaveDirection := false }
  else
    let which := a.whichNoteCurrentlyOnPostArp + a.currentDirection
    -- If reached top of notes (so current direction must be up)
    if which ≥ n then
      let changing : Bool :=
        decide (a.currentOctave ≥ (settings.numOctaves : Int) - 1) && alternateBounce settings
      if changing then
        -- Now go down (without repeating)
        some { arp := { a with currentDirection := -1, whichNoteCurrentlyOnPostArp := which - 2 }
               changeOctave := false, changingOctaveDirection := changing }
      else if settings.noteMode = ArpNoteMode.UP_DOWN then
        -- Now go down (repeating note)
        some { arp := { a with currentDirection := -1, whichNoteCurrentlyOnPostArp := which - 1 }
               changeOctave := false, changingOctaveDirection := changing }
      else
        -- Start on next octave first note
        some { arp := { a with whichNoteCurrentlyOnPostArp := 0 }
               changeOctave := true, changingOctaveDirection := changing }
    -- Or, if reached bottom of notes (so current direction must be down)
    else if which < 0 then
      let changing : Bool := decide (a.currentOctave ≤ 0) && alternateBounce settings
      if changing then
        -- Now go up
        some { arp := { a with currentDirection := 1, whichNoteCurrentlyOnPostArp := which + 2 }
               changeOctave := false, changingOctaveDirection := changing }
      else if settings.noteMode = ArpNoteMode.UP_DOWN then
        -- Start on next octave first note
        some { arp := { a with whichNoteCurrentlyOnPostArp := 0, currentDirection := 1 }
               changeOctave := true, changingOctaveDirection := changing }
      else
        some { arp := { a with whichNoteCurrentlyOnPostArp := n - 1 }
               changeOctave := true, changingOctaveDirection := changing }
    else
      some { arp := { a with whichNoteCurrentlyOnPostArp := which }
             changeOctave := false, changingOctaveDirection := false }

/-- The OCTAVE part of the branch of `Arpeggiator::switchNoteOn` for arpeggios of more than one
note. -/
def Arpeggiator.advanceOctave (settings : ArpeggiatorSettings) (rndOctave : Nat)
    (t : NoteAdvance) : Option Arpeggiator :=
  let a := t.arp
  let a :=
    if t.changingOctaveDirection then
      { a with currentOctaveDirection := if a.currentOctaveDirection = -1 then 1 else -1 }
    else a
  if t.changeOctave then
    let a := { a with randomNotesPlayedFromOctave := 0 } -- reset this in any case
    (carryOnSequenceForSingleNoteArpeggio settings rndOctave a.toArpeggiatorBase).map
      fun b => { a with toArpeggiatorBase := b }
  else
    some a

/-- The branch of `Arpeggiator::switchNoteOn` for arpeggios of more than one note: the NOTE part
and then the OCTAVE part. -/
def Arpeggiator.carryOnSequence (settings : ArpeggiatorSettings) (rndNote rndOctave : Nat)
    (a : Arpeggiator) : Option Arpeggiator :=
  (a.advanceNote settings rndNote).bind (Arpeggiator.advanceOctave settings rndOctave)

/-- The part of `Arpeggiator::switchNoteOn` between the ratchet test and the line that counts
the step: selection of the note index and of the octave. -/
def Arpeggiator.selectStep (settings : ArpeggiatorSettings) (rndNote rndOctave : Nat)
    (a : Arpeggiator) : Option Arpeggiator :=
  -- If FULL-RANDOM (RANDOM for both Note and Octave)
  if settings.noteMode = ArpNoteMode.RANDOM ∧ settings.octaveMode = ArpOctaveMode.RANDOM then
    (modChecked rndNote (a.notes.length % 256)).bind fun (which : Nat) =>
      (modChecked rndOctave settings.numOctaves).map fun (oct : Nat) =>
        { a with
          whichNoteCurrentlyOnPostArp := (which : Int)
          currentOctave := toInt8 (oct : Int)
          notesPlayedFromSequence := 0
          randomNotesPlayedFromOctave := 0
          currentOctaveDirection := 1
          currentDirection := 1 }
  -- Or not FULL-RANDOM
  else
    let a :=
      if a.maxSequenceLength > 0 ∧ a.notesPlayedFromSequence ≥ a.maxSequenceLength then
        { a with playedFirstArpeggiatedNoteYet := false }
      else a
    -- If which-note not actually set up yet...
    if a.playedFirstArpeggiatedNoteYet = false then
      a.startSequence settings rndNote rndOctave
    -- For 1-note arpeggios it is simpler and can use the same logic as for drums
    else if a.notes.length = 1 then
      (carryOnSequenceForSingleNoteArpeggio settings rndOctave a.toArpeggiatorBase).map
        fun b => { a with toArpeggiatorBase := b }
    -- Otherwise, just carry on the sequence of arpeggiated notes
    else
      a.carryOnSequence settings rndNote rndOctave

/-- The line `notesPlayedFromSequence++` of `Arpeggiator::switchNoteOn`. -/
def Arpeggiator.countStep (a : Arpeggiator) : Arpeggiator :=
  { a with notesPlayedFromSequence := a.notesPlayedFromSequence + 1 }

/-- The part of `Arpeggiator::switchNoteOn` from the label `finishSwitchNoteOn` on. The
diagnostic check `E404` and a read outside the collection give no result. -/
def Arpeggiator.finishSwitchNoteOn (settings : ArpeggiatorSettings) (a : Arpeggiator)
    (instruction : ArpReturnInstruction) : Option (Arpeggiator × ArpReturnInstruction) := do
  let a := { a with playedFirstArpeggiatedNoteYet := true }
  if a.whichNoteCurrentlyOnPostArp < 0
      ∨ a.whichNoteCurrentlyOnPostArp ≥ (a.notes.length : Int) then
    none -- FREEZE_WITH_ERROR("E404")
  else
    let a := { a with randomNotesPlayedFromOctave := a.randomNotesPlayedFromOctave + 1 }
    let arpNote ←
      if settings.noteMode = ArpNoteMode.AS_PLAYED then
        getElement a.notesAsPlayed a.whichNoteCurrentlyOnPostArp
      else
        getElement a.notes a.whichNoteCurrentlyOnPostArp
    let a := { a with noteCodeCurrentlyOnPostArp := arpNote.noteCode + a.currentOctave * 12 }
    let instruction := { instruction with
      noteCodeOnPostArp := a.noteCodeCurrentlyOnPostArp
      arpNoteOn := some arpNote }
    -- Increment ratchet note index if we are ratcheting
    if a.isRatcheting then
      some ({ a with ratchetNotesIndex := a.ratchetNotesIndex + 1 }, instruction)
    else
      some (a, instruction)

/-- The method `Arpeggiator::switchNoteOn`; `rndNote` and `rndOctave` are the values that
`getRandom255()` returns for the note index and for the octave index if it is called. -/
def Arpeggiator.switchNoteOn (settings : ArpeggiatorSettings) (rndNote rndOctave : Nat)
    (a : Arpeggiator) (instruction : ArpReturnInstruction) :
    Option (Arpeggiator × ArpReturnInstruction) :=
  let a := { a with gateCurrentlyActive := true }
  let selected : Option Arpeggiator :=
    if a.ratchetNotesIndex > 0 then some a -- goto finishSwitchNoteOn
    -- Only increase steps played from the sequence for normal notes (not for ratchet notes)
    else (a.selectStep settings rndNote rndOctave).map Arpeggiator.countStep
  selected.bind fun a => a.finishSwitchNoteOn settings instruction

/-! ## Note-on and note-off of the melodic engine -/

/-- What a call of `Arpeggiator::noteOn` takes from its environment: the transport clock
(`playbackHandler.isEitherClockActive()`), the draws of `getRandom255()`, whether each of the two
allocations succeeds, and what each newly allocated slot happens to hold. -/
structure NoteOnEnv where
  clockActive : Bool
  rndNote : Nat
  rndOctave : Nat
  notesAllocationOk : Bool
  notesAsPlayedAllocationOk : Bool
  notesSlot : ArpNote
  notesAsPlayedSlot : ArpNote
  deriving DecidableEq, Repr

/-- The part of `Arpeggiator::noteOn` that starts at `// If we're an arpeggiator...` below the
label `noteInserted`; `arpNote` is the note that the local pointer `arpNote` points to. -/
def Arpeggiator.afterNoteInserted (settings : Option ArpeggiatorSettings) (noteCode : Int)
    (env : NoteOnEnv) (notesKey : Nat) (arpNote : ArpNote) (a : Arpeggiator)
    (instruction : ArpReturnInstruction) : Option (Arpeggiator × ArpReturnInstruction) :=
  -- Or otherwise, just switch the note on.
  let immediate : Arpeggiator × ArpReturnInstruction :=
    (a, { instruction with noteCodeOnPostArp := noteCode, arpNoteOn := some arpNote })
  match settings with
  | none => some immediate
  | some s =>
    -- If we're an arpeggiator...
    if s.mode ≠ ArpMode.OFF then
      -- If this was the first note-on and we want to sound a note right now...
      if a.notes.length = 1 then
        let a := { a with playedFirstArpeggiatedNoteYet := false, gateCurrentlyActive := false }
        if env.clockActive = false ∨ s.syncLevel = 0 then
          Arpeggiator.switchNoteOn s env.rndNote env.rndOctave { a with gatePos := 0 }
            instruction
        else
          some (a, instruction)
      -- Or if the arpeggiator was already sounding
      else if a.whichNoteCurrentlyOnPostArp ≥ (notesKey : Int) then
        some ({ a with whichNoteCurrentlyOnPostArp := a.whichNoteCurrentlyOnPostArp + 1 },
          instruction)
      else
        some (a, instruction)
    else
      some immediate

/-- The part of `Arpeggiator::noteOn` from the label `noteInserted` on. `arpNote` and
`arpNoteAsPlayed` are the two local pointers, as positions in `notes` and in `notesAsPlayed`;
`none` is a pointer that was never assigned, and writing through it has no result. -/
def Arpeggiator.noteInserted (settings : Option ArpeggiatorSettings) (noteCode : Int)
    (fromMIDIChannel : Int) (env : NoteOnEnv) (notesKey : Nat)
    (arpNote arpNoteAsPlayed : Option Nat) (a : Arpeggiator)
    (instruction : ArpReturnInstruction) : Option (Arpeggiator × ArpReturnInstruction) :=
  arpNote.bind fun (i : Nat) =>
    arpNoteAsPlayed.bind fun (j : Nat) =>
      (a.notes[i]?).bind fun (x : ArpNote) =>
        (a.notesAsPlayed[j]?).bind fun (y : ArpNote) =>
          Arpeggiator.afterNoteInserted settings noteCode env notesKey
            { x with channel := fromMIDIChannel }
            { a with
              notes := a.notes.set i { x with channel := fromMIDIChannel }
              notesAsPlayed := a.notesAsPlayed.set j { y with channel := fromMIDIChannel } }
            instruction

/-- The assignments of `Arpeggiator::noteOn` that fill a newly inserted slot: identity,
velocity, the unassigned output channel and the expression values. The input channel is left
as the slot had it; it is written after the label `noteInserted`. -/
def fillSlot (slot : ArpNote) (noteCode velocity : Int) (mpeValues : List Int) : ArpNote :=
  { slot with
    noteCode := noteCode
    velocity := velocity
    outputMemberChannel := MIDI_CHANNEL_NONE
    mpeValues := mpeValues }

/-- The local `noteExists` of `Arpeggiator::noteOn` once both collections have been searched:
the identity is at position `notesKey` of `notes`, or somewhere in `notesAsPlayed`. -/
def Arpeggiator.noteExists (a : Arpeggiator) (noteCode : Int) (notesKey : Nat) : Bool :=
  (match a.notes[notesKey]? with
    | some x => decide (x.noteCode = noteCode)
    | none => false)
  || (findAsPlayed a.notesAsPlayed noteCode).isSome

/-- The branch of `Arpeggiator::noteOn` for a note that does not exist yet: it is inserted in
`notes` and then in `notesAsPlayed`; when either insertion fails the method returns at once. -/
def Arpeggiator.insertNote (settings : Option ArpeggiatorSettings) (noteCode velocity : Int)
    (fromMIDIChannel : Int) (mpeValues : List Int) (env : NoteOnEnv) (notesKey : Nat)
    (a : Arpeggiator) (instruction : ArpReturnInstruction) :
    Option (Arpeggiator × ArpReturnInstruction) :=
  -- Insert in notes array
  match insertAtIndex a.notes notesKey env.notesSlot env.notesAllocationOk with
  | none => some (a, instruction)
  | some notes =>
    let filled := fillSlot env.notesSlot noteCode velocity mpeValues
    let a := { a with notes := notes.set notesKey filled }
    -- Insert it in notesAsPlayed array
    let notesAsPlayedIndex := a.notesAsPlayed.length
    match insertAtIndex a.notesAsPlayed notesAsPlayedIndex env.notesAsPlayedSlot
        env.notesAsPlayedAllocationOk with
    | none => some (a, instruction)
    | some notesAsPlayed =>
      let filledAsPlayed := fillSlot env.notesAsPlayedSlot noteCode velocity mpeValues
      let a := { a with notesAsPlayed := notesAsPlayed.set notesAsPlayedIndex filledAsPlayed }
      a.noteInserted settings noteCode fromMIDIChannel env notesKey (some notesKey)
        (some notesAsPlayedIndex) instruction

/-- The part of `Arpeggiator::noteOn` after its first statement: both collections are searched
and the note is updated in place or inserted. -/
def Arpeggiator.noteOnSearch (settings : Option ArpeggiatorSettings) (noteCode velocity : Int)
    (fromMIDIChannel : Int) (mpeValues : List Int) (env : NoteOnEnv) (a : Arpeggiator)
    (instruction : ArpReturnInstruction) : Option (Arpeggiator × ArpReturnInstruction) :=
  let notesKey := search a.notes noteCode
  let arpNote : Option Nat := if notesKey < a.notes.length then some notesKey else none
  let arpNoteAsPlayed : Option Nat := findAsPlayed a.notesAsPlayed noteCode
  if a.noteExists noteCode notesKey then
    -- If note exists already, do nothing if we are an arpeggiator, and if not, go to
    -- noteInserted to update midiChannel
    if isArpActive settings then
      some (a, instruction)
    else
      a.noteInserted settings noteCode fromMIDIChannel env notesKey arpNote arpNoteAsPlayed
        instruction
  else
    a.insertNote settings noteCode velocity fromMIDIChannel mpeValues env notesKey instruction

/-- The method `Arpeggiator::noteOn`. -/
def Arpeggiator.noteOn (settings : Option ArpeggiatorSettings) (noteCode velocity : Int)
    (fromMIDIChannel : Int) (mpeValues : List Int) (env : NoteOnEnv) (a : Arpeggiator)
    (instruction : ArpReturnInstruction) : Option (Arpeggiator × ArpReturnInstruction) :=
  Arpeggiator.noteOnSearch settings noteCode velocity fromMIDIChannel mpeValues env
    { a with lastVelocity := velocity } instruction

/-- The body of `Arpeggiator::noteOff` for an identity that was found at position `notesKey` of
the sorted collection, where `arpNote` is the note found there. -/
def Arpeggiator.releaseHeld (settings : Option ArpeggiatorSettings) (noteCodePreArp : Int)
    (clockActive : Bool) (notesKey : Nat) (arpNote : ArpNote) (a : Arpeggiator)
    (instruction : ArpReturnInstruction) : Arpeggiator × ArpReturnInstruction :=
  let instruction :=
    -- If no arpeggiation...
    if isArpActive settings = false then
      { instruction with
        noteCodeOffPostArp := noteCodePreArp
        outputMIDIChannelOff := arpNote.outputMemberChannel }
    -- Or if yes arpeggiation, we'll only stop right now if that was the last note
    else if a.notes.length = 1
        ∧ a.whichNoteCurrentlyOnPostArp = (notesKey : Int) ∧ a.gateCurrentlyActive then
      { instruction with
        noteCodeOffPostArp := a.noteCodeCurrentlyOnPostArp
        outputMIDIChannelOff := a.outputMIDIChannelForNoteCurrentlyOnPostArp }
    else instruction
  let notes := deleteAtIndex a.notes notesKey
  -- We must also search and delete from notesAsPlayed
  let notesAsPlayed :=
    match findAsPlayed a.notesAsPlayed noteCodePreArp with
    | some i => deleteAtIndex a.notesAsPlayed i
    | none => a.notesAsPlayed
  let which :=
    if a.whichNoteCurrentlyOnPostArp ≥ (notesKey : Int) then
      -- Beware - this could send it negative
      if a.whichNoteCurrentlyOnPostArp - 1 < 0 then 0 else a.whichNoteCurrentlyOnPostArp - 1
    else a.whichNoteCurrentlyOnPostArp
  let b :=
    if a.isRatcheting ∧ (a.ratchetNotesIndex ≥ a.ratchetNotesNumber ∨ clockActive = false) then
      resetRatchet a.toArpeggiatorBase
    else a.toArpeggiatorBase
  ({ toArpeggiatorBase := b, notes := notes, notesAsPlayed := notesAsPlayed,
     whichNoteCurrentlyOnPostArp := which }, instruction)

/-- The last statement of `Arpeggiator::noteOff`: the ratchet is reset when no note is held. -/
def Arpeggiator.resetRatchetIfEmpty (a : Arpeggiator) : Arpeggiator :=
  if a.notes.length = 0 then { a with toArpeggiatorBase := resetRatchet a.toArpeggiatorBase }
  else a

/-- The method `Arpeggiator::noteOff`; `clockActive` is what
`playbackHandler.isEitherClockActive()` returns. -/
def Arpeggiator.noteOff (settings : Option ArpeggiatorSettings) (noteCodePreArp : Int)
    (clockActive : Bool) (a : Arpeggiator) (instruction : ArpReturnInstruction) :
    Arpeggiator × ArpReturnInstruction :=
  let notesKey := search a.notes noteCodePreArp
  let r : Arpeggiator × ArpReturnInstruction :=
    match a.notes[notesKey]? with
    | none => (a, instruction)
    | some arpNote =>
      if arpNote.noteCode = noteCodePreArp then
        a.releaseHeld settings noteCodePreArp clockActive notesKey arpNote instruction
      else
        (a, instruction)
  (r.1.resetRatchetIfEmpty, r.2)

/-! ## The two timing paths (melodic engine) -/

/-- The assignments of `ArpeggiatorBase::render` that take over the automated parameters:
`maxSequenceLength`, `ratchetProbability` (the upper 16 bits of `ratchProb`) and `ratchetAmount`
(0 to 3, from the upper 16 bits of `ratchAmount`). -/
def updateAutomation (sequenceLength ratchAmount ratchProb : Nat) (b : ArpeggiatorBase) :
    ArpeggiatorBase :=
  let amount := (ratchAmount >>> 16) % 65536
  { b with
    -- Update Sequence Length
    maxSequenceLength := sequenceLength
    -- Update ratchetProbability with the most up to date value from automation
    ratchetProbability := ratchProb >>> 16
    -- Convert ratchAmount to either 0, 1, 2 or 3
    ratchetAmount :=
      if amount > 45874 then 3 else if amount > 26214 then 2 else if amount > 6553 then 1
      else 0 }

/-- The local `gateThresholdSmall` of `ArpeggiatorBase::render`: the threshold shifted right by
8, and by the ratchet multiplier while a ratchet is active. -/
def gateThresholdSmall (gateThreshold : Nat) (b : ArpeggiatorBase) : Nat :=
  if b.isRatcheting then (gateThreshold >>> 8) >>> b.ratchetNotesMultiplier
  else gateThreshold >>> 8

/-- The local `syncedNow` of `ArpeggiatorBase::render`. -/
def syncedNow (settings : ArpeggiatorSettings) (clockActive : Bool) : Bool :=
  decide (settings.syncLevel ≠ 0) && clockActive

/-- The gate part of `ArpeggiatorBase::render` on the melodic engine: once the accumulator has
reached the threshold any note is switched off, and a note is switched on when the engine is
not synced and the accumulator has reached 16777216. -/
def Arpeggiator.renderGate (settings : ArpeggiatorSettings) (gateThreshold : Nat)
    (clockActive : Bool) (rndNote rndOctave : Nat) (a : Arpeggiator)
    (instruction : ArpReturnInstruction) : Option (Arpeggiator × ArpReturnInstruction) :=
  -- If gatePos is far enough along that we at least want to switch off any note...
  if a.gatePos ≥ gateThresholdSmall gateThreshold a.toArpeggiatorBase then
    let r := switchAnyNoteOff clockActive a.toArpeggiatorBase instruction
    let a := { a with toArpeggiatorBase := r.1 }
    -- And maybe (if not syncing) the gatePos is also far enough along
    if syncedNow settings clockActive = false ∧ a.gatePos ≥ 16777216 then
      a.switchNoteOn settings rndNote rndOctave r.2
    else
      some (a, r.2)
  else
    some (a, instruction)

/-- The last two statements of `ArpeggiatorBase::render`: the accumulator is reduced to 24 bits
unless the engine is synced, and advanced by `(phaseIncrement >> 8) * numSamples` in 32-bit
unsigned arithmetic. -/
def advanceGatePos (settings : ArpeggiatorSettings) (numSamples phaseIncrement : Nat)
    (clockActive : Bool) (b : ArpeggiatorBase) : ArpeggiatorBase :=
  let gatePos := if syncedNow settings clockActive = false then b.gatePos &&& 16777215
    else b.gatePos
  { b with gatePos := (gatePos + (phaseIncrement >>> 8) * numSamples) % 2 ^ 32 }

/-- The method `ArpeggiatorBase::render` on the melodic engine. The arguments declared
`uint32_t` are natural numbers and `numSamples` is taken non-negative. -/
def Arpeggiator.render (settings : ArpeggiatorSettings) (numSamples : Nat)
    (gateThreshold phaseIncrement sequenceLength ratchAmount ratchProb : Nat)
    (clockActive : Bool) (rndNote rndOctave : Nat) (a : Arpeggiator)
    (instruction : ArpReturnInstruction) : Option (Arpeggiator × ArpReturnInstruction) :=
  if settings.mode = ArpMode.OFF ∨ a.hasAnyInputNotesActive = false then
    some (a, instruction)
  else
    let a := { a with toArpeggiatorBase :=
      updateAutomation sequenceLength ratchAmount ratchProb a.toArpeggiatorBase }
    (a.renderGate settings gateThreshold clockActive rndNote rndOctave instruction).map
      fun (r : Arpeggiator × ArpReturnInstruction) =>
        ({ r.1 with toArpeggiatorBase :=
            advanceGatePos settings numSamples phaseIncrement clockActive r.1.toArpeggiatorBase },
          r.2)

/-- The method `ArpeggiatorBase::setRatchetingAvailable`. -/
def setRatchetingAvailable (available : Bool) (b : ArpeggiatorBase) : ArpeggiatorBase :=
  { b with ratchetingIsAvailable := available }

/-- What `ArpeggiatorBase::doTickForward` leaves behind: the returned number of ticks, the
engine, the settings (the call clears the restart flag) and the instruction. -/
structure TickResult where
  ticks : Nat
  arp : Arpeggiator
  settings : ArpeggiatorSettings
  instruction : ArpReturnInstruction
  deriving DecidableEq, Repr

/-- The local `ticksPerPeriod` of `ArpeggiatorBase::doTickForward` before the ratchet shift:
`3 << (9 - syncLevel)`, times 2/3 for triplets and times 3/2 for dotted notes. A sync level
above 9 makes the shift count negative, which has no result. -/
def ticksPerPeriodOf (settings : ArpeggiatorSettings) : Option Nat :=
  if settings.syncLevel ≤ 9 then
    let ticksPerPeriod := 3 <<< (9 - settings.syncLevel)
    match settings.syncType with
    | SyncType.SYNC_TYPE_EVEN => some ticksPerPeriod
    | SyncType.SYNC_TYPE_TRIPLET => some (ticksPerPeriod * 2 / 3)
    | SyncType.SYNC_TYPE_DOTTED => some (ticksPerPeriod * 3 / 2)
  else none

/-- The block `if (ratchetingIsAvailable)` of `ArpeggiatorBase::doTickForward`, first half: a
new ratchet may be set up when ratcheting is available and none is active. -/
def setupRatchetForTick (settings : ArpeggiatorSettings) (rndChance rndMultiplier : Nat)
    (b : ArpeggiatorBase) : ArpeggiatorBase :=
  if b.ratchetingIsAvailable ∧ b.isRatcheting = false then
    -- If we are not ratcheting yet, check if we should and set it up
    maybeSetupNewRatchet settings rndChance rndMultiplier b
  else b

/-- The block `if (ratchetingIsAvailable)` of `ArpeggiatorBase::doTickForward`, second half: the
period is shifted right by the multiplier of an active ratchet. -/
def shiftForRatchet (ticksPerPeriod : Nat) (b : ArpeggiatorBase) : Nat :=
  if b.ratchetingIsAvailable ∧ b.isRatcheting then
    ticksPerPeriod >>> b.ratchetNotesMultiplier
  else ticksPerPeriod

/-- The branch `if (!howFarIntoPeriod)` of `ArpeggiatorBase::doTickForward` on the melodic
engine: at a period boundary with a note held, any note is switched off, the next one is
switched on, the instruction takes the period and the accumulator restarts. -/
def Arpeggiator.tickBoundary (settings : ArpeggiatorSettings) (ticksPerPeriod : Nat)
    (clockActive : Bool) (rndNote rndOctave : Nat) (a : Arpeggiator)
    (instruction : ArpReturnInstruction) : Option (Arpeggiator × ArpReturnInstruction) :=
  if a.hasAnyInputNotesActive then
    let r := switchAnyNoteOff clockActive a.toArpeggiatorBase instruction
    let a := { a with toArpeggiatorBase := r.1 }
    (a.switchNoteOn settings rndNote rndOctave r.2).map
      fun (r : Arpeggiator × ArpReturnInstruction) =>
        ({ r.1 with gatePos := 0 }, { r.2 with sampleSyncLengthOn := ticksPerPeriod })
  else
    some (a, instruction)

/-- The part of `ArpeggiatorBase::doTickForward` after the restart flag has been dealt with,
on the melodic engine. A period of zero ticks makes `clipCurrentPos % ticksPerPeriod` a modulo
by zero, which has no result. -/
def Arpeggiator.tickPeriod (settings : ArpeggiatorSettings) (clipCurrentPos : Nat)
    (currentlyPlayingReversed : Bool) (clockActive : Bool)
    (rndChance rndMultiplier rndNote rndOctave : Nat) (a : Arpeggiator)
    (instruction : ArpReturnInstruction) : Option TickResult :=
  (ticksPerPeriodOf settings).bind fun (ticksPerPeriod : Nat) =>
    let a := { a with toArpeggiatorBase :=
      setupRatchetForTick settings rndChance rndMultiplier a.toArpeggiatorBase }
    let ticksPerPeriod := shiftForRatchet ticksPerPeriod a.toArpeggiatorBase
    (modChecked clipCurrentPos ticksPerPeriod).bind fun (howFarIntoPeriod : Nat) =>
      if howFarIntoPeriod = 0 then
        (a.tickBoundary settings ticksPerPeriod clockActive rndNote rndOctave instruction).map
          fun (r : Arpeggiator × ArpReturnInstruction) =>
            { ticks := ticksPerPeriod, arp := r.1, settings := settings, instruction := r.2 }
      else if currentlyPlayingReversed = false then
        some { ticks := ticksPerPeriod - howFarIntoPeriod, arp := a, settings := settings,
               instruction := instruction }
      else
        some { ticks := howFarIntoPeriod, arp := a, settings := settings,
               instruction := instruction }

/-- The method `ArpeggiatorBase::doTickForward` on the melodic engine. -/
def Arpeggiator.doTickForward (settings : ArpeggiatorSettings) (clipCurrentPos : Nat)
    (currentlyPlayingReversed : Bool) (clockActive : Bool)
    (rndChance rndMultiplier rndNote rndOctave : Nat) (a : Arpeggiator)
    (instruction : ArpReturnInstruction) : Option TickResult :=
  -- Make sure we actually intended to sync
  if settings.mode = ArpMode.OFF ∨ settings.syncLevel = 0 then
    some { ticks := 2147483647, arp := a, settings := settings, instruction := instruction }
  else if settings.flagForceArpRestart then
    -- If flagged to restart sequence, do it now and reset the flag
    Arpeggiator.tickPeriod { settings with flagForceArpRestart := false } clipCurrentPos
      currentlyPlayingReversed clockActive rndChance rndMultiplier rndNote rndOctave
      { a with playedFirstArpeggiatedNoteYet := false } instruction
  else
    a.tickPeriod settings clipCurrentPos currentlyPlayingReversed clockActive rndChance
      rndMultiplier rndNote rndOctave instruction

/-! ## Sequences of calls -/

/-- Modelled from the spec: the engine before any call, "no notes held", sounding index 0, both
step directions +1, no gate open, no note sounded yet, ratchet state clear. The constructors
that establish it are in `modulation/arpeggiator.h`, which is not among the sources; the fields
the spec is silent about (ratcheting available, the automation values, the last velocity) are
set to plain values. -/
def Arpeggiator.initial : Arpeggiator :=
  { ratchetingIsAvailable := true
    gateCurrentlyActive := false
    gatePos := 0
    currentOctave := 0
    currentDirection := 1
    currentOctaveDirection := 1
    playedFirstArpeggiatedNoteYet := false
    lastVelocity := 0
    noteCodeCurrentlyOnPostArp := 0
    outputMIDIChannelForNoteCurrentlyOnPostArp := 0
    notesPlayedFromSequence := 0
    randomNotesPlayedFromOctave := 0
    ratchetNotesIndex := 0
    ratchetNotesMultiplier := 0
    ratchetNotesNumber := 0
    isRatcheting := false
    ratchetProbability := 0
    maxSequenceLength := 0
    ratchetAmount := 0
    notes := []
    notesAsPlayed := []
    whichNoteCurrentlyOnPostArp := 0 }

/-- One call of a public entry point of the melodic engine, with its arguments and with what
the call takes from its environment. -/
inductive Event where
  | noteOn (settings : Option ArpeggiatorSettings) (noteCode velocity fromMIDIChannel : Int)
      (mpeValues : List Int) (env : NoteOnEnv)
  | noteOff (settings : Option ArpeggiatorSettings) (noteCodePreArp : Int) (clockActive : Bool)
  | render (settings : ArpeggiatorSettings) (numSamples gateThreshold phaseIncrement
      sequenceLength ratchAmount ratchProb : Nat) (clockActive : Bool) (rndNote rndOctave : Nat)
  | doTickForward (settings : ArpeggiatorSettings) (clipCurrentPos : Nat)
      (currentlyPlayingReversed clockActive : Bool)
      (rndChance rndMultiplier rndNote rndOctave : Nat)
  | setRatchetingAvailable (available : Bool)
  deriving DecidableEq, Repr

/-- One call on the engine `a` with the instruction `instruction`: the engine and the
instruction after the call. -/
def Arpeggiator.call (a : Arpeggiator) (instruction : ArpReturnInstruction) :
    Event → Option (Arpeggiator × ArpReturnInstruction)
  | Event.noteOn settings noteCode velocity fromMIDIChannel mpeValues env =>
    a.noteOn settings noteCode velocity fromMIDIChannel mpeValues env instruction
  | Event.noteOff settings noteCodePreArp clockActive =>
    some (a.noteOff settings noteCodePreArp clockActive instruction)
  | Event.render settings numSamples gateThreshold phaseIncrement sequenceLength ratchAmount
      ratchProb clockActive rndNote rndOctave =>
    a.render settings numSamples gateThreshold phaseIncrement sequenceLength ratchAmount
      ratchProb clockActive rndNote rndOctave instruction
  | Event.doTickForward settings clipCurrentPos currentlyPlayingReversed clockActive rndChance
      rndMultiplier rndNote rndOctave =>
    (a.doTickForward settings clipCurrentPos currentlyPlayingReversed clockActive rndChance
      rndMultiplier rndNote rndOctave instruction).map fun (r : TickResult) => (r.arp, r.instruction)
  | Event.setRatchetingAvailable available =>
    some ({ a with toArpeggiatorBase := setRatchetingAvailable available a.toArpeggiatorBase },
      instruction)

/-- A sequence of calls, each with a fresh instruction: the engine after the last call, and no
result as soon as one call has none. -/
def Arpeggiator.run (a : Arpeggiator) : List Event → Option Arpeggiator
  | [] => some a
  | e :: es =>
    match a.call ArpReturnInstruction.fresh e with
    | none => none
    | some r => Arpeggiator.run r.1 es

/-- The engine after `k` successive calls of `Arpeggiator::switchNoteOn` under fixed settings,
each call with a fresh instruction; call number `j` (counted from 0) draws `rndNote j` and
`rndOctave j`. -/
def Arpeggiator.switchNoteOnTimes (settings : ArpeggiatorSettings) (rndNote rndOctave : Nat → Nat)
    (a : Arpeggiator) : Nat → Option Arpeggiator
  | 0 => some a
  | k + 1 =>
    match Arpeggiator.switchNoteOnTimes settings rndNote rndOctave a k with
    | none => none
    | some a' =>
      (a'.switchNoteOn settings (rndNote k) (rndOctave k) ArpReturnInstruction.fresh).map
        fun r => r.1

/-- The `i`-th call (`i = 0, 1, 2, ...`) of `Arpeggiator::switchNoteOn` in such a succession: the
engine and the instruction it leaves. -/
def Arpeggiator.nthSwitchNoteOn (settings : ArpeggiatorSettings) (rndNote rndOctave : Nat → Nat)
    (a : Arpeggiator) (i : Nat) : Option (Arpeggiator × ArpReturnInstruction) :=
  match a.switchNoteOnTimes settings rndNote rndOctave i with
  | none => none
  | some a' => a'.switchNoteOn settings (rndNote i) (rndOctave i) ArpReturnInstruction.fresh

/-- The state of the UP/UP traversal over the notes `ns` with `K` octaves before call `i`. -/
def UpUpState (ns : List ArpNote) (K : Nat) (i : Nat) (a : Arpeggiator) : Prop :=
  a.notes = ns ∧ a.maxSequenceLength = 0 ∧ a.ratchetNotesIndex = 0 ∧ a.isRatcheting = false
  ∧ (i = 0 → a.playedFirstArpeggiatedNoteYet = false)
  ∧ (0 < i → a.playedFirstArpeggiatedNoteYet = true
      ∧ a.whichNoteCurrentlyOnPostArp = (((i - 1) % ns.length : Nat) : Int)
      ∧ a.currentOctave = ((((i - 1) / ns.length) % K : Nat) : Int)
      ∧ a.currentDirection = 1)

/-- A held note with identity `noteCode`, velocity 100, input channel 0, no expression values
and no output channel assigned. -/
def heldNote (noteCode : Int) : ArpNote :=
  { noteCode := noteCode, channel := 0, mpeValues := [], velocity := 100,
    outputMemberChannel := MIDI_CHANNEL_NONE }

/-- The initial engine with the sorted collection holding the identities `codes` and the
insertion-order collection holding the identities `asPlayed`. -/
def heldEngine (codes : List Int) (asPlayed : List Int) : Arpeggiator :=
  { Arpeggiator.initial with
    notes := codes.map heldNote
    notesAsPlayed := asPlayed.map heldNote }

/-- Settings with the arpeggiator on and unsynced, for the given note mode, octave mode and
octave count. -/
def exampleSettings (noteMode : ArpNoteMode) (octaveMode : ArpOctaveMode) (numOctaves : Nat) :
    ArpeggiatorSettings :=
  { mode := ArpMode.ARP, noteMode := noteMode, octaveMode := octaveMode,
    numOctaves := numOctaves, syncLevel := 0, syncType := SyncType.SYNC_TYPE_EVEN,
    flagForceArpRestart := false }

/-- The engine and the instruction that `finishSwitchNoteOn` leaves when no ratchet is active
and the note `x` is read. -/
def finished (a : Arpeggiator) (instruction : ArpReturnInstruction) (x : ArpNote) :
    Arpeggiator × ArpReturnInstruction :=
  ({ a with
      playedFirstArpeggiatedNoteYet := true
      randomNotesPlayedFromOctave := a.randomNotesPlayedFromOctave + 1
      noteCodeCurrentlyOnPostArp := x.noteCode + a.currentOctave * 12 },
    { instruction with
      noteCodeOnPostArp := x.noteCode + a.currentOctave * 12
      arpNoteOn := some x })

/-- The state of the single-note ALTERNATE traversal with `K` octaves before call `i`: after
`i > 0` calls, with `t = (i - 1) mod 2(K-1)`, the octave is `t` on the way up and `2(K-1) - t`
on the way down, and the octave direction tells the two apart. -/
def AlternateState (K : Nat) (i : Nat) (a : Arpeggiator) : Prop :=
  a.notes.length = 1 ∧ a.maxSequenceLength = 0 ∧ a.ratchetNotesIndex = 0
  ∧ a.isRatcheting = false
  ∧ (i = 0 → a.playedFirstArpeggiatedNoteYet = false)
  ∧ (0 < i → a.playedFirstArpeggiatedNoteYet = true
      ∧ a.whichNoteCurrentlyOnPostArp = 0
      ∧ (((i - 1) % (2 * (K - 1)) ≤ K - 1
            ∧ a.currentOctave = (((i - 1) % (2 * (K - 1)) : Nat) : Int))
          ∨ (K - 1 < (i - 1) % (2 * (K - 1))
            ∧ a.currentOctave = ((2 * (K - 1) - (i - 1) % (2 * (K - 1)) : Nat) : Int)))
      ∧ ((i - 1) % (2 * (K - 1)) = 0
          → a.currentOctaveDirection = 1 ∨ a.currentOctaveDirection = -1)
      ∧ (0 < (i - 1) % (2 * (K - 1)) → (i - 1) % (2 * (K - 1)) ≤ K - 1
          → a.currentOctaveDirection = 1)
      ∧ (K - 1 < (i - 1) % (2 * (K - 1)) → a.currentOctaveDirection = -1))

/-- The note identities of a collection, in its order. -/
def codes (xs : List ArpNote) : List Int :=
  xs.map fun x => x.noteCode

/-- The fields that the selection of a step may change are replaced by those of `a'`. -/
def withTraversalOf (a a' : Arpeggiator) : Arpeggiator :=
  { a with
    whichNoteCurrentlyOnPostArp := a'.whichNoteCurrentlyOnPostArp
    currentOctave := a'.currentOctave
    currentDirection := a'.currentDirection
    currentOctaveDirection := a'.currentOctaveDirection
    playedFirstArpeggiatedNoteYet := a'.playedFirstArpeggiatedNoteYet
    notesPlayedFromSequence := a'.notesPlayedFromSequence
    randomNotesPlayedFromOctave := a'.randomNotesPlayedFromOctave }

/-- The sounding index is inside the sorted collection (it is 0 while no note is held) and the
note direction is one step up or down. -/
def IndexOk (a : Arpeggiator) : Prop :=
  0 ≤ a.whichNoteCurrentlyOnPostArp
    ∧ a.whichNoteCurrentlyOnPostArp < max (a.notes.length : Int) 1
    ∧ (a.currentDirection = 1 ∨ a.currentDirection = -1)

/-- The call is a note-on or a note-off. -/
def Event.isNoteCall : Event → Bool
  | Event.noteOn _ _ _ _ _ _ => true
  | Event.noteOff _ _ _ => true
  | _ => false

/-- Every collection insertion of the call succeeds (only a note-on inserts). -/
def Event.allocationsSucceed : Event → Bool
  | Event.noteOn _ _ _ _ _ env => env.notesAllocationOk && env.notesAsPlayedAllocationOk
  | _ => true

/-- The settings passed to the call, if any, have an octave count of at least 1. -/
def Event.octavesPositive : Event → Bool
  | Event.noteOn (some s) _ _ _ _ _ => decide (1 ≤ s.numOctaves)
  | Event.noteOff (some s) _ _ => decide (1 ≤ s.numOctaves)
  | Event.render s _ _ _ _ _ _ _ _ _ => decide (1 ≤ s.numOctaves)
  | Event.doTickForward s _ _ _ _ _ _ _ => decide (1 ≤ s.numOctaves)
  | _ => true

/-- An environment for example note-ons: no clock, draws 0, both insertions succeed. -/
def exampleEnv : NoteOnEnv :=
  { clockActive := false, rndNote := 0, rndOctave := 0, notesAllocationOk := true,
    notesAsPlayedAllocationOk := true, notesSlot := heldNote 0, notesAsPlayedSlot := heldNote 0 }

/-- An example note-on with velocity 100 on channel 0. -/
def exampleNoteOn (settings : Option ArpeggiatorSettings) (noteCode : Int) : Event :=
  Event.noteOn settings noteCode 100 0 [0, 0, 0] exampleEnv

/-- Example calls: 64, 60 and 67 are pressed with the arpeggiator on, 64 is released, 60 is
pressed again and a note that is not held is released. -/
def exampleCalls : List Event :=
  [exampleNoteOn (some (exampleSettings ArpNoteMode.UP ArpOctaveMode.UP 2)) 64,
   exampleNoteOn (some (exampleSettings ArpNoteMode.UP ArpOctaveMode.UP 2)) 60,
   exampleNoteOn (some (exampleSettings ArpNoteMode.UP ArpOctaveMode.UP 2)) 67,
   Event.noteOff (some (exampleSettings ArpNoteMode.UP ArpOctaveMode.UP 2)) 64 false,
   exampleNoteOn (some (exampleSettings ArpNoteMode.UP ArpOctaveMode.UP 2)) 60,
   Event.noteOff none 61 false]

/-- The engine after the example calls. -/
def exampleAfterCalls : Arpeggiator :=
  (Arpeggiator.initial.run exampleCalls).getD Arpeggiator.initial

/-- Example calls after which the two collections differ in length: 60 is pressed, then 64 is
pressed while the insertion into the insertion-order collection fails. -/
def failedInsertionCalls : List Event :=
  [exampleNoteOn (some (exampleSettings ArpNoteMode.AS_PLAYED ArpOctaveMode.UP 2)) 60,
   Event.noteOn (some (exampleSettings ArpNoteMode.AS_PLAYED ArpOctaveMode.UP 2)) 64 100 0
     [0, 0, 0] { exampleEnv with notesAsPlayedAllocationOk := false }]

/-- A tick at a period boundary (position 0, sync level 5) with note mode AS_PLAYED. -/
def boundaryTick : Event :=
  Event.doTickForward
    { exampleSettings ArpNoteMode.AS_PLAYED ArpOctaveMode.UP 2 with syncLevel := 5 }
    0 false true 0 0 0 0

/-- Example calls that leave a ratchet set up while no note is held: ratcheting is made
available, 60 is pressed with the clock running (sync level 5), a render call takes over the
ratchet automation (probability and amount at their maximum), 60 is released, and a tick inside
a period sets up a ratchet. -/
def ratchetWithoutNotesCalls : List Event :=
  [Event.setRatchetingAvailable true,
   Event.noteOn (some { exampleSettings ArpNoteMode.UP ArpOctaveMode.UP 2 with syncLevel := 5 })
     60 100 0 [0, 0, 0] { exampleEnv with clockActive := true },
   Event.render { exampleSettings ArpNoteMode.UP ArpOctaveMode.UP 2 with syncLevel := 5 }
     1 4294967295 0 0 4294967295 4294967295 true 0 0,
   Event.noteOff (some { exampleSettings ArpNoteMode.UP ArpOctaveMode.UP 2 with syncLevel := 5 })
     60 true,
   Event.doTickForward { exampleSettings ArpNoteMode.UP ArpOctaveMode.UP 2 with syncLevel := 5 }
     1 false true 0 1 0 0]

/-- The example engine `heldEngine` with the sounding index at `which`. -/
def heldEngineAt (codes asPlayed : List Int) (which : Int) : Arpeggiator :=
  { heldEngine codes asPlayed with whichNoteCurrentlyOnPostArp := which }

/-- An engine that holds the single note 60 in the middle of a ratchet: subdivision 1 of 4
(multiplier 2) has been played and the gate is open. -/
def midRatchetEngine : Arpeggiator :=
  { heldEngine [60] [60] with
    gateCurrentlyActive := true
    playedFirstArpeggiatedNoteYet := true
    noteCodeCurrentlyOnPostArp := 60
    isRatcheting := true
    ratchetNotesIndex := 1
    ratchetNotesMultiplier := 2
    ratchetNotesNumber := 4 }

/-- The traversal from the engine `a0` after `k` steps without ratchet: the held notes and the
sequence-length ceiling are those of `a0`, no ratchet is active, and once a step has been made
the sequence has started and the sounding index and note direction are valid. -/
def Traversing (a0 : Arpeggiator) (k : Nat) (a : Arpeggiator) : Prop :=
  a.notes = a0.notes ∧ a.notesAsPlayed = a0.notesAsPlayed
  ∧ a.maxSequenceLength = a0.maxSequenceLength
  ∧ a.ratchetNotesIndex = 0 ∧ a.isRatcheting = false
  ∧ (k = 0 → a.playedFirstArpeggiatedNoteYet = false)
  ∧ (0 < k → a.playedFirstArpeggiatedNoteYet = true ∧ IndexOk a)

/-- The note part of the UP_DOWN traversal over `n` notes before call `i`: after `i > 0` calls,
with `j = (i - 1) mod 2n`, the sounding index is `j` on the way up (`j < n`) and `2n - 1 - j` on
the way down, and the note direction tells the two apart. -/
def UpDownState (n : Nat) (i : Nat) (a : Arpeggiator) : Prop :=
  0 < i →
    a.whichNoteCurrentlyOnPostArp
        = (if (i - 1) % (2 * n) < n then (((i - 1) % (2 * n) : Nat) : Int)
           else ((2 * n - 1 - (i - 1) % (2 * n) : Nat) : Int))
      ∧ a.currentDirection = (if (i - 1) % (2 * n) < n then 1 else -1)

/-- The fields that a step advance without ratchet may change are replaced by those of `a'`. -/
def withStepOf (a a' : Arpeggiator) : Arpeggiator :=
  { a with
    gateCurrentlyActive := a'.gateCurrentlyActive
    noteCodeCurrentlyOnPostArp := a'.noteCodeCurrentlyOnPostArp
    whichNoteCurrentlyOnPostArp := a'.whichNoteCurrentlyOnPostArp
    currentOctave := a'.currentOctave
    currentDirection := a'.currentDirection
    currentOctaveDirection := a'.currentOctaveDirection
    playedFirstArpeggiatedNoteYet := a'.playedFirstArpeggiatedNoteYet
    notesPlayedFromSequence := a'.notesPlayedFromSequence
    randomNotesPlayedFromOctave := a'.randomNotesPlayedFromOctave }

/-- The engine that a step advance leaves when it starts a fresh sequence in non-RANDOM modes
and reads the note `x`: index, directions and octave are the initial values of the branch
`if (!playedFirstArpeggiatedNoteYet)`, one step has been counted and the gate is open. -/
def restarted (settings : ArpeggiatorSettings) (a : Arpeggiator) (x : ArpNote) : Arpeggiator :=
  { a with
    gateCurrentlyActive := true
    playedFirstArpeggiatedNoteYet := true
    notesPlayedFromSequence := 1
    randomNotesPlayedFromOctave := 1
    whichNoteCurrentlyOnPostArp :=
      if settings.noteMode = ArpNoteMode.DOWN then (a.notes.length : Int) - 1 else 0
    currentDirection := if settings.noteMode = ArpNoteMode.DOWN then -1 else 1
    currentOctave :=
      if settings.octaveMode = ArpOctaveMode.DOWN
          ∨ (settings.octaveMode = ArpOctaveMode.ALTERNATE
            ∧ settings.noteMode = ArpNoteMode.DOWN) then toInt8 ((settings.numOctaves : Int) - 1)
      else 0
    currentOctaveDirection :=
      if settings.octaveMode = ArpOctaveMode.DOWN
          ∨ (settings.octaveMode = ArpOctaveMode.ALTERNATE
            ∧ settings.noteMode = ArpNoteMode.DOWN) then -1
      else 1
    noteCodeCurrentlyOnPostArp :=
      x.noteCode
        + (if settings.octaveMode = ArpOctaveMode.DOWN
              ∨ (settings.octaveMode = ArpOctaveMode.ALTERNATE
                ∧ settings.noteMode = ArpNoteMode.DOWN) then
                  toInt8 ((settings.numOctaves : Int) - 1)
           else 0) * 12 }

/-- An engine that holds 60, 64 and 67 with a sequence-length ceiling of 4 steps. -/
def ceilingEngine : Arpeggiator :=
  { heldEngine [60, 64, 67] [60, 64, 67] with maxSequenceLength := 4 }

/-- An engine that holds the single note 60 with the ratchet automation at its maximum
(probability 65535, amount 3), as a render call leaves it. -/
def ratchetReadyEngine : Arpeggiator :=
  { heldEngine [60] [60] with ratchetProbability := 65535, ratchetAmount := 3 }

/-- An engine that holds 60, 64 and 67, sounds 60 with the gate open, and whose phase
accumulator has passed the full period. -/
def soundingEngine : Arpeggiator :=
  { heldEngine [60, 64, 67] [60, 64, 67] with
    gateCurrentlyActive := true
    playedFirstArpeggiatedNoteYet := true
    noteCodeCurrentlyOnPostArp := 60
    gatePos := 16777216 }

/-- An engine that holds 60, 64 and 67 in the middle of a ratchet on its third note: the
sounding index is 2, the pitch 67 sounds with the gate open, and subdivision 1 of 2 (multiplier
1) has been played. -/
def midRatchetTraversal : Arpeggiator :=
  { heldEngine [60, 64, 67] [60, 64, 67] with
    whichNoteCurrentlyOnPostArp := 2
    gateCurrentlyActive := true
    playedFirstArpeggiatedNoteYet := true
    noteCodeCurrentlyOnPostArp := 67
    notesPlayedFromSequence := 3
    randomNotesPlayedFromOctave := 3
    isRatcheting := true
    ratchetNotesIndex := 1
    ratchetNotesMultiplier := 1
    ratchetNotesNumber := 2 }

/-! ## The drum engine -/

/-- Modelled from the spec: the pitch of the single percussion slot ("note selection is fixed
to the single held slot"); the constant `kNoteForDrum` is declared in `definitions_cxx.hpp`,
which is not among the sources, and is taken to be 60. -/
def kNoteForDrum : Int := 60

/-- The drum engine `ArpeggiatorForDrum`: the base members and its single note `arpNote`. -/
structure ArpeggiatorForDrum extends ArpeggiatorBase where
  arpNote : ArpNote
  deriving DecidableEq, Repr

/-- The method `ArpeggiatorForDrum::hasAnyInputNotesActive`. -/
def ArpeggiatorForDrum.hasAnyInputNotesActive (d : ArpeggiatorForDrum) : Bool :=
  decide (d.arpNote.velocity ≠ 0)

/-- The octave selection of `ArpeggiatorForDrum::switchNoteOn`: the part between
`gateCurrentlyActive = true` and `playedFirstArpeggiatedNoteYet = true`. -/
def ArpeggiatorForDrum.selectOctave (settings : ArpeggiatorSettings) (rnd : Nat)
    (d : ArpeggiatorForDrum) : Option ArpeggiatorForDrum :=
  -- If RANDOM, we do the same thing whether playedFirstArpeggiatedNoteYet or not
  if settings.octaveMode = ArpOctaveMode.RANDOM then
    (modChecked rnd settings.numOctaves).map fun (r : Nat) =>
      { d with currentOctave := toInt8 (r : Int), currentOctaveDirection := 1 }
  -- Or not RANDOM
  else
    let d :=
      if d.maxSequenceLength > 0 ∧ d.notesPlayedFromSequence ≥ d.maxSequenceLength then
        { d with playedFirstArpeggiatedNoteYet := false }
      else d
    -- If which-note not actually set up yet...
    if d.playedFirstArpeggiatedNoteYet = false then
      -- Set the initial octave
      if settings.octaveMode = ArpOctaveMode.DOWN then
        some { d with
          notesPlayedFromSequence := 0
          currentOctave := toInt8 ((settings.numOctaves : Int) - 1)
          currentOctaveDirection := -1 }
      else
        some { d with
          notesPlayedFromSequence := 0
          currentOctave := 0
          currentOctaveDirection := 1 }
    -- Otherwise, just carry on the sequence of arpeggiated notes
    else
      (carryOnSequenceForSingleNoteArpeggio settings rnd d.toArpeggiatorBase).map
        fun b => { d with toArpeggiatorBase := b }

/-- The method `ArpeggiatorForDrum::switchNoteOn`; `rnd` is the value that `getRandom255()`
returns if it is called. -/
def ArpeggiatorForDrum.switchNoteOn (settings : ArpeggiatorSettings) (rnd : Nat)
    (d : ArpeggiatorForDrum) (instruction : ArpReturnInstruction) :
    Option (ArpeggiatorForDrum × ArpReturnInstruction) :=
  (ArpeggiatorForDrum.selectOctave settings rnd { d with gateCurrentlyActive := true }).map
    fun (d : ArpeggiatorForDrum) =>
      ({ d with
          playedFirstArpeggiatedNoteYet := true
          notesPlayedFromSequence := d.notesPlayedFromSequence + 1
          noteCodeCurrentlyOnPostArp := kNoteForDrum + d.currentOctave * 12 },
        { instruction with
          noteCodeOnPostArp := kNoteForDrum + d.currentOctave * 12
          arpNoteOn := some d.arpNote })

/-- The part of `ArpeggiatorForDrum::noteOn` after the note has been written into `arpNote`;
`wasActiveBefore` is the local of that name. -/
def ArpeggiatorForDrum.afterNoteWritten (settings : Option ArpeggiatorSettings)
    (noteCode : Int) (clockActive : Bool) (rnd : Nat) (wasActiveBefore : Bool)
    (d : ArpeggiatorForDrum) (instruction : ArpReturnInstruction) :
    Option (ArpeggiatorForDrum × ArpReturnInstruction) :=
  -- Or otherwise, just switch the note on.
  let immediate : ArpeggiatorForDrum × ArpReturnInstruction :=
    (d, { instruction with noteCodeOnPostArp := noteCode, arpNoteOn := some d.arpNote })
  match settings with
  | none => some immediate
  | some s =>
    -- If we're an actual arpeggiator...
    if s.mode ≠ ArpMode.OFF then
      -- If this was the first note-on and we want to sound a note right now...
      if wasActiveBefore = false then
        let d := { d with playedFirstArpeggiatedNoteYet := false, gateCurrentlyActive := false }
        if clockActive = false ∨ s.syncLevel = 0 then
          ArpeggiatorForDrum.switchNoteOn s rnd { d with gatePos := 0 } instruction
        else
          some (d, instruction)
      else
        some (d, instruction)
    else
      some immediate

/-- The method `ArpeggiatorForDrum::noteOn`; `clockActive` is what
`playbackHandler.isEitherClockActive()` returns and `rnd` what `getRandom255()` returns. -/
def ArpeggiatorForDrum.noteOn (settings : Option ArpeggiatorSettings) (noteCode velocity : Int)
    (fromMIDIChannel : Int) (mpeValues : List Int) (clockActive : Bool) (rnd : Nat)
    (d : ArpeggiatorForDrum) (instruction : ArpReturnInstruction) :
    Option (ArpeggiatorForDrum × ArpReturnInstruction) :=
  let wasActiveBefore : Bool := decide (d.arpNote.velocity ≠ 0)
  let written : ArpNote :=
    { noteCode := noteCode
      channel := fromMIDIChannel
      velocity := velocity -- Means note is on.
      outputMemberChannel := MIDI_CHANNEL_NONE
      mpeValues := mpeValues }
  ArpeggiatorForDrum.afterNoteWritten settings noteCode clockActive rnd wasActiveBefore
    { d with lastVelocity := velocity, arpNote := written } instruction

/-- The method `ArpeggiatorForDrum::noteOff`. -/
def ArpeggiatorForDrum.noteOff (settings : Option ArpeggiatorSettings)
    (d : ArpeggiatorForDrum) (instruction : ArpReturnInstruction) :
    ArpeggiatorForDrum × ArpReturnInstruction :=
  let instruction :=
    -- If no arpeggiation...
    if isArpActive settings = false then
      { instruction with
        noteCodeOffPostArp := kNoteForDrum
        outputMIDIChannelOff := d.arpNote.outputMemberChannel }
    -- Or if yes arpeggiation...
    else if d.gateCurrentlyActive then
      { instruction with
        noteCodeOffPostArp := d.noteCodeCurrentlyOnPostArp
        outputMIDIChannelOff := d.outputMIDIChannelForNoteCurrentlyOnPostArp }
    else instruction
  -- Means note is off
  ({ d with arpNote := { d.arpNote with velocity := 0 } }, instruction)

/-- The gate part of `ArpeggiatorBase::render` on the drum engine. -/
def ArpeggiatorForDrum.renderGate (settings : ArpeggiatorSettings) (gateThreshold : Nat)
    (clockActive : Bool) (rnd : Nat) (d : ArpeggiatorForDrum)
    (instruction : ArpReturnInstruction) :
    Option (ArpeggiatorForDrum × ArpReturnInstruction) :=
  -- If gatePos is far enough along that we at least want to switch off any note...
  if d.gatePos ≥ gateThresholdSmall gateThreshold d.toArpeggiatorBase then
    let r := switchAnyNoteOff clockActive d.toArpeggiatorBase instruction
    let d := { d with toArpeggiatorBase := r.1 }
    -- And maybe (if not syncing) the gatePos is also far enough along
    if syncedNow settings clockActive = false ∧ d.gatePos ≥ 16777216 then
      d.switchNoteOn settings rnd r.2
    else
      some (d, r.2)
  else
    some (d, instruction)

/-- The method `ArpeggiatorBase::render` on the drum engine. -/
def ArpeggiatorForDrum.render (settings : ArpeggiatorSettings) (numSamples : Nat)
    (gateThreshold phaseIncrement sequenceLength ratchAmount ratchProb : Nat)
    (clockActive : Bool) (rnd : Nat) (d : ArpeggiatorForDrum)
    (instruction : ArpReturnInstruction) :
    Option (ArpeggiatorForDrum × ArpReturnInstruction) :=
  if settings.mode = ArpMode.OFF ∨ d.hasAnyInputNotesActive = false then
    some (d, instruction)
  else
    let d := { d with toArpeggiatorBase :=
      updateAutomation sequenceLength ratchAmount ratchProb d.toArpeggiatorBase }
    (d.renderGate settings gateThreshold clockActive rnd instruction).map
      fun (r : ArpeggiatorForDrum × ArpReturnInstruction) =>
        ({ r.1 with toArpeggiatorBase :=
            advanceGatePos settings numSamples phaseIncrement clockActive r.1.toArpeggiatorBase },
          r.2)

/-- What `ArpeggiatorBase::doTickForward` leaves behind on the drum engine. -/
structure DrumTickResult where
  ticks : Nat
  arp : ArpeggiatorForDrum
  settings : ArpeggiatorSettings
  instruction : ArpReturnInstruction
  deriving DecidableEq, Repr

/-- The branch `if (!howFarIntoPeriod)` of `ArpeggiatorBase::doTickForward` on the drum
engine. -/
def ArpeggiatorForDrum.tickBoundary (settings : ArpeggiatorSettings) (ticksPerPeriod : Nat)
    (clockActive : Bool) (rnd : Nat) (d : ArpeggiatorForDrum)
    (instruction : ArpReturnInstruction) :
    Option (ArpeggiatorForDrum × ArpReturnInstruction) :=
  if d.hasAnyInputNotesActive then
    let r := switchAnyNoteOff clockActive d.toArpeggiatorBase instruction
    let d := { d with toArpeggiatorBase := r.1 }
    (d.switchNoteOn settings rnd r.2).map
      fun (r : ArpeggiatorForDrum × ArpReturnInstruction) =>
        ({ r.1 with gatePos := 0 }, { r.2 with sampleSyncLengthOn := ticksPerPeriod })
  else
    some (d, instruction)

/-- The part of `ArpeggiatorBase::doTickForward` after the restart flag has been dealt with,
on the drum engine. -/
def ArpeggiatorForDrum.tickPeriod (settings : ArpeggiatorSettings) (clipCurrentPos : Nat)
    (currentlyPlayingReversed : Bool) (clockActive : Bool)
    (rndChance rndMultiplier rnd : Nat) (d : ArpeggiatorForDrum)
    (instruction : ArpReturnInstruction) : Option DrumTickResult :=
  (ticksPerPeriodOf settings).bind fun (ticksPerPeriod : Nat) =>
    let d := { d with toArpeggiatorBase :=
      setupRatchetForTick settings rndChance rndMultiplier d.toArpeggiatorBase }
    let ticksPerPeriod := shiftForRatchet ticksPerPeriod d.toArpeggiatorBase
    (modChecked clipCurrentPos ticksPerPeriod).bind fun (howFarIntoPeriod : Nat) =>
      if howFarIntoPeriod = 0 then
        (d.tickBoundary settings ticksPerPeriod clockActive rnd instruction).map
          fun (r : ArpeggiatorForDrum × ArpReturnInstruction) =>
            { ticks := ticksPerPeriod, arp := r.1, settings := settings, instruction := r.2 }
      else if currentlyPlayingReversed = false then
        some { ticks := ticksPerPeriod - howFarIntoPeriod, arp := d, settings := settings,
               instruction := instruction }
      else
        some { ticks := howFarIntoPeriod, arp := d, settings := settings,
               instruction := instruction }

/-- The method `ArpeggiatorBase::doTickForward` on the drum engine. -/
def ArpeggiatorForDrum.doTickForward (settings : ArpeggiatorSettings) (clipCurrentPos : Nat)
    (currentlyPlayingReversed : Bool) (clockActive : Bool)
    (rndChance rndMultiplier rnd : Nat) (d : ArpeggiatorForDrum)
    (instruction : ArpReturnInstruction) : Option DrumTickResult :=
  -- Make sure we actually intended to sync
  if settings.mode = ArpMode.OFF ∨ settings.syncLevel = 0 then
    some { ticks := 2147483647, arp := d, settings := settings, instruction := instruction }
  else if settings.flagForceArpRestart then
    -- If flagged to restart sequence, do it now and reset the flag
    ArpeggiatorForDrum.tickPeriod { settings with flagForceArpRestart := false } clipCurrentPos
      currentlyPlayingReversed clockActive rndChance rndMultiplier rnd
      { d with playedFirstArpeggiatedNoteYet := false } instruction
  else
    d.tickPeriod settings clipCurrentPos currentlyPlayingReversed clockActive rndChance
      rndMultiplier rnd instruction

/-- The drum engine as the constructor `ArpeggiatorForDrum::ArpeggiatorForDrum` leaves it:
ratcheting is not available and the note is off. The other members are set by the base
constructor in `modulation/arpeggiator.h`, which is not among the sources; they are taken as in
`Arpeggiator.initial`. -/
def ArpeggiatorForDrum.initial : ArpeggiatorForDrum :=
  { toArpeggiatorBase :=
      { Arpeggiator.initial.toArpeggiatorBase with ratchetingIsAvailable := false }
    arpNote :=
      { noteCode := 0, channel := 0, mpeValues := [], velocity := 0,
        outputMemberChannel := MIDI_CHANNEL_NONE } }

/-- One call of a public entry point of the drum engine, with its arguments and with what the
call takes from its environment. -/
inductive DrumEvent where
  | noteOn (settings : Option ArpeggiatorSettings) (noteCode velocity fromMIDIChannel : Int)
      (mpeValues : List Int) (clockActive : Bool) (rnd : Nat)
  | noteOff (settings : Option ArpeggiatorSettings)
  | render (settings : ArpeggiatorSettings) (numSamples gateThreshold phaseIncrement
      sequenceLength ratchAmount ratchProb : Nat) (clockActive : Bool) (rnd : Nat)
  | doTickForward (settings : ArpeggiatorSettings) (clipCurrentPos : Nat)
      (currentlyPlayingReversed clockActive : Bool) (rndChance rndMultiplier rnd : Nat)
  | setRatchetingAvailable (available : Bool)
  deriving DecidableEq, Repr

/-- One call on the drum engine `d` with the instruction `instruction`: the engine and the
instruction after the call. -/
def ArpeggiatorForDrum.call (d : ArpeggiatorForDrum) (instruction : ArpReturnInstruction) :
    DrumEvent → Option (ArpeggiatorForDrum × ArpReturnInstruction)
  | DrumEvent.noteOn settings noteCode velocity fromMIDIChannel mpeValues clockActive rnd =>
    d.noteOn settings noteCode velocity fromMIDIChannel mpeValues clockActive rnd instruction
  | DrumEvent.noteOff settings => some (d.noteOff settings instruction)
  | DrumEvent.render settings numSamples gateThreshold phaseIncrement sequenceLength ratchAmount
      ratchProb clockActive rnd =>
    d.render settings numSamples gateThreshold phaseIncrement sequenceLength ratchAmount
      ratchProb clockActive rnd instruction
  | DrumEvent.doTickForward settings clipCurrentPos currentlyPlayingReversed clockActive
      rndChance rndMultiplier rnd =>
    (d.doTickForward settings clipCurrentPos currentlyPlayingReversed clockActive rndChance
      rndMultiplier rnd instruction).map fun (r : DrumTickResult) => (r.arp, r.instruction)
  | DrumEvent.setRatchetingAvailable available =>
    some ({ d with toArpeggiatorBase := setRatchetingAvailable available d.toArpeggiatorBase },
      instruction)

/-! ## Instructions of a sequence of calls -/

/-- The instructions that a sequence of calls on the melodic engine leaves, each call with a
fresh instruction; the sequence ends at the first call that has no result. -/
def Arpeggiator.trace (a : Arpeggiator) : List Event → List ArpReturnInstruction
  | [] => []
  | e :: es =>
    match a.call ArpReturnInstruction.fresh e with
    | none => []
    | some r => r.2 :: Arpeggiator.trace r.1 es

/-- The instructions that a sequence of calls on the drum engine leaves, each call with a
fresh instruction; the sequence ends at the first call that has no result. -/
def ArpeggiatorForDrum.trace (d : ArpeggiatorForDrum) :
    List DrumEvent → List ArpReturnInstruction
  | [] => []
  | e :: es =>
    match d.call ArpReturnInstruction.fresh e with
    | none => []
    | some r => r.2 :: ArpeggiatorForDrum.trace r.1 es

/-- One instruction against the gate discipline. `sounding` is the pitch of the emitted
note-on that no note-off has answered yet (`none` if there is none) and `channel` the output
channel recorded for it. A note-off in the instruction must answer that note-on with its pitch
and channel; a note-on in the instruction must find no note-on unanswered once that note-off
is taken into account. The result is the unanswered note-on after the instruction, or `none`
when the instruction breaks the discipline. -/
def gateStep (channel : Int) (sounding : Option Int) (ins : ArpReturnInstruction) :
    Option (Option Int) :=
  let afterOff : Option (Option Int) :=
    if ins.noteCodeOffPostArp ≠ ARP_NOTE_NONE then
      (if sounding = some ins.noteCodeOffPostArp ∧ ins.outputMIDIChannelOff = channel then
        some none
      else none)
    else some sounding
  afterOff.bind fun (s : Option Int) =>
    if ins.noteCodeOnPostArp ≠ ARP_NOTE_NONE then
      (if s = none then some (some ins.noteCodeOnPostArp) else none)
    else some s

/-- The gate discipline over the instructions of successive calls: no note-on while an earlier
note-on is unanswered unless the same instruction carries the note-off for it, and no note-off
without an unanswered note-on. -/
def gatesDisjoint (channel : Int) : Option Int → List ArpReturnInstruction → Bool
  | _, [] => true
  | sounding, ins :: rest =>
    match gateStep channel sounding ins with
    | none => false
    | some s => gatesDisjoint channel s rest

/-- The pitch `code` as an emitted note: `ARP_NOTE_NONE` is "no note". -/
def soundOf (code : Int) : Option Int :=
  if code ≠ ARP_NOTE_NONE then some code else none

/-- The note-on of the melodic engine that is not answered yet, as the engine records it: the
sounding pitch while the gate is open and a note is held. -/
def Arpeggiator.sounding (a : Arpeggiator) : Option Int :=
  if a.gateCurrentlyActive = true ∧ a.notes.length ≠ 0 then
    soundOf a.noteCodeCurrentlyOnPostArp
  else none

/-- The note-on of the drum engine that is not answered yet, as the engine records it: the
sounding pitch while the gate is open and the note is held. -/
def ArpeggiatorForDrum.sounding (d : ArpeggiatorForDrum) : Option Int :=
  if d.gateCurrentlyActive = true ∧ d.arpNote.velocity ≠ 0 then
    soundOf d.noteCodeCurrentlyOnPostArp
  else none

/-- The arpeggiator is active in the call: settings are present and the mode is not OFF. -/
def Event.arpActive : Event → Bool
  | Event.noteOn settings _ _ _ _ _ => isArpActive settings
  | Event.noteOff settings _ _ => isArpActive settings
  | Event.render settings _ _ _ _ _ _ _ _ _ => decide (settings.mode ≠ ArpMode.OFF)
  | Event.doTickForward settings _ _ _ _ _ _ _ => decide (settings.mode ≠ ArpMode.OFF)
  | Event.setRatchetingAvailable _ => true

/-- The arpeggiator is active in the call on the drum engine. -/
def DrumEvent.arpActive : DrumEvent → Bool
  | DrumEvent.noteOn settings _ _ _ _ _ _ => isArpActive settings
  | DrumEvent.noteOff settings => isArpActive settings
  | DrumEvent.render settings _ _ _ _ _ _ _ _ => decide (settings.mode ≠ ArpMode.OFF)
  | DrumEvent.doTickForward settings _ _ _ _ _ _ => decide (settings.mode ≠ ArpMode.OFF)
  | DrumEvent.setRatchetingAvailable _ => true

/-- The call fits the state of the drum note: a note-on has a nonzero velocity and a note-off
is made while the note is held. -/
def DrumEvent.wellTimed (d : ArpeggiatorForDrum) : DrumEvent → Bool
  | DrumEvent.noteOn _ _ velocity _ _ _ _ => decide (velocity ≠ 0)
  | DrumEvent.noteOff _ => d.hasAnyInputNotesActive
  | _ => true

/-- Every call of the sequence fits the state of the drum note at the time it is made. -/
def ArpeggiatorForDrum.wellTimed (d : ArpeggiatorForDrum) : List DrumEvent → Bool
  | [] => true
  | e :: es =>
    e.wellTimed d &&
      (match d.call ArpReturnInstruction.fresh e with
        | none => true
        | some r => ArpeggiatorForDrum.wellTimed r.1 es)

/-- Example settings for a synced drum arpeggiator. -/
def drumSettings : ArpeggiatorSettings :=
  exampleSettings ArpNoteMode.UP ArpOctaveMode.UP 2

/-- Example calls on the drum engine: the drum is struck with no clock running, released, and
released once more. -/
def doubleReleaseCalls : List DrumEvent :=
  [DrumEvent.noteOn (some drumSettings) 60 100 0 [0, 0, 0] false 0,
   DrumEvent.noteOff (some drumSettings),
   DrumEvent.noteOff (some drumSettings)]

/-- Example calls on the melodic engine, unsynced: 60 is pressed (it sounds at once), a render
call closes the gate and moves the accumulator past one period, 64 is pressed, a render call
sounds the next note, and both notes are released. -/
def gateCalls : List Event :=
  [exampleNoteOn (some (exampleSettings ArpNoteMode.UP ArpOctaveMode.UP 2)) 60,
   Event.render (exampleSettings ArpNoteMode.UP ArpOctaveMode.UP 2) 2 0 4294967295 0 0 0 false
     0 0,
   exampleNoteOn (some (exampleSettings ArpNoteMode.UP ArpOctaveMode.UP 2)) 64,
   Event.render (exampleSettings ArpNoteMode.UP ArpOctaveMode.UP 2) 2 4294967295 0 0 0 0 false
     0 0,
   Event.noteOff (some (exampleSettings ArpNoteMode.UP ArpOctaveMode.UP 2)) 64 false,
   Event.noteOff (some (exampleSettings ArpNoteMode.UP ArpOctaveMode.UP 2)) 60 false]

/-- Example calls on the drum engine, unsynced: the drum is struck (it sounds at once), a render
call closes the gate and moves the accumulator past one period, a render call sounds the next
octave, and the drum is released. -/
def drumGateCalls : List DrumEvent :=
  [DrumEvent.noteOn (some drumSettings) 60 100 0 [0, 0, 0] false 0,
   DrumEvent.render drumSettings 2 0 4294967295 0 0 0 false 0,
   DrumEvent.render drumSettings 2 4294967295 0 0 0 0 false 0,
   DrumEvent.noteOff (some drumSettings)]

/-- Example calls on the melodic engine with a failing insertion: 60 is pressed and released,
64 is pressed while the insertion into the insertion-order collection fails, and a render call
follows. -/
def lostReleaseCalls : List Event :=
  [exampleNoteOn (some (exampleSettings ArpNoteMode.UP ArpOctaveMode.UP 2)) 60,
   Event.noteOff (some (exampleSettings ArpNoteMode.UP ArpOctaveMode.UP 2)) 60 false,
   Event.noteOn (some (exampleSettings ArpNoteMode.UP ArpOctaveMode.UP 2)) 64 100 0 [0, 0, 0]
     { exampleEnv with notesAsPlayedAllocationOk := false },
   Event.render (exampleSettings ArpNoteMode.UP ArpOctaveMode.UP 2) 1 0 0 0 0 0 false 0 0]

/-- Settings with the arpeggiator on, synced at the 128th level with the given sync type. -/
def settings128th (syncType : SyncType) : ArpeggiatorSettings :=
  { exampleSettings ArpNoteMode.UP ArpOctaveMode.UP 2 with
    syncLevel := SYNC_LEVEL_128TH, syncType := syncType }

/-- Example calls that lead to a tick at the 128th level with the ratchet automation at its
maximum: ratcheting is made available, 60 is pressed with the clock running, and a render call
takes over the ratchet automation (probability and amount at their maximum). -/
def fullRatchetCalls : List Event :=
  [Event.setRatchetingAvailable true,
   Event.noteOn (some (settings128th SyncType.SYNC_TYPE_EVEN)) 60 100 0 [0, 0, 0]
     { exampleEnv with clockActive := true },
   Event.render (settings128th SyncType.SYNC_TYPE_EVEN) 1 4294967295 0 0 4294967295 4294967295
     true 0 0]

/-- The engine after the calls `fullRatchetCalls`. -/
def fullRatchetEngine : Arpeggiator :=
  (Arpeggiator.initial.run fullRatchetCalls).getD Arpeggiator.initial

/-- The pitches that `k` successive calls of `ArpeggiatorForDrum::switchNoteOn` emit under fixed
settings, each call with a fresh instruction; the call number `j`, `j + 1`, ... draws `rnd j`,
`rnd (j + 1)`, ...; the list ends at the first call without a result. -/
def ArpeggiatorForDrum.pitches (settings : ArpeggiatorSettings) (rnd : Nat → Nat) :
    Nat → Nat → ArpeggiatorForDrum → List Int
  | 0, _, _ => []
  | k + 1, j, d =>
    match d.switchNoteOn settings (rnd j) ArpReturnInstruction.fresh with
    | none => []
    | some r => r.2.noteCodeOnPostArp :: ArpeggiatorForDrum.pitches settings rnd k (j + 1) r.1

/-- The engine that a step advance leaves when it is entered with a nonzero ratchet subdivision
index and reads the note `x`: the part of `Arpeggiator::switchNoteOn` before the jump sets the
gate flag, and the part from the label `finishSwitchNoteOn` on sets the sequence-started flag,
counts the note in `randomNotesPlayedFromOctave`, records the pitch and increments the ratchet
subdivision index while a ratchet is active. -/
def retriggered (a : Arpeggiator) (x : ArpNote) : Arpeggiator :=
  { a with
    gateCurrentlyActive := true
    playedFirstArpeggiatedNoteYet := true
    randomNotesPlayedFromOctave := a.randomNotesPlayedFromOctave + 1
    noteCodeCurrentlyOnPostArp := x.noteCode + a.currentOctave * 12
    ratchetNotesIndex :=
      if a.isRatcheting then a.ratchetNotesIndex + 1 else a.ratchetNotesIndex }

/-- The identity of the note at the sounding index in the collection that the note mode reads
from: `notesAsPlayed` for AS_PLAYED and `notes` otherwise, as `Arpeggiator::switchNoteOn` reads
it below the label `finishSwitchNoteOn`. -/
def Arpeggiator.soundingIdentity (settings : ArpeggiatorSettings) (a : Arpeggiator) :
    Option Int :=
  (if settings.noteMode = ArpNoteMode.AS_PLAYED then
      getElement a.notesAsPlayed a.whichNoteCurrentlyOnPostArp
    else
      getElement a.notes a.whichNoteCurrentlyOnPostArp).map fun (x : ArpNote) => x.noteCode

/-- The engine after 64 has been pressed with note mode AS_PLAYED and no clock running: 64
sounds and the sounding index is 0. -/
def asPlayedEngine : Arpeggiator :=
  (Arpeggiator.initial.run
    [exampleNoteOn (some (exampleSettings ArpNoteMode.AS_PLAYED ArpOctaveMode.UP 2)) 64]).getD
    Arpeggiator.initial

/-- The state of the DOWN/DOWN traversal over the notes `ns` with `K` octaves before call
`i`. -/
def DownDownState (ns : List ArpNote) (K : Nat) (i : Nat) (a : Arpeggiator) : Prop :=
  a.notes = ns ∧ a.maxSequenceLength = 0 ∧ a.ratchetNotesIndex = 0 ∧ a.isRatcheting = false
  ∧ (i = 0 → a.playedFirstArpeggiatedNoteYet = false)
  ∧ (0 < i → a.playedFirstArpeggiatedNoteYet = true
      ∧ a.whichNoteCurrentlyOnPostArp = ((ns.length - 1 - (i - 1) % ns.length : Nat) : Int)
      ∧ a.currentOctave = ((K - 1 - ((i - 1) / ns.length) % K : Nat) : Int)
      ∧ a.currentDirection = -1)

/-! # Theorems -/

/-! ## Octave-only traversal -/

theorem toInt8_eq (x : Int) (h0 : -128 ≤ x) (h1 : x ≤ 127) : toInt8 x = x := by
  unfold toInt8
  omega

theorem toInt8_range (x : Int) : -128 ≤ toInt8 x ∧ toInt8 x ≤ 127 := by
  unfold toInt8
  omega

/-- C1, counterexample to the claim as stated: the octave index is an 8-bit signed member, so
an octave count above 128 does not fit. With K = 129 and octave mode RANDOM the draw 128 is
stored as -128. With K = 200 and octave mode UP the step from octave 127 wraps to -128, the
branch for a negative index stores K - 1 = 199, which is -57 in 8 bits; with octave mode RANDOM
the draw 150 is stored as -106. None of these lies in [0, K). -/
theorem carryOnSequence_octave_counterexample :
    (carryOnSequenceForSingleNoteArpeggio
        (exampleSettings ArpNoteMode.UP ArpOctaveMode.RANDOM 129) 128
        Arpeggiator.initial.toArpeggiatorBase).map (fun b => b.currentOctave) = some (-128)
    ∧ (carryOnSequenceForSingleNoteArpeggio
        (exampleSettings ArpNoteMode.UP ArpOctaveMode.UP 200) 0
        { Arpeggiator.initial.toArpeggiatorBase with currentOctave := 127 }).map
        (fun b => b.currentOctave) = some (-57)
    ∧ (carryOnSequenceForSingleNoteArpeggio
        (exampleSettings ArpNoteMode.UP ArpOctaveMode.RANDOM 200) 150
        Arpeggiator.initial.toArpeggiatorBase).map (fun b => b.currentOctave) = some (-106) := by
  decide

/-- C1, amended: for every octave count K with 1 <= K <= 128, every octave mode, every prior
octave index (inside or outside [0, K)), every prior octave direction (in particular +1 and -1)
and every random draw, `carryOnSequenceForSingleNoteArpeggio` returns, and the octave index it
leaves lies in [0, K). -/
theorem carryOnSequence_octave_in_range (settings : ArpeggiatorSettings) (rnd : Nat)
    (b : ArpeggiatorBase) (hK : 1 ≤ settings.numOctaves) (hK128 : settings.numOctaves ≤ 128) :
    ∃ b', carryOnSequenceForSingleNoteArpeggio settings rnd b = some b'
      ∧ 0 ≤ b'.currentOctave ∧ b'.currentOctave < (settings.numOctaves : Int) := by
  unfold carryOnSequenceForSingleNoteArpeggio
  by_cases h1 : settings.numOctaves = 1
  · simp [h1]
  · have h2 : 2 ≤ settings.numOctaves := by omega
    have h0 : settings.numOctaves ≠ 0 := by omega
    have e1 : toInt8 ((settings.numOctaves : Int) - 1) = (settings.numOctaves : Int) - 1 :=
      toInt8_eq _ (by omega) (by omega)
    have e2 : toInt8 ((settings.numOctaves : Int) - 2) = (settings.numOctaves : Int) - 2 :=
      toInt8_eq _ (by omega) (by omega)
    have hr : rnd % settings.numOctaves < settings.numOctaves := Nat.mod_lt _ (by omega)
    have e3 : toInt8 ((rnd % settings.numOctaves : Nat) : Int)
        = ((rnd % settings.numOctaves : Nat) : Int) :=
      toInt8_eq _ (by omega) (by omega)
    have hm : modChecked rnd settings.numOctaves = some (rnd % settings.numOctaves) := by
      simp [modChecked, h0]
    simp only [h1, if_false, hm, Option.map_some']
    generalize toInt8 (b.currentOctave + b.currentOctaveDirection) = o1
    generalize toInt8 (b.currentOctave
      + if settings.octaveMode = ArpOctaveMode.DOWN then -1 else 1) = o2
    split_ifs <;> refine ⟨_, rfl, ?_, ?_⟩ <;> dsimp only <;> omega

theorem carryOnSequence_octave_in_range_witness :
    ∃ b', carryOnSequenceForSingleNoteArpeggio
        (exampleSettings ArpNoteMode.UP ArpOctaveMode.ALTERNATE 3) 0
        { Arpeggiator.initial.toArpeggiatorBase with currentOctave := 7 } = some b'
      ∧ 0 ≤ b'.currentOctave
      ∧ b'.currentOctave
          < ((exampleSettings ArpNoteMode.UP ArpOctaveMode.ALTERNATE 3).numOctaves : Int) :=
  carryOnSequence_octave_in_range (exampleSettings ArpNoteMode.UP ArpOctaveMode.ALTERNATE 3) 0
    { Arpeggiator.initial.toArpeggiatorBase with currentOctave := 7 } (by decide) (by decide)


/-! ## Arithmetic of wrapping counters -/

theorem succ_mod_cases (j K : Nat) (hK : 0 < K) :
    (j % K + 1 = K ∧ (j + 1) % K = 0 ∧ (j + 1) / K = j / K + 1)
    ∨ (j % K + 1 < K ∧ (j + 1) % K = j % K + 1 ∧ (j + 1) / K = j / K) := by
  have hlt : j % K < K := Nat.mod_lt j hK
  have hj : K * (j / K) + j % K = j := Nat.div_add_mod j K
  by_cases h : j % K + 1 = K
  · left
    have e : j + 1 = K * (j / K + 1) := by
      rw [Nat.mul_add, Nat.mul_one]; omega
    refine ⟨h, ?_, ?_⟩
    · rw [e]; exact Nat.mul_mod_right _ _
    · rw [e]; exact Nat.mul_div_cancel_left _ hK
  · right
    have hlt2 : j % K + 1 < K := by omega
    have e : j + 1 = (j % K + 1) + K * (j / K) := by omega
    refine ⟨hlt2, ?_, ?_⟩
    · rw [e, Nat.add_mul_mod_self_left]; exact Nat.mod_eq_of_lt hlt2
    · rw [e, Nat.add_mul_div_left _ _ hK, Nat.div_eq_of_lt hlt2]; omega

theorem carryOnSequenceForSingle_up (settings : ArpeggiatorSettings) (rnd : Nat)
    (b : ArpeggiatorBase) (ho : settings.octaveMode = ArpOctaveMode.UP)
    (h0 : 0 ≤ b.currentOctave) (h126 : b.currentOctave ≤ 126) :
    carryOnSequenceForSingleNoteArpeggio settings rnd b
      = some { b with
          currentOctaveDirection := 1
          currentOctave :=
            if b.currentOctave + 1 ≥ (settings.numOctaves : Int) then 0
            else b.currentOctave + 1 } := by
  have e : toInt8 (b.currentOctave + 1) = b.currentOctave + 1 :=
    toInt8_eq _ (by omega) (by omega)
  unfold carryOnSequenceForSingleNoteArpeggio
  by_cases h1 : settings.numOctaves = 1
  · have h2 : (1 : Int) ≤ b.currentOctave + 1 := by omega
    simp [h1, h2]
  · have h3 : ¬ b.currentOctave + 1 < 0 := by omega
    simp only [h1, ho, if_false]
    simp [e]
    split_ifs <;> rfl

theorem finishSwitchNoteOn_eq (settings : ArpeggiatorSettings) (a : Arpeggiator)
    (instruction : ArpReturnInstruction) (x : ArpNote)
    (hrat : a.isRatcheting = false)
    (h0 : 0 ≤ a.whichNoteCurrentlyOnPostArp)
    (hn : a.whichNoteCurrentlyOnPostArp < (a.notes.length : Int))
    (hx : (if settings.noteMode = ArpNoteMode.AS_PLAYED then a.notesAsPlayed else a.notes)[
        a.whichNoteCurrentlyOnPostArp.toNat]? = some x) :
    a.finishSwitchNoteOn settings instruction
      = some ({ a with
          playedFirstArpeggiatedNoteYet := true
          randomNotesPlayedFromOctave := a.randomNotesPlayedFromOctave + 1
          noteCodeCurrentlyOnPostArp := x.noteCode + a.currentOctave * 12 },
        { instruction with
          noteCodeOnPostArp := x.noteCode + a.currentOctave * 12
          arpNoteOn := some x }) := by
  unfold Arpeggiator.finishSwitchNoteOn
  have h1 : ¬ (a.whichNoteCurrentlyOnPostArp < 0
      ∨ a.whichNoteCurrentlyOnPostArp ≥ (a.notes.length : Int)) := by omega
  by_cases hm : settings.noteMode = ArpNoteMode.AS_PLAYED
  · simp only [hm, if_true] at hx
    simp [h1, hm, getElement, h0, hx, hrat]
  · simp only [hm, if_false] at hx
    simp [h1, hm, getElement, h0, hx, hrat]

theorem switchNoteOn_of_ratchetNotesIndex_zero (settings : ArpeggiatorSettings) (rn ro : Nat)
    (a : Arpeggiator) (instruction : ArpReturnInstruction) (hri : a.ratchetNotesIndex = 0) :
    a.switchNoteOn settings rn ro instruction
      = ((Arpeggiator.selectStep settings rn ro { a with gateCurrentlyActive := true }).map
          Arpeggiator.countStep).bind fun a' => a'.finishSwitchNoteOn settings instruction := by
  unfold Arpeggiator.switchNoteOn
  simp [hri]

theorem selectStep_start (settings : ArpeggiatorSettings) (rn ro : Nat) (a : Arpeggiator)
    (hfull : ¬ (settings.noteMode = ArpNoteMode.RANDOM
      ∧ settings.octaveMode = ArpOctaveMode.RANDOM))
    (hp : a.playedFirstArpeggiatedNoteYet = false) :
    a.selectStep settings rn ro = a.startSequence settings rn ro := by
  unfold Arpeggiator.selectStep
  have e : (if a.maxSequenceLength > 0 ∧ a.notesPlayedFromSequence ≥ a.maxSequenceLength then
      { a with playedFirstArpeggiatedNoteYet := false } else a) = a := by
    split_ifs
    · obtain ⟨b, _, _, _⟩ := a
      cases b
      simp_all
    · rfl
  simp only [hfull, if_false, e, hp, if_true]

theorem selectStep_carryOn (settings : ArpeggiatorSettings) (rn ro : Nat) (a : Arpeggiator)
    (hfull : ¬ (settings.noteMode = ArpNoteMode.RANDOM
      ∧ settings.octaveMode = ArpOctaveMode.RANDOM))
    (hp : a.playedFirstArpeggiatedNoteYet = true)
    (hmax : ¬ (a.maxSequenceLength > 0 ∧ a.notesPlayedFromSequence ≥ a.maxSequenceLength)) :
    a.selectStep settings rn ro
      = if a.notes.length = 1 then
          (carryOnSequenceForSingleNoteArpeggio settings ro a.toArpeggiatorBase).map
            fun b => { a with toArpeggiatorBase := b }
        else a.carryOnSequence settings rn ro := by
  unfold Arpeggiator.selectStep
  simp only [hfull, hmax, if_false, hp, Bool.true_eq_false]

theorem carryOnSequence_upUp (settings : ArpeggiatorSettings) (rn ro : Nat) (a : Arpeggiator)
    (hn : settings.noteMode = ArpNoteMode.UP) (ho : settings.octaveMode = ArpOctaveMode.UP)
    (hdir : a.currentDirection = 1) (hw0 : 0 ≤ a.whichNoteCurrentlyOnPostArp)
    (ho0 : 0 ≤ a.currentOctave) (ho126 : a.currentOctave ≤ 126) :
    a.carryOnSequence settings rn ro
      = some (if a.whichNoteCurrentlyOnPostArp + 1 ≥ (a.notes.length : Int) then
          { a with
            whichNoteCurrentlyOnPostArp := 0
            randomNotesPlayedFromOctave := 0
            currentOctaveDirection := 1
            currentOctave :=
              if a.currentOctave + 1 ≥ (settings.numOctaves : Int) then 0
              else a.currentOctave + 1 }
        else { a with whichNoteCurrentlyOnPostArp := a.whichNoteCurrentlyOnPostArp + 1 }) := by
  have h3 : ¬ a.whichNoteCurrentlyOnPostArp + 1 < 0 := by omega
  unfold Arpeggiator.carryOnSequence Arpeggiator.advanceNote Arpeggiator.advanceOctave
  simp only [hn, ho, hdir, alternateBounce]
  by_cases h : a.whichNoteCurrentlyOnPostArp + 1 ≥ (a.notes.length : Int)
  · simp [h, carryOnSequenceForSingle_up, ho, ho0, ho126, hdir]
  · simp [h, h3]

theorem switchNoteOn_upUp_next (settings : ArpeggiatorSettings) (rn ro : Nat) (a : Arpeggiator)
    (instruction : ArpReturnInstruction)
    (hn : settings.noteMode = ArpNoteMode.UP) (ho : settings.octaveMode = ArpOctaveMode.UP)
    (hp : a.playedFirstArpeggiatedNoteYet = true) (hmax : a.maxSequenceLength = 0)
    (hri : a.ratchetNotesIndex = 0) (hrat : a.isRatcheting = false)
    (hdir : a.currentDirection = 1) (hw0 : 0 ≤ a.whichNoteCurrentlyOnPostArp)
    (hwn : a.whichNoteCurrentlyOnPostArp < (a.notes.length : Int))
    (ho0 : 0 ≤ a.currentOctave) (ho126 : a.currentOctave ≤ 126) :
    ∃ r x, a.switchNoteOn settings rn ro instruction = some r
      ∧ r.1.notes = a.notes ∧ r.1.maxSequenceLength = 0 ∧ r.1.ratchetNotesIndex = 0
      ∧ r.1.isRatcheting = false ∧ r.1.playedFirstArpeggiatedNoteYet = true
      ∧ r.1.currentDirection = 1
      ∧ r.1.whichNoteCurrentlyOnPostArp
          = (if a.whichNoteCurrentlyOnPostArp + 1 ≥ (a.notes.length : Int) then 0
             else a.whichNoteCurrentlyOnPostArp + 1)
      ∧ r.1.currentOctave
          = (if a.whichNoteCurrentlyOnPostArp + 1 ≥ (a.notes.length : Int) then
               (if a.currentOctave + 1 ≥ (settings.numOctaves : Int) then 0
                else a.currentOctave + 1)
             else a.currentOctave)
      ∧ a.notes[r.1.whichNoteCurrentlyOnPostArp.toNat]? = some x
      ∧ r.2.noteCodeOnPostArp = x.noteCode + r.1.currentOctave * 12 := by
  have hfull : ¬ (settings.noteMode = ArpNoteMode.RANDOM
      ∧ settings.octaveMode = ArpOctaveMode.RANDOM) := by simp [hn]
  have hnm : settings.noteMode ≠ ArpNoteMode.AS_PLAYED := by rw [hn]; decide
  rw [switchNoteOn_of_ratchetNotesIndex_zero _ _ _ _ _ hri]
  generalize ha1 : ({ a with gateCurrentlyActive := true } : Arpeggiator) = a1
  have hp1 : a1.playedFirstArpeggiatedNoteYet = true := by rw [← ha1]; exact hp
  have hmax1 : a1.maxSequenceLength = 0 := by rw [← ha1]; exact hmax
  have hrat1 : a1.isRatcheting = false := by rw [← ha1]; exact hrat
  have hri1 : a1.ratchetNotesIndex = 0 := by rw [← ha1]; exact hri
  have hdir1 : a1.currentDirection = 1 := by rw [← ha1]; exact hdir
  have hw1 : a1.whichNoteCurrentlyOnPostArp = a.whichNoteCurrentlyOnPostArp := by
    rw [← ha1]
  have ho1 : a1.currentOctave = a.currentOctave := by rw [← ha1]
  have hnotes1 : a1.notes = a.notes := by rw [← ha1]
  have hlen1 : a1.notes.length = a.notes.length := by rw [hnotes1]
  clear ha1
  rw [selectStep_carryOn _ _ _ _ hfull hp1 (by omega)]
  by_cases h1 : a1.notes.length = 1
  · have hw : a1.whichNoteCurrentlyOnPostArp = 0 := by omega
    have hlen : a.notes.length = 1 := by rw [← hnotes1]; exact h1
    obtain ⟨x, hx⟩ : ∃ x, a.notes[0]? = some x :=
      ⟨a.notes.get ⟨0, by omega⟩, List.getElem?_eq_getElem _⟩
    have hoa1 : 0 ≤ a1.currentOctave := by rw [ho1]; exact ho0
    have hoa126 : a1.currentOctave ≤ 126 := by rw [ho1]; exact ho126
    rw [if_pos h1, carryOnSequenceForSingle_up settings ro a1.toArpeggiatorBase ho hoa1 hoa126]
    simp only [Option.map_some', Option.some_bind]
    rw [finishSwitchNoteOn_eq (x := x)]
    · refine ⟨_, x, rfl, ?_⟩
      have hpos : 0 < a.notes.length := by omega
      have hx' : a.notes[0] = x := by simpa [List.getElem?_eq_getElem hpos] using hx
      simp [Arpeggiator.countStep, hnotes1, hmax1, hri1, hrat1, hdir1, hw, ← hw1, ← ho1, hlen,
        hx']
    · exact hrat1
    · simp [Arpeggiator.countStep, hw]
    · simp [Arpeggiator.countStep, hw, hnotes1, hlen]
    · simp [Arpeggiator.countStep, hw, hnotes1, hnm, hx]
  · have hoa1 : 0 ≤ a1.currentOctave := by rw [ho1]; exact ho0
    have hoa126 : a1.currentOctave ≤ 126 := by rw [ho1]; exact ho126
    rw [if_neg h1, carryOnSequence_upUp settings rn ro a1 hn ho hdir1 (by omega) hoa1 hoa126]
    simp only [Option.map_some', Option.some_bind]
    by_cases hwrap : a.whichNoteCurrentlyOnPostArp + 1 ≥ (a.notes.length : Int)
    · have hwrap1 : a1.whichNoteCurrentlyOnPostArp + 1 ≥ (a1.notes.length : Int) := by omega
      obtain ⟨x, hx⟩ : ∃ x, a.notes[0]? = some x :=
        ⟨a.notes.get ⟨0, by omega⟩, List.getElem?_eq_getElem _⟩
      rw [if_pos hwrap1, finishSwitchNoteOn_eq (x := x)]
      · refine ⟨_, x, rfl, ?_⟩
        have hpos : 0 < a.notes.length := by omega
        have hx' : a.notes[0] = x := by simpa [List.getElem?_eq_getElem hpos] using hx
        simp [Arpeggiator.countStep, hnotes1, hmax1, hri1, hrat1, hdir1, hwrap, ← ho1, hx', hpos]
      · exact hrat1
      · simp [Arpeggiator.countStep]
      · simp [Arpeggiator.countStep, hnotes1]; omega
      · simp [Arpeggiator.countStep, hnotes1, hnm, hx]
    · have hwrap1 : ¬ a1.whichNoteCurrentlyOnPostArp + 1 ≥ (a1.notes.length : Int) := by omega
      obtain ⟨x, hx⟩ : ∃ x, a.notes[(a.whichNoteCurrentlyOnPostArp + 1).toNat]? = some x :=
        ⟨a.notes.get ⟨(a.whichNoteCurrentlyOnPostArp + 1).toNat, by omega⟩,
          List.getElem?_eq_getElem _⟩
      rw [if_neg hwrap1, finishSwitchNoteOn_eq (x := x)]
      · refine ⟨_, x, rfl, ?_⟩
        simp [Arpeggiator.countStep, hnotes1, hmax1, hri1, hrat1, hdir1, hwrap, ho1, hw1, hx]
      · exact hrat1
      · simp [Arpeggiator.countStep]; omega
      · simp [Arpeggiator.countStep, hnotes1]; omega
      · simp [Arpeggiator.countStep, hnotes1, hnm, hw1, hx]

theorem switchNoteOn_upUp_start (settings : ArpeggiatorSettings) (rn ro : Nat) (a : Arpeggiator)
    (instruction : ArpReturnInstruction)
    (hn : settings.noteMode = ArpNoteMode.UP) (ho : settings.octaveMode = ArpOctaveMode.UP)
    (hp : a.playedFirstArpeggiatedNoteYet = false)
    (hri : a.ratchetNotesIndex = 0) (hrat : a.isRatcheting = false)
    (hne : 1 ≤ a.notes.length) :
    ∃ r x, a.switchNoteOn settings rn ro instruction = some r
      ∧ r.1.notes = a.notes ∧ r.1.maxSequenceLength = a.maxSequenceLength
      ∧ r.1.ratchetNotesIndex = 0
      ∧ r.1.isRatcheting = false ∧ r.1.playedFirstArpeggiatedNoteYet = true
      ∧ r.1.currentDirection = 1
      ∧ r.1.whichNoteCurrentlyOnPostArp = 0
      ∧ r.1.currentOctave = 0
      ∧ a.notes[0]? = some x
      ∧ r.2.noteCodeOnPostArp = x.noteCode := by
  obtain ⟨x, hx⟩ : ∃ x, a.notes[0]? = some x :=
    ⟨a.notes.get ⟨0, by omega⟩, List.getElem?_eq_getElem _⟩
  have hpos : 0 < a.notes.length := by omega
  have hx' : a.notes[0] = x := by simpa [List.getElem?_eq_getElem hpos] using hx
  have hfull : ¬ (settings.noteMode = ArpNoteMode.RANDOM
      ∧ settings.octaveMode = ArpOctaveMode.RANDOM) := by simp [hn]
  have hnm : settings.noteMode ≠ ArpNoteMode.AS_PLAYED := by rw [hn]; decide
  rw [switchNoteOn_of_ratchetNotesIndex_zero _ _ _ _ _ hri,
    selectStep_start settings rn ro { a with gateCurrentlyActive := true } hfull hp]
  have e : Arpeggiator.startSequence settings rn ro { a with gateCurrentlyActive := true }
      = some { a with
          gateCurrentlyActive := true
          notesPlayedFromSequence := 0
          randomNotesPlayedFromOctave := 0
          whichNoteCurrentlyOnPostArp := 0
          currentDirection := 1
          currentOctave := 0
          currentOctaveDirection := 1 } := by
    simp [Arpeggiator.startSequence, hn, ho]
  rw [e]
  simp only [Option.map_some', Option.some_bind]
  rw [finishSwitchNoteOn_eq (x := x)]
  · refine ⟨_, x, rfl, ?_⟩
    simp [Arpeggiator.countStep, hri, hrat, hx', hpos]
  · exact hrat
  · simp [Arpeggiator.countStep]
  · simp [Arpeggiator.countStep, hpos]
  · simp [Arpeggiator.countStep, hnm, hx]

theorem upUp_step (settings : ArpeggiatorSettings) (rn ro : Nat) (ns : List ArpNote) (i : Nat)
    (a : Arpeggiator) (instruction : ArpReturnInstruction)
    (hn : settings.noteMode = ArpNoteMode.UP) (ho : settings.octaveMode = ArpOctaveMode.UP)
    (hK : 1 ≤ settings.numOctaves) (hK127 : settings.numOctaves ≤ 127) (hns : 1 ≤ ns.length)
    (h : UpUpState ns settings.numOctaves i a) :
    ∃ r x, a.switchNoteOn settings rn ro instruction = some r
      ∧ UpUpState ns settings.numOctaves (i + 1) r.1
      ∧ ns[i % ns.length]? = some x
      ∧ r.2.noteCodeOnPostArp
          = x.noteCode + 12 * (((i / ns.length) % settings.numOctaves : Nat) : Int) := by
  obtain ⟨hnotes, hmax, hri, hrat, h0, hpos⟩ := h
  subst hnotes
  rcases Nat.eq_zero_or_pos i with hi | hi
  · subst hi
    obtain ⟨r, x, hr, g1, g2, g3, g4, g5, g6, g7, g8, g9, g10⟩ :=
      switchNoteOn_upUp_start settings rn ro a instruction hn ho (h0 rfl) hri hrat hns
    refine ⟨r, x, hr, ⟨g1, by rw [g2, hmax], g3, g4, by simp, fun _ => ⟨g5, ?_, ?_, g6⟩⟩, ?_, ?_⟩
    · simpa using g7
    · simpa using g8
    · simpa using g9
    · simpa using g10
  · obtain ⟨j, rfl⟩ : ∃ j, i = j + 1 := ⟨i - 1, by omega⟩
    obtain ⟨hp, hw, hoct, hdir⟩ := hpos hi
    simp only [Nat.add_sub_cancel] at hw hoct
    have hKpos : 0 < settings.numOctaves := hK
    have hrlt : j % a.notes.length < a.notes.length := Nat.mod_lt _ hns
    have hqlt : j / a.notes.length % settings.numOctaves < settings.numOctaves :=
      Nat.mod_lt _ hKpos
    obtain ⟨r, x, hr, g1, g2, g3, g4, g5, g6, g7, g8, g9, g10⟩ :=
      switchNoteOn_upUp_next settings rn ro a instruction hn ho hp hmax hri hrat hdir
        (by omega) (by omega) (by omega) (by omega)
    have key : r.1.whichNoteCurrentlyOnPostArp = (((j + 1) % a.notes.length : Nat) : Int)
        ∧ r.1.currentOctave
          = ((((j + 1) / a.notes.length) % settings.numOctaves : Nat) : Int) := by
      rw [g7, g8, hw, hoct]
      rcases succ_mod_cases j a.notes.length hns with ⟨e1, e2, e3⟩ | ⟨e1, e2, e3⟩
      · rw [e2, e3]
        rcases succ_mod_cases (j / a.notes.length) settings.numOctaves hKpos with
          ⟨f1, f2, f3⟩ | ⟨f1, f2, f3⟩
        · rw [f2]
          have c1 : ((j % a.notes.length : Nat) : Int) + 1 ≥ (a.notes.length : Int) := by omega
          have c2 : ((j / a.notes.length % settings.numOctaves : Nat) : Int) + 1
              ≥ (settings.numOctaves : Int) := by omega
          rw [if_pos c1, if_pos c1, if_pos c2]
          constructor <;> rfl
        · rw [f2]
          have c1 : ((j % a.notes.length : Nat) : Int) + 1 ≥ (a.notes.length : Int) := by omega
          have c2 : ¬ ((j / a.notes.length % settings.numOctaves : Nat) : Int) + 1
              ≥ (settings.numOctaves : Int) := by omega
          rw [if_pos c1, if_pos c1, if_neg c2]
          constructor <;> omega
      · rw [e2, e3]
        have c1 : ¬ ((j % a.notes.length : Nat) : Int) + 1 ≥ (a.notes.length : Int) := by omega
        rw [if_neg c1, if_neg c1]
        constructor <;> omega
    refine ⟨r, x, hr, ⟨g1, g2, g3, g4, by simp, fun _ => ⟨g5, ?_, ?_, g6⟩⟩, ?_, ?_⟩
    · simpa using key.1
    · simpa using key.2
    · rw [key.1] at g9
      simpa using g9
    · rw [g10, key.2]
      ring

theorem upUp_times (settings : ArpeggiatorSettings) (rndNote rndOctave : Nat → Nat)
    (a : Arpeggiator)
    (hn : settings.noteMode = ArpNoteMode.UP) (ho : settings.octaveMode = ArpOctaveMode.UP)
    (hK : 1 ≤ settings.numOctaves) (hK127 : settings.numOctaves ≤ 127)
    (hne : 1 ≤ a.notes.length)
    (hmax : a.maxSequenceLength = 0) (hri : a.ratchetNotesIndex = 0)
    (hrat : a.isRatcheting = false) (hp : a.playedFirstArpeggiatedNoteYet = false) (k : Nat) :
    ∃ a', a.switchNoteOnTimes settings rndNote rndOctave k = some a'
      ∧ UpUpState a.notes settings.numOctaves k a' := by
  induction k with
  | zero =>
    exact ⟨a, rfl, rfl, hmax, hri, hrat, fun _ => hp, fun h => absurd h (by omega)⟩
  | succ k ih =>
    obtain ⟨a', h1, h2⟩ := ih
    obtain ⟨r, _, hr, h3, _⟩ := upUp_step settings (rndNote k) (rndOctave k) a.notes k a'
      ArpReturnInstruction.fresh hn ho hK hK127 hne h2
    exact ⟨r.1, by simp [Arpeggiator.switchNoteOnTimes, h1, hr], h3⟩

/-- C2, counterexample to the claim as stated: the octave index is an 8-bit signed member. With
the single note 60 and K = 128 octaves the steps 0 to 127 emit octaves 0 to 127; at step 128
the increment wraps to -128, the branch for a negative index stores K - 1 = 127, and the step
emits 60 + 12 * 127 instead of 60 + 12 * ((128 div 1) mod 128) = 60. With K = 200 the same step
stores 199, which is -57 in 8 bits, and emits 60 - 12 * 57. -/
theorem switchNoteOn_upUp_counterexample :
    ((heldEngine [60] [60]).nthSwitchNoteOn
        (exampleSettings ArpNoteMode.UP ArpOctaveMode.UP 128) (fun _ => 0) (fun _ => 0) 127).map
        (fun r => r.2.noteCodeOnPostArp) = some (60 + 12 * 127)
    ∧ ((heldEngine [60] [60]).nthSwitchNoteOn
        (exampleSettings ArpNoteMode.UP ArpOctaveMode.UP 128) (fun _ => 0) (fun _ => 0) 128).map
        (fun r => r.2.noteCodeOnPostArp) = some (60 + 12 * 127)
    ∧ ((heldEngine [60] [60]).nthSwitchNoteOn
        (exampleSettings ArpNoteMode.UP ArpOctaveMode.UP 200) (fun _ => 0) (fun _ => 0) 128).map
        (fun r => r.2.noteCodeOnPostArp) = some (60 - 12 * 57) := by
  decide

/-- C2, amended: melodic step advance with noteMode=UP and octaveMode=UP. With n >= 1 held notes
`s_0, ..., s_(n-1)` in the sorted collection (whatever their identities, so in particular for
distinct ascending ones), K octaves with 1 <= K <= 127, no sequence-length ceiling, no ratchet
and a fresh sequence, the `i`-th call of `switchNoteOn` (i = 0, 1, 2, ...) returns and emits the
pitch `s_(i mod n) + 12 * ((i div n) mod K)`, for every random draw. -/
theorem switchNoteOn_upUp_pitch (settings : ArpeggiatorSettings) (rndNote rndOctave : Nat → Nat)
    (a : Arpeggiator) (i : Nat)
    (hn : settings.noteMode = ArpNoteMode.UP) (ho : settings.octaveMode = ArpOctaveMode.UP)
    (hK : 1 ≤ settings.numOctaves) (hK127 : settings.numOctaves ≤ 127)
    (hne : 1 ≤ a.notes.length)
    (hmax : a.maxSequenceLength = 0) (hri : a.ratchetNotesIndex = 0)
    (hrat : a.isRatcheting = false) (hp : a.playedFirstArpeggiatedNoteYet = false) :
    ∃ r s, a.nthSwitchNoteOn settings rndNote rndOctave i = some r
      ∧ a.notes[i % a.notes.length]? = some s
      ∧ r.2.noteCodeOnPostArp
          = s.noteCode + 12 * (((i / a.notes.length) % settings.numOctaves : Nat) : Int) := by
  obtain ⟨a', h1, h2⟩ :=
    upUp_times settings rndNote rndOctave a hn ho hK hK127 hne hmax hri hrat hp i
  obtain ⟨r, s, hr, _, h3, h4⟩ := upUp_step settings (rndNote i) (rndOctave i) a.notes i a'
    ArpReturnInstruction.fresh hn ho hK hK127 hne h2
  exact ⟨r, s, by simp [Arpeggiator.nthSwitchNoteOn, h1, hr], h3, h4⟩

theorem switchNoteOn_upUp_pitch_witness :
    ∃ r s, (heldEngine [60, 64, 67] [60, 64, 67]).nthSwitchNoteOn
        (exampleSettings ArpNoteMode.UP ArpOctaveMode.UP 2) (fun _ => 0) (fun _ => 0) 4 = some r
      ∧ (heldEngine [60, 64, 67] [60, 64, 67]).notes[
          4 % (heldEngine [60, 64, 67] [60, 64, 67]).notes.length]? = some s
      ∧ r.2.noteCodeOnPostArp
          = s.noteCode + 12 * (((4 / (heldEngine [60, 64, 67] [60, 64, 67]).notes.length)
              % (exampleSettings ArpNoteMode.UP ArpOctaveMode.UP 2).numOctaves : Nat) : Int) :=
  switchNoteOn_upUp_pitch (exampleSettings ArpNoteMode.UP ArpOctaveMode.UP 2) (fun _ => 0)
    (fun _ => 0) (heldEngine [60, 64, 67] [60, 64, 67]) 4 rfl rfl (by decide) (by decide)
    (by decide) rfl rfl rfl rfl

theorem upUp_example :
    (List.range 9).map (fun i =>
      ((heldEngine [60, 64, 67] [60, 64, 67]).nthSwitchNoteOn
        (exampleSettings ArpNoteMode.UP ArpOctaveMode.UP 2) (fun _ => 0) (fun _ => 0) i).map
        fun r => r.2.noteCodeOnPostArp)
      = [some 60, some 64, some 67, some 72, some 76, some 79, some 60, some 64, some 67] := by
  decide

theorem carryOnSequenceForSingle_alternate (settings : ArpeggiatorSettings) (rnd : Nat)
    (b : ArpeggiatorBase) (ho : settings.octaveMode = ArpOctaveMode.ALTERNATE)
    (hK : settings.numOctaves ≠ 1) (hK129 : settings.numOctaves ≤ 129)
    (hlo : -128 ≤ b.currentOctave + b.currentOctaveDirection)
    (hhi : b.currentOctave + b.currentOctaveDirection ≤ 127) :
    carryOnSequenceForSingleNoteArpeggio settings rnd b
      = some (if b.currentOctave + b.currentOctaveDirection > (settings.numOctaves : Int) - 1 then
          { b with currentOctaveDirection := -1, currentOctave := (settings.numOctaves : Int) - 2 }
        else if b.currentOctave + b.currentOctaveDirection < 0 then
          { b with currentOctaveDirection := 1, currentOctave := 1 }
        else { b with currentOctave := b.currentOctave + b.currentOctaveDirection }) := by
  have e : toInt8 (b.currentOctave + b.currentOctaveDirection)
      = b.currentOctave + b.currentOctaveDirection := toInt8_eq _ hlo hhi
  unfold carryOnSequenceForSingleNoteArpeggio
  simp only [hK, ho, if_false, e]
  simp
  split_ifs with c1 <;> first
    | rfl
    | (have e2 : toInt8 ((settings.numOctaves : Int) - 2) = (settings.numOctaves : Int) - 2 :=
        toInt8_eq _ (by omega) (by omega)
       rw [e2])

theorem switchNoteOn_single (settings : ArpeggiatorSettings) (rn ro : Nat) (a : Arpeggiator)
    (instruction : ArpReturnInstruction) (b : ArpeggiatorBase) (x : ArpNote)
    (hfull : ¬ (settings.noteMode = ArpNoteMode.RANDOM
      ∧ settings.octaveMode = ArpOctaveMode.RANDOM))
    (hp : a.playedFirstArpeggiatedNoteYet = true)
    (hmax : ¬ (a.maxSequenceLength > 0 ∧ a.notesPlayedFromSequence ≥ a.maxSequenceLength))
    (hri : a.ratchetNotesIndex = 0)
    (h1 : a.notes.length = 1) (hw : a.whichNoteCurrentlyOnPostArp = 0)
    (hx : (if settings.noteMode = ArpNoteMode.AS_PLAYED then a.notesAsPlayed else a.notes)[0]?
      = some x)
    (hb : carryOnSequenceForSingleNoteArpeggio settings ro
      { a.toArpeggiatorBase with gateCurrentlyActive := true } = some b)
    (hbrat : b.isRatcheting = false) :
    a.switchNoteOn settings rn ro instruction
      = some (finished (Arpeggiator.countStep { a with toArpeggiatorBase := b }) instruction x) := by
  rw [switchNoteOn_of_ratchetNotesIndex_zero _ _ _ _ _ hri,
    selectStep_carryOn settings rn ro { a with gateCurrentlyActive := true } hfull hp hmax,
    if_pos h1]
  have hb' : carryOnSequenceForSingleNoteArpeggio settings ro
      ({ a with gateCurrentlyActive := true } : Arpeggiator).toArpeggiatorBase = some b := hb
  rw [hb']
  simp only [Option.map_some', Option.some_bind]
  rw [finishSwitchNoteOn_eq (x := x)]
  · rfl
  · exact hbrat
  · simp [Arpeggiator.countStep, hw]
  · simp [Arpeggiator.countStep, hw, h1]
  · simpa [Arpeggiator.countStep, hw] using hx

theorem alternate_step (settings : ArpeggiatorSettings) (rn ro : Nat) (i : Nat)
    (a : Arpeggiator) (instruction : ArpReturnInstruction)
    (hn : settings.noteMode = ArpNoteMode.UP)
    (ho : settings.octaveMode = ArpOctaveMode.ALTERNATE)
    (hK : 2 ≤ settings.numOctaves) (hK127 : settings.numOctaves ≤ 127)
    (h : AlternateState settings.numOctaves i a) :
    ∃ r x, a.switchNoteOn settings rn ro instruction = some r
      ∧ AlternateState settings.numOctaves (i + 1) r.1
      ∧ r.1.notes = a.notes
      ∧ a.notes[0]? = some x
      ∧ r.2.noteCodeOnPostArp = x.noteCode + r.1.currentOctave * 12 := by
  obtain ⟨h1, hmax, hri, hrat, h0, hpos⟩ := h
  have hfull : ¬ (settings.noteMode = ArpNoteMode.RANDOM
      ∧ settings.octaveMode = ArpOctaveMode.RANDOM) := by simp [hn]
  have hnm : settings.noteMode ≠ ArpNoteMode.AS_PLAYED := by rw [hn]; decide
  obtain ⟨x, hx⟩ : ∃ x, a.notes[0]? = some x :=
    ⟨a.notes.get ⟨0, by omega⟩, List.getElem?_eq_getElem _⟩
  have hperiod : 0 < 2 * (settings.numOctaves - 1) := by omega
  rcases Nat.eq_zero_or_pos i with hi | hi
  · subst hi
    have hp := h0 rfl
    rw [switchNoteOn_of_ratchetNotesIndex_zero _ _ _ _ _ hri,
      selectStep_start settings rn ro { a with gateCurrentlyActive := true } hfull hp]
    have e : Arpeggiator.startSequence settings rn ro { a with gateCurrentlyActive := true }
        = some { a with
            gateCurrentlyActive := true
            notesPlayedFromSequence := 0
            randomNotesPlayedFromOctave := 0
            whichNoteCurrentlyOnPostArp := 0
            currentDirection := 1
            currentOctave := 0
            currentOctaveDirection := 1 } := by
      simp [Arpeggiator.startSequence, hn, ho]
    rw [e]
    simp only [Option.map_some', Option.some_bind]
    rw [finishSwitchNoteOn_eq (x := x)]
    · refine ⟨_, x, rfl, ?_, rfl, hx, rfl⟩
      refine ⟨h1, hmax, hri, hrat, by simp, fun _ => ⟨rfl, rfl, ?_, ?_, ?_, ?_⟩⟩
      · left
        simp [Arpeggiator.countStep]
      · intro _; left; rfl
      · intro _ _; rfl
      · intro h; simp at h
    · exact hrat
    · simp [Arpeggiator.countStep]
    · simp [Arpeggiator.countStep, h1]
    · simp [Arpeggiator.countStep, hnm, hx]
  · obtain ⟨j, rfl⟩ : ∃ j, i = j + 1 := ⟨i - 1, by omega⟩
    obtain ⟨hp, hw, hoct, hd0, hd1, hd2⟩ := hpos hi
    simp only [Nat.add_sub_cancel] at hoct hd0 hd1 hd2
    have hK1 : settings.numOctaves ≠ 1 := by omega
    have hlt : j % (2 * (settings.numOctaves - 1)) < 2 * (settings.numOctaves - 1) :=
      Nat.mod_lt _ hperiod
    have hrange : -128 ≤ a.currentOctave + a.currentOctaveDirection
        ∧ a.currentOctave + a.currentOctaveDirection ≤ 127 := by
      generalize j % (2 * (settings.numOctaves - 1)) = t at hoct hd0 hd1 hd2 hlt
      omega
    have hb := carryOnSequenceForSingle_alternate settings ro
      { a.toArpeggiatorBase with gateCurrentlyActive := true } ho hK1 (by omega) hrange.1
      hrange.2
    have hstep := succ_mod_cases j (2 * (settings.numOctaves - 1)) hperiod
    by_cases c1 : a.currentOctave + a.currentOctaveDirection > (settings.numOctaves : Int) - 1
    · rw [if_pos c1] at hb
      rw [switchNoteOn_single settings rn ro a instruction _ x hfull hp (by omega) hri h1 hw
        (by simpa [hnm] using hx) hb hrat]
      refine ⟨_, x, rfl, ⟨h1, hmax, hri, hrat, by simp, fun _ => ⟨rfl, hw, ?_⟩⟩, rfl, hx, rfl⟩
      simp only [Nat.add_sub_cancel]
      dsimp only [finished, Arpeggiator.countStep]
      generalize (j + 1) % (2 * (settings.numOctaves - 1)) = t' at hstep ⊢
      generalize j % (2 * (settings.numOctaves - 1)) = t at hoct hd0 hd1 hd2 hlt hstep
      omega
    · by_cases c2 : a.currentOctave + a.currentOctaveDirection < 0
      · rw [if_neg c1, if_pos c2] at hb
        rw [switchNoteOn_single settings rn ro a instruction _ x hfull hp (by omega) hri h1 hw
          (by simpa [hnm] using hx) hb hrat]
        refine ⟨_, x, rfl, ⟨h1, hmax, hri, hrat, by simp, fun _ => ⟨rfl, hw, ?_⟩⟩, rfl, hx, rfl⟩
        simp only [Nat.add_sub_cancel]
        dsimp only [finished, Arpeggiator.countStep]
        generalize (j + 1) % (2 * (settings.numOctaves - 1)) = t' at hstep ⊢
        generalize j % (2 * (settings.numOctaves - 1)) = t at hoct hd0 hd1 hd2 hlt hstep
        omega
      · rw [if_neg c1, if_neg c2] at hb
        rw [switchNoteOn_single settings rn ro a instruction _ x hfull hp (by omega) hri h1 hw
          (by simpa [hnm] using hx) hb hrat]
        refine ⟨_, x, rfl, ⟨h1, hmax, hri, hrat, by simp, fun _ => ⟨rfl, hw, ?_⟩⟩, rfl, hx, rfl⟩
        simp only [Nat.add_sub_cancel]
        dsimp only [finished, Arpeggiator.countStep]
        generalize (j + 1) % (2 * (settings.numOctaves - 1)) = t' at hstep ⊢
        generalize j % (2 * (settings.numOctaves - 1)) = t at hoct hd0 hd1 hd2 hlt hstep
        omega

theorem alternate_times (settings : ArpeggiatorSettings) (rndNote rndOctave : Nat → Nat)
    (a : Arpeggiator)
    (hn : settings.noteMode = ArpNoteMode.UP)
    (ho : settings.octaveMode = ArpOctaveMode.ALTERNATE)
    (hK : 2 ≤ settings.numOctaves) (hK127 : settings.numOctaves ≤ 127)
    (h1 : a.notes.length = 1)
    (hmax : a.maxSequenceLength = 0) (hri : a.ratchetNotesIndex = 0)
    (hrat : a.isRatcheting = false) (hp : a.playedFirstArpeggiatedNoteYet = false) (k : Nat) :
    ∃ a', a.switchNoteOnTimes settings rndNote rndOctave k = some a'
      ∧ AlternateState settings.numOctaves k a' ∧ a'.notes = a.notes := by
  induction k with
  | zero =>
    exact ⟨a, rfl, ⟨h1, hmax, hri, hrat, fun _ => hp, fun h => absurd h (by omega)⟩, rfl⟩
  | succ k ih =>
    obtain ⟨a', e1, e2, e3⟩ := ih
    obtain ⟨r, _, hr, e4, e5, _⟩ := alternate_step settings (rndNote k) (rndOctave k) k a'
      ArpReturnInstruction.fresh hn ho hK hK127 e2
    exact ⟨r.1, by simp [Arpeggiator.switchNoteOnTimes, e1, hr], e4, by rw [e5, e3]⟩

/-- C3, counterexample to the claim as stated: the octave index is an 8-bit signed member. With
the single note 60, octave mode ALTERNATE and K = 128 octaves the steps 0 to 127 leave octaves
0 to 127; at step 128 the increment wraps to -128, the branch for a negative index turns the
direction up and stores 1, where the triangle wave `127 - |127 - 128|` is 126. -/
theorem switchNoteOn_single_alternate_counterexample :
    ((heldEngine [60] [60]).nthSwitchNoteOn
        (exampleSettings ArpNoteMode.UP ArpOctaveMode.ALTERNATE 128) (fun _ => 0) (fun _ => 0)
        127).map (fun r => r.1.currentOctave) = some 127
    ∧ ((heldEngine [60] [60]).nthSwitchNoteOn
        (exampleSettings ArpNoteMode.UP ArpOctaveMode.ALTERNATE 128) (fun _ => 0) (fun _ => 0)
        128).map (fun r => (r.1.currentOctave, r.2.noteCodeOnPostArp)) = some (1, 72) := by
  decide

/-- C3, amended: a single held note with octaveMode=ALTERNATE (noteMode=UP, no sequence-length
ceiling, no ratchet, fresh sequence). For every octave count K with 2 <= K <= 127 and every
random draw the `i`-th call of `switchNoteOn` returns, leaves the octave index at the triangle
wave `(K-1) - |(K-1) - (i mod 2(K-1))|`, and emits the held note raised by that many octaves. -/
theorem switchNoteOn_single_alternate_octave (settings : ArpeggiatorSettings)
    (rndNote rndOctave : Nat → Nat) (a : Arpeggiator) (i : Nat)
    (hn : settings.noteMode = ArpNoteMode.UP)
    (ho : settings.octaveMode = ArpOctaveMode.ALTERNATE)
    (hK : 2 ≤ settings.numOctaves) (hK127 : settings.numOctaves ≤ 127)
    (h1 : a.notes.length = 1)
    (hmax : a.maxSequenceLength = 0) (hri : a.ratchetNotesIndex = 0)
    (hrat : a.isRatcheting = false) (hp : a.playedFirstArpeggiatedNoteYet = false) :
    ∃ r s, a.nthSwitchNoteOn settings rndNote rndOctave i = some r
      ∧ r.1.currentOctave
          = ((settings.numOctaves : Int) - 1)
            - |((settings.numOctaves : Int) - 1)
                - ((i % (2 * (settings.numOctaves - 1)) : Nat) : Int)|
      ∧ a.notes[0]? = some s
      ∧ r.2.noteCodeOnPostArp = s.noteCode + 12 * r.1.currentOctave := by
  obtain ⟨a', e1, e2, e3⟩ :=
    alternate_times settings rndNote rndOctave a hn ho hK hK127 h1 hmax hri hrat hp i
  obtain ⟨r, s, hr, e4, _, e6, e7⟩ := alternate_step settings (rndNote i) (rndOctave i) i a'
    ArpReturnInstruction.fresh hn ho hK hK127 e2
  refine ⟨r, s, by simp [Arpeggiator.nthSwitchNoteOn, e1, hr], ?_, by rw [← e3]; exact e6,
    by rw [e7]; ring⟩
  obtain ⟨_, _, _, _, _, hpos⟩ := e4
  obtain ⟨_, _, hoct, _⟩ := hpos (Nat.succ_pos i)
  simp only [Nat.add_sub_cancel] at hoct
  have hlt : i % (2 * (settings.numOctaves - 1)) < 2 * (settings.numOctaves - 1) :=
    Nat.mod_lt _ (by omega)
  rcases hoct with ⟨c, e⟩ | ⟨c, e⟩
  · rw [e, abs_of_nonneg (by omega)]
    omega
  · rw [e, abs_of_neg (by omega)]
    omega

theorem switchNoteOn_single_alternate_octave_witness :
    ∃ r s, (heldEngine [60] [60]).nthSwitchNoteOn
        (exampleSettings ArpNoteMode.UP ArpOctaveMode.ALTERNATE 3) (fun _ => 0) (fun _ => 0) 3
        = some r
      ∧ r.1.currentOctave
          = (((exampleSettings ArpNoteMode.UP ArpOctaveMode.ALTERNATE 3).numOctaves : Int) - 1)
            - |(((exampleSettings ArpNoteMode.UP ArpOctaveMode.ALTERNATE 3).numOctaves : Int) - 1)
                - ((3 % (2 * ((exampleSettings ArpNoteMode.UP ArpOctaveMode.ALTERNATE
                    3).numOctaves - 1)) : Nat) : Int)|
      ∧ (heldEngine [60] [60]).notes[0]? = some s
      ∧ r.2.noteCodeOnPostArp = s.noteCode + 12 * r.1.currentOctave :=
  switchNoteOn_single_alternate_octave (exampleSettings ArpNoteMode.UP ArpOctaveMode.ALTERNATE 3)
    (fun _ => 0) (fun _ => 0) (heldEngine [60] [60]) 3 rfl rfl (by decide) (by decide) rfl rfl
    rfl rfl rfl

theorem alternate_example :
    (List.range 9).map (fun i =>
      ((heldEngine [60] [60]).nthSwitchNoteOn
        (exampleSettings ArpNoteMode.UP ArpOctaveMode.ALTERNATE 3) (fun _ => 0) (fun _ => 0) i).map
        fun r => r.1.currentOctave)
      = [some 0, some 1, some 2, some 1, some 0, some 1, some 2, some 1, some 0] := by
  decide

theorem search_le_length (xs : List ArpNote) (k : Int) : search xs k ≤ xs.length := by
  induction xs with
  | nil => simp [search]
  | cons y ys ih =>
    unfold search
    split_ifs
    · simp
    · simp; exact ih

theorem search_getElem_ge (xs : List ArpNote) (k : Int) (y : ArpNote)
    (h : xs[search xs k]? = some y) : k ≤ y.noteCode := by
  induction xs with
  | nil => simp [search] at h
  | cons z zs ih =>
    unfold search at h
    split_ifs at h with c
    · simp at h; subst h; exact c
    · simp at h; exact ih h

theorem search_of_mem_sorted (xs : List ArpNote) (k : Int)
    (hs : (codes xs).Pairwise (· < ·)) (hk : k ∈ codes xs) :
    ∃ y, xs[search xs k]? = some y ∧ y.noteCode = k := by
  induction xs with
  | nil => simp [codes] at hk
  | cons z zs ih =>
    simp only [codes, List.map_cons, List.pairwise_cons, List.mem_cons] at hs hk
    unfold search
    by_cases c : z.noteCode ≥ k
    · rw [if_pos c]
      refine ⟨z, by simp, ?_⟩
      rcases hk with hk | hk
      · exact hk.symm
      · have := hs.1 k hk
        omega
    · rw [if_neg c]
      have hk' : k ∈ codes zs := by
        rcases hk with hk | hk
        · omega
        · exact hk
      obtain ⟨y, h1, h2⟩ := ih hs.2 hk'
      exact ⟨y, by simpa using h1, h2⟩

theorem search_not_mem_sorted (xs : List ArpNote) (k : Int)
    (hs : (codes xs).Pairwise (· < ·))
    (h : ∀ y, xs[search xs k]? = some y → y.noteCode ≠ k) : k ∉ codes xs := by
  intro hk
  obtain ⟨y, h1, h2⟩ := search_of_mem_sorted xs k hs hk
  exact h y h1 h2

theorem codes_insert_sorted (xs : List ArpNote) (y : ArpNote)
    (hs : (codes xs).Pairwise (· < ·)) (hk : y.noteCode ∉ codes xs) :
    (codes (xs.take (search xs y.noteCode) ++ y :: xs.drop (search xs y.noteCode))).Pairwise
      (· < ·) := by
  induction xs with
  | nil => simp [search, codes]
  | cons z zs ih =>
    simp only [codes, List.map_cons, List.pairwise_cons, List.mem_cons, not_or] at hs hk
    unfold search
    by_cases c : z.noteCode ≥ y.noteCode
    · rw [if_pos c]
      simp only [List.take_zero, List.nil_append, List.drop_zero, codes, List.map_cons,
        List.pairwise_cons, List.mem_cons]
      refine ⟨?_, hs⟩
      intro b hb
      rcases hb with hb | hb
      · have := hk.1; omega
      · have := hs.1 b hb; omega
    · rw [if_neg c]
      have ih' := ih hs.2 hk.2
      simp only [List.take_succ_cons, List.drop_succ_cons, List.cons_append, codes,
        List.map_cons, List.pairwise_cons]
      refine ⟨?_, ih'⟩
      intro b hb
      simp only [List.map_append, List.map_cons, List.mem_append, List.mem_cons,
        List.mem_map] at hb
      rcases hb with ⟨w, hw, rfl⟩ | rfl | ⟨w, hw, rfl⟩
      · exact hs.1 _ (List.mem_map_of_mem _ (List.mem_of_mem_take hw))
      · omega
      · exact hs.1 _ (List.mem_map_of_mem _ (List.mem_of_mem_drop hw))

theorem codes_insert_perm (xs : List ArpNote) (y : ArpNote) (i : Nat) :
    (codes (xs.take i ++ y :: xs.drop i)).Perm (y.noteCode :: codes xs) := by
  have h : (xs.take i ++ y :: xs.drop i).Perm (y :: xs) := by
    refine List.perm_middle.trans ?_
    rw [List.take_append_drop]
  exact h.map _

theorem set_insert (xs : List ArpNote) (i : Nat) (s f : ArpNote) (hi : i ≤ xs.length) :
    (xs.take i ++ s :: xs.drop i).set i f = xs.take i ++ f :: xs.drop i := by
  have hlen : (xs.take i).length = i := by simp [hi]
  rw [List.set_append]
  simp [hlen]

theorem getElem_insert (xs : List ArpNote) (i : Nat) (f : ArpNote) (hi : i ≤ xs.length) :
    (xs.take i ++ f :: xs.drop i)[i]? = some f := by
  have hlen : (xs.take i).length = i := by simp [hi]
  rw [List.getElem?_append_right (by omega)]
  simp [hlen]

theorem findAsPlayed_eq_none (xs : List ArpNote) (k : Int) :
    findAsPlayed xs k = none ↔ k ∉ codes xs := by
  induction xs with
  | nil => simp [findAsPlayed, codes]
  | cons z zs ih =>
    unfold findAsPlayed
    by_cases c : z.noteCode = k
    · simp [c, codes]
    · simp only [c, if_false, Option.map_eq_none', ih, codes, List.map_cons, List.mem_cons,
        not_or]
      constructor
      · intro h; exact ⟨fun e => c e.symm, h⟩
      · intro h; exact h.2

theorem findAsPlayed_eq_some (xs : List ArpNote) (k : Int) (j : Nat)
    (h : findAsPlayed xs k = some j) : ∃ y, xs[j]? = some y ∧ y.noteCode = k := by
  induction xs generalizing j with
  | nil => simp [findAsPlayed] at h
  | cons z zs ih =>
    unfold findAsPlayed at h
    by_cases c : z.noteCode = k
    · simp [c] at h
      subst h
      exact ⟨z, by simp, c⟩
    · simp only [c, if_false, Option.map_eq_some'] at h
      obtain ⟨j', h1, rfl⟩ := h
      obtain ⟨y, h2, h3⟩ := ih j' h1
      exact ⟨y, by simpa using h2, h3⟩

theorem codes_eraseIdx_perm (xs : List ArpNote) (i : Nat) (y : ArpNote)
    (h : xs[i]? = some y) : (codes xs).Perm (y.noteCode :: codes (xs.eraseIdx i)) := by
  induction xs generalizing i with
  | nil => simp at h
  | cons z zs ih =>
    cases i with
    | zero =>
      simp at h
      subst h
      simp [codes]
    | succ i =>
      simp at h
      have := ih i h
      simp only [codes, List.map_cons, List.eraseIdx_cons_succ] at this ⊢
      exact (List.Perm.cons _ this).trans (List.Perm.swap _ _ _)

theorem codes_eraseIdx_sorted (xs : List ArpNote) (i : Nat)
    (hs : (codes xs).Pairwise (· < ·)) : (codes (xs.eraseIdx i)).Pairwise (· < ·) := by
  have h : (xs.eraseIdx i).Sublist xs := List.eraseIdx_sublist xs i
  exact hs.sublist (h.map _)

theorem codes_set_channel (xs : List ArpNote) (i : Nat) (x : ArpNote) (c : Int)
    (h : xs[i]? = some x) : codes (xs.set i { x with channel := c }) = codes xs := by
  induction xs generalizing i with
  | nil => simp
  | cons z zs ih =>
    cases i with
    | zero =>
      simp at h
      subst h
      simp [codes]
    | succ i =>
      simp at h
      have := ih i h
      simp only [codes, List.set_cons_succ, List.map_cons] at this ⊢
      rw [this]

theorem carryOnSequenceForSingle_frame (settings : ArpeggiatorSettings) (rnd : Nat)
    (b b' : ArpeggiatorBase) (h : carryOnSequenceForSingleNoteArpeggio settings rnd b = some b') :
    b' = { b with
      currentOctave := b'.currentOctave
      currentOctaveDirection := b'.currentOctaveDirection } := by
  unfold carryOnSequenceForSingleNoteArpeggio at h
  dsimp only at h
  split_ifs at h <;>
    first
    | (simp only [Option.some.injEq] at h; subst h; rfl)
    | (simp only [Option.map_eq_some'] at h; obtain ⟨r, _, rfl⟩ := h; rfl)

theorem startSequence_frame (settings : ArpeggiatorSettings) (rn ro : Nat)
    (a a' : Arpeggiator) (h : a.startSequence settings rn ro = some a') :
    a' = withTraversalOf a a' := by
  unfold Arpeggiator.startSequence at h
  simp only [Option.bind_eq_some] at h
  obtain ⟨a1, h1, h2⟩ := h
  have e1 : a1 = withTraversalOf a a1 := by
    split_ifs at h1 <;>
      first
      | (simp only [Option.some.injEq] at h1; subst h1; rfl)
      | (simp only [Option.map_eq_some'] at h1; obtain ⟨r, _, rfl⟩ := h1; rfl)
  have e2 : a' = withTraversalOf a1 a' := by
    split_ifs at h2 <;>
      first
      | (simp only [Option.some.injEq] at h2; subst h2; rfl)
      | (simp only [Option.map_eq_some'] at h2; obtain ⟨r, _, rfl⟩ := h2; rfl)
  rw [e2, e1]
  rfl

theorem advanceNote_frame (settings : ArpeggiatorSettings) (rn : Nat)
    (a : Arpeggiator) (t : NoteAdvance) (h : a.advanceNote settings rn = some t) :
    t.arp = withTraversalOf a t.arp
      ∧ (t.arp.currentDirection = 1 ∨ t.arp.currentDirection = -1
        ∨ t.arp.currentDirection = a.currentDirection) := by
  unfold Arpeggiator.advanceNote at h
  dsimp only at h
  split_ifs at h <;>
    first
    | (simp only [Option.some.injEq] at h; subst h
       exact ⟨rfl, by simp⟩)
    | (simp only [Option.map_eq_some'] at h; obtain ⟨r, _, rfl⟩ := h
       exact ⟨rfl, by simp⟩)

theorem advanceOctave_frame (settings : ArpeggiatorSettings) (ro : Nat)
    (t : NoteAdvance) (a' : Arpeggiator)
    (h : Arpeggiator.advanceOctave settings ro t = some a') :
    a' = withTraversalOf t.arp a'
      ∧ a'.currentDirection = t.arp.currentDirection
      ∧ a'.whichNoteCurrentlyOnPostArp = t.arp.whichNoteCurrentlyOnPostArp := by
  unfold Arpeggiator.advanceOctave at h
  dsimp only at h
  split_ifs at h <;>
    first
    | (simp only [Option.some.injEq] at h; subst h
       exact ⟨rfl, rfl, rfl⟩)
    | (simp only [Option.map_eq_some'] at h; obtain ⟨b, hb, rfl⟩ := h
       have hb' := carryOnSequenceForSingle_frame _ _ _ _ hb
       refine ⟨?_, ?_, rfl⟩
       · rw [hb']; rfl
       · rw [hb'])

theorem withTraversalOf_trans (a a1 a2 : Arpeggiator) (h1 : a1 = withTraversalOf a a1)
    (h2 : a2 = withTraversalOf a1 a2) : a2 = withTraversalOf a a2 := by
  rw [h2, h1]
  rfl

theorem carryOnSequence_frame (settings : ArpeggiatorSettings) (rn ro : Nat)
    (a a' : Arpeggiator) (h : a.carryOnSequence settings rn ro = some a') :
    a' = withTraversalOf a a'
      ∧ (a'.currentDirection = 1 ∨ a'.currentDirection = -1
        ∨ a'.currentDirection = a.currentDirection) := by
  unfold Arpeggiator.carryOnSequence at h
  simp only [Option.bind_eq_some] at h
  obtain ⟨t, h1, h2⟩ := h
  obtain ⟨e1, d1⟩ := advanceNote_frame _ _ _ _ h1
  obtain ⟨e2, d2, _⟩ := advanceOctave_frame _ _ _ _ h2
  exact ⟨withTraversalOf_trans _ _ _ e1 e2, by rw [d2]; exact d1⟩

theorem selectStep_frame (settings : ArpeggiatorSettings) (rn ro : Nat)
    (a a' : Arpeggiator) (h : a.selectStep settings rn ro = some a') :
    a' = withTraversalOf a a'
      ∧ (a'.currentDirection = 1 ∨ a'.currentDirection = -1
        ∨ a'.currentDirection = a.currentDirection) := by
  unfold Arpeggiator.selectStep at h
  dsimp only at h
  by_cases hfull : settings.noteMode = ArpNoteMode.RANDOM
      ∧ settings.octaveMode = ArpOctaveMode.RANDOM
  · rw [if_pos hfull] at h
    simp only [Option.bind_eq_some, Option.map_eq_some'] at h
    obtain ⟨w, _, o, _, rfl⟩ := h
    exact ⟨rfl, Or.inl rfl⟩
  · rw [if_neg hfull] at h
    generalize hc : (if a.maxSequenceLength > 0 ∧ a.notesPlayedFromSequence ≥ a.maxSequenceLength
      then ({ a with playedFirstArpeggiatedNoteYet := false } : Arpeggiator) else a) = a0 at h
    have e0 : a0 = withTraversalOf a a0
        ∧ a0.currentDirection = a.currentDirection := by
      rw [← hc]
      split_ifs <;> exact ⟨rfl, rfl⟩
    split_ifs at h with c1 c2
    · have e1 := startSequence_frame _ _ _ _ _ h
      refine ⟨withTraversalOf_trans _ _ _ e0.1 e1, ?_⟩
      unfold Arpeggiator.startSequence at h
      simp only [Option.bind_eq_some] at h
      obtain ⟨a1, h1, h2⟩ := h
      have d1 : a1.currentDirection = 1 ∨ a1.currentDirection = -1 := by
        split_ifs at h1 <;>
          first
          | (simp only [Option.some.injEq] at h1; subst h1; simp)
          | (simp only [Option.map_eq_some'] at h1; obtain ⟨r, _, rfl⟩ := h1; simp)
      have d2 : a'.currentDirection = a1.currentDirection := by
        split_ifs at h2 <;>
          first
          | (simp only [Option.some.injEq] at h2; subst h2; rfl)
          | (simp only [Option.map_eq_some'] at h2; obtain ⟨r, _, rfl⟩ := h2; rfl)
      rw [d2]
      rcases d1 with d | d
      · exact Or.inl d
      · exact Or.inr (Or.inl d)
    · simp only [Option.map_eq_some'] at h
      obtain ⟨b, hb, rfl⟩ := h
      have hb' := carryOnSequenceForSingle_frame _ _ _ _ hb
      refine ⟨?_, Or.inr (Or.inr ?_)⟩
      · refine withTraversalOf_trans _ _ _ e0.1 ?_
        rw [hb']; rfl
      · rw [← e0.2, hb']
    · obtain ⟨e1, d1⟩ := carryOnSequence_frame _ _ _ _ _ h
      refine ⟨withTraversalOf_trans _ _ _ e0.1 e1, ?_⟩
      rw [← e0.2]
      exact d1

theorem modChecked_eq_some (x d r : Nat) (h : modChecked x d = some r) : r < d := by
  unfold modChecked at h
  split_ifs at h with c
  simp only [Option.some.injEq] at h
  subst h
  exact Nat.mod_lt _ (Nat.pos_of_ne_zero c)

theorem modChecked_isSome (x d : Nat) (h : d ≠ 0) : ∃ r, modChecked x d = some r := by
  unfold modChecked
  exact ⟨x % d, by rw [if_neg h]⟩

theorem modChecked_length_lt (x n r : Nat) (h : modChecked x (n % 256) = some r) :
    (r : Int) < (n : Int) := by
  have h1 := modChecked_eq_some _ _ _ h
  have h2 : n % 256 ≤ n := Nat.mod_le _ _
  omega

theorem carryOnSequenceForSingle_isSome (settings : ArpeggiatorSettings) (rnd : Nat)
    (b : ArpeggiatorBase) (hK : 1 ≤ settings.numOctaves) :
    ∃ b', carryOnSequenceForSingleNoteArpeggio settings rnd b = some b' := by
  unfold carryOnSequenceForSingleNoteArpeggio
  dsimp only
  have h0 : settings.numOctaves ≠ 0 := by omega
  split_ifs <;>
    first
    | exact ⟨_, rfl⟩
    | (obtain ⟨r, hr⟩ := modChecked_isSome rnd settings.numOctaves h0
       exact ⟨_, by rw [hr]; rfl⟩)

theorem startSequence_index (settings : ArpeggiatorSettings) (rn ro : Nat)
    (a a' : Arpeggiator) (hn : 1 ≤ a.notes.length)
    (h : a.startSequence settings rn ro = some a') :
    0 ≤ a'.whichNoteCurrentlyOnPostArp
      ∧ a'.whichNoteCurrentlyOnPostArp < (a.notes.length : Int) := by
  unfold Arpeggiator.startSequence at h
  simp only [Option.bind_eq_some] at h
  obtain ⟨a1, h1, h2⟩ := h
  have d2 : a'.whichNoteCurrentlyOnPostArp = a1.whichNoteCurrentlyOnPostArp := by
    split_ifs at h2 <;>
      first
      | (simp only [Option.some.injEq] at h2; subst h2; rfl)
      | (simp only [Option.map_eq_some'] at h2; obtain ⟨r, _, rfl⟩ := h2; rfl)
  rw [d2]
  split_ifs at h1
  · simp only [Option.map_eq_some'] at h1
    obtain ⟨r, hr, rfl⟩ := h1
    have := modChecked_length_lt _ _ _ hr
    exact ⟨by simp, this⟩
  · simp only [Option.some.injEq] at h1
    subst h1
    simp
    omega
  · simp only [Option.some.injEq] at h1
    subst h1
    simp
    omega

theorem startSequence_isSome (settings : ArpeggiatorSettings) (rn ro : Nat)
    (a : Arpeggiator) (hK : 1 ≤ settings.numOctaves)
    (hr : ¬ (settings.noteMode = ArpNoteMode.RANDOM ∧ a.notes.length % 256 = 0)) :
    ∃ a', a.startSequence settings rn ro = some a' := by
  have h0 : settings.numOctaves ≠ 0 := by omega
  obtain ⟨o, ho⟩ := modChecked_isSome ro settings.numOctaves h0
  unfold Arpeggiator.startSequence
  dsimp only
  by_cases c : settings.noteMode = ArpNoteMode.RANDOM
  · have hd : a.notes.length % 256 ≠ 0 := fun e => hr ⟨c, e⟩
    obtain ⟨w, hw⟩ := modChecked_isSome rn (a.notes.length % 256) hd
    rw [if_pos c, hw]
    simp only [Option.map_some', Option.some_bind]
    split_ifs <;> first | exact ⟨_, rfl⟩ | (rw [ho]; exact ⟨_, rfl⟩)
  · rw [if_neg c]
    split_ifs <;> simp only [Option.some_bind] <;>
      first | exact ⟨_, rfl⟩ | (rw [ho]; exact ⟨_, rfl⟩)

theorem advanceNote_index (settings : ArpeggiatorSettings) (rn : Nat)
    (a : Arpeggiator) (t : NoteAdvance) (hn : 2 ≤ a.notes.length)
    (hw0 : 0 ≤ a.whichNoteCurrentlyOnPostArp)
    (hwn : a.whichNoteCurrentlyOnPostArp < (a.notes.length : Int))
    (hd : a.currentDirection = 1 ∨ a.currentDirection = -1)
    (h : a.advanceNote settings rn = some t) :
    0 ≤ t.arp.whichNoteCurrentlyOnPostArp
      ∧ t.arp.whichNoteCurrentlyOnPostArp < (a.notes.length : Int) := by
  unfold Arpeggiator.advanceNote at h
  dsimp only at h
  by_cases c : settings.noteMode = ArpNoteMode.RANDOM
  · rw [if_pos c] at h
    simp only [Option.map_eq_some'] at h
    obtain ⟨r, hr, rfl⟩ := h
    have := modChecked_length_lt _ _ _ hr
    exact ⟨by simp, this⟩
  · rw [if_neg c] at h
    split_ifs at h <;>
      (simp only [Option.some.injEq] at h; subst h
       dsimp only
       omega)

theorem advanceNote_isSome (settings : ArpeggiatorSettings) (rn : Nat)
    (a : Arpeggiator)
    (hr : ¬ (settings.noteMode = ArpNoteMode.RANDOM ∧ a.notes.length % 256 = 0)) :
    ∃ t, a.advanceNote settings rn = some t := by
  unfold Arpeggiator.advanceNote
  dsimp only
  by_cases c : settings.noteMode = ArpNoteMode.RANDOM
  · have hd : a.notes.length % 256 ≠ 0 := fun e => hr ⟨c, e⟩
    obtain ⟨w, hw⟩ := modChecked_isSome rn (a.notes.length % 256) hd
    rw [if_pos c, hw]
    exact ⟨_, rfl⟩
  · rw [if_neg c]
    split_ifs <;> exact ⟨_, rfl⟩

theorem advanceOctave_isSome (settings : ArpeggiatorSettings) (ro : Nat)
    (t : NoteAdvance) (hK : 1 ≤ settings.numOctaves) :
    ∃ a', Arpeggiator.advanceOctave settings ro t = some a' := by
  unfold Arpeggiator.advanceOctave
  dsimp only
  by_cases c : t.changeOctave = true
  · rw [if_pos c]
    obtain ⟨b, hb⟩ := carryOnSequenceForSingle_isSome settings ro
      ({ (if t.changingOctaveDirection = true then
            { t.arp with currentOctaveDirection :=
                if t.arp.currentOctaveDirection = -1 then 1 else -1 }
          else t.arp) with randomNotesPlayedFromOctave := 0 } : Arpeggiator).toArpeggiatorBase hK
    rw [hb]; exact ⟨_, rfl⟩
  · rw [if_neg c]; exact ⟨_, rfl⟩

theorem selectStep_index (settings : ArpeggiatorSettings) (rn ro : Nat)
    (a a' : Arpeggiator) (hn : 1 ≤ a.notes.length)
    (hw0 : 0 ≤ a.whichNoteCurrentlyOnPostArp)
    (hwn : a.whichNoteCurrentlyOnPostArp < (a.notes.length : Int))
    (hd : a.currentDirection = 1 ∨ a.currentDirection = -1)
    (h : a.selectStep settings rn ro = some a') :
    0 ≤ a'.whichNoteCurrentlyOnPostArp
      ∧ a'.whichNoteCurrentlyOnPostArp < (a.notes.length : Int) := by
  unfold Arpeggiator.selectStep at h
  dsimp only at h
  by_cases hfull : settings.noteMode = ArpNoteMode.RANDOM
      ∧ settings.octaveMode = ArpOctaveMode.RANDOM
  · rw [if_pos hfull] at h
    simp only [Option.bind_eq_some, Option.map_eq_some'] at h
    obtain ⟨w, hw, o, _, rfl⟩ := h
    have := modChecked_length_lt _ _ _ hw
    exact ⟨by simp, this⟩
  · rw [if_neg hfull] at h
    generalize hc : (if a.maxSequenceLength > 0 ∧ a.notesPlayedFromSequence ≥ a.maxSequenceLength
      then ({ a with playedFirstArpeggiatedNoteYet := false } : Arpeggiator) else a) = a0 at h
    have e0 : a0.notes = a.notes
        ∧ a0.whichNoteCurrentlyOnPostArp = a.whichNoteCurrentlyOnPostArp
        ∧ a0.currentDirection = a.currentDirection := by
      rw [← hc]
      split_ifs <;> exact ⟨rfl, rfl, rfl⟩
    obtain ⟨e1, e2, e3⟩ := e0
    split_ifs at h with c1 c2
    · have := startSequence_index settings rn ro a0 a' (by rw [e1]; exact hn) h
      rw [e1] at this
      exact this
    · simp only [Option.map_eq_some'] at h
      obtain ⟨b, hb, rfl⟩ := h
      dsimp only
      rw [e2]
      exact ⟨hw0, hwn⟩
    · unfold Arpeggiator.carryOnSequence at h
      simp only [Option.bind_eq_some] at h
      obtain ⟨t, h1, h2⟩ := h
      have hn2 : 2 ≤ a0.notes.length := by rw [e1] at c2 ⊢; omega
      have i1 := advanceNote_index settings rn a0 t hn2 (by rw [e2]; exact hw0)
        (by rw [e1, e2]; exact hwn) (by rw [e3]; exact hd) h1
      obtain ⟨_, _, i2⟩ := advanceOctave_frame _ _ _ _ h2
      rw [i2, ← e1]
      exact i1

theorem selectStep_isSome (settings : ArpeggiatorSettings) (rn ro : Nat)
    (a : Arpeggiator) (hK : 1 ≤ settings.numOctaves)
    (hr : ¬ (settings.noteMode = ArpNoteMode.RANDOM ∧ a.notes.length % 256 = 0)) :
    ∃ a', a.selectStep settings rn ro = some a' := by
  have h0 : settings.numOctaves ≠ 0 := by omega
  unfold Arpeggiator.selectStep
  dsimp only
  by_cases hfull : settings.noteMode = ArpNoteMode.RANDOM
      ∧ settings.octaveMode = ArpOctaveMode.RANDOM
  · rw [if_pos hfull]
    have hd : a.notes.length % 256 ≠ 0 := fun e => hr ⟨hfull.1, e⟩
    obtain ⟨w, hw⟩ := modChecked_isSome rn (a.notes.length % 256) hd
    obtain ⟨o, ho⟩ := modChecked_isSome ro settings.numOctaves h0
    rw [hw, ho]
    exact ⟨_, rfl⟩
  · rw [if_neg hfull]
    generalize hc : (if a.maxSequenceLength > 0 ∧ a.notesPlayedFromSequence ≥ a.maxSequenceLength
      then ({ a with playedFirstArpeggiatedNoteYet := false } : Arpeggiator) else a) = a0
    have e1 : a0.notes = a.notes := by
      rw [← hc]
      split_ifs <;> rfl
    have hr0 : ¬ (settings.noteMode = ArpNoteMode.RANDOM ∧ a0.notes.length % 256 = 0) := by
      rw [e1]; exact hr
    split_ifs
    · exact startSequence_isSome settings rn ro a0 hK hr0
    · obtain ⟨b, hb⟩ := carryOnSequenceForSingle_isSome settings ro a0.toArpeggiatorBase hK
      rw [hb]; exact ⟨_, rfl⟩
    · unfold Arpeggiator.carryOnSequence
      obtain ⟨t, ht⟩ := advanceNote_isSome settings rn a0 hr0
      obtain ⟨a', ha'⟩ := advanceOctave_isSome settings ro t hK
      rw [ht]
      exact ⟨a', ha'⟩

theorem finishSwitchNoteOn_spec (settings : ArpeggiatorSettings) (a : Arpeggiator)
    (instruction : ArpReturnInstruction) (r : Arpeggiator × ArpReturnInstruction)
    (h : a.finishSwitchNoteOn settings instruction = some r) :
    r.1.notes = a.notes ∧ r.1.notesAsPlayed = a.notesAsPlayed
      ∧ r.1.whichNoteCurrentlyOnPostArp = a.whichNoteCurrentlyOnPostArp
      ∧ r.1.currentDirection = a.currentDirection
      ∧ 0 ≤ a.whichNoteCurrentlyOnPostArp
      ∧ a.whichNoteCurrentlyOnPostArp < (a.notes.length : Int) := by
  unfold Arpeggiator.finishSwitchNoteOn at h
  simp only [bind, Option.bind_eq_some, pure] at h
  split_ifs at h with c <;>
    (simp only [Option.bind_eq_some] at h
     obtain ⟨x, _, hx⟩ := h
     simp only [Option.some.injEq] at hx; subst hx
     exact ⟨rfl, rfl, rfl, rfl, by omega, by omega⟩)

theorem finishSwitchNoteOn_isSome (settings : ArpeggiatorSettings) (a : Arpeggiator)
    (instruction : ArpReturnInstruction)
    (h0 : 0 ≤ a.whichNoteCurrentlyOnPostArp)
    (hn : a.whichNoteCurrentlyOnPostArp < (a.notes.length : Int))
    (hlen : a.notesAsPlayed.length = a.notes.length) :
    ∃ r, a.finishSwitchNoteOn settings instruction = some r := by
  have hlt : a.whichNoteCurrentlyOnPostArp.toNat < a.notes.length := by omega
  obtain ⟨x, hx⟩ : ∃ x, (if settings.noteMode = ArpNoteMode.AS_PLAYED then a.notesAsPlayed
      else a.notes)[a.whichNoteCurrentlyOnPostArp.toNat]? = some x := by
    split_ifs
    · exact ⟨a.notesAsPlayed.get ⟨_, by omega⟩, List.getElem?_eq_getElem _⟩
    · exact ⟨a.notes.get ⟨_, hlt⟩, List.getElem?_eq_getElem _⟩
  unfold Arpeggiator.finishSwitchNoteOn
  have h1 : ¬ (a.whichNoteCurrentlyOnPostArp < 0
      ∨ a.whichNoteCurrentlyOnPostArp ≥ (a.notes.length : Int)) := by omega
  by_cases hm : settings.noteMode = ArpNoteMode.AS_PLAYED
  · simp only [hm, if_true] at hx
    by_cases hrat : a.isRatcheting = true <;>
      simp [h1, hm, getElement, h0, hx, hrat]
  · simp only [hm, if_false] at hx
    by_cases hrat : a.isRatcheting = true <;>
      simp [h1, hm, getElement, h0, hx, hrat]

theorem switchNoteOn_spec (settings : ArpeggiatorSettings) (rn ro : Nat) (a : Arpeggiator)
    (instruction : ArpReturnInstruction) (r : Arpeggiator × ArpReturnInstruction)
    (h : a.switchNoteOn settings rn ro instruction = some r) :
    r.1.notes = a.notes ∧ r.1.notesAsPlayed = a.notesAsPlayed
      ∧ 0 ≤ r.1.whichNoteCurrentlyOnPostArp
      ∧ r.1.whichNoteCurrentlyOnPostArp < (a.notes.length : Int)
      ∧ (r.1.currentDirection = 1 ∨ r.1.currentDirection = -1
        ∨ r.1.currentDirection = a.currentDirection) := by
  unfold Arpeggiator.switchNoteOn at h
  dsimp only at h
  simp only [Option.bind_eq_some] at h
  obtain ⟨a2, h1, h2⟩ := h
  obtain ⟨f1, f2, f3, f4, f5, f6⟩ := finishSwitchNoteOn_spec _ _ _ _ h2
  have key : a2.notes = a.notes ∧ a2.notesAsPlayed = a.notesAsPlayed
      ∧ (a2.currentDirection = 1 ∨ a2.currentDirection = -1
        ∨ a2.currentDirection = a.currentDirection) := by
    split_ifs at h1
    · simp only [Option.some.injEq] at h1
      subst h1
      exact ⟨rfl, rfl, Or.inr (Or.inr rfl)⟩
    · simp only [Option.map_eq_some'] at h1
      obtain ⟨a1, hs, rfl⟩ := h1
      obtain ⟨e, d⟩ := selectStep_frame _ _ _ _ _ hs
      refine ⟨?_, ?_, d⟩
      · show a1.notes = a.notes
        rw [e]; rfl
      · show a1.notesAsPlayed = a.notesAsPlayed
        rw [e]; rfl
  obtain ⟨k1, k2, k3⟩ := key
  refine ⟨by rw [f1, k1], by rw [f2, k2], by rw [f3]; exact f5, by rw [f3, ← k1]; exact f6, ?_⟩
  rw [f4]
  exact k3

theorem switchNoteOn_isSome (settings : ArpeggiatorSettings) (rn ro : Nat) (a : Arpeggiator)
    (instruction : ArpReturnInstruction)
    (hn : 1 ≤ a.notes.length)
    (hw0 : 0 ≤ a.whichNoteCurrentlyOnPostArp)
    (hwn : a.whichNoteCurrentlyOnPostArp < (a.notes.length : Int))
    (hd : a.currentDirection = 1 ∨ a.currentDirection = -1)
    (hlen : a.notesAsPlayed.length = a.notes.length)
    (hK : 1 ≤ settings.numOctaves)
    (hr : ¬ (settings.noteMode = ArpNoteMode.RANDOM ∧ a.notes.length % 256 = 0)) :
    ∃ r, a.switchNoteOn settings rn ro instruction = some r := by
  unfold Arpeggiator.switchNoteOn
  dsimp only
  by_cases c : a.ratchetNotesIndex > 0
  · rw [if_pos c]
    simp only [Option.some_bind]
    exact finishSwitchNoteOn_isSome _ _ _ hw0 hwn hlen
  · rw [if_neg c]
    obtain ⟨a1, h1⟩ := selectStep_isSome settings rn ro { a with gateCurrentlyActive := true }
      hK hr
    have i1 := selectStep_index settings rn ro { a with gateCurrentlyActive := true } a1 hn
      hw0 hwn hd h1
    obtain ⟨e, _⟩ := selectStep_frame _ _ _ _ _ h1
    have n1 : a1.notes = a.notes := by rw [e]; rfl
    have n2 : a1.notesAsPlayed = a.notesAsPlayed := by rw [e]; rfl
    rw [h1]
    simp only [Option.map_some', Option.some_bind]
    exact finishSwitchNoteOn_isSome _ _ _ i1.1 (by simpa [Arpeggiator.countStep, n1] using i1.2)
      (by simp [Arpeggiator.countStep, n1, n2, hlen])

theorem switchAnyNoteOff_currentDirection (clockActive : Bool) (b : ArpeggiatorBase)
    (instruction : ArpReturnInstruction) :
    (switchAnyNoteOff clockActive b instruction).1.currentDirection = b.currentDirection := by
  unfold switchAnyNoteOff
  dsimp only
  split_ifs <;> rfl

theorem switchNoteOn_indexOk (settings : ArpeggiatorSettings) (rn ro : Nat) (a : Arpeggiator)
    (instruction : ArpReturnInstruction) (r : Arpeggiator × ArpReturnInstruction)
    (h : a.switchNoteOn settings rn ro instruction = some r)
    (hd : a.currentDirection = 1 ∨ a.currentDirection = -1) : IndexOk r.1 := by
  obtain ⟨e1, _, e3, e4, e5⟩ := switchNoteOn_spec _ _ _ _ _ _ h
  refine ⟨e3, ?_, ?_⟩
  · rw [e1]
    exact lt_of_lt_of_le e4 (le_max_left _ _)
  · rcases e5 with e | e | e
    · exact Or.inl e
    · exact Or.inr e
    · rw [e]; exact hd

theorem renderGate_spec (settings : ArpeggiatorSettings) (gateThreshold : Nat)
    (clockActive : Bool) (rn ro : Nat) (a : Arpeggiator)
    (instruction : ArpReturnInstruction) (r : Arpeggiator × ArpReturnInstruction)
    (h : a.renderGate settings gateThreshold clockActive rn ro instruction = some r) :
    r.1.notes = a.notes ∧ r.1.notesAsPlayed = a.notesAsPlayed
      ∧ (IndexOk a → IndexOk r.1) := by
  unfold Arpeggiator.renderGate at h
  dsimp only at h
  split_ifs at h with c1 c2
  · obtain ⟨e1, e2, _⟩ := switchNoteOn_spec _ _ _ _ _ _ h
    refine ⟨e1, e2, fun hi => ?_⟩
    refine switchNoteOn_indexOk _ _ _ _ _ _ h ?_
    show (switchAnyNoteOff clockActive a.toArpeggiatorBase instruction).1.currentDirection = 1 ∨ _
    rw [switchAnyNoteOff_currentDirection]
    exact hi.2.2
  · simp only [Option.some.injEq] at h
    subst h
    refine ⟨rfl, rfl, fun hi => ?_⟩
    refine ⟨hi.1, hi.2.1, ?_⟩
    show (switchAnyNoteOff clockActive a.toArpeggiatorBase instruction).1.currentDirection = 1 ∨ _
    rw [switchAnyNoteOff_currentDirection]
    exact hi.2.2
  · simp only [Option.some.injEq] at h
    subst h
    exact ⟨rfl, rfl, id⟩

theorem render_spec (settings : ArpeggiatorSettings) (numSamples : Nat)
    (gateThreshold phaseIncrement sequenceLength ratchAmount ratchProb : Nat)
    (clockActive : Bool) (rn ro : Nat) (a : Arpeggiator)
    (instruction : ArpReturnInstruction) (r : Arpeggiator × ArpReturnInstruction)
    (h : a.render settings numSamples gateThreshold phaseIncrement sequenceLength ratchAmount
      ratchProb clockActive rn ro instruction = some r) :
    r.1.notes = a.notes ∧ r.1.notesAsPlayed = a.notesAsPlayed
      ∧ (IndexOk a → IndexOk r.1) := by
  unfold Arpeggiator.render at h
  dsimp only at h
  split_ifs at h with c
  · simp only [Option.some.injEq] at h
    subst h
    exact ⟨rfl, rfl, id⟩
  · simp only [Option.map_eq_some'] at h
    obtain ⟨r1, h1, rfl⟩ := h
    obtain ⟨e1, e2, e3⟩ := renderGate_spec _ _ _ _ _ _ _ _ h1
    exact ⟨e1, e2, fun hi => e3 hi⟩

theorem setupRatchetForTick_currentDirection (settings : ArpeggiatorSettings)
    (rc rm : Nat) (b : ArpeggiatorBase) :
    (setupRatchetForTick settings rc rm b).currentDirection = b.currentDirection := by
  unfold setupRatchetForTick maybeSetupNewRatchet
  dsimp only
  split_ifs <;> rfl

theorem tickBoundary_spec (settings : ArpeggiatorSettings) (ticksPerPeriod : Nat)
    (clockActive : Bool) (rn ro : Nat) (a : Arpeggiator)
    (instruction : ArpReturnInstruction) (r : Arpeggiator × ArpReturnInstruction)
    (h : a.tickBoundary settings ticksPerPeriod clockActive rn ro instruction = some r) :
    r.1.notes = a.notes ∧ r.1.notesAsPlayed = a.notesAsPlayed
      ∧ (IndexOk a → IndexOk r.1) := by
  unfold Arpeggiator.tickBoundary at h
  dsimp only at h
  split_ifs at h with c
  · simp only [Option.map_eq_some'] at h
    obtain ⟨r1, h1, rfl⟩ := h
    obtain ⟨e1, e2, _⟩ := switchNoteOn_spec _ _ _ _ _ _ h1
    refine ⟨e1, e2, fun hi => ?_⟩
    have := switchNoteOn_indexOk _ _ _ _ _ _ h1 (by
      show (switchAnyNoteOff clockActive a.toArpeggiatorBase instruction).1.currentDirection = 1
        ∨ _
      rw [switchAnyNoteOff_currentDirection]
      exact hi.2.2)
    exact this
  · simp only [Option.some.injEq] at h
    subst h
    exact ⟨rfl, rfl, id⟩

theorem tickPeriod_spec (settings : ArpeggiatorSettings) (clipCurrentPos : Nat)
    (currentlyPlayingReversed clockActive : Bool) (rc rm rn ro : Nat) (a : Arpeggiator)
    (instruction : ArpReturnInstruction) (r : TickResult)
    (h : a.tickPeriod settings clipCurrentPos currentlyPlayingReversed clockActive rc rm rn ro
      instruction = some r) :
    r.arp.notes = a.notes ∧ r.arp.notesAsPlayed = a.notesAsPlayed
      ∧ (IndexOk a → IndexOk r.arp) := by
  unfold Arpeggiator.tickPeriod at h
  dsimp only at h
  simp only [Option.bind_eq_some] at h
  obtain ⟨tpp, _, howFar, _, h3⟩ := h
  generalize hb : setupRatchetForTick settings rc rm a.toArpeggiatorBase = b at h3
  have hbd : b.currentDirection = a.currentDirection := by
    rw [← hb, setupRatchetForTick_currentDirection]
  have hi1 : IndexOk a → IndexOk { a with toArpeggiatorBase := b } := by
    intro hi
    refine ⟨hi.1, hi.2.1, ?_⟩
    show b.currentDirection = 1 ∨ b.currentDirection = -1
    rw [hbd]
    exact hi.2.2
  split_ifs at h3
  · simp only [Option.map_eq_some'] at h3
    obtain ⟨r1, h4, rfl⟩ := h3
    obtain ⟨e1, e2, e3⟩ := tickBoundary_spec _ _ _ _ _ _ _ _ h4
    exact ⟨e1, e2, fun hi => e3 (hi1 hi)⟩
  · simp only [Option.some.injEq] at h3
    subst h3
    exact ⟨rfl, rfl, hi1⟩
  · simp only [Option.some.injEq] at h3
    subst h3
    exact ⟨rfl, rfl, hi1⟩

theorem doTickForward_spec (settings : ArpeggiatorSettings) (clipCurrentPos : Nat)
    (currentlyPlayingReversed clockActive : Bool) (rc rm rn ro : Nat) (a : Arpeggiator)
    (instruction : ArpReturnInstruction) (r : TickResult)
    (h : a.doTickForward settings clipCurrentPos currentlyPlayingReversed clockActive rc rm rn ro
      instruction = some r) :
    r.arp.notes = a.notes ∧ r.arp.notesAsPlayed = a.notesAsPlayed
      ∧ (IndexOk a → IndexOk r.arp) := by
  unfold Arpeggiator.doTickForward at h
  split_ifs at h with c
  · simp only [Option.some.injEq] at h
    subst h
    exact ⟨rfl, rfl, id⟩
  · obtain ⟨e1, e2, e3⟩ := tickPeriod_spec _ _ _ _ _ _ _ _ _ _ _ h
    exact ⟨e1, e2, fun hi => e3 hi⟩
  · exact tickPeriod_spec _ _ _ _ _ _ _ _ _ _ _ h

theorem resetRatchetIfEmpty_spec (a : Arpeggiator) :
    a.resetRatchetIfEmpty.notes = a.notes
      ∧ a.resetRatchetIfEmpty.notesAsPlayed = a.notesAsPlayed
      ∧ a.resetRatchetIfEmpty.whichNoteCurrentlyOnPostArp = a.whichNoteCurrentlyOnPostArp
      ∧ a.resetRatchetIfEmpty.currentDirection = a.currentDirection := by
  unfold Arpeggiator.resetRatchetIfEmpty
  split_ifs <;> exact ⟨rfl, rfl, rfl, rfl⟩

theorem releaseHeld_notes (settings : Option ArpeggiatorSettings) (k : Int)
    (clockActive : Bool) (notesKey : Nat) (arpNote : ArpNote) (a : Arpeggiator)
    (instruction : ArpReturnInstruction) :
    (a.releaseHeld settings k clockActive notesKey arpNote instruction).1.notes
      = a.notes.eraseIdx notesKey := rfl

theorem releaseHeld_currentDirection (settings : Option ArpeggiatorSettings) (k : Int)
    (clockActive : Bool) (notesKey : Nat) (arpNote : ArpNote) (a : Arpeggiator)
    (instruction : ArpReturnInstruction) :
    (a.releaseHeld settings k clockActive notesKey arpNote instruction).1.currentDirection
      = a.currentDirection := by
  unfold Arpeggiator.releaseHeld
  dsimp only
  split_ifs <;> rfl

theorem noteOff_sorted (settings : Option ArpeggiatorSettings) (k : Int)
    (clockActive : Bool) (a : Arpeggiator) (instruction : ArpReturnInstruction)
    (hs : (codes a.notes).Pairwise (· < ·)) :
    (codes (a.noteOff settings k clockActive instruction).1.notes).Pairwise (· < ·) := by
  unfold Arpeggiator.noteOff
  dsimp only
  rw [(resetRatchetIfEmpty_spec _).1]
  split
  · exact hs
  · split_ifs
    · rw [releaseHeld_notes]
      exact codes_eraseIdx_sorted _ _ hs
    · exact hs

theorem noteOff_perm (settings : Option ArpeggiatorSettings) (k : Int)
    (clockActive : Bool) (a : Arpeggiator) (instruction : ArpReturnInstruction)
    (hp : (codes a.notes).Perm (codes a.notesAsPlayed)) :
    (codes (a.noteOff settings k clockActive instruction).1.notes).Perm
      (codes (a.noteOff settings k clockActive instruction).1.notesAsPlayed) := by
  unfold Arpeggiator.noteOff
  dsimp only
  rw [(resetRatchetIfEmpty_spec _).1, (resetRatchetIfEmpty_spec _).2.1]
  split
  · exact hp
  · rename_i arpNote hx
    split_ifs with c
    · have hk : k ∈ codes a.notesAsPlayed := by
        refine hp.subset ?_
        rw [← c]
        exact List.mem_map_of_mem _ (List.getElem?_mem hx)
      have h1 := codes_eraseIdx_perm _ _ _ hx
      rw [c] at h1
      unfold Arpeggiator.releaseHeld deleteAtIndex
      dsimp only
      cases hf : findAsPlayed a.notesAsPlayed k with
      | none => exact absurd hk ((findAsPlayed_eq_none _ _).mp hf)
      | some j =>
        obtain ⟨y, hy, hyk⟩ := findAsPlayed_eq_some _ _ _ hf
        have h2 := codes_eraseIdx_perm _ _ _ hy
        rw [hyk] at h2
        exact List.Perm.cons_inv ((h1.symm.trans hp).trans h2)
    · exact hp

theorem noteOff_indexOk (settings : Option ArpeggiatorSettings) (k : Int)
    (clockActive : Bool) (a : Arpeggiator) (instruction : ArpReturnInstruction)
    (hi : IndexOk a) : IndexOk (a.noteOff settings k clockActive instruction).1 := by
  obtain ⟨h0, hn, hd⟩ := hi
  unfold Arpeggiator.noteOff IndexOk
  dsimp only
  rw [(resetRatchetIfEmpty_spec _).1, (resetRatchetIfEmpty_spec _).2.2.1,
    (resetRatchetIfEmpty_spec _).2.2.2]
  split
  · exact ⟨h0, hn, hd⟩
  · rename_i arpNote hx
    split_ifs with c
    · have hlt : search a.notes k < a.notes.length := by
        by_contra hge
        rw [List.getElem?_eq_none (by omega)] at hx
        exact absurd hx (by simp)
      rw [releaseHeld_currentDirection, releaseHeld_notes]
      refine ⟨?_, ?_, hd⟩
      · unfold Arpeggiator.releaseHeld
        dsimp only
        split_ifs <;> omega
      · have hlen : (a.notes.eraseIdx (search a.notes k)).length = a.notes.length - 1 := by
          rw [List.length_eraseIdx, if_pos hlt]
        rw [hlen]
        unfold Arpeggiator.releaseHeld
        dsimp only
        have hmax : max ((a.notes.length : Int)) 1 = a.notes.length := by omega
        rw [hmax] at hn
        split_ifs <;> omega
    · exact ⟨h0, hn, hd⟩

theorem afterNoteInserted_spec (settings : Option ArpeggiatorSettings) (k : Int)
    (env : NoteOnEnv) (notesKey : Nat) (x : ArpNote) (a : Arpeggiator)
    (instruction : ArpReturnInstruction) (r : Arpeggiator × ArpReturnInstruction)
    (h : a.afterNoteInserted settings k env notesKey x instruction = some r) :
    r.1.notes = a.notes ∧ r.1.notesAsPlayed = a.notesAsPlayed
      ∧ (0 ≤ a.whichNoteCurrentlyOnPostArp
          → a.whichNoteCurrentlyOnPostArp < max (a.notes.length : Int) 1
          → (a.currentDirection = 1 ∨ a.currentDirection = -1)
          → (a.notes.length ≠ 1 → isArpActive settings = true
              → a.whichNoteCurrentlyOnPostArp + 1 < max (a.notes.length : Int) 1)
          → IndexOk r.1) := by
  unfold Arpeggiator.afterNoteInserted at h
  dsimp only at h
  cases settings with
  | none =>
    simp only [Option.some.injEq] at h
    subst h
    exact ⟨rfl, rfl, fun h0 hn hd _ => ⟨h0, hn, hd⟩⟩
  | some s =>
    dsimp only at h
    split_ifs at h with c1 c2 c3 c4
    · obtain ⟨e1, e2, _⟩ := switchNoteOn_spec _ _ _ _ _ _ h
      exact ⟨e1, e2, fun _ _ hd _ => switchNoteOn_indexOk _ _ _ _ _ _ h hd⟩
    · simp only [Option.some.injEq] at h
      subst h
      exact ⟨rfl, rfl, fun h0 hn hd _ => ⟨h0, hn, hd⟩⟩
    · simp only [Option.some.injEq] at h
      subst h
      refine ⟨rfl, rfl, fun h0 hn hd hb => ⟨?_, ?_, hd⟩⟩
      · show 0 ≤ a.whichNoteCurrentlyOnPostArp + 1
        omega
      · exact hb c2 (by simp [isArpActive, c1])
    · simp only [Option.some.injEq] at h
      subst h
      exact ⟨rfl, rfl, fun h0 hn hd _ => ⟨h0, hn, hd⟩⟩
    · simp only [Option.some.injEq] at h
      subst h
      exact ⟨rfl, rfl, fun h0 hn hd _ => ⟨h0, hn, hd⟩⟩

theorem afterNoteInserted_isSome (settings : Option ArpeggiatorSettings) (k : Int)
    (env : NoteOnEnv) (notesKey : Nat) (x : ArpNote) (a : Arpeggiator)
    (instruction : ArpReturnInstruction)
    (h0 : 0 ≤ a.whichNoteCurrentlyOnPostArp)
    (hn : a.whichNoteCurrentlyOnPostArp < max (a.notes.length : Int) 1)
    (hd : a.currentDirection = 1 ∨ a.currentDirection = -1)
    (hlen : a.notesAsPlayed.length = a.notes.length)
    (hK : ∀ s, settings = some s → 1 ≤ s.numOctaves) :
    ∃ r, a.afterNoteInserted settings k env notesKey x instruction = some r := by
  unfold Arpeggiator.afterNoteInserted
  dsimp only
  cases settings with
  | none => exact ⟨_, rfl⟩
  | some s =>
    dsimp only
    split_ifs with c1 c2 c3 c4
    · refine switchNoteOn_isSome _ _ _ _ _ ?_ h0 ?_ hd hlen (hK s rfl) ?_
      · show 1 ≤ a.notes.length
        omega
      · show a.whichNoteCurrentlyOnPostArp < (a.notes.length : Int)
        omega
      · show ¬ (s.noteMode = ArpNoteMode.RANDOM ∧ a.notes.length % 256 = 0)
        rw [c2]
        simp
    · exact ⟨_, rfl⟩
    · exact ⟨_, rfl⟩
    · exact ⟨_, rfl⟩
    · exact ⟨_, rfl⟩

theorem noteInserted_spec (settings : Option ArpeggiatorSettings) (k : Int)
    (fromMIDIChannel : Int) (env : NoteOnEnv) (notesKey : Nat)
    (arpNote arpNoteAsPlayed : Option Nat) (a : Arpeggiator)
    (instruction : ArpReturnInstruction) (r : Arpeggiator × ArpReturnInstruction)
    (h : a.noteInserted settings k fromMIDIChannel env notesKey arpNote arpNoteAsPlayed
      instruction = some r) :
    codes r.1.notes = codes a.notes ∧ codes r.1.notesAsPlayed = codes a.notesAsPlayed
      ∧ (0 ≤ a.whichNoteCurrentlyOnPostArp
          → a.whichNoteCurrentlyOnPostArp < max (a.notes.length : Int) 1
          → (a.currentDirection = 1 ∨ a.currentDirection = -1)
          → (a.notes.length ≠ 1 → isArpActive settings = true
              → a.whichNoteCurrentlyOnPostArp + 1 < max (a.notes.length : Int) 1)
          → IndexOk r.1) := by
  unfold Arpeggiator.noteInserted at h
  simp only [Option.bind_eq_some] at h
  obtain ⟨i, _, j, _, x, hx, y, hy, h5⟩ := h
  obtain ⟨e1, e2, e3⟩ := afterNoteInserted_spec _ _ _ _ _ _ _ _ h5
  refine ⟨?_, ?_, ?_⟩
  · rw [e1]
    exact codes_set_channel _ _ _ _ hx
  · rw [e2]
    exact codes_set_channel _ _ _ _ hy
  · intro h0 hn hd hb
    refine e3 h0 ?_ hd ?_
    · simpa using hn
    · simpa using hb

theorem noteInserted_isSome (settings : Option ArpeggiatorSettings) (k : Int)
    (fromMIDIChannel : Int) (env : NoteOnEnv) (notesKey : Nat) (i j : Nat) (a : Arpeggiator)
    (instruction : ArpReturnInstruction)
    (hi : i < a.notes.length) (hj : j < a.notesAsPlayed.length)
    (h0 : 0 ≤ a.whichNoteCurrentlyOnPostArp)
    (hn : a.whichNoteCurrentlyOnPostArp < max (a.notes.length : Int) 1)
    (hd : a.currentDirection = 1 ∨ a.currentDirection = -1)
    (hlen : a.notesAsPlayed.length = a.notes.length)
    (hK : ∀ s, settings = some s → 1 ≤ s.numOctaves) :
    ∃ r, a.noteInserted settings k fromMIDIChannel env notesKey (some i) (some j)
      instruction = some r := by
  unfold Arpeggiator.noteInserted
  simp only [Option.some_bind, List.getElem?_eq_getElem hi, List.getElem?_eq_getElem hj]
  refine afterNoteInserted_isSome _ _ _ _ _ _ _ h0 ?_ hd ?_ hK
  · simpa using hn
  · simpa using hlen

theorem fillSlot_noteCode (slot : ArpNote) (k velocity : Int) (mpeValues : List Int) :
    (fillSlot slot k velocity mpeValues).noteCode = k := rfl

theorem codes_append_singleton (xs : List ArpNote) (y : ArpNote) :
    codes (xs ++ [y]) = codes xs ++ [y.noteCode] := by
  simp [codes]

theorem insertNote_spec (settings : Option ArpeggiatorSettings) (k velocity : Int)
    (fromMIDIChannel : Int) (mpeValues : List Int) (env : NoteOnEnv) (a : Arpeggiator)
    (instruction : ArpReturnInstruction) (r : Arpeggiator × ArpReturnInstruction)
    (h : a.insertNote settings k velocity fromMIDIChannel mpeValues env (search a.notes k)
      instruction = some r) :
    ((codes a.notes).Pairwise (· < ·) → k ∉ codes a.notes
        → (codes r.1.notes).Pairwise (· < ·))
      ∧ (env.notesAllocationOk = true → env.notesAsPlayedAllocationOk = true
          → (codes a.notes).Perm (codes a.notesAsPlayed)
          → (codes r.1.notes).Perm (codes r.1.notesAsPlayed))
      ∧ (IndexOk a → IndexOk r.1) := by
  have hkey := search_le_length a.notes k
  unfold Arpeggiator.insertNote insertAtIndex at h
  dsimp only at h
  by_cases c1 : env.notesAllocationOk = true
  · simp only [c1, if_true] at h
    rw [set_insert _ _ _ _ hkey] at h
    have hsorted : (codes a.notes).Pairwise (· < ·) → k ∉ codes a.notes
        → (codes (a.notes.take (search a.notes k)
            ++ fillSlot env.notesSlot k velocity mpeValues
              :: a.notes.drop (search a.notes k))).Pairwise (· < ·) := by
      intro hs hk
      have := codes_insert_sorted a.notes (fillSlot env.notesSlot k velocity mpeValues) hs
        (by rw [fillSlot_noteCode]; exact hk)
      rw [fillSlot_noteCode] at this
      exact this
    have hlen1 : (a.notes.take (search a.notes k)
        ++ fillSlot env.notesSlot k velocity mpeValues
          :: a.notes.drop (search a.notes k)).length = a.notes.length + 1 := by
      simp
      omega
    by_cases c2 : env.notesAsPlayedAllocationOk = true
    · simp only [c2, if_true] at h
      rw [set_insert _ _ _ _ (le_refl _)] at h
      simp only [List.take_length, List.drop_length] at h
      obtain ⟨e1, e2, e3⟩ := noteInserted_spec _ _ _ _ _ _ _ _ _ _ h
      dsimp only at e1 e2 e3
      refine ⟨fun hs hk => ?_, fun _ _ hp => ?_, fun hi => ?_⟩
      · rw [e1]
        exact hsorted hs hk
      · rw [e1, e2, codes_append_singleton, fillSlot_noteCode]
        have p1 := codes_insert_perm a.notes (fillSlot env.notesSlot k velocity mpeValues)
          (search a.notes k)
        rw [fillSlot_noteCode] at p1
        refine p1.trans ?_
        refine (List.Perm.cons k hp).trans ?_
        exact (List.perm_append_singleton k (codes a.notesAsPlayed)).symm
      · obtain ⟨h0, hn, hd⟩ := hi
        refine e3 h0 ?_ hd ?_
        · rw [hlen1]; omega
        · intro hne _
          rw [hlen1] at hne ⊢
          omega
    · simp only [c2] at h
      simp only [Bool.false_eq_true, if_false, Option.some.injEq] at h
      subst h
      refine ⟨fun hs hk => hsorted hs hk, fun _ hc => absurd hc c2, fun hi => ?_⟩
      obtain ⟨h0, hn, hd⟩ := hi
      refine ⟨h0, ?_, hd⟩
      show a.whichNoteCurrentlyOnPostArp < max _ 1
      rw [hlen1]
      omega
  · simp only [c1] at h
    simp only [Bool.false_eq_true, if_false, Option.some.injEq] at h
    subst h
    exact ⟨fun hs _ => hs, fun hc => absurd hc c1, id⟩

theorem noteExists_eq_false (a : Arpeggiator) (k : Int) (notesKey : Nat)
    (h : a.noteExists k notesKey = false) :
    (∀ y, a.notes[notesKey]? = some y → y.noteCode ≠ k)
      ∧ findAsPlayed a.notesAsPlayed k = none := by
  unfold Arpeggiator.noteExists at h
  simp only [Bool.or_eq_false_iff] at h
  obtain ⟨h1, h2⟩ := h
  refine ⟨fun y hy => ?_, ?_⟩
  · rw [hy] at h1
    simpa using h1
  · cases hf : findAsPlayed a.notesAsPlayed k with
    | none => rfl
    | some j => rw [hf] at h2; simp at h2

theorem noteOnSearch_spec (settings : Option ArpeggiatorSettings) (k velocity : Int)
    (fromMIDIChannel : Int) (mpeValues : List Int) (env : NoteOnEnv) (a : Arpeggiator)
    (instruction : ArpReturnInstruction) (r : Arpeggiator × ArpReturnInstruction)
    (h : a.noteOnSearch settings k velocity fromMIDIChannel mpeValues env instruction = some r) :
    ((codes a.notes).Pairwise (· < ·) → (codes r.1.notes).Pairwise (· < ·))
      ∧ (env.notesAllocationOk = true → env.notesAsPlayedAllocationOk = true
          → (codes a.notes).Perm (codes a.notesAsPlayed)
          → (codes r.1.notes).Perm (codes r.1.notesAsPlayed))
      ∧ (IndexOk a → IndexOk r.1) := by
  unfold Arpeggiator.noteOnSearch at h
  dsimp only at h
  by_cases c1 : a.noteExists k (search a.notes k) = true
  · rw [if_pos c1] at h
    by_cases c2 : isArpActive settings = true
    · rw [if_pos c2] at h
      simp only [Option.some.injEq] at h
      subst h
      exact ⟨id, fun _ _ hp => hp, id⟩
    · rw [if_neg c2] at h
      obtain ⟨e1, e2, e3⟩ := noteInserted_spec _ _ _ _ _ _ _ _ _ _ h
      refine ⟨fun hs => by rw [e1]; exact hs, fun _ _ hp => by rw [e1, e2]; exact hp,
        fun hi => e3 hi.1 hi.2.1 hi.2.2 (fun _ hact => absurd hact c2)⟩
  · rw [if_neg c1] at h
    obtain ⟨n1, _⟩ := noteExists_eq_false _ _ _ (by simpa using c1)
    obtain ⟨e1, e2, e3⟩ := insertNote_spec _ _ _ _ _ _ _ _ _ h
    exact ⟨fun hs => e1 hs (search_not_mem_sorted _ _ hs n1), e2, e3⟩

theorem noteOn_spec (settings : Option ArpeggiatorSettings) (k velocity : Int)
    (fromMIDIChannel : Int) (mpeValues : List Int) (env : NoteOnEnv) (a : Arpeggiator)
    (instruction : ArpReturnInstruction) (r : Arpeggiator × ArpReturnInstruction)
    (h : a.noteOn settings k velocity fromMIDIChannel mpeValues env instruction = some r) :
    ((codes a.notes).Pairwise (· < ·) → (codes r.1.notes).Pairwise (· < ·))
      ∧ (env.notesAllocationOk = true → env.notesAsPlayedAllocationOk = true
          → (codes a.notes).Perm (codes a.notesAsPlayed)
          → (codes r.1.notes).Perm (codes r.1.notesAsPlayed))
      ∧ (IndexOk a → IndexOk r.1) :=
  noteOnSearch_spec settings k velocity fromMIDIChannel mpeValues env
    { a with lastVelocity := velocity } instruction r h

theorem noteOnSearch_isSome (settings : Option ArpeggiatorSettings) (k velocity : Int)
    (fromMIDIChannel : Int) (mpeValues : List Int) (env : NoteOnEnv) (a : Arpeggiator)
    (instruction : ArpReturnInstruction)
    (hs : (codes a.notes).Pairwise (· < ·))
    (hp : (codes a.notes).Perm (codes a.notesAsPlayed))
    (hi : IndexOk a)
    (ha1 : env.notesAllocationOk = true) (ha2 : env.notesAsPlayedAllocationOk = true)
    (hK : ∀ s, settings = some s → 1 ≤ s.numOctaves) :
    ∃ r, a.noteOnSearch settings k velocity fromMIDIChannel mpeValues env instruction
      = some r := by
  obtain ⟨h0, hn, hd⟩ := hi
  have hlen : a.notesAsPlayed.length = a.notes.length := by
    have := hp.length_eq
    simpa [codes] using this.symm
  have hkey := search_le_length a.notes k
  unfold Arpeggiator.noteOnSearch
  dsimp only
  by_cases c1 : a.noteExists k (search a.notes k) = true
  · rw [if_pos c1]
    by_cases c2 : isArpActive settings = true
    · rw [if_pos c2]
      exact ⟨_, rfl⟩
    · rw [if_neg c2]
      have hk : k ∈ codes a.notes ∧ k ∈ codes a.notesAsPlayed := by
        unfold Arpeggiator.noteExists at c1
        simp only [Bool.or_eq_true] at c1
        rcases c1 with c | c
        · have hm : k ∈ codes a.notes := by
            split at c
            · rename_i x hx
              have hx' : x.noteCode = k := by simpa using c
              rw [← hx']
              exact List.mem_map_of_mem _ (List.getElem?_mem hx)
            · simp at c
          exact ⟨hm, hp.subset hm⟩
        · have hm : k ∈ codes a.notesAsPlayed := by
            by_contra hc
            rw [(findAsPlayed_eq_none _ _).mpr hc] at c
            simp at c
          exact ⟨hp.symm.subset hm, hm⟩
      obtain ⟨y, hy, _⟩ := search_of_mem_sorted _ _ hs hk.1
      have hlt : search a.notes k < a.notes.length := by
        by_contra hge
        rw [List.getElem?_eq_none (by omega)] at hy
        exact absurd hy (by simp)
      cases hf : findAsPlayed a.notesAsPlayed k with
      | none => exact absurd hk.2 ((findAsPlayed_eq_none _ _).mp hf)
      | some j =>
        obtain ⟨z, hz, _⟩ := findAsPlayed_eq_some _ _ _ hf
        have hj : j < a.notesAsPlayed.length := by
          by_contra hge
          rw [List.getElem?_eq_none (by omega)] at hz
          exact absurd hz (by simp)
        rw [if_pos hlt]
        exact noteInserted_isSome _ _ _ _ _ _ _ _ _ hlt hj h0 hn hd hlen hK
  · rw [if_neg c1]
    unfold Arpeggiator.insertNote insertAtIndex
    dsimp only
    simp only [ha1, ha2, if_true]
    rw [set_insert _ _ _ _ hkey, set_insert _ _ _ _ (le_refl _)]
    refine noteInserted_isSome _ _ _ _ _ _ _ _ _ ?_ ?_ h0 ?_ hd ?_ hK
    · simp; omega
    · simp
    · simp
      omega
    · simp
      omega

theorem noteOn_isSome (settings : Option ArpeggiatorSettings) (k velocity : Int)
    (fromMIDIChannel : Int) (mpeValues : List Int) (env : NoteOnEnv) (a : Arpeggiator)
    (instruction : ArpReturnInstruction)
    (hs : (codes a.notes).Pairwise (· < ·))
    (hp : (codes a.notes).Perm (codes a.notesAsPlayed))
    (hi : IndexOk a)
    (ha1 : env.notesAllocationOk = true) (ha2 : env.notesAsPlayedAllocationOk = true)
    (hK : ∀ s, settings = some s → 1 ≤ s.numOctaves) :
    ∃ r, a.noteOn settings k velocity fromMIDIChannel mpeValues env instruction = some r :=
  noteOnSearch_isSome settings k velocity fromMIDIChannel mpeValues env
    { a with lastVelocity := velocity } instruction hs hp hi ha1 ha2 hK

theorem call_spec (a : Arpeggiator) (instruction : ArpReturnInstruction) (e : Event)
    (r : Arpeggiator × ArpReturnInstruction) (h : a.call instruction e = some r) :
    ((codes a.notes).Pairwise (· < ·) → (codes r.1.notes).Pairwise (· < ·))
      ∧ (e.allocationsSucceed = true → (codes a.notes).Perm (codes a.notesAsPlayed)
          → (codes r.1.notes).Perm (codes r.1.notesAsPlayed))
      ∧ (IndexOk a → IndexOk r.1) := by
  cases e with
  | noteOn settings k velocity ch mpe env =>
    obtain ⟨e1, e2, e3⟩ := noteOn_spec _ _ _ _ _ _ _ _ _ h
    refine ⟨e1, fun ha => ?_, e3⟩
    simp only [Event.allocationsSucceed, Bool.and_eq_true] at ha
    exact e2 ha.1 ha.2
  | noteOff settings k clockActive =>
    simp only [Arpeggiator.call, Option.some.injEq] at h
    subst h
    exact ⟨noteOff_sorted _ _ _ _ _, fun _ => noteOff_perm _ _ _ _ _, noteOff_indexOk _ _ _ _ _⟩
  | render settings numSamples gateThreshold phaseIncrement sequenceLength ratchAmount ratchProb
      clockActive rn ro =>
    obtain ⟨e1, e2, e3⟩ := render_spec _ _ _ _ _ _ _ _ _ _ _ _ _ h
    exact ⟨fun hs => by rw [e1]; exact hs, fun _ hp => by rw [e1, e2]; exact hp, e3⟩
  | doTickForward settings pos reversed clockActive rc rm rn ro =>
    simp only [Arpeggiator.call, Option.map_eq_some'] at h
    obtain ⟨t, ht, rfl⟩ := h
    obtain ⟨e1, e2, e3⟩ := doTickForward_spec _ _ _ _ _ _ _ _ _ _ _ ht
    exact ⟨fun hs => by rw [e1]; exact hs, fun _ hp => by rw [e1, e2]; exact hp, e3⟩
  | setRatchetingAvailable available =>
    simp only [Arpeggiator.call, Option.some.injEq] at h
    subst h
    exact ⟨id, fun _ hp => hp, id⟩

theorem run_spec (evs : List Event) (a a' : Arpeggiator) (h : a.run evs = some a') :
    ((codes a.notes).Pairwise (· < ·) → (codes a'.notes).Pairwise (· < ·))
      ∧ ((∀ e ∈ evs, e.allocationsSucceed = true) → (codes a.notes).Perm (codes a.notesAsPlayed)
          → (codes a'.notes).Perm (codes a'.notesAsPlayed))
      ∧ (IndexOk a → IndexOk a') := by
  induction evs generalizing a with
  | nil =>
    simp only [Arpeggiator.run, Option.some.injEq] at h
    subst h
    exact ⟨id, fun _ hp => hp, id⟩
  | cons e es ih =>
    unfold Arpeggiator.run at h
    split at h
    · exact absurd h (by simp)
    · rename_i r hr
      obtain ⟨c1, c2, c3⟩ := call_spec _ _ _ _ hr
      obtain ⟨i1, i2, i3⟩ := ih r.1 h
      refine ⟨fun hs => i1 (c1 hs), fun ha hp => ?_, fun hi => i3 (c3 hi)⟩
      exact i2 (fun e' he' => ha e' (List.mem_cons_of_mem _ he'))
        (c2 (ha e (List.mem_cons_self _ _)) hp)

theorem call_isSome_of_noteCall (a : Arpeggiator) (instruction : ArpReturnInstruction)
    (e : Event)
    (hs : (codes a.notes).Pairwise (· < ·))
    (hp : (codes a.notes).Perm (codes a.notesAsPlayed))
    (hi : IndexOk a)
    (h1 : e.isNoteCall = true) (h2 : e.allocationsSucceed = true)
    (h3 : e.octavesPositive = true) :
    ∃ r, a.call instruction e = some r := by
  cases e with
  | noteOn settings k velocity ch mpe env =>
    simp only [Event.allocationsSucceed, Bool.and_eq_true] at h2
    refine noteOn_isSome _ _ _ _ _ _ _ _ hs hp hi h2.1 h2.2 ?_
    intro s hs'
    subst hs'
    simpa [Event.octavesPositive] using h3
  | noteOff settings k clockActive => exact ⟨_, rfl⟩
  | render settings numSamples gateThreshold phaseIncrement sequenceLength ratchAmount ratchProb
      clockActive rn ro => simp [Event.isNoteCall] at h1
  | doTickForward settings pos reversed clockActive rc rm rn ro =>
    simp [Event.isNoteCall] at h1
  | setRatchetingAvailable available => simp [Event.isNoteCall] at h1

theorem run_isSome_of_noteCalls (evs : List Event) (a : Arpeggiator)
    (hs : (codes a.notes).Pairwise (· < ·))
    (hp : (codes a.notes).Perm (codes a.notesAsPlayed))
    (hi : IndexOk a)
    (h : ∀ e ∈ evs, e.isNoteCall = true ∧ e.allocationsSucceed = true
      ∧ e.octavesPositive = true) :
    ∃ a', a.run evs = some a' := by
  induction evs generalizing a with
  | nil => exact ⟨a, rfl⟩
  | cons e es ih =>
    obtain ⟨h1, h2, h3⟩ := h e (List.mem_cons_self _ _)
    obtain ⟨r, hr⟩ := call_isSome_of_noteCall a ArpReturnInstruction.fresh e hs hp hi h1 h2 h3
    obtain ⟨c1, c2, c3⟩ := call_spec _ _ _ _ hr
    obtain ⟨a', ha'⟩ := ih r.1 (c1 hs) (c2 h2 hp) (c3 hi)
      (fun e' he' => h e' (List.mem_cons_of_mem _ he'))
    exact ⟨a', by simp only [Arpeggiator.run, hr]; exact ha'⟩

theorem initial_invariants :
    (codes Arpeggiator.initial.notes).Pairwise (· < ·)
      ∧ (codes Arpeggiator.initial.notes).Perm (codes Arpeggiator.initial.notesAsPlayed)
      ∧ IndexOk Arpeggiator.initial := by
  refine ⟨?_, ?_, ?_⟩
  · simp [Arpeggiator.initial, codes]
  · simp [Arpeggiator.initial, codes]
  · simp [Arpeggiator.initial, IndexOk]

/-- C4: dual-collection consistency. Starting from the empty engine, after every sequence of
calls in which every collection insertion succeeds (note-on and note-off with any identities
and any settings, arpeggiator on or off; render and tick calls may be interleaved) the sorted
collection and the insertion-order collection hold the same multiset of note identities. The
statement covers every prefix of a sequence, that is, the state after each call. A sequence of
note-on and note-off calls whose settings have at least one octave always has a result. -/
theorem notes_same_identities (evs : List Event)
    (halloc : ∀ e ∈ evs, e.allocationsSucceed = true) :
    (∀ a, Arpeggiator.initial.run evs = some a
        → (codes a.notes).Perm (codes a.notesAsPlayed))
      ∧ ((∀ e ∈ evs, e.isNoteCall = true ∧ e.octavesPositive = true)
        → ∃ a, Arpeggiator.initial.run evs = some a) := by
  obtain ⟨i1, i2, i3⟩ := initial_invariants
  refine ⟨fun a h => (run_spec evs _ a h).2.1 halloc i2, fun hc => ?_⟩
  exact run_isSome_of_noteCalls evs _ i1 i2 i3
    (fun e he => ⟨(hc e he).1, halloc e he, (hc e he).2⟩)

/-- C5: sorted-order invariant. Starting from the empty engine, after every sequence of calls
(note-on and note-off with any identities and settings; render and tick calls may be
interleaved; insertions may fail) the sorted collection is strictly ascending by note identity,
so it holds no identity twice. The statement covers every prefix of a sequence, that is, the
state after each call. A sequence of note-on and note-off calls whose insertions succeed and
whose settings have at least one octave always has a result. -/
theorem notes_strictly_ascending (evs : List Event) :
    (∀ a, Arpeggiator.initial.run evs = some a → (codes a.notes).Pairwise (· < ·))
      ∧ ((∀ e ∈ evs, e.isNoteCall = true ∧ e.allocationsSucceed = true
            ∧ e.octavesPositive = true)
        → ∃ a, Arpeggiator.initial.run evs = some a) := by
  obtain ⟨i1, i2, i3⟩ := initial_invariants
  exact ⟨fun a h => (run_spec evs _ a h).1 i1, run_isSome_of_noteCalls evs _ i1 i2 i3⟩

theorem exampleAfterCalls_codes :
    codes exampleAfterCalls.notes = [60, 67]
      ∧ codes exampleAfterCalls.notesAsPlayed = [60, 67]
      ∧ exampleAfterCalls.whichNoteCurrentlyOnPostArp = 0 := by
  decide

theorem notes_same_identities_witness :
    (∀ e ∈ exampleCalls, e.allocationsSucceed = true)
      ∧ (codes exampleAfterCalls.notes).Perm (codes exampleAfterCalls.notesAsPlayed) :=
  ⟨by decide, (notes_same_identities exampleCalls (by decide)).1 exampleAfterCalls (by decide)⟩

theorem notes_strictly_ascending_witness :
    Arpeggiator.initial.run exampleCalls = some exampleAfterCalls
      ∧ (codes exampleAfterCalls.notes).Pairwise (· < ·) :=
  ⟨by decide, (notes_strictly_ascending exampleCalls).1 exampleAfterCalls (by decide)⟩

theorem finishSwitchNoteOn_read (settings : ArpeggiatorSettings) (a : Arpeggiator)
    (instruction : ArpReturnInstruction) (r : Arpeggiator × ArpReturnInstruction)
    (h : a.finishSwitchNoteOn settings instruction = some r) :
    ∃ x, (if settings.noteMode = ArpNoteMode.AS_PLAYED then a.notesAsPlayed else a.notes)[
          a.whichNoteCurrentlyOnPostArp.toNat]? = some x
      ∧ r.2.arpNoteOn = some x
      ∧ r.2.noteCodeOnPostArp = x.noteCode + a.currentOctave * 12
      ∧ r.1.currentOctave = a.currentOctave := by
  unfold Arpeggiator.finishSwitchNoteOn at h
  simp only [bind, Option.bind_eq_some, pure] at h
  by_cases hm : settings.noteMode = ArpNoteMode.AS_PLAYED
  · simp only [hm, if_true] at h ⊢
    split_ifs at h with c c1 <;>
      (simp only [Option.bind_eq_some] at h
       obtain ⟨x, hx, hr⟩ := h
       have h0 : 0 ≤ a.whichNoteCurrentlyOnPostArp := by omega
       simp only [getElement, h0, if_true] at hx
       simp only [Option.some.injEq] at hr; subst hr
       exact ⟨x, hx, rfl, rfl, rfl⟩)
  · simp only [hm, if_false] at h ⊢
    split_ifs at h with c c1 <;>
      (simp only [Option.bind_eq_some] at h
       obtain ⟨x, hx, hr⟩ := h
       have h0 : 0 ≤ a.whichNoteCurrentlyOnPostArp := by omega
       simp only [getElement, h0, if_true] at hx
       simp only [Option.some.injEq] at hr; subst hr
       exact ⟨x, hx, rfl, rfl, rfl⟩)

theorem switchNoteOn_read (settings : ArpeggiatorSettings) (rn ro : Nat) (a : Arpeggiator)
    (instruction : ArpReturnInstruction) (r : Arpeggiator × ArpReturnInstruction)
    (h : a.switchNoteOn settings rn ro instruction = some r) :
    ∃ x, (if settings.noteMode = ArpNoteMode.AS_PLAYED then a.notesAsPlayed else a.notes)[
          r.1.whichNoteCurrentlyOnPostArp.toNat]? = some x
      ∧ r.2.arpNoteOn = some x
      ∧ r.2.noteCodeOnPostArp = x.noteCode + r.1.currentOctave * 12 := by
  have hspec := switchNoteOn_spec _ _ _ _ _ _ h
  unfold Arpeggiator.switchNoteOn at h
  dsimp only at h
  simp only [Option.bind_eq_some] at h
  obtain ⟨a2, h1, h2⟩ := h
  obtain ⟨f1, f2, f3, _⟩ := finishSwitchNoteOn_spec _ _ _ _ h2
  obtain ⟨x, g1, g2, g3, g4⟩ := finishSwitchNoteOn_read _ _ _ _ h2
  refine ⟨x, ?_, g2, by rw [g3, g4]⟩
  rw [f3, ← hspec.1, ← hspec.2.1, f1, f2]
  exact g1

/-- C6, the code at the failing input: the element that a step advance reads does not always
exist. 60 is pressed, then 64 while the insertion into the insertion-order collection fails:
`noteOn` returns early (line 209) and leaves the note in the sorted collection only, where the
comment at line 185 says that the note goes into both collections. Two notes are then held in
the sorted collection and the sounding index 0 is within bounds, but the next step advance (a
tick at a period boundary, note mode AS_PLAYED) moves the index to 1 and reads element 1 of the
insertion-order collection, which has one element only: the read element does not exist and the
call has no result. -/
theorem sounding_index_counterexample :
    (Arpeggiator.initial.run failedInsertionCalls).map
        (fun a => (a.notes.length, a.notesAsPlayed.length, a.whichNoteCurrentlyOnPostArp))
      = some (2, 1, 0)
    ∧ Arpeggiator.initial.run (failedInsertionCalls ++ [boundaryTick]) = none := by
  decide

/-- Where the sounding index is in bounds. Starting from the initial melodic engine state, after
every sequence of note-on, note-off, render and tick calls under any settings (insertions may
fail) the sounding index is at least 0 and below max(n, 1): below n whenever n >= 1 notes are
held. When every collection insertion has succeeded, both collections hold n notes, and a step
advance entered with these held notes, this index and this note direction - whatever the gate,
ratchet and sequence fields are - with n >= 1, numOctaves >= 1 and not (note mode RANDOM and n
a multiple of 256) returns: `E404` does not fire, the index it leaves is in [0, n) and the
element read at that index exists. -/
theorem sounding_index_in_bounds (evs : List Event) (a : Arpeggiator)
    (h : Arpeggiator.initial.run evs = some a) :
    (0 ≤ a.whichNoteCurrentlyOnPostArp
        ∧ a.whichNoteCurrentlyOnPostArp < max (a.notes.length : Int) 1)
      ∧ ((∀ e ∈ evs, e.allocationsSucceed = true)
        → a.notesAsPlayed.length = a.notes.length
          ∧ ∀ (a2 : Arpeggiator) (settings : ArpeggiatorSettings) (rn ro : Nat)
              (instruction : ArpReturnInstruction),
            a2.notes = a.notes → a2.notesAsPlayed = a.notesAsPlayed
            → a2.whichNoteCurrentlyOnPostArp = a.whichNoteCurrentlyOnPostArp
            → a2.currentDirection = a.currentDirection
            → 1 ≤ a.notes.length → 1 ≤ settings.numOctaves
            → ¬ (settings.noteMode = ArpNoteMode.RANDOM ∧ a.notes.length % 256 = 0)
            → ∃ r x, a2.switchNoteOn settings rn ro instruction = some r
                ∧ 0 ≤ r.1.whichNoteCurrentlyOnPostArp
                ∧ r.1.whichNoteCurrentlyOnPostArp < (a.notes.length : Int)
                ∧ (if settings.noteMode = ArpNoteMode.AS_PLAYED then a.notesAsPlayed
                    else a.notes)[r.1.whichNoteCurrentlyOnPostArp.toNat]? = some x
                ∧ r.2.arpNoteOn = some x) := by
  obtain ⟨i1, i2, i3⟩ := initial_invariants
  obtain ⟨_, s2, s3⟩ := run_spec evs _ a h
  obtain ⟨h0, hn, hd⟩ := s3 i3
  refine ⟨⟨h0, hn⟩, fun halloc => ?_⟩
  have hlen : a.notesAsPlayed.length = a.notes.length := by
    have := (s2 halloc i2).length_eq
    simpa [codes] using this.symm
  refine ⟨hlen, ?_⟩
  intro a2 settings rn ro instruction e1 e2 e3 e4 hpos hK hr
  obtain ⟨r, hr'⟩ := switchNoteOn_isSome settings rn ro a2 instruction
    (by rw [e1]; exact hpos) (by rw [e3]; exact h0) (by rw [e3, e1]; omega)
    (by rw [e4]; exact hd) (by rw [e1, e2]; exact hlen) hK (by rw [e1]; exact hr)
  obtain ⟨_, _, g3, g4, _⟩ := switchNoteOn_spec _ _ _ _ _ _ hr'
  obtain ⟨x, k1, k2, _⟩ := switchNoteOn_read _ _ _ _ _ _ hr'
  refine ⟨r, x, hr', g3, by rw [← e1]; exact g4, ?_, k2⟩
  rw [← e1, ← e2]
  exact k1

theorem sounding_index_in_bounds_witness :
    (0 ≤ exampleAfterCalls.whichNoteCurrentlyOnPostArp
        ∧ exampleAfterCalls.whichNoteCurrentlyOnPostArp
            < max (exampleAfterCalls.notes.length : Int) 1)
      ∧ ((∀ e ∈ exampleCalls, e.allocationsSucceed = true)
        → exampleAfterCalls.notesAsPlayed.length = exampleAfterCalls.notes.length
          ∧ ∀ (a2 : Arpeggiator) (settings : ArpeggiatorSettings) (rn ro : Nat)
              (instruction : ArpReturnInstruction),
            a2.notes = exampleAfterCalls.notes
            → a2.notesAsPlayed = exampleAfterCalls.notesAsPlayed
            → a2.whichNoteCurrentlyOnPostArp = exampleAfterCalls.whichNoteCurrentlyOnPostArp
            → a2.currentDirection = exampleAfterCalls.currentDirection
            → 1 ≤ exampleAfterCalls.notes.length → 1 ≤ settings.numOctaves
            → ¬ (settings.noteMode = ArpNoteMode.RANDOM
                ∧ exampleAfterCalls.notes.length % 256 = 0)
            → ∃ r x, a2.switchNoteOn settings rn ro instruction = some r
                ∧ 0 ≤ r.1.whichNoteCurrentlyOnPostArp
                ∧ r.1.whichNoteCurrentlyOnPostArp < (exampleAfterCalls.notes.length : Int)
                ∧ (if settings.noteMode = ArpNoteMode.AS_PLAYED then
                      exampleAfterCalls.notesAsPlayed
                    else exampleAfterCalls.notes)[r.1.whichNoteCurrentlyOnPostArp.toNat]?
                    = some x
                ∧ r.2.arpNoteOn = some x) :=
  sounding_index_in_bounds exampleCalls exampleAfterCalls (by decide)

theorem search_getElem_ne_of_not_mem (xs : List ArpNote) (k : Int)
    (h : ∀ x ∈ xs, x.noteCode ≠ k) (y : ArpNote) (hy : xs[search xs k]? = some y) :
    y.noteCode ≠ k :=
  h y (List.getElem?_mem hy)

/-- C7, counterexample to the claim as stated: after the calls above no note is held and a
ratchet is set up (multiplier 1, two subdivisions); a note-off for 61, which is not held, then
clears the ratchet, so the engine state is not left unchanged. -/
theorem noteOff_not_held_counterexample :
    (Arpeggiator.initial.run ratchetWithoutNotesCalls).map
        (fun a => (a.notes.length, a.isRatcheting, a.ratchetNotesMultiplier,
          a.ratchetNotesNumber))
      = some (0, true, 1, 2)
    ∧ (Arpeggiator.initial.run ratchetWithoutNotesCalls).map
        (fun a =>
          ((a.noteOff none 61 true ArpReturnInstruction.fresh).1.isRatcheting,
            (a.noteOff none 61 true ArpReturnInstruction.fresh).1.ratchetNotesMultiplier,
            (a.noteOff none 61 true ArpReturnInstruction.fresh).1.ratchetNotesNumber,
            decide ((a.noteOff none 61 true ArpReturnInstruction.fresh).1 = a)))
      = some (false, 0, 0, false) := by
  decide

/-- C7, amended. In every state of the melodic engine, a note-off for an identity that is not
held adds nothing to the instruction; it leaves the whole engine state unchanged while a note
is held, and while no note is held it leaves everything unchanged except the ratchet state,
which it clears (`resetRatchet`). -/
theorem noteOff_not_held (settings : Option ArpeggiatorSettings) (k : Int) (clockActive : Bool)
    (a : Arpeggiator) (instruction : ArpReturnInstruction)
    (h : ∀ x ∈ a.notes, x.noteCode ≠ k) :
    (a.noteOff settings k clockActive instruction).2 = instruction
      ∧ (1 ≤ a.notes.length → (a.noteOff settings k clockActive instruction).1 = a)
      ∧ (a.notes.length = 0 → (a.noteOff settings k clockActive instruction).1
          = { a with toArpeggiatorBase := resetRatchet a.toArpeggiatorBase }) := by
  have key : a.noteOff settings k clockActive instruction
      = (a.resetRatchetIfEmpty, instruction) := by
    unfold Arpeggiator.noteOff
    dsimp only
    split
    · rfl
    · rename_i y hy
      rw [if_neg (search_getElem_ne_of_not_mem _ _ h y hy)]
  rw [key]
  refine ⟨rfl, fun hpos => ?_, fun hzero => ?_⟩
  · show a.resetRatchetIfEmpty = a
    unfold Arpeggiator.resetRatchetIfEmpty
    rw [if_neg (by omega)]
  · show a.resetRatchetIfEmpty = _
    unfold Arpeggiator.resetRatchetIfEmpty
    rw [if_pos hzero]

theorem noteOff_not_held_witness :
    (∀ x ∈ (heldEngine [60, 64, 67] [60, 64, 67]).notes, x.noteCode ≠ 61)
      ∧ ((heldEngine [60, 64, 67] [60, 64, 67]).noteOff none 61 false
          ArpReturnInstruction.fresh).2 = ArpReturnInstruction.fresh
      ∧ (1 ≤ (heldEngine [60, 64, 67] [60, 64, 67]).notes.length
        → ((heldEngine [60, 64, 67] [60, 64, 67]).noteOff none 61 false
            ArpReturnInstruction.fresh).1 = heldEngine [60, 64, 67] [60, 64, 67])
      ∧ ((heldEngine [60, 64, 67] [60, 64, 67]).notes.length = 0
        → ((heldEngine [60, 64, 67] [60, 64, 67]).noteOff none 61 false
            ArpReturnInstruction.fresh).1
          = { heldEngine [60, 64, 67] [60, 64, 67] with
              toArpeggiatorBase :=
                resetRatchet (heldEngine [60, 64, 67] [60, 64, 67]).toArpeggiatorBase }) :=
  ⟨by decide, noteOff_not_held none 61 false (heldEngine [60, 64, 67] [60, 64, 67])
    ArpReturnInstruction.fresh (by decide)⟩

/-- C8, the code at the failing input: on the engine that holds 60, a note-on for 64 whose
insertion into the sorted collection succeeds and whose insertion into the insertion-order
collection fails emits no instruction, yet leaves 64 in the sorted collection: the sorted
collection holds 60 and 64, the insertion-order collection only 60. -/
theorem noteOn_second_insertion_fails :
    ((heldEngine [60] [60]).noteOn
        (some (exampleSettings ArpNoteMode.UP ArpOctaveMode.UP 2)) 64 100 0 [0, 0, 0]
        { exampleEnv with notesAsPlayedAllocationOk := false } ArpReturnInstruction.fresh).map
      (fun r => (codes r.1.notes, codes r.1.notesAsPlayed, r.2))
      = some ([60, 64], [60], ArpReturnInstruction.fresh) := by
  decide

theorem noteOn_first_insertion_fails (settings : Option ArpeggiatorSettings)
    (k velocity : Int) (fromMIDIChannel : Int) (mpeValues : List Int) (env : NoteOnEnv)
    (a : Arpeggiator) (instruction : ArpReturnInstruction)
    (hnew : a.noteExists k (search a.notes k) = false)
    (hfail : env.notesAllocationOk = false) :
    a.noteOn settings k velocity fromMIDIChannel mpeValues env instruction
      = some ({ a with lastVelocity := velocity }, instruction) := by
  unfold Arpeggiator.noteOn Arpeggiator.noteOnSearch
  dsimp only
  have hnew' : Arpeggiator.noteExists { a with lastVelocity := velocity } k (search a.notes k)
      = false := hnew
  rw [hnew']
  simp [Arpeggiator.insertNote, insertAtIndex, hfail]

theorem search_of_getElem_sorted (xs : List ArpNote) (p : Nat) (x : ArpNote)
    (hs : (codes xs).Pairwise (· < ·)) (hx : xs[p]? = some x) :
    search xs x.noteCode = p := by
  induction xs generalizing p with
  | nil => simp at hx
  | cons z zs ih =>
    simp only [codes, List.map_cons, List.pairwise_cons] at hs
    unfold search
    cases p with
    | zero =>
      simp at hx
      subst hx
      simp
    | succ p =>
      simp at hx
      have hlt : z.noteCode < x.noteCode :=
        hs.1 _ (List.mem_map_of_mem _ (List.getElem?_mem hx))
      rw [if_neg (by omega), ih p hs.2 hx]

/-- C9: duplicate note-on while active. For an identity that is already held (the sorted
collection is strictly ascending and holds it) with the arpeggiator active, `noteOn` returns,
emits no instruction and changes nothing but `lastVelocity`: both collections (membership and
order), the sounding index, the gate flag and the octave, direction and ratchet state are as
before. -/
theorem noteOn_duplicate_active (settings : ArpeggiatorSettings) (k velocity : Int)
    (fromMIDIChannel : Int) (mpeValues : List Int) (env : NoteOnEnv) (a : Arpeggiator)
    (instruction : ArpReturnInstruction)
    (hactive : settings.mode ≠ ArpMode.OFF)
    (hs : (codes a.notes).Pairwise (· < ·)) (hk : k ∈ codes a.notes) :
    a.noteOn (some settings) k velocity fromMIDIChannel mpeValues env instruction
      = some ({ a with lastVelocity := velocity }, instruction) := by
  obtain ⟨y, hy, hyk⟩ := search_of_mem_sorted _ _ hs hk
  unfold Arpeggiator.noteOn Arpeggiator.noteOnSearch
  dsimp only
  have hex : Arpeggiator.noteExists { a with lastVelocity := velocity } k (search a.notes k)
      = true := by
    unfold Arpeggiator.noteExists
    dsimp only
    rw [hy]
    simp [hyk]
  rw [hex]
  simp [isArpActive, hactive]

theorem noteOn_duplicate_active_witness :
    (exampleSettings ArpNoteMode.UP ArpOctaveMode.UP 2).mode ≠ ArpMode.OFF
      ∧ (heldEngine [60, 64, 67] [64, 60, 67]).noteOn
          (some (exampleSettings ArpNoteMode.UP ArpOctaveMode.UP 2)) 64 90 1 [0, 0, 0]
          exampleEnv ArpReturnInstruction.fresh
        = some ({ heldEngine [60, 64, 67] [64, 60, 67] with lastVelocity := 90 },
            ArpReturnInstruction.fresh) :=
  ⟨by decide, noteOn_duplicate_active (exampleSettings ArpNoteMode.UP ArpOctaveMode.UP 2) 64 90 1
    [0, 0, 0] exampleEnv (heldEngine [60, 64, 67] [64, 60, 67]) ArpReturnInstruction.fresh
    (by decide) (by decide) (by decide)⟩

/-- C10: releasing one of several held notes while active. With the sorted collection strictly
ascending, a note-off for the identity held at sorted position `p`, with the arpeggiator active
and at least 2 notes held, leaves the instruction as it was (no note-off, no note-on), leaves
the gate flag unchanged, removes the note at `p`, and sets the sounding index to
max(index - 1, 0) if index >= p and leaves it unchanged if index < p. -/
theorem noteOff_one_of_several (settings : ArpeggiatorSettings) (clockActive : Bool)
    (a : Arpeggiator) (instruction : ArpReturnInstruction) (p : Nat) (x : ArpNote)
    (hactive : settings.mode ≠ ArpMode.OFF)
    (hs : (codes a.notes).Pairwise (· < ·)) (hx : a.notes[p]? = some x)
    (hn : 2 ≤ a.notes.length) :
    (a.noteOff (some settings) x.noteCode clockActive instruction).2 = instruction
      ∧ (a.noteOff (some settings) x.noteCode clockActive instruction).1.gateCurrentlyActive
          = a.gateCurrentlyActive
      ∧ (a.noteOff (some settings) x.noteCode clockActive instruction).1.notes
          = a.notes.eraseIdx p
      ∧ (a.noteOff (some settings) x.noteCode clockActive
            instruction).1.whichNoteCurrentlyOnPostArp
          = (if a.whichNoteCurrentlyOnPostArp ≥ (p : Int) then
              max (a.whichNoteCurrentlyOnPostArp - 1) 0
            else a.whichNoteCurrentlyOnPostArp) := by
  have hkey := search_of_getElem_sorted _ _ _ hs hx
  have hact : isArpActive (some settings) = true := by simp [isArpActive, hactive]
  have hp : p < a.notes.length := by
    by_contra hge
    rw [List.getElem?_eq_none (by omega)] at hx
    exact absurd hx (by simp)
  have hlen : (a.notes.eraseIdx p).length ≠ 0 := by
    rw [List.length_eraseIdx, if_pos hp]
    omega
  have e : a.noteOff (some settings) x.noteCode clockActive instruction
      = ((a.releaseHeld (some settings) x.noteCode clockActive p x
          instruction).1.resetRatchetIfEmpty,
        (a.releaseHeld (some settings) x.noteCode clockActive p x instruction).2) := by
    unfold Arpeggiator.noteOff
    dsimp only
    rw [hkey, hx]
    simp
  rw [e]
  dsimp only
  have hne : (a.releaseHeld (some settings) x.noteCode clockActive p x
      instruction).1.resetRatchetIfEmpty
      = (a.releaseHeld (some settings) x.noteCode clockActive p x instruction).1 := by
    unfold Arpeggiator.resetRatchetIfEmpty
    rw [if_neg (by rw [releaseHeld_notes]; exact hlen)]
  rw [hne]
  refine ⟨?_, ?_, rfl, ?_⟩
  · unfold Arpeggiator.releaseHeld
    dsimp only
    rw [hact]
    simp only [Bool.true_eq_false, if_false]
    rw [if_neg (by omega)]
  · unfold Arpeggiator.releaseHeld
    dsimp only
    split_ifs <;> rfl
  · unfold Arpeggiator.releaseHeld
    dsimp only
    split_ifs <;> omega

theorem noteOff_one_of_several_witness :
    ((heldEngineAt [60, 64, 67] [60, 64, 67] 1).noteOff
        (some (exampleSettings ArpNoteMode.UP ArpOctaveMode.UP 2))
        (heldNote 64).noteCode false ArpReturnInstruction.fresh).2 = ArpReturnInstruction.fresh
      ∧ ((heldEngineAt [60, 64, 67] [60, 64, 67] 1).noteOff
        (some (exampleSettings ArpNoteMode.UP ArpOctaveMode.UP 2))
        (heldNote 64).noteCode false ArpReturnInstruction.fresh).1.gateCurrentlyActive
          = (heldEngineAt [60, 64, 67] [60, 64, 67] 1).gateCurrentlyActive
      ∧ ((heldEngineAt [60, 64, 67] [60, 64, 67] 1).noteOff
        (some (exampleSettings ArpNoteMode.UP ArpOctaveMode.UP 2))
        (heldNote 64).noteCode false ArpReturnInstruction.fresh).1.notes
          = (heldEngineAt [60, 64, 67] [60, 64, 67] 1).notes.eraseIdx 1
      ∧ ((heldEngineAt [60, 64, 67] [60, 64, 67] 1).noteOff
        (some (exampleSettings ArpNoteMode.UP ArpOctaveMode.UP 2))
        (heldNote 64).noteCode false ArpReturnInstruction.fresh).1.whichNoteCurrentlyOnPostArp
          = (if (heldEngineAt [60, 64, 67] [60, 64, 67] 1).whichNoteCurrentlyOnPostArp
                ≥ ((1 : Nat) : Int) then
              max ((heldEngineAt [60, 64, 67] [60, 64, 67] 1).whichNoteCurrentlyOnPostArp - 1) 0
            else (heldEngineAt [60, 64, 67] [60, 64, 67] 1).whichNoteCurrentlyOnPostArp) :=
  noteOff_one_of_several (exampleSettings ArpNoteMode.UP ArpOctaveMode.UP 2) false
    (heldEngineAt [60, 64, 67] [60, 64, 67] 1) ArpReturnInstruction.fresh 1 (heldNote 64)
    (by decide) (by decide) (by decide) (by decide)

theorem noteOff_one_of_several_example :
    ((heldEngineAt [60, 64, 67] [60, 64, 67] 1).noteOff
        (some (exampleSettings ArpNoteMode.UP ArpOctaveMode.UP 2))
        64 false ArpReturnInstruction.fresh).2 = ArpReturnInstruction.fresh
      ∧ ((heldEngineAt [60, 64, 67] [60, 64, 67] 1).noteOff
        (some (exampleSettings ArpNoteMode.UP ArpOctaveMode.UP 2))
        64 false ArpReturnInstruction.fresh).1.whichNoteCurrentlyOnPostArp = 0 := by
  decide

theorem noteOff_eq_resetRatchetIfEmpty (settings : Option ArpeggiatorSettings) (k : Int)
    (clockActive : Bool) (a : Arpeggiator) (instruction : ArpReturnInstruction) :
    ∃ x : Arpeggiator, (a.noteOff settings k clockActive instruction).1 = x.resetRatchetIfEmpty := by
  unfold Arpeggiator.noteOff
  exact ⟨_, rfl⟩

theorem resetRatchetIfEmpty_cleared (x : Arpeggiator)
    (h : x.resetRatchetIfEmpty.notes.length = 0) :
    x.resetRatchetIfEmpty.ratchetNotesIndex = 0
      ∧ x.resetRatchetIfEmpty.ratchetNotesMultiplier = 0
      ∧ x.resetRatchetIfEmpty.ratchetNotesNumber = 0
      ∧ x.resetRatchetIfEmpty.isRatcheting = false := by
  unfold Arpeggiator.resetRatchetIfEmpty at h ⊢
  by_cases c : x.notes.length = 0
  · rw [if_pos c]
    exact ⟨rfl, rfl, rfl, rfl⟩
  · rw [if_neg c] at h
    exact absurd h c

/-- C11: ratchet cleared on last release. Whenever a melodic note-off call leaves no note held -
whatever the settings, the released identity, the clock and the ratchet index, multiplier and
count before the call - the ratchet state after the call is fully cleared. -/
theorem noteOff_clears_ratchet (settings : Option ArpeggiatorSettings) (k : Int)
    (clockActive : Bool) (a : Arpeggiator) (instruction : ArpReturnInstruction)
    (h : (a.noteOff settings k clockActive instruction).1.notes.length = 0) :
    (a.noteOff settings k clockActive instruction).1.ratchetNotesIndex = 0
      ∧ (a.noteOff settings k clockActive instruction).1.ratchetNotesMultiplier = 0
      ∧ (a.noteOff settings k clockActive instruction).1.ratchetNotesNumber = 0
      ∧ (a.noteOff settings k clockActive instruction).1.isRatcheting = false := by
  obtain ⟨x, hx⟩ := noteOff_eq_resetRatchetIfEmpty settings k clockActive a instruction
  rw [hx] at h ⊢
  exact resetRatchetIfEmpty_cleared x h

theorem noteOff_clears_ratchet_witness :
    (midRatchetEngine.noteOff (some (exampleSettings ArpNoteMode.UP ArpOctaveMode.UP 2)) 60 false
        ArpReturnInstruction.fresh).1.notes.length = 0
      ∧ (midRatchetEngine.noteOff (some (exampleSettings ArpNoteMode.UP ArpOctaveMode.UP 2)) 60
          false ArpReturnInstruction.fresh).1.ratchetNotesIndex = 0
      ∧ (midRatchetEngine.noteOff (some (exampleSettings ArpNoteMode.UP ArpOctaveMode.UP 2)) 60
          false ArpReturnInstruction.fresh).1.ratchetNotesMultiplier = 0
      ∧ (midRatchetEngine.noteOff (some (exampleSettings ArpNoteMode.UP ArpOctaveMode.UP 2)) 60
          false ArpReturnInstruction.fresh).1.ratchetNotesNumber = 0
      ∧ (midRatchetEngine.noteOff (some (exampleSettings ArpNoteMode.UP ArpOctaveMode.UP 2)) 60
          false ArpReturnInstruction.fresh).1.isRatcheting = false :=
  ⟨by decide, noteOff_clears_ratchet (some (exampleSettings ArpNoteMode.UP ArpOctaveMode.UP 2)) 60
    false midRatchetEngine ArpReturnInstruction.fresh (by decide)⟩

/-- C15: ratchet bounds. The automation values that `render` takes over leave a ratchet amount
of at most 3, and for every ratchet amount in 0..3, every probability, both random draws and
every sync level: whenever `maybeSetupNewRatchet` leaves a ratchet active, the subdivision count
is 2 to the power of the multiplier and is one of 1, 2, 4, 8; at the 256th sync level the count
is at most 2, and at the 128th sync level it is at least 4. -/
theorem maybeSetupNewRatchet_bounds (settings : ArpeggiatorSettings) (rndChance rndMultiplier : Nat)
    (b : ArpeggiatorBase) (hamount : b.ratchetAmount ≤ 3)
    (hr : (maybeSetupNewRatchet settings rndChance rndMultiplier b).isRatcheting = true) :
    (∀ (sequenceLength ratchAmount ratchProb : Nat) (b0 : ArpeggiatorBase),
        (updateAutomation sequenceLength ratchAmount ratchProb b0).ratchetAmount ≤ 3)
      ∧ (maybeSetupNewRatchet settings rndChance rndMultiplier b).ratchetNotesNumber
          = 2 ^ (maybeSetupNewRatchet settings rndChance rndMultiplier b).ratchetNotesMultiplier
      ∧ ((maybeSetupNewRatchet settings rndChance rndMultiplier b).ratchetNotesNumber = 1
          ∨ (maybeSetupNewRatchet settings rndChance rndMultiplier b).ratchetNotesNumber = 2
          ∨ (maybeSetupNewRatchet settings rndChance rndMultiplier b).ratchetNotesNumber = 4
          ∨ (maybeSetupNewRatchet settings rndChance rndMultiplier b).ratchetNotesNumber = 8)
      ∧ (settings.syncLevel = SYNC_LEVEL_256TH
          → (maybeSetupNewRatchet settings rndChance rndMultiplier b).ratchetNotesNumber ≤ 2)
      ∧ (settings.syncLevel = SYNC_LEVEL_128TH
          → 4 ≤ (maybeSetupNewRatchet settings rndChance rndMultiplier b).ratchetNotesNumber) := by
  refine ⟨?_, ?_⟩
  · intro sequenceLength ratchAmount ratchProb b0
    unfold updateAutomation
    dsimp only
    split_ifs <;> omega
  · have hm : rndMultiplier % (b.ratchetAmount + 1) ≤ 3 := by
      have := Nat.mod_lt rndMultiplier (by omega : 0 < b.ratchetAmount + 1)
      omega
    unfold maybeSetupNewRatchet at hr ⊢
    dsimp only at hr ⊢
    generalize rndMultiplier % (b.ratchetAmount + 1) = m at hm hr ⊢
    by_cases c : decide (b.ratchetProbability > rndChance ∧ b.ratchetAmount > 0) = true
    · rw [if_pos c]
      clear hr
      by_cases c9 : settings.syncLevel = SYNC_LEVEL_256TH
      · rw [if_pos c9]
        simp [c9, SYNC_LEVEL_256TH, SYNC_LEVEL_128TH]
      · rw [if_neg c9]
        by_cases c8 : settings.syncLevel = SYNC_LEVEL_128TH
        · rw [if_pos c8]
          have h89 : SYNC_LEVEL_128TH ≠ SYNC_LEVEL_256TH := by decide
          interval_cases m <;> simp [c8, h89, Nat.shiftLeft_eq]
        · rw [if_neg c8]
          interval_cases m <;> simp [c9, c8, Nat.shiftLeft_eq]
    · rw [if_neg c] at hr
      simp at c
      simp at hr
      omega

theorem maybeSetupNewRatchet_bounds_witness :
    ({ Arpeggiator.initial.toArpeggiatorBase with
        ratchetProbability := 65535, ratchetAmount := 3 } : ArpeggiatorBase).ratchetAmount ≤ 3
      ∧ (maybeSetupNewRatchet
          { exampleSettings ArpNoteMode.UP ArpOctaveMode.UP 2 with syncLevel := SYNC_LEVEL_128TH }
          0 3
          { Arpeggiator.initial.toArpeggiatorBase with
            ratchetProbability := 65535, ratchetAmount := 3 }).isRatcheting = true
      ∧ (∀ (sequenceLength ratchAmount ratchProb : Nat) (b0 : ArpeggiatorBase),
        (updateAutomation sequenceLength ratchAmount ratchProb b0).ratchetAmount ≤ 3)
      ∧ (maybeSetupNewRatchet
          { exampleSettings ArpNoteMode.UP ArpOctaveMode.UP 2 with syncLevel := SYNC_LEVEL_128TH }
          0 3
          { Arpeggiator.initial.toArpeggiatorBase with
            ratchetProbability := 65535, ratchetAmount := 3 }).ratchetNotesNumber
          = 2 ^ (maybeSetupNewRatchet
            { exampleSettings ArpNoteMode.UP ArpOctaveMode.UP 2 with
              syncLevel := SYNC_LEVEL_128TH }
            0 3
            { Arpeggiator.initial.toArpeggiatorBase with
              ratchetProbability := 65535, ratchetAmount := 3 }).ratchetNotesMultiplier := by
  have h := maybeSetupNewRatchet_bounds
    { exampleSettings ArpNoteMode.UP ArpOctaveMode.UP 2 with syncLevel := SYNC_LEVEL_128TH } 0 3
    { Arpeggiator.initial.toArpeggiatorBase with ratchetProbability := 65535, ratchetAmount := 3 }
    (by decide) (by decide)
  exact ⟨by decide, by decide, h.1, h.2.1⟩

/-- C16: clock-synced tick when not syncing. If the arpeggiator mode is OFF or the sync level is
0, `doTickForward` returns 2147483647 and leaves the engine, the settings (a pending restart
request included) and the instruction exactly as they were. -/
theorem doTickForward_not_syncing (settings : ArpeggiatorSettings) (clipCurrentPos : Nat)
    (currentlyPlayingReversed clockActive : Bool) (rndChance rndMultiplier rndNote rndOctave : Nat)
    (a : Arpeggiator) (instruction : ArpReturnInstruction)
    (h : settings.mode = ArpMode.OFF ∨ settings.syncLevel = 0) :
    a.doTickForward settings clipCurrentPos currentlyPlayingReversed clockActive rndChance
        rndMultiplier rndNote rndOctave instruction
      = some { ticks := 2147483647, arp := a, settings := settings, instruction := instruction } := by
  unfold Arpeggiator.doTickForward
  rw [if_pos h]

theorem doTickForward_not_syncing_witness :
    ((({ exampleSettings ArpNoteMode.UP ArpOctaveMode.UP 2 with
          flagForceArpRestart := true } : ArpeggiatorSettings).mode = ArpMode.OFF
        ∨ ({ exampleSettings ArpNoteMode.UP ArpOctaveMode.UP 2 with
          flagForceArpRestart := true } : ArpeggiatorSettings).syncLevel = 0)
      ∧ midRatchetEngine.doTickForward
          { exampleSettings ArpNoteMode.UP ArpOctaveMode.UP 2 with flagForceArpRestart := true }
          24 false true 0 0 0 0 ArpReturnInstruction.fresh
        = some { ticks := 2147483647, arp := midRatchetEngine,
                 settings := { exampleSettings ArpNoteMode.UP ArpOctaveMode.UP 2 with
                   flagForceArpRestart := true },
                 instruction := ArpReturnInstruction.fresh }) :=
  ⟨by decide, doTickForward_not_syncing
    { exampleSettings ArpNoteMode.UP ArpOctaveMode.UP 2 with flagForceArpRestart := true }
    24 false true 0 0 0 0 midRatchetEngine ArpReturnInstruction.fresh (by decide)⟩

theorem selectStep_index_fresh (settings : ArpeggiatorSettings) (rn ro : Nat)
    (a a' : Arpeggiator) (hn : 1 ≤ a.notes.length)
    (hp : a.playedFirstArpeggiatedNoteYet = false)
    (h : a.selectStep settings rn ro = some a') :
    0 ≤ a'.whichNoteCurrentlyOnPostArp
      ∧ a'.whichNoteCurrentlyOnPostArp < (a.notes.length : Int) := by
  by_cases hfull : settings.noteMode = ArpNoteMode.RANDOM
      ∧ settings.octaveMode = ArpOctaveMode.RANDOM
  · unfold Arpeggiator.selectStep at h
    dsimp only at h
    rw [if_pos hfull] at h
    simp only [Option.bind_eq_some, Option.map_eq_some'] at h
    obtain ⟨w, hw, o, _, rfl⟩ := h
    have := modChecked_length_lt _ _ _ hw
    exact ⟨by simp, this⟩
  · rw [selectStep_start settings rn ro a hfull hp] at h
    exact startSequence_index settings rn ro a a' hn h

theorem switchNoteOn_isSome_fresh (settings : ArpeggiatorSettings) (rn ro : Nat)
    (a : Arpeggiator) (instruction : ArpReturnInstruction)
    (hn : 1 ≤ a.notes.length)
    (hp : a.playedFirstArpeggiatedNoteYet = false) (hri : a.ratchetNotesIndex = 0)
    (hlen : a.notesAsPlayed.length = a.notes.length)
    (hK : 1 ≤ settings.numOctaves)
    (hr : ¬ (settings.noteMode = ArpNoteMode.RANDOM ∧ a.notes.length % 256 = 0)) :
    ∃ r, a.switchNoteOn settings rn ro instruction = some r := by
  rw [switchNoteOn_of_ratchetNotesIndex_zero _ _ _ _ _ hri]
  obtain ⟨a1, h1⟩ := selectStep_isSome settings rn ro { a with gateCurrentlyActive := true }
    hK hr
  have i1 := selectStep_index_fresh settings rn ro { a with gateCurrentlyActive := true } a1 hn
    hp h1
  obtain ⟨e, _⟩ := selectStep_frame _ _ _ _ _ h1
  have n1 : a1.notes = a.notes := by rw [e]; rfl
  have n2 : a1.notesAsPlayed = a.notesAsPlayed := by rw [e]; rfl
  rw [h1]
  simp only [Option.map_some', Option.some_bind]
  exact finishSwitchNoteOn_isSome _ _ _ i1.1 (by simpa [Arpeggiator.countStep, n1] using i1.2)
    (by simp [Arpeggiator.countStep, n1, n2, hlen])

theorem switchNoteOn_steady (settings : ArpeggiatorSettings) (rn ro : Nat) (a : Arpeggiator)
    (instruction : ArpReturnInstruction) (r : Arpeggiator × ArpReturnInstruction)
    (hri : a.ratchetNotesIndex = 0) (hrat : a.isRatcheting = false)
    (h : a.switchNoteOn settings rn ro instruction = some r) :
    ∃ s x, Arpeggiator.selectStep settings rn ro { a with gateCurrentlyActive := true } = some s
      ∧ (if settings.noteMode = ArpNoteMode.AS_PLAYED then a.notesAsPlayed else a.notes)[
          s.whichNoteCurrentlyOnPostArp.toNat]? = some x
      ∧ r = finished s.countStep instruction x := by
  rw [switchNoteOn_of_ratchetNotesIndex_zero _ _ _ _ _ hri] at h
  simp only [Option.bind_eq_some, Option.map_eq_some'] at h
  obtain ⟨s', ⟨s, hs, rfl⟩, hf⟩ := h
  obtain ⟨e, _⟩ := selectStep_frame _ _ _ _ _ hs
  have n1 : s.notes = a.notes := by rw [e]; rfl
  have n2 : s.notesAsPlayed = a.notesAsPlayed := by rw [e]; rfl
  have n3 : s.isRatcheting = false := by rw [e]; exact hrat
  obtain ⟨_, _, _, _, f5, f6⟩ := finishSwitchNoteOn_spec _ _ _ _ hf
  obtain ⟨x, g1, _⟩ := finishSwitchNoteOn_read _ _ _ _ hf
  rw [finishSwitchNoteOn_eq settings s.countStep instruction x n3 f5 f6 g1] at hf
  refine ⟨s, x, hs, ?_, ?_⟩
  · rw [← n1, ← n2]
    exact g1
  · simp only [Option.some.injEq] at hf
    exact hf.symm

theorem switchNoteOn_steady_keeps (settings : ArpeggiatorSettings) (rn ro : Nat)
    (a : Arpeggiator) (instruction : ArpReturnInstruction)
    (r : Arpeggiator × ArpReturnInstruction)
    (hri : a.ratchetNotesIndex = 0) (hrat : a.isRatcheting = false)
    (h : a.switchNoteOn settings rn ro instruction = some r) :
    r.1.maxSequenceLength = a.maxSequenceLength ∧ r.1.ratchetNotesIndex = 0
      ∧ r.1.isRatcheting = false ∧ r.1.playedFirstArpeggiatedNoteYet = true := by
  obtain ⟨s, x, hs, _, rfl⟩ := switchNoteOn_steady _ _ _ _ _ _ hri hrat h
  obtain ⟨e, _⟩ := selectStep_frame _ _ _ _ _ hs
  refine ⟨?_, ?_, ?_, rfl⟩
  · show s.maxSequenceLength = a.maxSequenceLength
    rw [e]; rfl
  · show s.ratchetNotesIndex = 0
    rw [e]; exact hri
  · show s.isRatcheting = false
    rw [e]; exact hrat

theorem traversing_step (settings : ArpeggiatorSettings) (rn ro : Nat) (a0 a : Arpeggiator)
    (instruction : ArpReturnInstruction) (k : Nat)
    (hn : 1 ≤ a0.notes.length) (hlen : a0.notesAsPlayed.length = a0.notes.length)
    (hK : 1 ≤ settings.numOctaves)
    (hr : ¬ (settings.noteMode = ArpNoteMode.RANDOM ∧ a0.notes.length % 256 = 0))
    (h : Traversing a0 k a) :
    ∃ r, a.switchNoteOn settings rn ro instruction = some r ∧ Traversing a0 (k + 1) r.1 := by
  obtain ⟨t1, t2, t3, t4, t5, t6, t7⟩ := h
  have hex : ∃ r, a.switchNoteOn settings rn ro instruction = some r := by
    rcases Nat.eq_zero_or_pos k with hk | hk
    · exact switchNoteOn_isSome_fresh settings rn ro a instruction (by rw [t1]; exact hn)
        (t6 hk) t4 (by rw [t1, t2]; exact hlen) hK (by rw [t1]; exact hr)
    · obtain ⟨_, i0, i1, i2⟩ := t7 hk
      have hmax : max (a.notes.length : Int) 1 = (a.notes.length : Int) := by
        rw [t1]; omega
      rw [hmax] at i1
      exact switchNoteOn_isSome settings rn ro a instruction (by rw [t1]; exact hn) i0 i1 i2
        (by rw [t1, t2]; exact hlen) hK (by rw [t1]; exact hr)
  obtain ⟨r, hr'⟩ := hex
  obtain ⟨s1, s2, s3, s4, s5⟩ := switchNoteOn_spec _ _ _ _ _ _ hr'
  obtain ⟨k1, k2, k3, k4⟩ := switchNoteOn_steady_keeps _ _ _ _ _ _ t4 t5 hr'
  obtain ⟨s, x, hs, _, hfin⟩ := switchNoteOn_steady _ _ _ _ _ _ t4 t5 hr'
  have hdir : r.1.currentDirection = 1 ∨ r.1.currentDirection = -1 := by
    rcases Nat.eq_zero_or_pos k with hk | hk
    · have hfresh := t6 hk
      by_cases hfull : settings.noteMode = ArpNoteMode.RANDOM
          ∧ settings.octaveMode = ArpOctaveMode.RANDOM
      · unfold Arpeggiator.selectStep at hs
        dsimp only at hs
        rw [if_pos hfull] at hs
        simp only [Option.bind_eq_some, Option.map_eq_some'] at hs
        obtain ⟨w, _, o, _, rfl⟩ := hs
        rw [hfin]
        left; rfl
      · rw [selectStep_start settings rn ro { a with gateCurrentlyActive := true } hfull
          hfresh] at hs
        rw [hfin]
        show s.currentDirection = 1 ∨ s.currentDirection = -1
        unfold Arpeggiator.startSequence at hs
        dsimp only at hs
        simp only [Option.bind_eq_some] at hs
        obtain ⟨a1, h1, h2⟩ := hs
        have d1 : a1.currentDirection = 1 ∨ a1.currentDirection = -1 := by
          split_ifs at h1
          · simp only [Option.map_eq_some'] at h1
            obtain ⟨_, _, rfl⟩ := h1
            left; rfl
          · simp only [Option.some.injEq] at h1
            subst h1
            right; rfl
          · simp only [Option.some.injEq] at h1
            subst h1
            left; rfl
        split_ifs at h2
        · simp only [Option.map_eq_some'] at h2
          obtain ⟨_, _, rfl⟩ := h2
          exact d1
        · simp only [Option.some.injEq] at h2
          subst h2
          exact d1
        · simp only [Option.some.injEq] at h2
          subst h2
          exact d1
    · obtain ⟨_, _, _, i2⟩ := t7 hk
      rcases s5 with c | c | c
      · left; exact c
      · right; exact c
      · rw [c]; exact i2
  refine ⟨r, hr', by rw [s1, t1], by rw [s2, t2], by rw [k1, t3], k2, k3,
    fun hk => absurd hk (by omega), fun _ => ⟨k4, s3, ?_, hdir⟩⟩
  rw [s1]
  have : (a.notes.length : Int) ≤ max (a.notes.length : Int) 1 := le_max_left _ _
  omega

theorem traversing_times (settings : ArpeggiatorSettings) (rndNote rndOctave : Nat → Nat)
    (a : Arpeggiator)
    (hn : 1 ≤ a.notes.length) (hlen : a.notesAsPlayed.length = a.notes.length)
    (hK : 1 ≤ settings.numOctaves)
    (hr : ¬ (settings.noteMode = ArpNoteMode.RANDOM ∧ a.notes.length % 256 = 0))
    (hri : a.ratchetNotesIndex = 0) (hrat : a.isRatcheting = false)
    (hp : a.playedFirstArpeggiatedNoteYet = false) (k : Nat) :
    ∃ a', a.switchNoteOnTimes settings rndNote rndOctave k = some a' ∧ Traversing a k a' := by
  induction k with
  | zero =>
    exact ⟨a, rfl, rfl, rfl, rfl, hri, hrat, fun _ => hp, fun h => absurd h (by omega)⟩
  | succ k ih =>
    obtain ⟨a', h1, h2⟩ := ih
    obtain ⟨r, hr', h3⟩ := traversing_step settings (rndNote k) (rndOctave k) a a'
      ArpReturnInstruction.fresh k hn hlen hK hr h2
    exact ⟨r.1, by simp [Arpeggiator.switchNoteOnTimes, h1, hr'], h3⟩

theorem nthSwitchNoteOn_eq (settings : ArpeggiatorSettings) (rndNote rndOctave : Nat → Nat)
    (a a' : Arpeggiator) (i : Nat)
    (h : a.switchNoteOnTimes settings rndNote rndOctave i = some a') :
    a.nthSwitchNoteOn settings rndNote rndOctave i
      = a'.switchNoteOn settings (rndNote i) (rndOctave i) ArpReturnInstruction.fresh := by
  simp [Arpeggiator.nthSwitchNoteOn, h]

theorem switchNoteOnTimes_succ (settings : ArpeggiatorSettings) (rndNote rndOctave : Nat → Nat)
    (a : Arpeggiator) (i : Nat) (r : Arpeggiator × ArpReturnInstruction)
    (h : a.nthSwitchNoteOn settings rndNote rndOctave i = some r) :
    a.switchNoteOnTimes settings rndNote rndOctave (i + 1) = some r.1 := by
  unfold Arpeggiator.nthSwitchNoteOn at h
  unfold Arpeggiator.switchNoteOnTimes
  cases hk : a.switchNoteOnTimes settings rndNote rndOctave i with
  | none => simp [hk] at h
  | some a' =>
    simp only [hk] at h ⊢
    rw [h]
    rfl

theorem advanceNote_moves (settings : ArpeggiatorSettings) (rn : Nat)
    (a : Arpeggiator) (t : NoteAdvance)
    (hm : settings.noteMode = ArpNoteMode.UP ∨ settings.noteMode = ArpNoteMode.DOWN
      ∨ settings.noteMode = ArpNoteMode.AS_PLAYED)
    (hn : 2 ≤ a.notes.length)
    (hwn : a.whichNoteCurrentlyOnPostArp < (a.notes.length : Int))
    (hd : a.currentDirection = 1 ∨ a.currentDirection = -1)
    (h : a.advanceNote settings rn = some t) :
    t.arp.whichNoteCurrentlyOnPostArp ≠ a.whichNoteCurrentlyOnPostArp := by
  have h1 : settings.noteMode ≠ ArpNoteMode.RANDOM := by
    rcases hm with e | e | e <;> rw [e] <;> decide
  have h2 : settings.noteMode ≠ ArpNoteMode.UP_DOWN := by
    rcases hm with e | e | e <;> rw [e] <;> decide
  unfold Arpeggiator.advanceNote at h
  dsimp only at h
  rw [if_neg h1] at h
  split_ifs at h <;>
    (simp only [Option.some.injEq] at h
     subst h
     dsimp only
     omega)

theorem switchNoteOn_moves (settings : ArpeggiatorSettings) (rn ro : Nat) (a : Arpeggiator)
    (instruction : ArpReturnInstruction) (r : Arpeggiator × ArpReturnInstruction)
    (hm : settings.noteMode = ArpNoteMode.UP ∨ settings.noteMode = ArpNoteMode.DOWN
      ∨ settings.noteMode = ArpNoteMode.AS_PLAYED)
    (hn : 2 ≤ a.notes.length) (hmax : a.maxSequenceLength = 0)
    (hri : a.ratchetNotesIndex = 0) (hrat : a.isRatcheting = false)
    (hp : a.playedFirstArpeggiatedNoteYet = true) (hi : IndexOk a)
    (h : a.switchNoteOn settings rn ro instruction = some r) :
    r.1.whichNoteCurrentlyOnPostArp ≠ a.whichNoteCurrentlyOnPostArp := by
  have hfull : ¬ (settings.noteMode = ArpNoteMode.RANDOM
      ∧ settings.octaveMode = ArpOctaveMode.RANDOM) := by
    rcases hm with e | e | e <;> simp [e]
  obtain ⟨i0, i1, i2⟩ := hi
  have hmaxn : max (a.notes.length : Int) 1 = (a.notes.length : Int) := by omega
  rw [hmaxn] at i1
  obtain ⟨s, x, hs, _, rfl⟩ := switchNoteOn_steady _ _ _ _ _ _ hri hrat h
  rw [selectStep_carryOn settings rn ro { a with gateCurrentlyActive := true } hfull hp
    (by show ¬ (a.maxSequenceLength > 0 ∧ _); omega)] at hs
  have hne : ¬ a.notes.length = 1 := by omega
  have hne' : ¬ ({ a with gateCurrentlyActive := true } : Arpeggiator).notes.length = 1 := hne
  rw [if_neg hne'] at hs
  unfold Arpeggiator.carryOnSequence at hs
  simp only [Option.bind_eq_some] at hs
  obtain ⟨t, h1, h2⟩ := hs
  have m := advanceNote_moves settings rn { a with gateCurrentlyActive := true } t hm hn i1
    i2 h1
  obtain ⟨_, _, f⟩ := advanceOctave_frame _ _ _ _ h2
  show s.whichNoteCurrentlyOnPostArp ≠ a.whichNoteCurrentlyOnPostArp
  rw [f]
  exact m

/-- C12: ALTERNATE no-repeat. With note mode UP, DOWN or AS_PLAYED and any octave mode, so in
particular with octave mode ALTERNATE, a fixed set of n >= 2 held notes, K >= 1 octaves, no
sequence-length ceiling, no ratchet and a fresh sequence, step `i` and step `i + 1` of the step
advance both return, each emits the note at the index it selects, and the two selected indices
differ - so no note, and in particular no edge note, is sounded twice in a row. -/
theorem alternate_no_repeat (settings : ArpeggiatorSettings) (rndNote rndOctave : Nat → Nat)
    (a : Arpeggiator) (i : Nat)
    (hm : settings.noteMode = ArpNoteMode.UP ∨ settings.noteMode = ArpNoteMode.DOWN
      ∨ settings.noteMode = ArpNoteMode.AS_PLAYED)
    (hn : 2 ≤ a.notes.length) (hlen : a.notesAsPlayed.length = a.notes.length)
    (hK : 1 ≤ settings.numOctaves)
    (hmax : a.maxSequenceLength = 0) (hri : a.ratchetNotesIndex = 0)
    (hrat : a.isRatcheting = false) (hp : a.playedFirstArpeggiatedNoteYet = false) :
    ∃ r r' x x', a.nthSwitchNoteOn settings rndNote rndOctave i = some r
      ∧ a.nthSwitchNoteOn settings rndNote rndOctave (i + 1) = some r'
      ∧ (if settings.noteMode = ArpNoteMode.AS_PLAYED then a.notesAsPlayed else a.notes)[
          r.1.whichNoteCurrentlyOnPostArp.toNat]? = some x
      ∧ r.2.arpNoteOn = some x
      ∧ (if settings.noteMode = ArpNoteMode.AS_PLAYED then a.notesAsPlayed else a.notes)[
          r'.1.whichNoteCurrentlyOnPostArp.toNat]? = some x'
      ∧ r'.2.arpNoteOn = some x'
      ∧ 0 ≤ r.1.whichNoteCurrentlyOnPostArp ∧ 0 ≤ r'.1.whichNoteCurrentlyOnPostArp
      ∧ r'.1.whichNoteCurrentlyOnPostArp ≠ r.1.whichNoteCurrentlyOnPostArp := by
  have hr : ¬ (settings.noteMode = ArpNoteMode.RANDOM ∧ a.notes.length % 256 = 0) := by
    rcases hm with e | e | e <;> simp [e]
  obtain ⟨a2, h2, tr2⟩ := traversing_times settings rndNote rndOctave a (by omega) hlen hK hr
    hri hrat hp (i + 1)
  obtain ⟨a1, h1, tr1⟩ := traversing_times settings rndNote rndOctave a (by omega) hlen hK hr
    hri hrat hp i
  obtain ⟨r, hr1, _⟩ := traversing_step settings (rndNote i) (rndOctave i) a a1
    ArpReturnInstruction.fresh i (by omega) hlen hK hr tr1
  obtain ⟨r', hr2, _⟩ := traversing_step settings (rndNote (i + 1)) (rndOctave (i + 1)) a a2
    ArpReturnInstruction.fresh (i + 1) (by omega) hlen hK hr tr2
  have e1 := nthSwitchNoteOn_eq settings rndNote rndOctave a a1 i h1
  have e2 := nthSwitchNoteOn_eq settings rndNote rndOctave a a2 (i + 1) h2
  rw [← e1] at hr1
  rw [← e2] at hr2
  have e3 := switchNoteOnTimes_succ settings rndNote rndOctave a i r hr1
  rw [h2] at e3
  simp only [Option.some.injEq] at e3
  subst e3
  rw [e1] at hr1
  rw [e2] at hr2
  obtain ⟨t1, t2, t3, t4, t5, _, t7⟩ := tr2
  obtain ⟨p1, p2⟩ := t7 (by omega)
  obtain ⟨u1, u2, u3, u4, u5, _, _⟩ := tr1
  obtain ⟨x, k1, k2, _⟩ := switchNoteOn_read _ _ _ _ _ _ hr1
  obtain ⟨x', k1', k2', _⟩ := switchNoteOn_read _ _ _ _ _ _ hr2
  obtain ⟨_, _, s3, _⟩ := switchNoteOn_spec _ _ _ _ _ _ hr1
  obtain ⟨_, _, s3', _⟩ := switchNoteOn_spec _ _ _ _ _ _ hr2
  have mv := switchNoteOn_moves settings (rndNote (i + 1)) (rndOctave (i + 1)) r.1
    ArpReturnInstruction.fresh r' hm (by rw [t1]; exact hn) (by rw [t3]; exact hmax) t4 t5 p1 p2
    hr2
  rw [← e1] at hr1
  rw [← e2] at hr2
  refine ⟨r, r', x, x', hr1, hr2, ?_, k2, ?_, k2', s3, s3', mv⟩
  · rw [← u1, ← u2]; exact k1
  · rw [← t1, ← t2]; exact k1'

theorem alternate_no_repeat_witness :
    ∃ r r' x x', (heldEngine [60, 64, 67] [64, 60, 67]).nthSwitchNoteOn
        (exampleSettings ArpNoteMode.UP ArpOctaveMode.ALTERNATE 2) (fun _ => 0) (fun _ => 0) 5
        = some r
      ∧ (heldEngine [60, 64, 67] [64, 60, 67]).nthSwitchNoteOn
        (exampleSettings ArpNoteMode.UP ArpOctaveMode.ALTERNATE 2) (fun _ => 0) (fun _ => 0)
        (5 + 1) = some r'
      ∧ (if (exampleSettings ArpNoteMode.UP ArpOctaveMode.ALTERNATE 2).noteMode
            = ArpNoteMode.AS_PLAYED then (heldEngine [60, 64, 67] [64, 60, 67]).notesAsPlayed
          else (heldEngine [60, 64, 67] [64, 60, 67]).notes)[
          r.1.whichNoteCurrentlyOnPostArp.toNat]? = some x
      ∧ r.2.arpNoteOn = some x
      ∧ (if (exampleSettings ArpNoteMode.UP ArpOctaveMode.ALTERNATE 2).noteMode
            = ArpNoteMode.AS_PLAYED then (heldEngine [60, 64, 67] [64, 60, 67]).notesAsPlayed
          else (heldEngine [60, 64, 67] [64, 60, 67]).notes)[
          r'.1.whichNoteCurrentlyOnPostArp.toNat]? = some x'
      ∧ r'.2.arpNoteOn = some x'
      ∧ 0 ≤ r.1.whichNoteCurrentlyOnPostArp ∧ 0 ≤ r'.1.whichNoteCurrentlyOnPostArp
      ∧ r'.1.whichNoteCurrentlyOnPostArp ≠ r.1.whichNoteCurrentlyOnPostArp :=
  alternate_no_repeat (exampleSettings ArpNoteMode.UP ArpOctaveMode.ALTERNATE 2) (fun _ => 0)
    (fun _ => 0) (heldEngine [60, 64, 67] [64, 60, 67]) 5 (Or.inl rfl) (by decide)
    (by decide) (by decide) rfl rfl rfl rfl

theorem alternate_no_repeat_example :
    (List.range 12).map (fun i =>
      ((heldEngine [60, 64, 67] [60, 64, 67]).nthSwitchNoteOn
        (exampleSettings ArpNoteMode.UP ArpOctaveMode.ALTERNATE 2) (fun _ => 0) (fun _ => 0) i).map
        fun r => r.2.noteCodeOnPostArp)
      = [some 60, some 64, some 67, some 72, some 76, some 79, some 76, some 72, some 67,
         some 64, some 60, some 64] := by
  decide

theorem carryOnSequenceForSingle_congr (settings : ArpeggiatorSettings) (rnd : Nat)
    (b1 b2 b1' : ArpeggiatorBase)
    (h : carryOnSequenceForSingleNoteArpeggio settings rnd b1 = some b1')
    (e1 : b2.currentOctave = b1.currentOctave)
    (e2 : b2.currentOctaveDirection = b1.currentOctaveDirection) :
    ∃ b2', carryOnSequenceForSingleNoteArpeggio settings rnd b2 = some b2'
      ∧ b2'.currentOctave = b1'.currentOctave
      ∧ b2'.currentOctaveDirection = b1'.currentOctaveDirection := by
  unfold carryOnSequenceForSingleNoteArpeggio at h ⊢
  dsimp only at h ⊢
  rw [e1, e2]
  split_ifs at h ⊢ <;>
    first
      | (simp only [Option.some.injEq] at h
         subst h
         exact ⟨_, rfl, rfl, rfl⟩)
      | (simp only [Option.map_eq_some'] at h
         obtain ⟨w, hw, rfl⟩ := h
         rw [hw]
         exact ⟨_, rfl, rfl, rfl⟩)

theorem advanceNote_upDown (settings : ArpeggiatorSettings) (rn : Nat) (a : Arpeggiator)
    (hm : settings.noteMode = ArpNoteMode.UP_DOWN) :
    a.advanceNote settings rn
      = some (if a.whichNoteCurrentlyOnPostArp + a.currentDirection ≥ (a.notes.length : Int) then
          { arp := { a with
              currentDirection := -1
              whichNoteCurrentlyOnPostArp
                := a.whichNoteCurrentlyOnPostArp + a.currentDirection - 1 }
            changeOctave := false, changingOctaveDirection := false }
        else if a.whichNoteCurrentlyOnPostArp + a.currentDirection < 0 then
          { arp := { a with whichNoteCurrentlyOnPostArp := 0, currentDirection := 1 }
            changeOctave := true, changingOctaveDirection := false }
        else
          { arp := { a with
              whichNoteCurrentlyOnPostArp := a.whichNoteCurrentlyOnPostArp + a.currentDirection }
            changeOctave := false, changingOctaveDirection := false }) := by
  unfold Arpeggiator.advanceNote
  have hb : alternateBounce settings = false := by simp [alternateBounce, hm]
  simp only [hm, hb, Bool.and_false]
  split_ifs <;> simp_all

theorem switchNoteOn_upDown_next (settings : ArpeggiatorSettings) (rn ro : Nat)
    (a : Arpeggiator) (instruction : ArpReturnInstruction)
    (r : Arpeggiator × ArpReturnInstruction)
    (hm : settings.noteMode = ArpNoteMode.UP_DOWN)
    (hn : 2 ≤ a.notes.length) (hmax : a.maxSequenceLength = 0)
    (hri : a.ratchetNotesIndex = 0) (hrat : a.isRatcheting = false)
    (hp : a.playedFirstArpeggiatedNoteYet = true)
    (h : a.switchNoteOn settings rn ro instruction = some r) :
    (a.whichNoteCurrentlyOnPostArp + a.currentDirection ≥ (a.notes.length : Int)
        → r.1.whichNoteCurrentlyOnPostArp = a.whichNoteCurrentlyOnPostArp + a.currentDirection - 1
          ∧ r.1.currentDirection = -1 ∧ r.1.currentOctave = a.currentOctave)
      ∧ (a.whichNoteCurrentlyOnPostArp + a.currentDirection < 0
        → r.1.whichNoteCurrentlyOnPostArp = 0 ∧ r.1.currentDirection = 1
          ∧ ∃ b, carryOnSequenceForSingleNoteArpeggio settings ro a.toArpeggiatorBase = some b
            ∧ r.1.currentOctave = b.currentOctave)
      ∧ (0 ≤ a.whichNoteCurrentlyOnPostArp + a.currentDirection
        → a.whichNoteCurrentlyOnPostArp + a.currentDirection < (a.notes.length : Int)
        → r.1.whichNoteCurrentlyOnPostArp = a.whichNoteCurrentlyOnPostArp + a.currentDirection
          ∧ r.1.currentDirection = a.currentDirection
          ∧ r.1.currentOctave = a.currentOctave) := by
  have hfull : ¬ (settings.noteMode = ArpNoteMode.RANDOM
      ∧ settings.octaveMode = ArpOctaveMode.RANDOM) := by simp [hm]
  obtain ⟨s, x, hs, _, rfl⟩ := switchNoteOn_steady _ _ _ _ _ _ hri hrat h
  rw [selectStep_carryOn settings rn ro { a with gateCurrentlyActive := true } hfull hp
    (by show ¬ (a.maxSequenceLength > 0 ∧ _); omega)] at hs
  have hne' : ¬ ({ a with gateCurrentlyActive := true } : Arpeggiator).notes.length = 1 := by
    show ¬ a.notes.length = 1
    omega
  rw [if_neg hne'] at hs
  unfold Arpeggiator.carryOnSequence at hs
  rw [advanceNote_upDown settings rn _ hm] at hs
  simp only [Option.some_bind] at hs
  unfold Arpeggiator.advanceOctave at hs
  show (_ → s.whichNoteCurrentlyOnPostArp = _ ∧ s.currentDirection = -1
      ∧ s.currentOctave = a.currentOctave)
    ∧ (_ → s.whichNoteCurrentlyOnPostArp = 0 ∧ s.currentDirection = 1
      ∧ ∃ b, carryOnSequenceForSingleNoteArpeggio settings ro a.toArpeggiatorBase = some b
        ∧ s.currentOctave = b.currentOctave)
    ∧ (_ → _ → s.whichNoteCurrentlyOnPostArp = _ ∧ s.currentDirection = a.currentDirection
      ∧ s.currentOctave = a.currentOctave)
  by_cases c1 : a.whichNoteCurrentlyOnPostArp + a.currentDirection ≥ (a.notes.length : Int)
  · have c1' : ({ a with gateCurrentlyActive := true } : Arpeggiator).whichNoteCurrentlyOnPostArp
        + ({ a with gateCurrentlyActive := true } : Arpeggiator).currentDirection
        ≥ (({ a with gateCurrentlyActive := true } : Arpeggiator).notes.length : Int) := c1
    rw [if_pos c1'] at hs
    simp only [Bool.false_eq_true, if_false, Option.some.injEq] at hs
    subst hs
    exact ⟨fun _ => ⟨rfl, rfl, rfl⟩, fun c => absurd c (by omega),
      fun _ c => absurd c (by omega)⟩
  · have c1' : ¬ ({ a with gateCurrentlyActive := true } : Arpeggiator).whichNoteCurrentlyOnPostArp
        + ({ a with gateCurrentlyActive := true } : Arpeggiator).currentDirection
        ≥ (({ a with gateCurrentlyActive := true } : Arpeggiator).notes.length : Int) := c1
    rw [if_neg c1'] at hs
    by_cases c2 : a.whichNoteCurrentlyOnPostArp + a.currentDirection < 0
    · have c2' : ({ a with gateCurrentlyActive := true } : Arpeggiator).whichNoteCurrentlyOnPostArp
          + ({ a with gateCurrentlyActive := true } : Arpeggiator).currentDirection < 0 := c2
      rw [if_pos c2'] at hs
      simp only [Bool.false_eq_true, if_false, if_true, Option.map_eq_some'] at hs
      obtain ⟨b, hb, rfl⟩ := hs
      obtain ⟨b2, hb2, o1, _⟩ := carryOnSequenceForSingle_congr settings ro _
        a.toArpeggiatorBase b hb rfl rfl
      have fr := carryOnSequenceForSingle_frame _ _ _ _ hb
      have hdir : b.currentDirection = 1 := by rw [fr]
      exact ⟨fun c => absurd c c1, fun _ => ⟨rfl, hdir, b2, hb2, o1.symm⟩,
        fun c => absurd c (by omega)⟩
    · have c2' : ¬ ({ a with gateCurrentlyActive := true } : Arpeggiator).whichNoteCurrentlyOnPostArp
          + ({ a with gateCurrentlyActive := true } : Arpeggiator).currentDirection < 0 := c2
      rw [if_neg c2'] at hs
      simp only [Bool.false_eq_true, if_false, Option.some.injEq] at hs
      subst hs
      exact ⟨fun c => absurd c c1, fun c => absurd c c2, fun _ _ => ⟨rfl, rfl, rfl⟩⟩

theorem startSequence_note (settings : ArpeggiatorSettings) (rn ro : Nat) (a a' : Arpeggiator)
    (hnm : settings.noteMode ≠ ArpNoteMode.RANDOM)
    (h : a.startSequence settings rn ro = some a') :
    a'.whichNoteCurrentlyOnPostArp
        = (if settings.noteMode = ArpNoteMode.DOWN then (a.notes.length : Int) - 1 else 0)
      ∧ a'.currentDirection = (if settings.noteMode = ArpNoteMode.DOWN then -1 else 1) := by
  unfold Arpeggiator.startSequence at h
  dsimp only at h
  rw [if_neg hnm] at h
  simp only [Option.bind_eq_some] at h
  obtain ⟨a1, h1, h2⟩ := h
  have key : a1.whichNoteCurrentlyOnPostArp
        = (if settings.noteMode = ArpNoteMode.DOWN then (a.notes.length : Int) - 1 else 0)
      ∧ a1.currentDirection = (if settings.noteMode = ArpNoteMode.DOWN then -1 else 1) := by
    split_ifs at h1 ⊢ <;>
      (simp only [Option.some.injEq] at h1
       subst h1
       exact ⟨rfl, rfl⟩)
  split_ifs at h2 <;>
    first
      | (simp only [Option.some.injEq] at h2
         subst h2
         exact key)
      | (simp only [Option.map_eq_some'] at h2
         obtain ⟨w, _, rfl⟩ := h2
         exact key)

theorem switchNoteOn_fresh_note (settings : ArpeggiatorSettings) (rn ro : Nat)
    (a : Arpeggiator) (instruction : ArpReturnInstruction)
    (r : Arpeggiator × ArpReturnInstruction)
    (hnm : settings.noteMode ≠ ArpNoteMode.RANDOM)
    (hri : a.ratchetNotesIndex = 0) (hrat : a.isRatcheting = false)
    (hp : a.playedFirstArpeggiatedNoteYet = false)
    (h : a.switchNoteOn settings rn ro instruction = some r) :
    r.1.whichNoteCurrentlyOnPostArp
        = (if settings.noteMode = ArpNoteMode.DOWN then (a.notes.length : Int) - 1 else 0)
      ∧ r.1.currentDirection = (if settings.noteMode = ArpNoteMode.DOWN then -1 else 1) := by
  have hfull : ¬ (settings.noteMode = ArpNoteMode.RANDOM
      ∧ settings.octaveMode = ArpOctaveMode.RANDOM) := fun c => hnm c.1
  obtain ⟨s, x, hs, _, rfl⟩ := switchNoteOn_steady _ _ _ _ _ _ hri hrat h
  rw [selectStep_start settings rn ro { a with gateCurrentlyActive := true } hfull hp] at hs
  exact startSequence_note settings rn ro { a with gateCurrentlyActive := true } s hnm hs

theorem upDown_step (settings : ArpeggiatorSettings) (rn ro : Nat) (a0 a : Arpeggiator)
    (instruction : ArpReturnInstruction) (k : Nat) (r : Arpeggiator × ArpReturnInstruction)
    (hm : settings.noteMode = ArpNoteMode.UP_DOWN)
    (hn : 2 ≤ a0.notes.length) (hmax : a0.maxSequenceLength = 0)
    (ht : Traversing a0 k a) (hu : UpDownState a0.notes.length k a)
    (h : a.switchNoteOn settings rn ro instruction = some r) :
    UpDownState a0.notes.length (k + 1) r.1 := by
  obtain ⟨t1, t2, t3, t4, t5, t6, t7⟩ := ht
  intro _
  simp only [Nat.add_sub_cancel]
  have hper : 0 < 2 * a0.notes.length := by omega
  rcases Nat.eq_zero_or_pos k with hk | hk
  · subst hk
    have hnm : settings.noteMode ≠ ArpNoteMode.RANDOM := by rw [hm]; decide
    have hnd : settings.noteMode ≠ ArpNoteMode.DOWN := by rw [hm]; decide
    obtain ⟨f1, f2⟩ := switchNoteOn_fresh_note settings rn ro a instruction r hnm t4 t5 (t6 rfl) h
    rw [if_neg hnd] at f1 f2
    have z : 0 % (2 * a0.notes.length) = 0 := Nat.zero_mod _
    rw [z, if_pos (by omega), if_pos (by omega), f1, f2]
    exact ⟨rfl, rfl⟩
  · obtain ⟨p1, i0, i1, i2⟩ := t7 hk
    obtain ⟨u1, u2⟩ := hu hk
    obtain ⟨n1, n2, n3⟩ := switchNoteOn_upDown_next settings rn ro a instruction r hm
      (by rw [t1]; exact hn) (by rw [t3]; exact hmax) t4 t5 p1 h
    rw [t1] at n1 n3
    obtain ⟨j, rfl⟩ : ∃ j, k = j + 1 := ⟨k - 1, by omega⟩
    simp only [Nat.add_sub_cancel] at u1 u2
    have hlt : j % (2 * a0.notes.length) < 2 * a0.notes.length := Nat.mod_lt _ hper
    have hstep := succ_mod_cases j (2 * a0.notes.length) hper
    generalize (j + 1) % (2 * a0.notes.length) = t' at hstep ⊢
    generalize j % (2 * a0.notes.length) = t at u1 u2 hlt hstep
    generalize a0.notes.length = n at *
    by_cases c1 : t < n
    · rw [if_pos c1] at u1 u2
      by_cases c2 : t + 1 < n
      · obtain ⟨e1, e2, _⟩ := n3 (by omega) (by omega)
        have ht' : t' = t + 1 := by omega
        rw [ht', if_pos c2, if_pos c2, e1, e2, u1, u2]
        exact ⟨by push_cast; ring, rfl⟩
      · obtain ⟨e1, e2, _⟩ := n1 (by omega)
        have ht' : t' = t + 1 := by omega
        rw [ht', if_neg c2, if_neg c2, e1, e2, u1, u2]
        refine ⟨?_, rfl⟩
        omega
    · rw [if_neg c1] at u1 u2
      by_cases c2 : t + 1 < 2 * n
      · obtain ⟨e1, e2, _⟩ := n3 (by omega) (by omega)
        have ht' : t' = t + 1 := by omega
        have c3 : ¬ t + 1 < n := by omega
        rw [ht', if_neg c3, if_neg c3, e1, e2, u1, u2]
        refine ⟨?_, rfl⟩
        omega
      · obtain ⟨e1, e2, _⟩ := n2 (by omega)
        have ht' : t' = 0 := by omega
        rw [ht', if_pos (by omega), if_pos (by omega), e1, e2]
        exact ⟨rfl, rfl⟩

theorem upDown_times (settings : ArpeggiatorSettings) (rndNote rndOctave : Nat → Nat)
    (a : Arpeggiator)
    (hm : settings.noteMode = ArpNoteMode.UP_DOWN)
    (hn : 2 ≤ a.notes.length) (hlen : a.notesAsPlayed.length = a.notes.length)
    (hK : 1 ≤ settings.numOctaves) (hmax : a.maxSequenceLength = 0)
    (hri : a.ratchetNotesIndex = 0) (hrat : a.isRatcheting = false)
    (hp : a.playedFirstArpeggiatedNoteYet = false) (k : Nat) :
    ∃ a', a.switchNoteOnTimes settings rndNote rndOctave k = some a' ∧ Traversing a k a'
      ∧ UpDownState a.notes.length k a' := by
  have hr : ¬ (settings.noteMode = ArpNoteMode.RANDOM ∧ a.notes.length % 256 = 0) := by
    simp [hm]
  induction k with
  | zero =>
    exact ⟨a, rfl, ⟨rfl, rfl, rfl, hri, hrat, fun _ => hp, fun h => absurd h (by omega)⟩,
      fun h => absurd h (by omega)⟩
  | succ k ih =>
    obtain ⟨a', h1, h2, h3⟩ := ih
    obtain ⟨r, hr', h4⟩ := traversing_step settings (rndNote k) (rndOctave k) a a'
      ArpReturnInstruction.fresh k (by omega) hlen hK hr h2
    exact ⟨r.1, by simp [Arpeggiator.switchNoteOnTimes, h1, hr'], h4,
      upDown_step settings (rndNote k) (rndOctave k) a a' ArpReturnInstruction.fresh k r hm hn
        hmax h2 h3 hr'⟩

/-- C13, counterexample to the claim as stated: notes 60 and 64 with note mode UP_DOWN, octave
mode UP and two octaves. Steps 3 and 4 are the two consecutive steps at the bottom edge (index
0 both times), but they sound 60 and then 72: the octave advances between them, so the edge
note is not repeated with the same pitch. At the top edge (steps 1 and 2) it is. -/
theorem upDown_edge_counterexample :
    (List.range 6).map (fun i =>
      ((heldEngine [60, 64] [60, 64]).nthSwitchNoteOn
        (exampleSettings ArpNoteMode.UP_DOWN ArpOctaveMode.UP 2) (fun _ => 0) (fun _ => 0) i).map
        fun r => (r.1.whichNoteCurrentlyOnPostArp, r.2.noteCodeOnPostArp))
      = [some (0, 60), some (1, 64), some (1, 64), some (0, 60), some (0, 72), some (1, 76)] := by
  decide

/-- C13, amended. With note mode UP_DOWN, a fixed set of n >= 2 held notes, K >= 1 octaves, any
octave mode, no sequence-length ceiling, no ratchet and a fresh sequence, step `i` and step
`i + 1` return and the index selected at step `i` is `j = i mod 2n` on the way up (`j < n`) and
`2n - 1 - j` on the way down, so each edge index is selected on exactly two consecutive steps.
At the top edge (`j = n - 1`) the second of the two steps has the same octave and the same pitch
as the first. At the bottom edge (`j = 2n - 1`) the octave advances between the two steps, by
`carryOnSequenceForSingleNoteArpeggio`, and the second step sounds the edge note in that new
octave. On all other steps the next index differs. -/
theorem upDown_edge_repeat (settings : ArpeggiatorSettings) (rndNote rndOctave : Nat → Nat)
    (a : Arpeggiator) (i : Nat)
    (hm : settings.noteMode = ArpNoteMode.UP_DOWN)
    (hn : 2 ≤ a.notes.length) (hlen : a.notesAsPlayed.length = a.notes.length)
    (hK : 1 ≤ settings.numOctaves) (hmax : a.maxSequenceLength = 0)
    (hri : a.ratchetNotesIndex = 0) (hrat : a.isRatcheting = false)
    (hp : a.playedFirstArpeggiatedNoteYet = false) :
    ∃ r r' x, a.nthSwitchNoteOn settings rndNote rndOctave i = some r
      ∧ a.nthSwitchNoteOn settings rndNote rndOctave (i + 1) = some r'
      ∧ r.1.whichNoteCurrentlyOnPostArp
          = (if i % (2 * a.notes.length) < a.notes.length then
              ((i % (2 * a.notes.length) : Nat) : Int)
            else ((2 * a.notes.length - 1 - i % (2 * a.notes.length) : Nat) : Int))
      ∧ a.notes[r.1.whichNoteCurrentlyOnPostArp.toNat]? = some x
      ∧ r.2.noteCodeOnPostArp = x.noteCode + r.1.currentOctave * 12
      ∧ (i % (2 * a.notes.length) = a.notes.length - 1
        → r'.1.whichNoteCurrentlyOnPostArp = r.1.whichNoteCurrentlyOnPostArp
          ∧ r'.1.currentOctave = r.1.currentOctave
          ∧ r'.2.noteCodeOnPostArp = r.2.noteCodeOnPostArp)
      ∧ (i % (2 * a.notes.length) = 2 * a.notes.length - 1
        → r'.1.whichNoteCurrentlyOnPostArp = r.1.whichNoteCurrentlyOnPostArp
          ∧ ∃ b, carryOnSequenceForSingleNoteArpeggio settings (rndOctave (i + 1))
                r.1.toArpeggiatorBase = some b
            ∧ r'.1.currentOctave = b.currentOctave
            ∧ r'.2.noteCodeOnPostArp = x.noteCode + b.currentOctave * 12)
      ∧ (i % (2 * a.notes.length) ≠ a.notes.length - 1
        → i % (2 * a.notes.length) ≠ 2 * a.notes.length - 1
        → r'.1.whichNoteCurrentlyOnPostArp ≠ r.1.whichNoteCurrentlyOnPostArp) := by
  have hr : ¬ (settings.noteMode = ArpNoteMode.RANDOM ∧ a.notes.length % 256 = 0) := by
    simp [hm]
  have hnas : settings.noteMode ≠ ArpNoteMode.AS_PLAYED := by rw [hm]; decide
  obtain ⟨a1, h1, tr1, _⟩ := upDown_times settings rndNote rndOctave a hm hn hlen hK hmax hri
    hrat hp i
  obtain ⟨a2, h2, tr2, ud2⟩ := upDown_times settings rndNote rndOctave a hm hn hlen hK hmax hri
    hrat hp (i + 1)
  obtain ⟨r, hr1, _⟩ := traversing_step settings (rndNote i) (rndOctave i) a a1
    ArpReturnInstruction.fresh i (by omega) hlen hK hr tr1
  obtain ⟨r', hr2, _⟩ := traversing_step settings (rndNote (i + 1)) (rndOctave (i + 1)) a a2
    ArpReturnInstruction.fresh (i + 1) (by omega) hlen hK hr tr2
  have e1 := nthSwitchNoteOn_eq settings rndNote rndOctave a a1 i h1
  have e2 := nthSwitchNoteOn_eq settings rndNote rndOctave a a2 (i + 1) h2
  have e3 := switchNoteOnTimes_succ settings rndNote rndOctave a i r (by rw [e1]; exact hr1)
  rw [h2] at e3
  simp only [Option.some.injEq] at e3
  subst e3
  obtain ⟨t1, t2, t3, t4, t5, _, t7⟩ := tr2
  obtain ⟨p1, p2⟩ := t7 (by omega)
  obtain ⟨u1, u2⟩ := ud2 (by omega)
  simp only [Nat.add_sub_cancel] at u1 u2
  obtain ⟨x, k1, _, k3⟩ := switchNoteOn_read _ _ _ _ _ _ hr1
  obtain ⟨x', k1', _, k3'⟩ := switchNoteOn_read _ _ _ _ _ _ hr2
  rw [if_neg hnas] at k1 k1'
  have hper : 0 < 2 * a.notes.length := by omega
  have hlt : i % (2 * a.notes.length) < 2 * a.notes.length := Nat.mod_lt _ hper
  have A1 : i % (2 * a.notes.length) = a.notes.length - 1
      → r.1.whichNoteCurrentlyOnPostArp + r.1.currentDirection ≥ (a.notes.length : Int)
        ∧ r.1.whichNoteCurrentlyOnPostArp + r.1.currentDirection - 1
          = r.1.whichNoteCurrentlyOnPostArp := by
    intro hj
    have c1 : i % (2 * a.notes.length) < a.notes.length := by omega
    rw [if_pos c1] at u1 u2
    rw [u1, u2]
    omega
  have A2 : i % (2 * a.notes.length) = 2 * a.notes.length - 1
      → r.1.whichNoteCurrentlyOnPostArp = 0 ∧ r.1.currentDirection = -1 := by
    intro hj
    have c1 : ¬ i % (2 * a.notes.length) < a.notes.length := by omega
    rw [if_neg c1] at u1 u2
    rw [u1, u2, hj]
    simp
  have A3 : i % (2 * a.notes.length) ≠ a.notes.length - 1
      → i % (2 * a.notes.length) ≠ 2 * a.notes.length - 1
      → 0 ≤ r.1.whichNoteCurrentlyOnPostArp + r.1.currentDirection
        ∧ r.1.whichNoteCurrentlyOnPostArp + r.1.currentDirection < (a.notes.length : Int)
        ∧ r.1.whichNoteCurrentlyOnPostArp + r.1.currentDirection
          ≠ r.1.whichNoteCurrentlyOnPostArp := by
    intro hj1 hj2
    by_cases c1 : i % (2 * a.notes.length) < a.notes.length
    · rw [if_pos c1] at u1 u2
      rw [u1, u2]
      omega
    · rw [if_neg c1] at u1 u2
      rw [u1, u2]
      omega
  obtain ⟨n1, n2, n3⟩ := switchNoteOn_upDown_next settings (rndNote (i + 1)) (rndOctave (i + 1))
    r.1 ArpReturnInstruction.fresh r' hm (by rw [t1]; exact hn) (by rw [t3]; exact hmax) t4 t5
    p1 hr2
  rw [t1] at n1 n3
  obtain ⟨tu1, _⟩ := tr1
  rw [tu1] at k1
  refine ⟨r, r', x, by rw [e1]; exact hr1, by rw [e2]; exact hr2, u1, k1, k3, ?_, ?_, ?_⟩
  · intro hj
    obtain ⟨g1, g2⟩ := A1 hj
    obtain ⟨f1, _, f3⟩ := n1 g1
    have hw : r'.1.whichNoteCurrentlyOnPostArp = r.1.whichNoteCurrentlyOnPostArp := by
      rw [f1, g2]
    refine ⟨hw, f3, ?_⟩
    rw [hw, t1, k1] at k1'
    simp only [Option.some.injEq] at k1'
    rw [k3, k3', f3, k1']
  · intro hj
    obtain ⟨hw0, hd0⟩ := A2 hj
    obtain ⟨f1, _, b, hb, f3⟩ := n2 (by rw [hw0, hd0]; decide)
    have hw : r'.1.whichNoteCurrentlyOnPostArp = r.1.whichNoteCurrentlyOnPostArp := by
      rw [f1, hw0]
    refine ⟨hw, b, hb, f3, ?_⟩
    rw [hw, t1, k1] at k1'
    simp only [Option.some.injEq] at k1'
    rw [k3', f3, k1']
  · intro hj1 hj2
    obtain ⟨g1, g2, g3⟩ := A3 hj1 hj2
    obtain ⟨f1, _, _⟩ := n3 g1 g2
    rw [f1]
    exact g3

theorem upDown_edge_repeat_witness :
    ∃ r r' x, (heldEngine [60, 64] [60, 64]).nthSwitchNoteOn
          (exampleSettings ArpNoteMode.UP_DOWN ArpOctaveMode.UP 2) (fun _ => 0) (fun _ => 0) 3
          = some r
      ∧ (heldEngine [60, 64] [60, 64]).nthSwitchNoteOn
          (exampleSettings ArpNoteMode.UP_DOWN ArpOctaveMode.UP 2) (fun _ => 0) (fun _ => 0)
          (3 + 1) = some r'
      ∧ r.1.whichNoteCurrentlyOnPostArp
          = (if 3 % (2 * (heldEngine [60, 64] [60, 64]).notes.length)
                < (heldEngine [60, 64] [60, 64]).notes.length then
              ((3 % (2 * (heldEngine [60, 64] [60, 64]).notes.length) : Nat) : Int)
            else ((2 * (heldEngine [60, 64] [60, 64]).notes.length - 1
              - 3 % (2 * (heldEngine [60, 64] [60, 64]).notes.length) : Nat) : Int))
      ∧ (heldEngine [60, 64] [60, 64]).notes[r.1.whichNoteCurrentlyOnPostArp.toNat]? = some x
      ∧ r.2.noteCodeOnPostArp = x.noteCode + r.1.currentOctave * 12
      ∧ (3 % (2 * (heldEngine [60, 64] [60, 64]).notes.length)
            = 2 * (heldEngine [60, 64] [60, 64]).notes.length - 1
        → r'.1.whichNoteCurrentlyOnPostArp = r.1.whichNoteCurrentlyOnPostArp
          ∧ ∃ b, carryOnSequenceForSingleNoteArpeggio
                (exampleSettings ArpNoteMode.UP_DOWN ArpOctaveMode.UP 2) ((fun _ => 0) (3 + 1))
                r.1.toArpeggiatorBase = some b
            ∧ r'.1.currentOctave = b.currentOctave
            ∧ r'.2.noteCodeOnPostArp = x.noteCode + b.currentOctave * 12) := by
  obtain ⟨r, r', x, h1, h2, h3, h4, h5, _, h7, _⟩ :=
    upDown_edge_repeat (exampleSettings ArpNoteMode.UP_DOWN ArpOctaveMode.UP 2) (fun _ => 0)
      (fun _ => 0) (heldEngine [60, 64] [60, 64]) 3 rfl (by decide) (by decide) (by decide)
      rfl rfl rfl rfl
  exact ⟨r, r', x, h1, h2, h3, h4, h5, h7⟩

theorem carryOnSequenceForSingle_draw (settings : ArpeggiatorSettings) (rnd rnd' : Nat)
    (b : ArpeggiatorBase) (ho : settings.octaveMode ≠ ArpOctaveMode.RANDOM) :
    carryOnSequenceForSingleNoteArpeggio settings rnd b
      = carryOnSequenceForSingleNoteArpeggio settings rnd' b := by
  unfold carryOnSequenceForSingleNoteArpeggio
  simp only [ho, if_false]

theorem selectStep_draw (settings : ArpeggiatorSettings) (rn ro rn' ro' : Nat)
    (a : Arpeggiator) (hn : settings.noteMode ≠ ArpNoteMode.RANDOM)
    (ho : settings.octaveMode ≠ ArpOctaveMode.RANDOM) :
    a.selectStep settings rn ro = a.selectStep settings rn' ro' := by
  unfold Arpeggiator.selectStep Arpeggiator.startSequence Arpeggiator.carryOnSequence
    Arpeggiator.advanceNote Arpeggiator.advanceOctave
  simp only [hn, ho, if_false, false_and]
  simp only [carryOnSequenceForSingle_draw settings ro ro' _ ho]

theorem switchNoteOn_draw (settings : ArpeggiatorSettings) (rn ro rn' ro' : Nat)
    (a : Arpeggiator) (instruction : ArpReturnInstruction)
    (hn : settings.noteMode ≠ ArpNoteMode.RANDOM)
    (ho : settings.octaveMode ≠ ArpOctaveMode.RANDOM) :
    a.switchNoteOn settings rn ro instruction = a.switchNoteOn settings rn' ro' instruction := by
  unfold Arpeggiator.switchNoteOn
  dsimp only
  rw [selectStep_draw settings rn ro rn' ro' { a with gateCurrentlyActive := true } hn ho]

theorem switchNoteOn_withStepOf (settings : ArpeggiatorSettings) (rn ro : Nat) (a : Arpeggiator)
    (instruction : ArpReturnInstruction) (r : Arpeggiator × ArpReturnInstruction)
    (hri : a.ratchetNotesIndex = 0) (hrat : a.isRatcheting = false)
    (h : a.switchNoteOn settings rn ro instruction = some r) :
    r.1 = withStepOf a r.1 := by
  obtain ⟨s, x, hs, _, rfl⟩ := switchNoteOn_steady _ _ _ _ _ _ hri hrat h
  obtain ⟨e, _⟩ := selectStep_frame _ _ _ _ _ hs
  rw [e]
  rfl

theorem withStepOf_trans (a a1 a2 : Arpeggiator) (h1 : a1 = withStepOf a a1)
    (h2 : a2 = withStepOf a1 a2) : a2 = withStepOf a a2 := by
  rw [h2, h1]
  rfl

theorem carryOnSequenceForSingle_ceiling (settings : ArpeggiatorSettings) (rnd m : Nat)
    (b : ArpeggiatorBase) :
    carryOnSequenceForSingleNoteArpeggio settings rnd { b with maxSequenceLength := m }
      = (carryOnSequenceForSingleNoteArpeggio settings rnd b).map
          fun b' => { b' with maxSequenceLength := m } := by
  unfold carryOnSequenceForSingleNoteArpeggio
  dsimp only
  split_ifs <;> first | rfl | (cases modChecked rnd settings.numOctaves <;> rfl)

theorem startSequence_ceiling (settings : ArpeggiatorSettings) (rn ro m : Nat)
    (a : Arpeggiator) :
    Arpeggiator.startSequence settings rn ro { a with maxSequenceLength := m }
      = (a.startSequence settings rn ro).map fun s => { s with maxSequenceLength := m } := by
  unfold Arpeggiator.startSequence
  dsimp only
  split_ifs <;>
    first
      | rfl
      | (cases modChecked rn (a.notes.length % 256) <;>
          first | rfl | (cases modChecked ro settings.numOctaves <;> rfl))

theorem map_carryOnSequenceForSingle_ceiling (settings : ArpeggiatorSettings) (ro m : Nat)
    (a : Arpeggiator) :
    (carryOnSequenceForSingleNoteArpeggio settings ro
        ({ a with maxSequenceLength := m } : Arpeggiator).toArpeggiatorBase).map
        (fun b => ({ ({ a with maxSequenceLength := m } : Arpeggiator) with
          toArpeggiatorBase := b } : Arpeggiator))
      = ((carryOnSequenceForSingleNoteArpeggio settings ro a.toArpeggiatorBase).map
          fun b => ({ a with toArpeggiatorBase := b } : Arpeggiator)).map
          fun s => { s with maxSequenceLength := m } := by
  have e := carryOnSequenceForSingle_ceiling settings ro m a.toArpeggiatorBase
  show Option.map _ (carryOnSequenceForSingleNoteArpeggio settings ro
    { a.toArpeggiatorBase with maxSequenceLength := m }) = _
  rw [e]
  cases carryOnSequenceForSingleNoteArpeggio settings ro a.toArpeggiatorBase <;> rfl

theorem advanceOctave_ceiling (settings : ArpeggiatorSettings) (ro m : Nat) (t : NoteAdvance) :
    Arpeggiator.advanceOctave settings ro
        { arp := { t.arp with maxSequenceLength := m }, changeOctave := t.changeOctave,
          changingOctaveDirection := t.changingOctaveDirection }
      = (Arpeggiator.advanceOctave settings ro t).map
          fun s => { s with maxSequenceLength := m } := by
  obtain ⟨arp, co, cd⟩ := t
  unfold Arpeggiator.advanceOctave
  dsimp only
  cases co <;> cases cd
  · rfl
  · rfl
  · exact map_carryOnSequenceForSingle_ceiling settings ro m
      { arp with randomNotesPlayedFromOctave := 0 }
  · exact map_carryOnSequenceForSingle_ceiling settings ro m
      { ({ arp with
            currentOctaveDirection := if arp.currentOctaveDirection = -1 then 1 else -1 } :
          Arpeggiator) with randomNotesPlayedFromOctave := 0 }

theorem advanceNote_ceiling (settings : ArpeggiatorSettings) (rn m : Nat) (a : Arpeggiator)
    (hn : settings.noteMode ≠ ArpNoteMode.RANDOM) :
    Arpeggiator.advanceNote settings rn { a with maxSequenceLength := m }
      = (a.advanceNote settings rn).map fun t =>
          { arp := { t.arp with maxSequenceLength := m }, changeOctave := t.changeOctave,
            changingOctaveDirection := t.changingOctaveDirection } := by
  unfold Arpeggiator.advanceNote
  dsimp only
  rw [if_neg hn, if_neg hn]
  split_ifs <;> rfl

theorem carryOnSequence_ceiling (settings : ArpeggiatorSettings) (rn ro m : Nat)
    (a : Arpeggiator) (hn : settings.noteMode ≠ ArpNoteMode.RANDOM) :
    Arpeggiator.carryOnSequence settings rn ro { a with maxSequenceLength := m }
      = (a.carryOnSequence settings rn ro).map fun s => { s with maxSequenceLength := m } := by
  unfold Arpeggiator.carryOnSequence
  rw [advanceNote_ceiling settings rn m a hn]
  cases a.advanceNote settings rn with
  | none => rfl
  | some t =>
    simp only [Option.map_some', Option.some_bind]
    exact advanceOctave_ceiling settings ro m t

theorem finishSwitchNoteOn_ceiling (settings : ArpeggiatorSettings) (m : Nat) (a : Arpeggiator)
    (instruction : ArpReturnInstruction) :
    Arpeggiator.finishSwitchNoteOn settings { a with maxSequenceLength := m } instruction
      = (a.finishSwitchNoteOn settings instruction).map
          fun r => ({ r.1 with maxSequenceLength := m }, r.2) := by
  unfold Arpeggiator.finishSwitchNoteOn
  dsimp only
  split_ifs <;>
    first
      | rfl
      | (simp only [Option.bind_eq_bind]
         cases getElement a.notesAsPlayed a.whichNoteCurrentlyOnPostArp <;> rfl)
      | (simp only [Option.bind_eq_bind]
         cases getElement a.notes a.whichNoteCurrentlyOnPostArp <;> rfl)

theorem selectStep_ceiling (settings : ArpeggiatorSettings) (rn ro m : Nat) (a : Arpeggiator)
    (hn : settings.noteMode ≠ ArpNoteMode.RANDOM)
    (h0 : a.maxSequenceLength = 0)
    (hm : a.playedFirstArpeggiatedNoteYet = false ∨ a.notesPlayedFromSequence < m) :
    Arpeggiator.selectStep settings rn ro { a with maxSequenceLength := m }
      = (a.selectStep settings rn ro).map fun s => { s with maxSequenceLength := m } := by
  have hfull : ¬ (settings.noteMode = ArpNoteMode.RANDOM
      ∧ settings.octaveMode = ArpOctaveMode.RANDOM) := fun c => hn c.1
  by_cases hp : a.playedFirstArpeggiatedNoteYet = false
  · rw [selectStep_start settings rn ro a hfull hp,
      selectStep_start settings rn ro { a with maxSequenceLength := m } hfull hp]
    exact startSequence_ceiling settings rn ro m a
  · have hp' : a.playedFirstArpeggiatedNoteYet = true := by simpa using hp
    have hlt : a.notesPlayedFromSequence < m := by
      rcases hm with c | c
      · exact absurd c hp
      · exact c
    rw [selectStep_carryOn settings rn ro a hfull hp' (by omega),
      selectStep_carryOn settings rn ro { a with maxSequenceLength := m } hfull hp'
        (by show ¬ (m > 0 ∧ a.notesPlayedFromSequence ≥ m); omega)]
    show (if a.notes.length = 1 then _ else _) = _
    by_cases c : a.notes.length = 1
    · rw [if_pos c, if_pos c]
      exact map_carryOnSequenceForSingle_ceiling settings ro m a
    · rw [if_neg c, if_neg c]
      exact carryOnSequence_ceiling settings rn ro m a hn

theorem switchNoteOn_ceiling (settings : ArpeggiatorSettings) (rn ro m : Nat) (a : Arpeggiator)
    (instruction : ArpReturnInstruction)
    (hn : settings.noteMode ≠ ArpNoteMode.RANDOM)
    (h0 : a.maxSequenceLength = 0) (hri : a.ratchetNotesIndex = 0)
    (hm : a.playedFirstArpeggiatedNoteYet = false ∨ a.notesPlayedFromSequence < m) :
    Arpeggiator.switchNoteOn settings rn ro { a with maxSequenceLength := m } instruction
      = (a.switchNoteOn settings rn ro instruction).map
          fun r => ({ r.1 with maxSequenceLength := m }, r.2) := by
  rw [switchNoteOn_of_ratchetNotesIndex_zero _ _ _ _ _ hri,
    switchNoteOn_of_ratchetNotesIndex_zero settings rn ro { a with maxSequenceLength := m }
      instruction hri]
  have e := selectStep_ceiling settings rn ro m { a with gateCurrentlyActive := true } hn h0 hm
  have e' : Arpeggiator.selectStep settings rn ro
      { ({ a with maxSequenceLength := m } : Arpeggiator) with gateCurrentlyActive := true }
      = (Arpeggiator.selectStep settings rn ro { a with gateCurrentlyActive := true }).map
          fun s => { s with maxSequenceLength := m } := e
  rw [e']
  cases Arpeggiator.selectStep settings rn ro { a with gateCurrentlyActive := true } with
  | none => rfl
  | some s =>
    simp only [Option.map_some', Option.some_bind]
    exact finishSwitchNoteOn_ceiling settings m s.countStep instruction

theorem startSequence_eq (settings : ArpeggiatorSettings) (rn ro : Nat) (a : Arpeggiator)
    (hn : settings.noteMode ≠ ArpNoteMode.RANDOM)
    (ho : settings.octaveMode ≠ ArpOctaveMode.RANDOM) :
    a.startSequence settings rn ro
      = some { a with
          notesPlayedFromSequence := 0
          randomNotesPlayedFromOctave := 0
          whichNoteCurrentlyOnPostArp :=
            if settings.noteMode = ArpNoteMode.DOWN then (a.notes.length : Int) - 1 else 0
          currentDirection := if settings.noteMode = ArpNoteMode.DOWN then -1 else 1
          currentOctave :=
            if settings.octaveMode = ArpOctaveMode.DOWN
                ∨ (settings.octaveMode = ArpOctaveMode.ALTERNATE
                  ∧ settings.noteMode = ArpNoteMode.DOWN) then
                    toInt8 ((settings.numOctaves : Int) - 1)
            else 0
          currentOctaveDirection :=
            if settings.octaveMode = ArpOctaveMode.DOWN
                ∨ (settings.octaveMode = ArpOctaveMode.ALTERNATE
                  ∧ settings.noteMode = ArpNoteMode.DOWN) then -1
            else 1 } := by
  unfold Arpeggiator.startSequence
  dsimp only
  rw [if_neg hn]
  by_cases c1 : settings.noteMode = ArpNoteMode.DOWN
  · rw [if_pos c1]
    simp only [Option.some_bind]
    rw [if_neg ho]
    split_ifs <;> rfl
  · rw [if_neg c1]
    simp only [Option.some_bind]
    rw [if_neg ho]
    split_ifs <;> rfl

theorem selectStep_restart (settings : ArpeggiatorSettings) (rn ro : Nat) (a : Arpeggiator)
    (hfull : ¬ (settings.noteMode = ArpNoteMode.RANDOM
      ∧ settings.octaveMode = ArpOctaveMode.RANDOM))
    (hstart : a.playedFirstArpeggiatedNoteYet = false
      ∨ (a.maxSequenceLength > 0 ∧ a.notesPlayedFromSequence ≥ a.maxSequenceLength)) :
    a.selectStep settings rn ro
      = Arpeggiator.startSequence settings rn ro
          { a with playedFirstArpeggiatedNoteYet := false } := by
  by_cases c : a.maxSequenceLength > 0 ∧ a.notesPlayedFromSequence ≥ a.maxSequenceLength
  · unfold Arpeggiator.selectStep
    simp only [hfull, if_false, c, and_self, if_true]
  · have hp : a.playedFirstArpeggiatedNoteYet = false := by
      rcases hstart with h | h
      · exact h
      · exact absurd h c
    rw [selectStep_start settings rn ro a hfull hp]
    have e : ({ a with playedFirstArpeggiatedNoteYet := false } : Arpeggiator) = a := by
      obtain ⟨b, _, _, _⟩ := a
      cases b
      simp_all
    rw [e]

theorem switchNoteOn_restart (settings : ArpeggiatorSettings) (rn ro : Nat) (a : Arpeggiator)
    (instruction : ArpReturnInstruction) (r : Arpeggiator × ArpReturnInstruction)
    (hn : settings.noteMode ≠ ArpNoteMode.RANDOM)
    (ho : settings.octaveMode ≠ ArpOctaveMode.RANDOM)
    (hri : a.ratchetNotesIndex = 0) (hrat : a.isRatcheting = false)
    (hstart : a.playedFirstArpeggiatedNoteYet = false
      ∨ (a.maxSequenceLength > 0 ∧ a.notesPlayedFromSequence ≥ a.maxSequenceLength))
    (h : a.switchNoteOn settings rn ro instruction = some r) :
    ∃ x, (if settings.noteMode = ArpNoteMode.AS_PLAYED then a.notesAsPlayed else a.notes)[
          (if settings.noteMode = ArpNoteMode.DOWN then (a.notes.length : Int) - 1
            else 0).toNat]? = some x
      ∧ r = (restarted settings a x,
          { instruction with
            noteCodeOnPostArp := (restarted settings a x).noteCodeCurrentlyOnPostArp
            arpNoteOn := some x }) := by
  have hfull : ¬ (settings.noteMode = ArpNoteMode.RANDOM
      ∧ settings.octaveMode = ArpOctaveMode.RANDOM) := fun c => hn c.1
  obtain ⟨s, x, hs, hx, rfl⟩ := switchNoteOn_steady _ _ _ _ _ _ hri hrat h
  rw [selectStep_restart settings rn ro { a with gateCurrentlyActive := true } hfull hstart,
    startSequence_eq settings rn ro _ hn ho] at hs
  simp only [Option.some.injEq] at hs
  subst hs
  exact ⟨x, hx, rfl⟩

theorem restarted_withStepOf (settings : ArpeggiatorSettings) (a a' : Arpeggiator) (x : ArpNote)
    (h : a' = withStepOf a a') : restarted settings a' x = restarted settings a x := by
  rw [h]
  rfl

theorem carryOnSequence_notesPlayed (settings : ArpeggiatorSettings) (rn ro : Nat)
    (a s : Arpeggiator) (h : a.carryOnSequence settings rn ro = some s) :
    s.notesPlayedFromSequence = a.notesPlayedFromSequence := by
  unfold Arpeggiator.carryOnSequence at h
  simp only [Option.bind_eq_some] at h
  obtain ⟨t, h1, h2⟩ := h
  have e1 : t.arp.notesPlayedFromSequence = a.notesPlayedFromSequence := by
    unfold Arpeggiator.advanceNote at h1
    dsimp only at h1
    split_ifs at h1 <;>
      first
        | (simp only [Option.some.injEq] at h1
           subst h1
           rfl)
        | (simp only [Option.map_eq_some'] at h1
           obtain ⟨w, _, rfl⟩ := h1
           rfl)
  have e2 : s.notesPlayedFromSequence = t.arp.notesPlayedFromSequence := by
    unfold Arpeggiator.advanceOctave at h2
    dsimp only at h2
    split_ifs at h2 <;>
      first
        | (simp only [Option.some.injEq] at h2
           subst h2
           rfl)
        | (simp only [Option.map_eq_some'] at h2
           obtain ⟨b, hb, rfl⟩ := h2
           have fr := carryOnSequenceForSingle_frame _ _ _ _ hb
           show b.notesPlayedFromSequence = _
           rw [fr])
  rw [e2, e1]

theorem switchNoteOn_count (settings : ArpeggiatorSettings) (rn ro : Nat) (a : Arpeggiator)
    (instruction : ArpReturnInstruction) (r : Arpeggiator × ArpReturnInstruction)
    (hfull : ¬ (settings.noteMode = ArpNoteMode.RANDOM
      ∧ settings.octaveMode = ArpOctaveMode.RANDOM))
    (hri : a.ratchetNotesIndex = 0) (hrat : a.isRatcheting = false)
    (hp : a.playedFirstArpeggiatedNoteYet = true)
    (hmax : ¬ (a.maxSequenceLength > 0 ∧ a.notesPlayedFromSequence ≥ a.maxSequenceLength))
    (h : a.switchNoteOn settings rn ro instruction = some r) :
    r.1.notesPlayedFromSequence = a.notesPlayedFromSequence + 1 := by
  obtain ⟨s, x, hs, _, rfl⟩ := switchNoteOn_steady _ _ _ _ _ _ hri hrat h
  rw [selectStep_carryOn settings rn ro { a with gateCurrentlyActive := true } hfull hp hmax]
    at hs
  show s.notesPlayedFromSequence + 1 = a.notesPlayedFromSequence + 1
  have e : s.notesPlayedFromSequence = a.notesPlayedFromSequence := by
    split_ifs at hs
    · simp only [Option.map_eq_some'] at hs
      obtain ⟨b, hb, rfl⟩ := hs
      have fr := carryOnSequenceForSingle_frame _ _ _ _ hb
      show b.notesPlayedFromSequence = _
      rw [fr]
    · exact carryOnSequence_notesPlayed settings rn ro { a with gateCurrentlyActive := true } s hs
  rw [e]

theorem counting_times (settings : ArpeggiatorSettings) (rndNote rndOctave : Nat → Nat)
    (a : Arpeggiator)
    (hnm : settings.noteMode ≠ ArpNoteMode.RANDOM)
    (hom : settings.octaveMode ≠ ArpOctaveMode.RANDOM)
    (hn : 1 ≤ a.notes.length) (hlen : a.notesAsPlayed.length = a.notes.length)
    (hK : 1 ≤ settings.numOctaves)
    (hri : a.ratchetNotesIndex = 0) (hrat : a.isRatcheting = false)
    (hp : a.playedFirstArpeggiatedNoteYet = false) (k : Nat) :
    ∃ a', a.switchNoteOnTimes settings rndNote rndOctave k = some a' ∧ Traversing a k a'
      ∧ a' = withStepOf a a'
      ∧ (1 ≤ k → (a.maxSequenceLength = 0 ∨ k ≤ a.maxSequenceLength)
        → a'.notesPlayedFromSequence = k) := by
  have hr : ¬ (settings.noteMode = ArpNoteMode.RANDOM ∧ a.notes.length % 256 = 0) :=
    fun c => hnm c.1
  have hfull : ¬ (settings.noteMode = ArpNoteMode.RANDOM
      ∧ settings.octaveMode = ArpOctaveMode.RANDOM) := fun c => hnm c.1
  induction k with
  | zero =>
    exact ⟨a, rfl, ⟨rfl, rfl, rfl, hri, hrat, fun _ => hp, fun h => absurd h (by omega)⟩, rfl,
      fun h => absurd h (by omega)⟩
  | succ k ih =>
    obtain ⟨a', h1, h2, h3, h4⟩ := ih
    obtain ⟨r, hr', h5⟩ := traversing_step settings (rndNote k) (rndOctave k) a a'
      ArpReturnInstruction.fresh k hn hlen hK hr h2
    obtain ⟨t1, t2, t3, t4, t5, t6, t7⟩ := h2
    have fr := switchNoteOn_withStepOf _ _ _ _ _ _ t4 t5 hr'
    refine ⟨r.1, by simp [Arpeggiator.switchNoteOnTimes, h1, hr'], h5,
      withStepOf_trans a a' r.1 h3 fr, ?_⟩
    intro _ hk
    rcases Nat.eq_zero_or_pos k with hk0 | hk0
    · subst hk0
      obtain ⟨x, _, e⟩ := switchNoteOn_restart settings _ _ a' _ r hnm hom t4 t5
        (Or.inl (t6 rfl)) hr'
      rw [e]
      rfl
    · obtain ⟨p1, _⟩ := t7 hk0
      have hc := h4 hk0 (by omega)
      have e := switchNoteOn_count settings _ _ a' _ r hfull t4 t5 p1
        (by rw [t3, hc]; omega) hr'
      rw [e, hc]

theorem nthSwitchNoteOn_first (settings : ArpeggiatorSettings) (rndNote rndOctave : Nat → Nat)
    (a a' : Arpeggiator) (k : Nat)
    (hnm : settings.noteMode ≠ ArpNoteMode.RANDOM)
    (hom : settings.octaveMode ≠ ArpOctaveMode.RANDOM)
    (h1 : a.switchNoteOnTimes settings rndNote rndOctave k = some a')
    (ht : Traversing a k a') (hf : a' = withStepOf a a')
    (hstart : a'.playedFirstArpeggiatedNoteYet = false
      ∨ (a'.maxSequenceLength > 0 ∧ a'.notesPlayedFromSequence ≥ a'.maxSequenceLength))
    (r : Arpeggiator × ArpReturnInstruction)
    (h : a.nthSwitchNoteOn settings rndNote rndOctave k = some r) :
    ∃ x, (if settings.noteMode = ArpNoteMode.AS_PLAYED then a.notesAsPlayed else a.notes)[
          (if settings.noteMode = ArpNoteMode.DOWN then (a.notes.length : Int) - 1
            else 0).toNat]? = some x
      ∧ r = (restarted settings a x,
          { ArpReturnInstruction.fresh with
            noteCodeOnPostArp := (restarted settings a x).noteCodeCurrentlyOnPostArp
            arpNoteOn := some x }) := by
  rw [nthSwitchNoteOn_eq settings rndNote rndOctave a a' k h1] at h
  obtain ⟨t1, t2, t3, t4, t5, _, _⟩ := ht
  obtain ⟨x, hx, e⟩ := switchNoteOn_restart settings _ _ a' _ r hnm hom t4 t5 hstart h
  rw [t1, t2] at hx
  rw [restarted_withStepOf settings a a' x hf] at e
  exact ⟨x, hx, e⟩

theorem switchNoteOnTimes_period (settings : ArpeggiatorSettings)
    (rndNote rndOctave : Nat → Nat) (a : Arpeggiator)
    (hnm : settings.noteMode ≠ ArpNoteMode.RANDOM)
    (hom : settings.octaveMode ≠ ArpOctaveMode.RANDOM)
    (hn : 1 ≤ a.notes.length) (hlen : a.notesAsPlayed.length = a.notes.length)
    (hK : 1 ≤ settings.numOctaves) (hL : 0 < a.maxSequenceLength)
    (hri : a.ratchetNotesIndex = 0) (hrat : a.isRatcheting = false)
    (hp : a.playedFirstArpeggiatedNoteYet = false) (i : Nat) :
    a.nthSwitchNoteOn settings rndNote rndOctave (i + a.maxSequenceLength)
        = a.nthSwitchNoteOn settings rndNote rndOctave i
      ∧ a.switchNoteOnTimes settings rndNote rndOctave (i + 1 + a.maxSequenceLength)
        = a.switchNoteOnTimes settings rndNote rndOctave (i + 1) := by
  have hr : ¬ (settings.noteMode = ArpNoteMode.RANDOM ∧ a.notes.length % 256 = 0) :=
    fun c => hnm c.1
  induction i with
  | zero =>
    obtain ⟨a0, h0, tr0, f0, _⟩ := counting_times settings rndNote rndOctave a hnm hom hn hlen hK
      hri hrat hp 0
    obtain ⟨aL, hL1, trL, fL, cL⟩ := counting_times settings rndNote rndOctave a hnm hom hn hlen
      hK hri hrat hp a.maxSequenceLength
    have cnt := cL (by omega) (Or.inr (le_refl _))
    obtain ⟨r0, hr0, _⟩ := traversing_step settings (rndNote 0) (rndOctave 0) a a0
      ArpReturnInstruction.fresh 0 hn hlen hK hr tr0
    obtain ⟨rL, hrL, _⟩ := traversing_step settings (rndNote a.maxSequenceLength)
      (rndOctave a.maxSequenceLength) a aL ArpReturnInstruction.fresh a.maxSequenceLength hn hlen
      hK hr trL
    rw [← nthSwitchNoteOn_eq settings rndNote rndOctave a a0 0 h0] at hr0
    rw [← nthSwitchNoteOn_eq settings rndNote rndOctave a aL _ hL1] at hrL
    obtain ⟨x0, hx0, e0⟩ := nthSwitchNoteOn_first settings rndNote rndOctave a a0 0 hnm hom h0
      tr0 f0 (Or.inl (tr0.2.2.2.2.2.1 rfl)) r0 hr0
    obtain ⟨xL, hxL, eL⟩ := nthSwitchNoteOn_first settings rndNote rndOctave a aL _ hnm hom hL1
      trL fL (Or.inr ⟨by rw [trL.2.2.1]; exact hL, by rw [trL.2.2.1, cnt]⟩) rL hrL
    rw [hx0] at hxL
    simp only [Option.some.injEq] at hxL
    subst hxL
    have e : rL = r0 := by rw [eL, e0]
    have n0 : a.nthSwitchNoteOn settings rndNote rndOctave (0 + a.maxSequenceLength)
        = a.nthSwitchNoteOn settings rndNote rndOctave 0 := by
      rw [Nat.zero_add, hrL, hr0, e]
    refine ⟨n0, ?_⟩
    rw [Nat.zero_add] at n0
    have s1 := switchNoteOnTimes_succ settings rndNote rndOctave a _ rL hrL
    have s2 := switchNoteOnTimes_succ settings rndNote rndOctave a 0 r0 hr0
    have e' : 0 + 1 + a.maxSequenceLength = a.maxSequenceLength + 1 := by omega
    rw [e', s1, s2, e]
  | succ i ih =>
    obtain ⟨_, ih2⟩ := ih
    have n1 : a.nthSwitchNoteOn settings rndNote rndOctave (i + 1 + a.maxSequenceLength)
        = a.nthSwitchNoteOn settings rndNote rndOctave (i + 1) := by
      unfold Arpeggiator.nthSwitchNoteOn
      rw [ih2]
      cases a.switchNoteOnTimes settings rndNote rndOctave (i + 1) with
      | none => rfl
      | some a' =>
        exact switchNoteOn_draw settings _ _ _ _ a' ArpReturnInstruction.fresh hnm hom
    refine ⟨n1, ?_⟩
    have e' : i + 1 + 1 + a.maxSequenceLength = (i + 1 + a.maxSequenceLength) + 1 := by omega
    rw [e']
    show (match a.switchNoteOnTimes settings rndNote rndOctave (i + 1 + a.maxSequenceLength) with
      | none => none
      | some a' => _) = (match a.switchNoteOnTimes settings rndNote rndOctave (i + 1) with
      | none => none
      | some a' => _)
    rw [ih2]
    cases a.switchNoteOnTimes settings rndNote rndOctave (i + 1) with
    | none => rfl
    | some a' =>
      show Option.map _ _ = Option.map _ _
      rw [switchNoteOn_draw settings _ _ (rndNote (i + 1)) (rndOctave (i + 1)) a'
        ArpReturnInstruction.fresh hnm hom]

theorem switchNoteOnTimes_ceiling (settings : ArpeggiatorSettings)
    (rndNote rndOctave : Nat → Nat) (a : Arpeggiator) (m : Nat)
    (hnm : settings.noteMode ≠ ArpNoteMode.RANDOM)
    (hom : settings.octaveMode ≠ ArpOctaveMode.RANDOM)
    (hn : 1 ≤ a.notes.length) (hlen : a.notesAsPlayed.length = a.notes.length)
    (hK : 1 ≤ settings.numOctaves) (h0 : a.maxSequenceLength = 0)
    (hri : a.ratchetNotesIndex = 0) (hrat : a.isRatcheting = false)
    (hp : a.playedFirstArpeggiatedNoteYet = false) (k : Nat) (hk : k ≤ m) :
    ∃ a', a.switchNoteOnTimes settings rndNote rndOctave k = some a'
      ∧ Arpeggiator.switchNoteOnTimes settings rndNote rndOctave
          { a with maxSequenceLength := m } k = some { a' with maxSequenceLength := m }
      ∧ a'.maxSequenceLength = 0 ∧ a'.ratchetNotesIndex = 0
      ∧ (a'.playedFirstArpeggiatedNoteYet = false ∨ a'.notesPlayedFromSequence = k) := by
  induction k with
  | zero => exact ⟨a, rfl, rfl, h0, hri, Or.inl hp⟩
  | succ k ih =>
    obtain ⟨a', h1, h2, h3, h4, h5⟩ := ih (by omega)
    obtain ⟨a2, g1, g2, _, g4⟩ := counting_times settings rndNote rndOctave a hnm hom hn hlen hK
      hri hrat hp (k + 1)
    have hcount := g4 (by omega) (Or.inl h0)
    obtain ⟨t1, t2, t3, t4, t5, _, _⟩ := g2
    refine ⟨a2, g1, ?_, by rw [t3, h0], t4, Or.inr hcount⟩
    have hm : a'.playedFirstArpeggiatedNoteYet = false ∨ a'.notesPlayedFromSequence < m := by
      rcases h5 with c | c
      · exact Or.inl c
      · exact Or.inr (by omega)
    have e := switchNoteOn_ceiling settings (rndNote k) (rndOctave k) m a'
      ArpReturnInstruction.fresh hnm h3 h4 hm
    have g1' := g1
    unfold Arpeggiator.switchNoteOnTimes at g1' ⊢
    rw [h1] at g1'
    rw [h2]
    simp only [Option.map_eq_some'] at g1'
    obtain ⟨r, hr, rfl⟩ := g1'
    show Option.map _ (Arpeggiator.switchNoteOn settings (rndNote k) (rndOctave k)
      { a' with maxSequenceLength := m } ArpReturnInstruction.fresh) = _
    rw [e, hr]
    rfl

/-- C20: sequence-length ceiling. With a ceiling `maxSequenceLength = L > 0`, n >= 1 held notes,
K >= 1 octaves, neither note mode nor octave mode RANDOM, no ratchet and a fresh sequence, every
step of the step advance returns, step `i + L` emits the same pitch as step `i` (for every
random draw), and for `i < L` step `i` emits the pitch that step `i` of the same traversal
without a ceiling (`maxSequenceLength = 0`) emits. -/
theorem ceiling_periodic (settings : ArpeggiatorSettings) (rndNote rndOctave : Nat → Nat)
    (a : Arpeggiator) (i : Nat)
    (hnm : settings.noteMode ≠ ArpNoteMode.RANDOM)
    (hom : settings.octaveMode ≠ ArpOctaveMode.RANDOM)
    (hn : 1 ≤ a.notes.length) (hlen : a.notesAsPlayed.length = a.notes.length)
    (hK : 1 ≤ settings.numOctaves) (hL : 0 < a.maxSequenceLength)
    (hri : a.ratchetNotesIndex = 0) (hrat : a.isRatcheting = false)
    (hp : a.playedFirstArpeggiatedNoteYet = false) :
    ∃ r r', a.nthSwitchNoteOn settings rndNote rndOctave i = some r
      ∧ a.nthSwitchNoteOn settings rndNote rndOctave (i + a.maxSequenceLength) = some r'
      ∧ r'.2.noteCodeOnPostArp = r.2.noteCodeOnPostArp
      ∧ (i < a.maxSequenceLength
        → ∃ r0, Arpeggiator.nthSwitchNoteOn settings rndNote rndOctave
              { a with maxSequenceLength := 0 } i = some r0
          ∧ r.2.noteCodeOnPostArp = r0.2.noteCodeOnPostArp) := by
  have hr : ¬ (settings.noteMode = ArpNoteMode.RANDOM ∧ a.notes.length % 256 = 0) :=
    fun c => hnm c.1
  obtain ⟨a1, h1, tr1⟩ := traversing_times settings rndNote rndOctave a hn hlen hK hr hri hrat
    hp i
  obtain ⟨r, hr1, _⟩ := traversing_step settings (rndNote i) (rndOctave i) a a1
    ArpReturnInstruction.fresh i hn hlen hK hr tr1
  rw [← nthSwitchNoteOn_eq settings rndNote rndOctave a a1 i h1] at hr1
  obtain ⟨per, _⟩ := switchNoteOnTimes_period settings rndNote rndOctave a hnm hom hn hlen hK hL
    hri hrat hp i
  refine ⟨r, r, hr1, by rw [per, hr1], rfl, ?_⟩
  intro hi
  obtain ⟨a0, g1, g2, g3, g4, g5⟩ := switchNoteOnTimes_ceiling settings rndNote rndOctave
    { a with maxSequenceLength := 0 } a.maxSequenceLength hnm hom hn hlen hK rfl hri hrat hp i
    (by omega)
  have ea : ({ ({ a with maxSequenceLength := 0 } : Arpeggiator) with
      maxSequenceLength := a.maxSequenceLength } : Arpeggiator) = a := rfl
  rw [ea, h1] at g2
  simp only [Option.some.injEq] at g2
  subst g2
  have hm : a0.playedFirstArpeggiatedNoteYet = false
      ∨ a0.notesPlayedFromSequence < a.maxSequenceLength := by
    rcases g5 with c | c
    · exact Or.inl c
    · exact Or.inr (by omega)
  have e := switchNoteOn_ceiling settings (rndNote i) (rndOctave i) a.maxSequenceLength a0
    ArpReturnInstruction.fresh hnm g3 g4 hm
  rw [nthSwitchNoteOn_eq settings rndNote rndOctave a _ i h1, e] at hr1
  simp only [Option.map_eq_some'] at hr1
  obtain ⟨r0, hr0, rfl⟩ := hr1
  exact ⟨r0, by rw [nthSwitchNoteOn_eq settings rndNote rndOctave _ a0 i g1]; exact hr0, rfl⟩

theorem ceiling_periodic_witness :
    ∃ r r', ceilingEngine.nthSwitchNoteOn (exampleSettings ArpNoteMode.UP ArpOctaveMode.UP 2)
          (fun _ => 0) (fun _ => 0) 3 = some r
      ∧ ceilingEngine.nthSwitchNoteOn (exampleSettings ArpNoteMode.UP ArpOctaveMode.UP 2)
          (fun _ => 0) (fun _ => 0) (3 + ceilingEngine.maxSequenceLength) = some r'
      ∧ r'.2.noteCodeOnPostArp = r.2.noteCodeOnPostArp
      ∧ (3 < ceilingEngine.maxSequenceLength
        → ∃ r0, Arpeggiator.nthSwitchNoteOn (exampleSettings ArpNoteMode.UP ArpOctaveMode.UP 2)
              (fun _ => 0) (fun _ => 0) { ceilingEngine with maxSequenceLength := 0 } 3 = some r0
          ∧ r.2.noteCodeOnPostArp = r0.2.noteCodeOnPostArp) :=
  ceiling_periodic (exampleSettings ArpNoteMode.UP ArpOctaveMode.UP 2) (fun _ => 0) (fun _ => 0)
    ceilingEngine 3 (by decide) (by decide) (by decide) (by decide) (by decide) (by decide)
    rfl rfl rfl

theorem ceiling_example :
    (List.range 10).map (fun i =>
      (ceilingEngine.nthSwitchNoteOn (exampleSettings ArpNoteMode.UP ArpOctaveMode.UP 2)
        (fun _ => 0) (fun _ => 0) i).map fun r => r.2.noteCodeOnPostArp)
      = [some 60, some 64, some 67, some 72, some 60, some 64, some 67, some 72, some 60,
         some 64] := by
  decide

theorem tickBoundary_isSome (settings : ArpeggiatorSettings) (ticksPerPeriod : Nat)
    (clockActive : Bool) (rn ro : Nat) (a : Arpeggiator) (instruction : ArpReturnInstruction)
    (hi : IndexOk a) (hlen : a.notesAsPlayed.length = a.notes.length)
    (hK : 1 ≤ settings.numOctaves)
    (hr : ¬ (settings.noteMode = ArpNoteMode.RANDOM ∧ a.notes.length % 256 = 0)) :
    ∃ r, a.tickBoundary settings ticksPerPeriod clockActive rn ro instruction = some r := by
  unfold Arpeggiator.tickBoundary
  dsimp only
  by_cases c : a.hasAnyInputNotesActive = true
  · rw [if_pos c]
    have hn : 1 ≤ a.notes.length := by
      unfold Arpeggiator.hasAnyInputNotesActive at c
      simp only [decide_eq_true_eq] at c
      omega
    obtain ⟨i0, i1, i2⟩ := hi
    have hmaxn : max (a.notes.length : Int) 1 = (a.notes.length : Int) := by omega
    rw [hmaxn] at i1
    obtain ⟨r, hr'⟩ := switchNoteOn_isSome settings rn ro
      { a with toArpeggiatorBase :=
          (switchAnyNoteOff clockActive a.toArpeggiatorBase instruction).1 }
      (switchAnyNoteOff clockActive a.toArpeggiatorBase instruction).2 hn i0 i1
      (by
        show (switchAnyNoteOff clockActive a.toArpeggiatorBase instruction).1.currentDirection = 1
          ∨ _
        rw [switchAnyNoteOff_currentDirection]
        exact i2)
      hlen hK hr
    rw [hr']
    exact ⟨_, rfl⟩
  · rw [if_neg c]
    exact ⟨_, rfl⟩

theorem tickPeriod_ticks (settings : ArpeggiatorSettings) (clipCurrentPos : Nat)
    (currentlyPlayingReversed clockActive : Bool) (rc rm rn ro : Nat) (a : Arpeggiator)
    (instruction : ArpReturnInstruction) (P0 : Nat)
    (hP0 : ticksPerPeriodOf settings = some P0)
    (hP : 1 ≤ shiftForRatchet P0 (setupRatchetForTick settings rc rm a.toArpeggiatorBase))
    (hi : IndexOk a) (hlen : a.notesAsPlayed.length = a.notes.length)
    (hK : 1 ≤ settings.numOctaves)
    (hr : ¬ (settings.noteMode = ArpNoteMode.RANDOM ∧ a.notes.length % 256 = 0)) :
    ∃ r, a.tickPeriod settings clipCurrentPos currentlyPlayingReversed clockActive rc rm rn ro
          instruction = some r
      ∧ r.settings = settings
      ∧ r.ticks
        = (if clipCurrentPos
              % shiftForRatchet P0 (setupRatchetForTick settings rc rm a.toArpeggiatorBase) = 0
            then shiftForRatchet P0 (setupRatchetForTick settings rc rm a.toArpeggiatorBase)
          else if currentlyPlayingReversed = false then
            shiftForRatchet P0 (setupRatchetForTick settings rc rm a.toArpeggiatorBase)
              - clipCurrentPos
                % shiftForRatchet P0 (setupRatchetForTick settings rc rm a.toArpeggiatorBase)
          else clipCurrentPos
            % shiftForRatchet P0 (setupRatchetForTick settings rc rm a.toArpeggiatorBase)) := by
  unfold Arpeggiator.tickPeriod
  rw [hP0]
  simp only [Option.some_bind]
  generalize hb : setupRatchetForTick settings rc rm a.toArpeggiatorBase = b at hP ⊢
  generalize hPd : shiftForRatchet P0 b = P at hP ⊢
  have hmod : modChecked clipCurrentPos P = some (clipCurrentPos % P) := by
    unfold modChecked
    rw [if_neg (by omega)]
  rw [hmod]
  simp only [Option.some_bind]
  by_cases c : clipCurrentPos % P = 0
  · rw [if_pos c, if_pos c]
    have hbd : b.currentDirection = a.currentDirection := by
      rw [← hb, setupRatchetForTick_currentDirection]
    obtain ⟨r1, h1⟩ := tickBoundary_isSome settings P clockActive rn ro
      { a with toArpeggiatorBase := b } instruction
      ⟨hi.1, hi.2.1, by
        show b.currentDirection = 1 ∨ b.currentDirection = -1
        rw [hbd]
        exact hi.2.2⟩ hlen hK hr
    rw [h1]
    exact ⟨_, rfl, rfl, rfl⟩
  · rw [if_neg c, if_neg c]
    by_cases c2 : currentlyPlayingReversed = false
    · rw [if_pos c2, if_pos c2]
      exact ⟨_, rfl, rfl, rfl⟩
    · rw [if_neg c2, if_neg c2]
      exact ⟨_, rfl, rfl, rfl⟩

theorem setupRatchetForTick_restart (settings : ArpeggiatorSettings) (rc rm : Nat)
    (b : ArpeggiatorBase) (P0 : Nat) :
    shiftForRatchet P0 (setupRatchetForTick { settings with flagForceArpRestart := false } rc rm
        { b with playedFirstArpeggiatedNoteYet := false })
      = shiftForRatchet P0 (setupRatchetForTick settings rc rm b) := by
  unfold shiftForRatchet setupRatchetForTick maybeSetupNewRatchet
  dsimp only
  split_ifs <;> simp_all

theorem ticksPerPeriodOf_restart (settings : ArpeggiatorSettings) :
    ticksPerPeriodOf { settings with flagForceArpRestart := false }
      = ticksPerPeriodOf settings := by
  unfold ticksPerPeriodOf
  rfl

/-- C17, the code at the failing input: the tick does not always return a wait. At the 128th
sync level (even) the period is `3 << 1 = 6` ticks; with ratchet amount 3 and the draw 3,
ratchet setup leaves a ratchet of multiplier 3 active (`std::max` at lines 345-346, where the
comment at line 344 allows at most 4 subdivisions), the period becomes `6 >> 3 = 0`, and
`clipCurrentPos % 0` (line 747) has no result: there is no wait `r` with `1 <= r <= P >> m`. -/
theorem doTickForward_wait_counterexample :
    ticksPerPeriodOf
        { exampleSettings ArpNoteMode.UP ArpOctaveMode.UP 2 with syncLevel := SYNC_LEVEL_128TH }
      = some 6
    ∧ (setupRatchetForTick
        { exampleSettings ArpNoteMode.UP ArpOctaveMode.UP 2 with syncLevel := SYNC_LEVEL_128TH }
        0 3 ratchetReadyEngine.toArpeggiatorBase).isRatcheting = true
    ∧ (setupRatchetForTick
        { exampleSettings ArpNoteMode.UP ArpOctaveMode.UP 2 with syncLevel := SYNC_LEVEL_128TH }
        0 3 ratchetReadyEngine.toArpeggiatorBase).ratchetNotesMultiplier = 3
    ∧ shiftForRatchet 6 (setupRatchetForTick
        { exampleSettings ArpNoteMode.UP ArpOctaveMode.UP 2 with syncLevel := SYNC_LEVEL_128TH }
        0 3 ratchetReadyEngine.toArpeggiatorBase) = 0
    ∧ ratchetReadyEngine.doTickForward
        { exampleSettings ArpNoteMode.UP ArpOctaveMode.UP 2 with syncLevel := SYNC_LEVEL_128TH }
        0 false true 0 3 0 0 ArpReturnInstruction.fresh = none := by
  decide

theorem ticksPerPeriodOf_eq (settings : ArpeggiatorSettings) (hL9 : settings.syncLevel ≤ 9) :
    ticksPerPeriodOf settings
      = some (match settings.syncType with
          | SyncType.SYNC_TYPE_EVEN => 3 * 2 ^ (9 - settings.syncLevel)
          | SyncType.SYNC_TYPE_TRIPLET => 3 * 2 ^ (9 - settings.syncLevel) * 2 / 3
          | SyncType.SYNC_TYPE_DOTTED => 3 * 2 ^ (9 - settings.syncLevel) * 3 / 2) := by
  unfold ticksPerPeriodOf
  rw [if_pos hL9]
  dsimp only
  rw [Nat.shiftLeft_eq]
  cases settings.syncType <;> rfl

theorem shiftForRatchet_eq (P0 : Nat) (b : ArpeggiatorBase) :
    shiftForRatchet P0 b
      = (if b.ratchetingIsAvailable = true ∧ b.isRatcheting = true then
          P0 / 2 ^ b.ratchetNotesMultiplier
        else P0) := by
  unfold shiftForRatchet
  split_ifs
  · exact Nat.shiftRight_eq_div_pow _ _
  · rfl

/-- The wait that a tick returns when the period is positive. With the arpeggiator on and sync
level L in 1..9, let `P0` be `3 * 2^(9-L)` for EVEN, `floor(2 * 3 * 2^(9-L) / 3)` for TRIPLET
and `floor(3 * 3 * 2^(9-L) / 2)` for DOTTED,
and let `P` be `P0` when no ratchet is active after the ratchet setup of this call (or
ratcheting is not available), and `P0 >> m` when a ratchet of multiplier `m` is active. Provided
`P0 >> m` is at least 1 in the ratchet case, on an engine with a valid sounding index
`doTickForward` returns a wait `r` with `1 <= r <= P`, `pos + r` a multiple of `P` in forward
playback, `pos - r` a multiple of `P` in reverse playback, and `r = P` exactly when `pos` is a
multiple of `P`. -/
theorem doTickForward_wait (settings : ArpeggiatorSettings) (clipCurrentPos : Nat)
    (currentlyPlayingReversed clockActive : Bool) (rndChance rndMultiplier rndNote rndOctave : Nat)
    (a : Arpeggiator) (instruction : ArpReturnInstruction) (P0 P : Nat)
    (hmode : settings.mode ≠ ArpMode.OFF)
    (hL1 : 1 ≤ settings.syncLevel) (hL9 : settings.syncLevel ≤ 9)
    (hP0 : P0 = (match settings.syncType with
      | SyncType.SYNC_TYPE_EVEN => 3 * 2 ^ (9 - settings.syncLevel)
      | SyncType.SYNC_TYPE_TRIPLET => 3 * 2 ^ (9 - settings.syncLevel) * 2 / 3
      | SyncType.SYNC_TYPE_DOTTED => 3 * 2 ^ (9 - settings.syncLevel) * 3 / 2))
    (hPdef : P =
      (if (setupRatchetForTick settings rndChance rndMultiplier
              a.toArpeggiatorBase).ratchetingIsAvailable = true
          ∧ (setupRatchetForTick settings rndChance rndMultiplier
              a.toArpeggiatorBase).isRatcheting = true then
        P0 / 2 ^ (setupRatchetForTick settings rndChance rndMultiplier
          a.toArpeggiatorBase).ratchetNotesMultiplier
      else P0))
    (hPm : (setupRatchetForTick settings rndChance rndMultiplier
              a.toArpeggiatorBase).ratchetingIsAvailable = true
          ∧ (setupRatchetForTick settings rndChance rndMultiplier
              a.toArpeggiatorBase).isRatcheting = true
        → 1 ≤ P0 / 2 ^ (setupRatchetForTick settings rndChance rndMultiplier
            a.toArpeggiatorBase).ratchetNotesMultiplier)
    (hi : IndexOk a) (hlen : a.notesAsPlayed.length = a.notes.length)
    (hK : 1 ≤ settings.numOctaves)
    (hr : ¬ (settings.noteMode = ArpNoteMode.RANDOM ∧ a.notes.length % 256 = 0)) :
    ∃ r, a.doTickForward settings clipCurrentPos currentlyPlayingReversed clockActive rndChance
          rndMultiplier rndNote rndOctave instruction = some r
      ∧ 1 ≤ r.ticks ∧ r.ticks ≤ P
      ∧ (currentlyPlayingReversed = false → P ∣ clipCurrentPos + r.ticks)
      ∧ (currentlyPlayingReversed = true → (P : Int) ∣ (clipCurrentPos : Int) - (r.ticks : Int))
      ∧ (r.ticks = P ↔ P ∣ clipCurrentPos) := by
  have e0 := ticksPerPeriodOf_eq settings hL9
  rw [← hP0] at e0
  have hP0pos : 1 ≤ P0 := by
    have h2 : 1 ≤ 2 ^ (9 - settings.syncLevel) := Nat.one_le_two_pow
    rw [hP0]
    generalize 2 ^ (9 - settings.syncLevel) = t at h2
    cases settings.syncType <;> dsimp only <;> omega
  have hP : 1 ≤ P := by
    rw [hPdef]
    split_ifs with c
    · exact hPm c
    · exact hP0pos
  have eP : shiftForRatchet P0
      (setupRatchetForTick settings rndChance rndMultiplier a.toArpeggiatorBase) = P := by
    rw [shiftForRatchet_eq, hPdef]
  have key : ∃ r, a.doTickForward settings clipCurrentPos currentlyPlayingReversed clockActive
        rndChance rndMultiplier rndNote rndOctave instruction = some r
      ∧ r.ticks = (if clipCurrentPos % P = 0 then P
          else if currentlyPlayingReversed = false then P - clipCurrentPos % P
          else clipCurrentPos % P) := by
    unfold Arpeggiator.doTickForward
    rw [if_neg (by
      intro c
      rcases c with c | c
      · exact hmode c
      · omega)]
    by_cases hf : settings.flagForceArpRestart = true
    · rw [if_pos hf]
      have e0' : ticksPerPeriodOf { settings with flagForceArpRestart := false } = some P0 := by
        rw [ticksPerPeriodOf_restart]; exact e0
      have eP' : shiftForRatchet P0
          (setupRatchetForTick { settings with flagForceArpRestart := false } rndChance
            rndMultiplier
            ({ a with playedFirstArpeggiatedNoteYet := false } : Arpeggiator).toArpeggiatorBase)
          = P := by
        rw [← eP]
        exact setupRatchetForTick_restart settings rndChance rndMultiplier
          a.toArpeggiatorBase P0
      obtain ⟨r, h1, _, h3⟩ := tickPeriod_ticks { settings with flagForceArpRestart := false }
        clipCurrentPos currentlyPlayingReversed clockActive rndChance rndMultiplier rndNote
        rndOctave { a with playedFirstArpeggiatedNoteYet := false } instruction P0 e0'
        (by rw [eP']; exact hP) hi hlen hK hr
      rw [eP'] at h3
      exact ⟨r, h1, h3⟩
    · rw [if_neg hf]
      obtain ⟨r, h1, _, h3⟩ := tickPeriod_ticks settings clipCurrentPos currentlyPlayingReversed
        clockActive rndChance rndMultiplier rndNote rndOctave a instruction P0 e0
        (by rw [eP]; exact hP) hi hlen hK hr
      rw [eP] at h3
      exact ⟨r, h1, h3⟩
  obtain ⟨r, h1, h2⟩ := key
  have hlt : clipCurrentPos % P < P := Nat.mod_lt _ (by omega)
  have hdm : P * (clipCurrentPos / P) + clipCurrentPos % P = clipCurrentPos :=
    Nat.div_add_mod _ _
  refine ⟨r, h1, ?_, ?_, ?_, ?_, ?_⟩
  · rw [h2]; split_ifs <;> omega
  · rw [h2]; split_ifs <;> omega
  · intro hrev
    rw [h2]
    by_cases c : clipCurrentPos % P = 0
    · rw [if_pos c]
      exact ⟨clipCurrentPos / P + 1, by rw [Nat.mul_add, Nat.mul_one]; omega⟩
    · rw [if_neg c, if_pos hrev]
      exact ⟨clipCurrentPos / P + 1, by rw [Nat.mul_add, Nat.mul_one]; omega⟩
  · intro hrev
    rw [h2]
    have hrev' : ¬ currentlyPlayingReversed = false := by simp [hrev]
    by_cases c : clipCurrentPos % P = 0
    · rw [if_pos c]
      refine ⟨(clipCurrentPos / P : Nat) - 1, ?_⟩
      have : (P : Int) * ((clipCurrentPos / P : Nat) : Int) = (clipCurrentPos : Int) := by
        have := congrArg (fun (z : Nat) => (z : Int)) hdm
        simp only [Nat.cast_add, Nat.cast_mul] at this
        omega
      rw [Int.mul_sub, Int.mul_one, this]
    · rw [if_neg c, if_neg hrev']
      refine ⟨((clipCurrentPos / P : Nat) : Int), ?_⟩
      have := congrArg (fun (z : Nat) => (z : Int)) hdm
      simp only [Nat.cast_add, Nat.cast_mul] at this
      omega
  · rw [h2, Nat.dvd_iff_mod_eq_zero]
    split_ifs <;> omega

theorem doTickForward_wait_witness :
    ∃ r, (heldEngine [60, 64, 67] [60, 64, 67]).doTickForward
          { exampleSettings ArpNoteMode.UP ArpOctaveMode.UP 2 with syncLevel := 5 } 100 false
          true 0 0 0 0 ArpReturnInstruction.fresh = some r
      ∧ 1 ≤ r.ticks ∧ r.ticks ≤ 48
      ∧ ((false : Bool) = false → 48 ∣ 100 + r.ticks)
      ∧ ((false : Bool) = true → ((48 : Nat) : Int) ∣ ((100 : Nat) : Int) - (r.ticks : Int))
      ∧ (r.ticks = 48 ↔ 48 ∣ 100) :=
  doTickForward_wait { exampleSettings ArpNoteMode.UP ArpOctaveMode.UP 2 with syncLevel := 5 }
    100 false true 0 0 0 0 (heldEngine [60, 64, 67] [60, 64, 67]) ArpReturnInstruction.fresh
    48 48 (by decide) (by decide) (by decide) (by decide) (by decide) (by decide)
    ⟨by decide, by decide, by decide⟩ (by decide) (by decide) (by decide)

theorem finishSwitchNoteOn_emits (settings : ArpeggiatorSettings) (a : Arpeggiator)
    (instruction : ArpReturnInstruction) (r : Arpeggiator × ArpReturnInstruction)
    (h : a.finishSwitchNoteOn settings instruction = some r) :
    r.1.gateCurrentlyActive = a.gateCurrentlyActive
      ∧ r.1.outputMIDIChannelForNoteCurrentlyOnPostArp
          = a.outputMIDIChannelForNoteCurrentlyOnPostArp
      ∧ r.1.gatePos = a.gatePos
      ∧ ∃ x, r.2 = { instruction with
          noteCodeOnPostArp := r.1.noteCodeCurrentlyOnPostArp
          arpNoteOn := some x } := by
  unfold Arpeggiator.finishSwitchNoteOn at h
  simp only [bind, Option.bind_eq_some, pure] at h
  split_ifs at h <;>
    (simp only [Option.bind_eq_some] at h
     obtain ⟨x, _, hr⟩ := h
     simp only [Option.some.injEq] at hr
     subst hr
     exact ⟨rfl, rfl, rfl, x, rfl⟩)

theorem switchNoteOn_emits (settings : ArpeggiatorSettings) (rn ro : Nat) (a : Arpeggiator)
    (instruction : ArpReturnInstruction) (r : Arpeggiator × ArpReturnInstruction)
    (h : a.switchNoteOn settings rn ro instruction = some r) :
    r.1.gateCurrentlyActive = true
      ∧ r.1.outputMIDIChannelForNoteCurrentlyOnPostArp
          = a.outputMIDIChannelForNoteCurrentlyOnPostArp
      ∧ r.1.gatePos = a.gatePos
      ∧ ∃ x, r.2 = { instruction with
          noteCodeOnPostArp := r.1.noteCodeCurrentlyOnPostArp
          arpNoteOn := some x } := by
  unfold Arpeggiator.switchNoteOn at h
  dsimp only at h
  simp only [Option.bind_eq_some] at h
  obtain ⟨a2, h1, h2⟩ := h
  obtain ⟨f1, f2, f3, f4⟩ := finishSwitchNoteOn_emits _ _ _ _ h2
  have key : a2.gateCurrentlyActive = true
      ∧ a2.outputMIDIChannelForNoteCurrentlyOnPostArp
          = a.outputMIDIChannelForNoteCurrentlyOnPostArp
      ∧ a2.gatePos = a.gatePos := by
    split_ifs at h1
    · simp only [Option.some.injEq] at h1
      subst h1
      exact ⟨rfl, rfl, rfl⟩
    · simp only [Option.map_eq_some'] at h1
      obtain ⟨a1, hs, rfl⟩ := h1
      obtain ⟨e, _⟩ := selectStep_frame _ _ _ _ _ hs
      refine ⟨?_, ?_, ?_⟩
      · show a1.gateCurrentlyActive = true
        rw [e]; rfl
      · show a1.outputMIDIChannelForNoteCurrentlyOnPostArp = _
        rw [e]; rfl
      · show a1.gatePos = _
        rw [e]; rfl
  exact ⟨by rw [f1, key.1], by rw [f2, key.2.1], by rw [f3, key.2.2], f4⟩

theorem switchAnyNoteOff_eq (clockActive : Bool) (b : ArpeggiatorBase)
    (instruction : ArpReturnInstruction) :
    (switchAnyNoteOff clockActive b instruction).2
        = (if b.gateCurrentlyActive = true then
            { instruction with
              noteCodeOffPostArp := b.noteCodeCurrentlyOnPostArp
              outputMIDIChannelOff := b.outputMIDIChannelForNoteCurrentlyOnPostArp }
          else instruction)
      ∧ (switchAnyNoteOff clockActive b instruction).1.gateCurrentlyActive = false
      ∧ (switchAnyNoteOff clockActive b instruction).1.noteCodeCurrentlyOnPostArp
          = b.noteCodeCurrentlyOnPostArp
      ∧ (switchAnyNoteOff clockActive b instruction).1.outputMIDIChannelForNoteCurrentlyOnPostArp
          = b.outputMIDIChannelForNoteCurrentlyOnPostArp
      ∧ (switchAnyNoteOff clockActive b instruction).1.gatePos = b.gatePos
      ∧ (switchAnyNoteOff clockActive b instruction).1.playedFirstArpeggiatedNoteYet
          = b.playedFirstArpeggiatedNoteYet := by
  unfold switchAnyNoteOff
  dsimp only
  split_ifs <;> simp_all [resetRatchet]

theorem gateThresholdSmall_lt (gateThreshold : Nat) (b : ArpeggiatorBase)
    (hthr : gateThreshold < 2 ^ 32) : gateThresholdSmall gateThreshold b < 16777216 := by
  have h1 : gateThreshold >>> 8 < 16777216 := by
    rw [Nat.shiftRight_eq_div_pow]
    omega
  unfold gateThresholdSmall
  split_ifs
  · rw [Nat.shiftRight_eq_div_pow]
    exact lt_of_le_of_lt (Nat.div_le_self _ _) h1
  · exact h1

theorem renderGate_on (settings : ArpeggiatorSettings) (gateThreshold : Nat)
    (clockActive : Bool) (rn ro : Nat) (a : Arpeggiator) (instruction : ArpReturnInstruction)
    (hs : syncedNow settings clockActive = false) (hg : 16777216 ≤ a.gatePos)
    (hthr : gateThresholdSmall gateThreshold a.toArpeggiatorBase < 16777216)
    (hn : 1 ≤ a.notes.length) (hi : IndexOk a)
    (hlen : a.notesAsPlayed.length = a.notes.length) (hK : 1 ≤ settings.numOctaves)
    (hr : ¬ (settings.noteMode = ArpNoteMode.RANDOM ∧ a.notes.length % 256 = 0)) :
    ∃ r x, a.renderGate settings gateThreshold clockActive rn ro instruction = some r
      ∧ r.2.arpNoteOn = some x
      ∧ r.2.noteCodeOnPostArp = r.1.noteCodeCurrentlyOnPostArp
      ∧ r.1.gateCurrentlyActive = true
      ∧ (a.gateCurrentlyActive = true
        → r.2.noteCodeOffPostArp = a.noteCodeCurrentlyOnPostArp
          ∧ r.2.outputMIDIChannelOff = a.outputMIDIChannelForNoteCurrentlyOnPostArp)
      ∧ (a.gateCurrentlyActive = false
        → r.2.noteCodeOffPostArp = instruction.noteCodeOffPostArp
          ∧ r.2.outputMIDIChannelOff = instruction.outputMIDIChannelOff) := by
  unfold Arpeggiator.renderGate
  dsimp only
  have og := (switchAnyNoteOff_eq clockActive a.toArpeggiatorBase instruction).2.2.2.2.1
  rw [if_pos (by omega), if_pos ⟨hs, by rw [og]; exact hg⟩]
  obtain ⟨i0, i1, i2⟩ := hi
  have hmaxn : max (a.notes.length : Int) 1 = (a.notes.length : Int) := by omega
  rw [hmaxn] at i1
  obtain ⟨r, hr'⟩ := switchNoteOn_isSome settings rn ro
    { a with toArpeggiatorBase :=
        (switchAnyNoteOff clockActive a.toArpeggiatorBase instruction).1 }
    (switchAnyNoteOff clockActive a.toArpeggiatorBase instruction).2 hn i0 i1
    (by
      show (switchAnyNoteOff clockActive a.toArpeggiatorBase instruction).1.currentDirection = 1
        ∨ _
      rw [switchAnyNoteOff_currentDirection]
      exact i2)
    hlen hK hr
  obtain ⟨g1, _, _, x, g4⟩ := switchNoteOn_emits _ _ _ _ _ _ hr'
  obtain ⟨o1, _⟩ := switchAnyNoteOff_eq clockActive a.toArpeggiatorBase instruction
  refine ⟨r, x, hr', by rw [g4], by rw [g4], g1, ?_, ?_⟩
  · intro hgate
    rw [g4, o1, if_pos hgate]
    exact ⟨rfl, rfl⟩
  · intro hgate
    rw [g4, o1, if_neg (by simp [hgate])]
    exact ⟨rfl, rfl⟩

theorem renderGate_no_on (settings : ArpeggiatorSettings) (gateThreshold : Nat)
    (clockActive : Bool) (rn ro : Nat) (a : Arpeggiator) (instruction : ArpReturnInstruction)
    (hs : syncedNow settings clockActive = true ∨ a.gatePos < 16777216) :
    ∃ r, a.renderGate settings gateThreshold clockActive rn ro instruction = some r
      ∧ r.2.noteCodeOnPostArp = instruction.noteCodeOnPostArp
      ∧ r.2.arpNoteOn = instruction.arpNoteOn := by
  unfold Arpeggiator.renderGate
  dsimp only
  have og := (switchAnyNoteOff_eq clockActive a.toArpeggiatorBase instruction).2.2.2.2.1
  have hc : ¬ (syncedNow settings clockActive = false
      ∧ (switchAnyNoteOff clockActive a.toArpeggiatorBase instruction).1.gatePos
        ≥ 16777216) := by
    rw [og]
    rintro ⟨c1, c2⟩
    rcases hs with h | h
    · rw [c1] at h; exact absurd h (by decide)
    · omega
  by_cases c : a.gatePos ≥ gateThresholdSmall gateThreshold a.toArpeggiatorBase
  · rw [if_pos c, if_neg hc]
    obtain ⟨o1, _⟩ := switchAnyNoteOff_eq clockActive a.toArpeggiatorBase instruction
    refine ⟨_, rfl, ?_, ?_⟩
    · show (switchAnyNoteOff clockActive a.toArpeggiatorBase instruction).2.noteCodeOnPostArp = _
      rw [o1]; split_ifs <;> rfl
    · show (switchAnyNoteOff clockActive a.toArpeggiatorBase instruction).2.arpNoteOn = _
      rw [o1]; split_ifs <;> rfl
  · rw [if_neg c]
    exact ⟨_, rfl, rfl, rfl⟩

/-- C18: free-running render note scheduling. In a render call with the arpeggiator on and at
least one note held (valid sounding index, K >= 1 octaves), for every 32-bit gate threshold and
every ratchet state: the shifted threshold is below 2^24; when not synced and `gatePos` at entry
is at least 2^24 the call returns with a note-on in the instruction, the gate open, and - if a
gate was open at entry - the note-off for the sounding pitch and its channel in the same
instruction; when synced, or when `gatePos` at entry is below 2^24, the call returns and the
note-on fields of the instruction are as they were. -/
theorem render_note_on (settings : ArpeggiatorSettings) (numSamples : Nat)
    (gateThreshold phaseIncrement sequenceLength ratchAmount ratchProb : Nat)
    (clockActive : Bool) (rndNote rndOctave : Nat) (a : Arpeggiator)
    (instruction : ArpReturnInstruction)
    (hmode : settings.mode ≠ ArpMode.OFF) (hn : 1 ≤ a.notes.length)
    (hthr : gateThreshold < 2 ^ 32) (hi : IndexOk a)
    (hlen : a.notesAsPlayed.length = a.notes.length) (hK : 1 ≤ settings.numOctaves)
    (hr : ¬ (settings.noteMode = ArpNoteMode.RANDOM ∧ a.notes.length % 256 = 0)) :
    gateThresholdSmall gateThreshold a.toArpeggiatorBase < 16777216
      ∧ (syncedNow settings clockActive = false → 16777216 ≤ a.gatePos
        → ∃ r x, a.render settings numSamples gateThreshold phaseIncrement sequenceLength
              ratchAmount ratchProb clockActive rndNote rndOctave instruction = some r
          ∧ r.2.arpNoteOn = some x
          ∧ r.2.noteCodeOnPostArp = r.1.noteCodeCurrentlyOnPostArp
          ∧ r.1.gateCurrentlyActive = true
          ∧ (a.gateCurrentlyActive = true
            → r.2.noteCodeOffPostArp = a.noteCodeCurrentlyOnPostArp
              ∧ r.2.outputMIDIChannelOff = a.outputMIDIChannelForNoteCurrentlyOnPostArp)
          ∧ (a.gateCurrentlyActive = false
            → r.2.noteCodeOffPostArp = instruction.noteCodeOffPostArp
              ∧ r.2.outputMIDIChannelOff = instruction.outputMIDIChannelOff))
      ∧ (syncedNow settings clockActive = true ∨ a.gatePos < 16777216
        → ∃ r, a.render settings numSamples gateThreshold phaseIncrement sequenceLength
              ratchAmount ratchProb clockActive rndNote rndOctave instruction = some r
          ∧ r.2.noteCodeOnPostArp = instruction.noteCodeOnPostArp
          ∧ r.2.arpNoteOn = instruction.arpNoteOn) := by
  have hact : ¬ (settings.mode = ArpMode.OFF ∨ a.hasAnyInputNotesActive = false) := by
    rintro (c | c)
    · exact hmode c
    · unfold Arpeggiator.hasAnyInputNotesActive at c
      simp only [decide_eq_false_iff_not, ne_eq, not_not] at c
      omega
  refine ⟨gateThresholdSmall_lt gateThreshold _ hthr, ?_, ?_⟩
  · intro hs hg
    obtain ⟨r, x, h1, h2, h3, h4, h5, h6⟩ := renderGate_on settings gateThreshold clockActive
      rndNote rndOctave
      { a with toArpeggiatorBase :=
          updateAutomation sequenceLength ratchAmount ratchProb a.toArpeggiatorBase }
      instruction hs hg (gateThresholdSmall_lt gateThreshold _ hthr) hn hi hlen hK hr
    unfold Arpeggiator.render
    rw [if_neg hact]
    dsimp only
    rw [h1]
    exact ⟨_, x, rfl, h2, h3, h4, h5, h6⟩
  · intro hs
    obtain ⟨r, h1, h2, h3⟩ := renderGate_no_on settings gateThreshold clockActive rndNote
      rndOctave
      { a with toArpeggiatorBase :=
          updateAutomation sequenceLength ratchAmount ratchProb a.toArpeggiatorBase }
      instruction hs
    unfold Arpeggiator.render
    rw [if_neg hact]
    dsimp only
    rw [h1]
    exact ⟨_, rfl, h2, h3⟩

theorem render_note_on_witness :
    syncedNow (exampleSettings ArpNoteMode.UP ArpOctaveMode.UP 2) false = false
      ∧ 16777216 ≤ soundingEngine.gatePos
      ∧ ∃ r x, soundingEngine.render (exampleSettings ArpNoteMode.UP ArpOctaveMode.UP 2) 128
            4000000000 100000 0 0 0 false 0 0 ArpReturnInstruction.fresh = some r
          ∧ r.2.arpNoteOn = some x
          ∧ r.2.noteCodeOnPostArp = r.1.noteCodeCurrentlyOnPostArp
          ∧ r.1.gateCurrentlyActive = true
          ∧ (soundingEngine.gateCurrentlyActive = true
            → r.2.noteCodeOffPostArp = soundingEngine.noteCodeCurrentlyOnPostArp
              ∧ r.2.outputMIDIChannelOff
                = soundingEngine.outputMIDIChannelForNoteCurrentlyOnPostArp)
          ∧ (soundingEngine.gateCurrentlyActive = false
            → r.2.noteCodeOffPostArp = ArpReturnInstruction.fresh.noteCodeOffPostArp
              ∧ r.2.outputMIDIChannelOff = ArpReturnInstruction.fresh.outputMIDIChannelOff) :=
  ⟨by decide, by decide,
    (render_note_on (exampleSettings ArpNoteMode.UP ArpOctaveMode.UP 2) 128 4000000000 100000 0
      0 0 false 0 0 soundingEngine ArpReturnInstruction.fresh (by decide) (by decide)
      (by decide) ⟨by decide, by decide, by decide⟩ (by decide) (by decide)
      (by decide)).2.1 (by decide) (by decide)⟩

theorem render_note_on_example :
    (soundingEngine.render (exampleSettings ArpNoteMode.UP ArpOctaveMode.UP 2) 128
        4000000000 100000 0 0 0 false 0 0 ArpReturnInstruction.fresh).map
      (fun r => (r.2.noteCodeOffPostArp, r.2.noteCodeOnPostArp, r.1.gatePos))
      = some (60, 64, 49920) := by
  decide

/-- C19, the code at the failing input: a restart request in the middle of a ratchet is lost,
where the comment at line 721 says "If flagged to restart sequence, do it now and reset the
flag". In the middle of a ratchet (subdivision 1 of 2 on the third note, clock running), a tick
at a period boundary (position 24, period `48 >> 1 = 24`) with the restart request set clears
the request, but the step advance is a ratchet re-trigger (the jump at lines 455-457): it sounds
the third note (index 2, pitch 67) again instead of the start note (index 0, pitch 60), and
marks the sequence as started, so the restart does not happen at a later step either. -/
theorem doTickForward_restart_counterexample :
    (midRatchetTraversal.doTickForward
        { exampleSettings ArpNoteMode.UP ArpOctaveMode.UP 2 with
          syncLevel := 5, flagForceArpRestart := true }
        24 false true 0 0 0 0 ArpReturnInstruction.fresh).map
      (fun r => (r.ticks, r.settings.flagForceArpRestart, r.arp.whichNoteCurrentlyOnPostArp,
        r.instruction.noteCodeOnPostArp, r.arp.playedFirstArpeggiatedNoteYet,
        r.arp.ratchetNotesIndex))
      = some (24, false, 2, 67, true, 2) := by
  decide

theorem tick_entry_restart (settings : ArpeggiatorSettings) (clockActive : Bool) (rc rm : Nat)
    (b : ArpeggiatorBase) (instruction : ArpReturnInstruction) :
    switchAnyNoteOff clockActive
        (setupRatchetForTick { settings with flagForceArpRestart := false } rc rm
          { b with playedFirstArpeggiatedNoteYet := false }) instruction
      = ({ (switchAnyNoteOff clockActive (setupRatchetForTick settings rc rm b)
              instruction).1 with playedFirstArpeggiatedNoteYet := false },
          (switchAnyNoteOff clockActive (setupRatchetForTick settings rc rm b) instruction).2) := by
  unfold switchAnyNoteOff setupRatchetForTick maybeSetupNewRatchet resetRatchet
  dsimp only
  split_ifs <;> simp_all

theorem finishSwitchNoteOn_played (settings : ArpeggiatorSettings) (a : Arpeggiator)
    (instruction : ArpReturnInstruction) (r : Arpeggiator × ArpReturnInstruction)
    (h : a.finishSwitchNoteOn settings instruction = some r) :
    r.1.playedFirstArpeggiatedNoteYet = true := by
  unfold Arpeggiator.finishSwitchNoteOn at h
  simp only [bind, Option.bind_eq_some, pure] at h
  split_ifs at h <;>
    (simp only [Option.bind_eq_some] at h
     obtain ⟨x, _, hr⟩ := h
     simp only [Option.some.injEq] at hr
     subst hr
     rfl)

theorem switchNoteOn_restart_note (settings : ArpeggiatorSettings) (rn ro : Nat)
    (a : Arpeggiator) (instruction : ArpReturnInstruction)
    (r : Arpeggiator × ArpReturnInstruction)
    (hn : settings.noteMode ≠ ArpNoteMode.RANDOM)
    (ho : settings.octaveMode ≠ ArpOctaveMode.RANDOM)
    (hri : a.ratchetNotesIndex = 0)
    (hstart : a.playedFirstArpeggiatedNoteYet = false
      ∨ (a.maxSequenceLength > 0 ∧ a.notesPlayedFromSequence ≥ a.maxSequenceLength))
    (h : a.switchNoteOn settings rn ro instruction = some r) :
    r.1.whichNoteCurrentlyOnPostArp
        = (if settings.noteMode = ArpNoteMode.DOWN then (a.notes.length : Int) - 1 else 0)
      ∧ r.1.currentOctave
        = (if settings.octaveMode = ArpOctaveMode.DOWN
              ∨ (settings.octaveMode = ArpOctaveMode.ALTERNATE
                ∧ settings.noteMode = ArpNoteMode.DOWN) then
                  toInt8 ((settings.numOctaves : Int) - 1)
           else 0)
      ∧ r.1.playedFirstArpeggiatedNoteYet = true := by
  have hfull : ¬ (settings.noteMode = ArpNoteMode.RANDOM
      ∧ settings.octaveMode = ArpOctaveMode.RANDOM) := fun c => hn c.1
  rw [switchNoteOn_of_ratchetNotesIndex_zero _ _ _ _ _ hri] at h
  simp only [Option.bind_eq_some, Option.map_eq_some'] at h
  obtain ⟨s', ⟨s, hs, rfl⟩, hf⟩ := h
  rw [selectStep_restart settings rn ro { a with gateCurrentlyActive := true } hfull hstart,
    startSequence_eq settings rn ro _ hn ho] at hs
  simp only [Option.some.injEq] at hs
  subst hs
  obtain ⟨_, _, f3, _⟩ := finishSwitchNoteOn_spec _ _ _ _ hf
  obtain ⟨_, _, _, _, g5⟩ := finishSwitchNoteOn_read _ _ _ _ hf
  exact ⟨f3, g5, finishSwitchNoteOn_played _ _ _ _ hf⟩

/-- The restart outside a ratchet. For every melodic engine state with n >= 1 held notes, note
mode and octave mode not RANDOM, K >= 1 octaves, arpeggiator on and sync level nonzero, a
`doTickForward` call exactly at a period boundary with the restart request set, in which the
step advance is not a ratchet re-trigger (the ratchet subdivision index is 0 when the step
advance is entered, after the ratchet setup and the note-off of this call), returns, clears the
request and switches on the fresh-sequence start note: index 0 (index n-1 for note mode DOWN) at
octave 0 (octave K-1 as the 8-bit member stores it for octave mode DOWN, or for ALTERNATE with
note mode DOWN), wherever the previous traversal was. -/
theorem doTickForward_restart (settings : ArpeggiatorSettings) (clipCurrentPos : Nat)
    (currentlyPlayingReversed clockActive : Bool) (rndChance rndMultiplier rndNote rndOctave : Nat)
    (a : Arpeggiator) (instruction : ArpReturnInstruction) (P0 : Nat)
    (hmode : settings.mode ≠ ArpMode.OFF) (hL : settings.syncLevel ≠ 0)
    (hflag : settings.flagForceArpRestart = true)
    (hnm : settings.noteMode ≠ ArpNoteMode.RANDOM)
    (hom : settings.octaveMode ≠ ArpOctaveMode.RANDOM)
    (hn : 1 ≤ a.notes.length) (hlen : a.notesAsPlayed.length = a.notes.length)
    (hK : 1 ≤ settings.numOctaves)
    (hP0 : ticksPerPeriodOf settings = some P0)
    (hP : 1 ≤ shiftForRatchet P0
      (setupRatchetForTick settings rndChance rndMultiplier a.toArpeggiatorBase))
    (hb : clipCurrentPos % shiftForRatchet P0
      (setupRatchetForTick settings rndChance rndMultiplier a.toArpeggiatorBase) = 0)
    (hri : (switchAnyNoteOff clockActive
      (setupRatchetForTick settings rndChance rndMultiplier a.toArpeggiatorBase)
      instruction).1.ratchetNotesIndex = 0) :
    ∃ r x, a.doTickForward settings clipCurrentPos currentlyPlayingReversed clockActive
          rndChance rndMultiplier rndNote rndOctave instruction = some r
      ∧ r.settings = { settings with flagForceArpRestart := false }
      ∧ r.arp.whichNoteCurrentlyOnPostArp
        = (if settings.noteMode = ArpNoteMode.DOWN then (a.notes.length : Int) - 1 else 0)
      ∧ r.arp.currentOctave
        = (if settings.octaveMode = ArpOctaveMode.DOWN
              ∨ (settings.octaveMode = ArpOctaveMode.ALTERNATE
                ∧ settings.noteMode = ArpNoteMode.DOWN) then
                  toInt8 ((settings.numOctaves : Int) - 1)
           else 0)
      ∧ (if settings.noteMode = ArpNoteMode.AS_PLAYED then a.notesAsPlayed else a.notes)[
          r.arp.whichNoteCurrentlyOnPostArp.toNat]? = some x
      ∧ r.instruction.arpNoteOn = some x
      ∧ r.instruction.noteCodeOnPostArp = x.noteCode + r.arp.currentOctave * 12
      ∧ r.arp.playedFirstArpeggiatedNoteYet = true := by
  unfold Arpeggiator.doTickForward
  rw [if_neg (by
    intro c
    rcases c with c | c
    · exact hmode c
    · exact hL c), if_pos hflag]
  unfold Arpeggiator.tickPeriod
  rw [ticksPerPeriodOf_restart, hP0]
  simp only [Option.some_bind]
  have eP := setupRatchetForTick_restart settings rndChance rndMultiplier a.toArpeggiatorBase P0
  have eP' : shiftForRatchet P0
      (setupRatchetForTick { settings with flagForceArpRestart := false } rndChance rndMultiplier
        ({ a with playedFirstArpeggiatedNoteYet := false } : Arpeggiator).toArpeggiatorBase)
      = shiftForRatchet P0
        (setupRatchetForTick settings rndChance rndMultiplier a.toArpeggiatorBase) := eP
  rw [eP']
  generalize hPd : shiftForRatchet P0
    (setupRatchetForTick settings rndChance rndMultiplier a.toArpeggiatorBase) = P at hP hb
  have hmod : modChecked clipCurrentPos P = some 0 := by
    unfold modChecked
    rw [if_neg (by omega), hb]
  rw [hmod]
  simp only [Option.some_bind, if_true]
  unfold Arpeggiator.tickBoundary
  dsimp only
  have hact : Arpeggiator.hasAnyInputNotesActive
      { toArpeggiatorBase := setupRatchetForTick { settings with flagForceArpRestart := false }
          rndChance rndMultiplier
          ({ a with playedFirstArpeggiatedNoteYet := false } : Arpeggiator).toArpeggiatorBase,
        notes := a.notes, notesAsPlayed := a.notesAsPlayed,
        whichNoteCurrentlyOnPostArp := a.whichNoteCurrentlyOnPostArp } = true := by
    unfold Arpeggiator.hasAnyInputNotesActive
    simp only [decide_eq_true_eq]
    show a.notes.length ≠ 0
    omega
  rw [if_pos hact]
  have te := tick_entry_restart settings clockActive rndChance rndMultiplier
    a.toArpeggiatorBase instruction
  have te' : switchAnyNoteOff clockActive
      (setupRatchetForTick { settings with flagForceArpRestart := false } rndChance rndMultiplier
        ({ a with playedFirstArpeggiatedNoteYet := false } : Arpeggiator).toArpeggiatorBase)
      instruction = _ := te
  rw [te']
  dsimp only
  generalize hb2 : switchAnyNoteOff clockActive
    (setupRatchetForTick settings rndChance rndMultiplier a.toArpeggiatorBase) instruction = o
    at hri
  obtain ⟨r1, h1⟩ := switchNoteOn_isSome_fresh { settings with flagForceArpRestart := false }
    rndNote rndOctave
    { toArpeggiatorBase := { o.1 with playedFirstArpeggiatedNoteYet := false },
      notes := a.notes, notesAsPlayed := a.notesAsPlayed,
      whichNoteCurrentlyOnPostArp := a.whichNoteCurrentlyOnPostArp }
    o.2 hn rfl hri hlen hK (fun c => hnm c.1)
  rw [h1]
  obtain ⟨w1, w2, w3⟩ := switchNoteOn_restart_note _ _ _ _ _ _ hnm hom hri (Or.inl rfl) h1
  obtain ⟨x, k1, k2, k3⟩ := switchNoteOn_read _ _ _ _ _ _ h1
  exact ⟨_, x, rfl, rfl, w1, w2, k1, k2, k3, w3⟩

theorem doTickForward_restart_witness :
    ∃ r x, ({ midRatchetTraversal with
            ratchetNotesIndex := 2 } : Arpeggiator).doTickForward
          { exampleSettings ArpNoteMode.DOWN ArpOctaveMode.ALTERNATE 2 with
            syncLevel := 5, flagForceArpRestart := true }
          48 false true 0 0 0 0 ArpReturnInstruction.fresh = some r
      ∧ r.settings
        = { ({ exampleSettings ArpNoteMode.DOWN ArpOctaveMode.ALTERNATE 2 with
            syncLevel := 5, flagForceArpRestart := true } : ArpeggiatorSettings) with
            flagForceArpRestart := false }
      ∧ r.arp.whichNoteCurrentlyOnPostArp = 2
      ∧ r.arp.currentOctave = 1
      ∧ (heldEngine [60, 64, 67] [60, 64, 67]).notes[
          r.arp.whichNoteCurrentlyOnPostArp.toNat]? = some x
      ∧ r.instruction.arpNoteOn = some x
      ∧ r.instruction.noteCodeOnPostArp = x.noteCode + r.arp.currentOctave * 12
      ∧ r.arp.playedFirstArpeggiatedNoteYet = true :=
  doTickForward_restart
    { exampleSettings ArpNoteMode.DOWN ArpOctaveMode.ALTERNATE 2 with
      syncLevel := 5, flagForceArpRestart := true }
    48 false true 0 0 0 0 { midRatchetTraversal with ratchetNotesIndex := 2 }
    ArpReturnInstruction.fresh 48 (by decide) (by decide) rfl (by decide) (by decide)
    (by decide) (by decide) (by decide) (by decide) (by decide) (by decide) (by decide)

/-! ## No overlapping gates -/

/-- C14, counterexample to the claim as stated, on the drum engine: the drum is struck with the
arpeggiator active and no clock running (a note-on for pitch 60 is emitted), released (the
note-off for pitch 60 is emitted) and released once more: `ArpeggiatorForDrum::noteOff` does not
look at whether the note is held and the gate flag is still set, so the same note-on receives a
second note-off. -/
theorem gates_counterexample :
    (ArpeggiatorForDrum.initial.trace doubleReleaseCalls).map
        (fun ins => (ins.noteCodeOnPostArp, ins.noteCodeOffPostArp))
      = [(60, ARP_NOTE_NONE), (ARP_NOTE_NONE, 60), (ARP_NOTE_NONE, 60)]
    ∧ (∀ e ∈ doubleReleaseCalls, e.arpActive = true)
    ∧ gatesDisjoint ArpeggiatorForDrum.initial.outputMIDIChannelForNoteCurrentlyOnPostArp none
        (ArpeggiatorForDrum.initial.trace doubleReleaseCalls) = false := by
  decide

theorem gateStep_quiet (c : Int) (s : Option Int) (ins : ArpReturnInstruction)
    (hoff : ins.noteCodeOffPostArp = ARP_NOTE_NONE)
    (hon : ins.noteCodeOnPostArp = ARP_NOTE_NONE) :
    gateStep c s ins = some s := by
  simp [gateStep, hoff, hon]

theorem gateStep_off (c code : Int) (ins : ArpReturnInstruction)
    (hoff : ins.noteCodeOffPostArp = code) (hch : ins.outputMIDIChannelOff = c)
    (hon : ins.noteCodeOnPostArp = ARP_NOTE_NONE) :
    gateStep c (soundOf code) ins = some none := by
  by_cases hc : code = ARP_NOTE_NONE
  · simp [gateStep, soundOf, hoff, hon, hc]
  · simp [gateStep, soundOf, hoff, hon, hc, hch]

theorem gateStep_on (c code : Int) (ins : ArpReturnInstruction)
    (hoff : ins.noteCodeOffPostArp = ARP_NOTE_NONE)
    (hon : ins.noteCodeOnPostArp = code) :
    gateStep c none ins = some (soundOf code) := by
  by_cases hc : code = ARP_NOTE_NONE
  · simp [gateStep, soundOf, hoff, hon, hc]
  · simp [gateStep, soundOf, hoff, hon, hc]

theorem gateStep_off_on (c code code' : Int) (ins : ArpReturnInstruction)
    (hoff : ins.noteCodeOffPostArp = code) (hch : ins.outputMIDIChannelOff = c)
    (hon : ins.noteCodeOnPostArp = code') :
    gateStep c (soundOf code) ins = some (soundOf code') := by
  by_cases hc : code = ARP_NOTE_NONE <;> by_cases hc' : code' = ARP_NOTE_NONE <;>
    simp [gateStep, soundOf, hoff, hon, hc, hc', hch]

theorem gateStep_congr (c : Int) (s : Option Int) (ins ins' : ArpReturnInstruction)
    (hoff : ins'.noteCodeOffPostArp = ins.noteCodeOffPostArp)
    (hch : ins'.outputMIDIChannelOff = ins.outputMIDIChannelOff)
    (hon : ins'.noteCodeOnPostArp = ins.noteCodeOnPostArp) :
    gateStep c s ins' = gateStep c s ins := by
  simp only [gateStep, hoff, hch, hon]

theorem sounding_eq (a a' : Arpeggiator)
    (hg : a'.gateCurrentlyActive = a.gateCurrentlyActive)
    (hn : a'.notes.length = a.notes.length)
    (hc : a'.noteCodeCurrentlyOnPostArp = a.noteCodeCurrentlyOnPostArp) :
    a'.sounding = a.sounding := by
  simp only [Arpeggiator.sounding, hg, hn, hc]

/-- A note switched on right after `switchAnyNoteOff`: the instruction answers the note that
was sounding and carries the new note-on. -/
theorem offThenOn_gate (settings : ArpeggiatorSettings) (rn ro : Nat) (clockActive : Bool)
    (a : Arpeggiator) (r : Arpeggiator × ArpReturnInstruction) (hn : a.notes.length ≠ 0)
    (h : Arpeggiator.switchNoteOn settings rn ro
      { a with toArpeggiatorBase :=
        (switchAnyNoteOff clockActive a.toArpeggiatorBase ArpReturnInstruction.fresh).1 }
      (switchAnyNoteOff clockActive a.toArpeggiatorBase ArpReturnInstruction.fresh).2 = some r) :
    gateStep a.outputMIDIChannelForNoteCurrentlyOnPostArp a.sounding r.2 = some r.1.sounding
      ∧ r.1.outputMIDIChannelForNoteCurrentlyOnPostArp
          = a.outputMIDIChannelForNoteCurrentlyOnPostArp
      ∧ r.1.notes = a.notes := by
  obtain ⟨e1, e2, _, x, e4⟩ := switchNoteOn_emits _ _ _ _ _ _ h
  obtain ⟨n1, _⟩ := switchNoteOn_spec _ _ _ _ _ _ h
  obtain ⟨o1, _, _, o4, _⟩ :=
    switchAnyNoteOff_eq clockActive a.toArpeggiatorBase ArpReturnInstruction.fresh
  have n1' : r.1.notes = a.notes := n1
  have hs : r.1.sounding = soundOf r.1.noteCodeCurrentlyOnPostArp := by
    simp [Arpeggiator.sounding, e1, n1', hn]
  refine ⟨?_, e2.trans o4, n1'⟩
  rw [hs, e4, o1]
  by_cases hg : a.gateCurrentlyActive = true
  · have ha : a.sounding = soundOf a.noteCodeCurrentlyOnPostArp := by
      simp [Arpeggiator.sounding, hg, hn]
    rw [ha, if_pos hg]
    exact gateStep_off_on _ _ _ _ rfl rfl rfl
  · have ha : a.sounding = none := by
      simp [Arpeggiator.sounding, hg]
    rw [ha, if_neg hg]
    exact gateStep_on _ _ _ rfl rfl

/-- After `switchAnyNoteOff` alone the instruction answers the note that was sounding. -/
theorem offOnly_gate (clockActive : Bool) (a : Arpeggiator) (hn : a.notes.length ≠ 0) :
    gateStep a.outputMIDIChannelForNoteCurrentlyOnPostArp a.sounding
        (switchAnyNoteOff clockActive a.toArpeggiatorBase ArpReturnInstruction.fresh).2
      = some (Arpeggiator.sounding { a with toArpeggiatorBase :=
          (switchAnyNoteOff clockActive a.toArpeggiatorBase ArpReturnInstruction.fresh).1 })
      ∧ (switchAnyNoteOff clockActive a.toArpeggiatorBase
          ArpReturnInstruction.fresh).1.outputMIDIChannelForNoteCurrentlyOnPostArp
          = a.outputMIDIChannelForNoteCurrentlyOnPostArp := by
  obtain ⟨o1, o2, _, o4, _⟩ :=
    switchAnyNoteOff_eq clockActive a.toArpeggiatorBase ArpReturnInstruction.fresh
  have hs : Arpeggiator.sounding { a with toArpeggiatorBase :=
      (switchAnyNoteOff clockActive a.toArpeggiatorBase ArpReturnInstruction.fresh).1 }
      = none := by
    simp [Arpeggiator.sounding, o2]
  refine ⟨?_, o4⟩
  rw [hs, o1]
  by_cases hg : a.gateCurrentlyActive = true
  · have ha : a.sounding = soundOf a.noteCodeCurrentlyOnPostArp := by
      simp [Arpeggiator.sounding, hg, hn]
    rw [ha, if_pos hg]
    exact gateStep_off _ _ _ rfl rfl rfl
  · have ha : a.sounding = none := by
      simp [Arpeggiator.sounding, hg]
    rw [ha, if_neg hg]
    exact gateStep_quiet _ _ _ rfl rfl

theorem renderGate_gate (settings : ArpeggiatorSettings) (gateThreshold : Nat)
    (clockActive : Bool) (rn ro : Nat) (a : Arpeggiator)
    (r : Arpeggiator × ArpReturnInstruction) (hn : a.notes.length ≠ 0)
    (h : a.renderGate settings gateThreshold clockActive rn ro ArpReturnInstruction.fresh
      = some r) :
    gateStep a.outputMIDIChannelForNoteCurrentlyOnPostArp a.sounding r.2 = some r.1.sounding
      ∧ r.1.outputMIDIChannelForNoteCurrentlyOnPostArp
          = a.outputMIDIChannelForNoteCurrentlyOnPostArp := by
  unfold Arpeggiator.renderGate at h
  dsimp only at h
  split_ifs at h
  · obtain ⟨g1, g2, _⟩ := offThenOn_gate settings rn ro clockActive a r hn h
    exact ⟨g1, g2⟩
  · simp only [Option.some.injEq] at h
    subst h
    exact offOnly_gate clockActive a hn
  · simp only [Option.some.injEq] at h
    subst h
    exact ⟨gateStep_quiet _ _ _ rfl rfl, rfl⟩

theorem render_gate (settings : ArpeggiatorSettings) (numSamples : Nat)
    (gateThreshold phaseIncrement sequenceLength ratchAmount ratchProb : Nat)
    (clockActive : Bool) (rn ro : Nat) (a : Arpeggiator)
    (r : Arpeggiator × ArpReturnInstruction)
    (h : a.render settings numSamples gateThreshold phaseIncrement sequenceLength ratchAmount
      ratchProb clockActive rn ro ArpReturnInstruction.fresh = some r) :
    gateStep a.outputMIDIChannelForNoteCurrentlyOnPostArp a.sounding r.2 = some r.1.sounding
      ∧ r.1.outputMIDIChannelForNoteCurrentlyOnPostArp
          = a.outputMIDIChannelForNoteCurrentlyOnPostArp := by
  unfold Arpeggiator.render at h
  dsimp only at h
  split_ifs at h with hc
  · simp only [Option.some.injEq] at h
    subst h
    exact ⟨gateStep_quiet _ _ _ rfl rfl, rfl⟩
  · simp only [Option.map_eq_some'] at h
    obtain ⟨r', hr', rfl⟩ := h
    have hn : a.notes.length ≠ 0 := by
      intro h0
      apply hc
      right
      simp [Arpeggiator.hasAnyInputNotesActive, h0]
    exact renderGate_gate settings gateThreshold clockActive rn ro
      { a with toArpeggiatorBase :=
        updateAutomation sequenceLength ratchAmount ratchProb a.toArpeggiatorBase } r' hn hr'

theorem tickBoundary_gate (settings : ArpeggiatorSettings) (ticksPerPeriod : Nat)
    (clockActive : Bool) (rn ro : Nat) (a : Arpeggiator)
    (r : Arpeggiator × ArpReturnInstruction)
    (h : a.tickBoundary settings ticksPerPeriod clockActive rn ro ArpReturnInstruction.fresh
      = some r) :
    gateStep a.outputMIDIChannelForNoteCurrentlyOnPostArp a.sounding r.2 = some r.1.sounding
      ∧ r.1.outputMIDIChannelForNoteCurrentlyOnPostArp
          = a.outputMIDIChannelForNoteCurrentlyOnPostArp := by
  unfold Arpeggiator.tickBoundary at h
  dsimp only at h
  split_ifs at h with hc
  · simp only [Option.map_eq_some'] at h
    obtain ⟨r', hr', rfl⟩ := h
    have hn : a.notes.length ≠ 0 := by
      simpa [Arpeggiator.hasAnyInputNotesActive] using hc
    obtain ⟨g1, g2, _⟩ := offThenOn_gate settings rn ro clockActive a r' hn hr'
    exact ⟨g1, g2⟩
  · simp only [Option.some.injEq] at h
    subst h
    exact ⟨gateStep_quiet _ _ _ rfl rfl, rfl⟩

theorem setupRatchetForTick_gate (settings : ArpeggiatorSettings) (rc rm : Nat)
    (b : ArpeggiatorBase) :
    (setupRatchetForTick settings rc rm b).gateCurrentlyActive = b.gateCurrentlyActive
      ∧ (setupRatchetForTick settings rc rm b).noteCodeCurrentlyOnPostArp
          = b.noteCodeCurrentlyOnPostArp
      ∧ (setupRatchetForTick settings rc rm b).outputMIDIChannelForNoteCurrentlyOnPostArp
          = b.outputMIDIChannelForNoteCurrentlyOnPostArp := by
  unfold setupRatchetForTick maybeSetupNewRatchet
  dsimp only
  split_ifs <;> exact ⟨rfl, rfl, rfl⟩

theorem tickPeriod_gate (settings : ArpeggiatorSettings) (clipCurrentPos : Nat)
    (currentlyPlayingReversed clockActive : Bool) (rc rm rn ro : Nat) (a : Arpeggiator)
    (r : TickResult)
    (h : a.tickPeriod settings clipCurrentPos currentlyPlayingReversed clockActive rc rm rn ro
      ArpReturnInstruction.fresh = some r) :
    gateStep a.outputMIDIChannelForNoteCurrentlyOnPostArp a.sounding r.instruction
        = some r.arp.sounding
      ∧ r.arp.outputMIDIChannelForNoteCurrentlyOnPostArp
          = a.outputMIDIChannelForNoteCurrentlyOnPostArp := by
  unfold Arpeggiator.tickPeriod at h
  dsimp only at h
  simp only [Option.bind_eq_some] at h
  obtain ⟨P, _, how, _, h⟩ := h
  obtain ⟨s1, s2, s3⟩ := setupRatchetForTick_gate settings rc rm a.toArpeggiatorBase
  have hs : Arpeggiator.sounding
      { a with toArpeggiatorBase := setupRatchetForTick settings rc rm a.toArpeggiatorBase }
      = a.sounding :=
    sounding_eq _ _ s1 rfl s2
  split_ifs at h
  · simp only [Option.map_eq_some'] at h
    obtain ⟨r', hr', rfl⟩ := h
    obtain ⟨g1, g2⟩ := tickBoundary_gate _ _ _ _ _ _ _ hr'
    rw [hs] at g1
    exact ⟨by rw [← s3]; exact g1, g2.trans s3⟩
  · simp only [Option.some.injEq] at h
    subst h
    exact ⟨by rw [← hs]; exact gateStep_quiet _ _ _ rfl rfl, s3⟩
  · simp only [Option.some.injEq] at h
    subst h
    exact ⟨by rw [← hs]; exact gateStep_quiet _ _ _ rfl rfl, s3⟩

theorem doTickForward_gate (settings : ArpeggiatorSettings) (clipCurrentPos : Nat)
    (currentlyPlayingReversed clockActive : Bool) (rc rm rn ro : Nat) (a : Arpeggiator)
    (r : TickResult)
    (h : a.doTickForward settings clipCurrentPos currentlyPlayingReversed clockActive rc rm rn ro
      ArpReturnInstruction.fresh = some r) :
    gateStep a.outputMIDIChannelForNoteCurrentlyOnPostArp a.sounding r.instruction
        = some r.arp.sounding
      ∧ r.arp.outputMIDIChannelForNoteCurrentlyOnPostArp
          = a.outputMIDIChannelForNoteCurrentlyOnPostArp := by
  unfold Arpeggiator.doTickForward at h
  split_ifs at h
  · simp only [Option.some.injEq] at h
    subst h
    exact ⟨gateStep_quiet _ _ _ rfl rfl, rfl⟩
  · exact tickPeriod_gate _ _ _ _ _ _ _ _
      { a with playedFirstArpeggiatedNoteYet := false } r h
  · exact tickPeriod_gate _ _ _ _ _ _ _ _ a r h

theorem sounding_of_empty (a : Arpeggiator) (hn : a.notes.length = 0) : a.sounding = none := by
  simp [Arpeggiator.sounding, hn]

theorem sounding_of_held (a : Arpeggiator) (hn : a.notes.length ≠ 0) :
    a.sounding
      = if a.gateCurrentlyActive = true then soundOf a.noteCodeCurrentlyOnPostArp else none := by
  simp [Arpeggiator.sounding, hn]

theorem resetRatchetIfEmpty_gate (a : Arpeggiator) :
    a.resetRatchetIfEmpty.sounding = a.sounding
      ∧ a.resetRatchetIfEmpty.outputMIDIChannelForNoteCurrentlyOnPostArp
          = a.outputMIDIChannelForNoteCurrentlyOnPostArp := by
  unfold Arpeggiator.resetRatchetIfEmpty
  split_ifs
  · exact ⟨sounding_eq _ _ rfl rfl rfl, rfl⟩
  · exact ⟨rfl, rfl⟩

theorem releaseHeld_gate (settings : Option ArpeggiatorSettings) (k : Int)
    (clockActive : Bool) (notesKey : Nat) (x : ArpNote) (a : Arpeggiator)
    (hact : isArpActive settings = true) (hk : notesKey < a.notes.length) (hi : IndexOk a) :
    gateStep a.outputMIDIChannelForNoteCurrentlyOnPostArp a.sounding
        (a.releaseHeld settings k clockActive notesKey x ArpReturnInstruction.fresh).2
      = some (a.releaseHeld settings k clockActive notesKey x
          ArpReturnInstruction.fresh).1.sounding
      ∧ (a.releaseHeld settings k clockActive notesKey x
          ArpReturnInstruction.fresh).1.outputMIDIChannelForNoteCurrentlyOnPostArp
          = a.outputMIDIChannelForNoteCurrentlyOnPostArp := by
  have hn : a.notes.length ≠ 0 := by omega
  have hlen : (a.releaseHeld settings k clockActive notesKey x
      ArpReturnInstruction.fresh).1.notes.length = a.notes.length - 1 := by
    rw [releaseHeld_notes, List.length_eraseIdx]
    simp [hk]
  have hg : (a.releaseHeld settings k clockActive notesKey x
      ArpReturnInstruction.fresh).1.gateCurrentlyActive = a.gateCurrentlyActive := by
    unfold Arpeggiator.releaseHeld
    dsimp only
    split_ifs <;> rfl
  have hc : (a.releaseHeld settings k clockActive notesKey x
      ArpReturnInstruction.fresh).1.noteCodeCurrentlyOnPostArp
        = a.noteCodeCurrentlyOnPostArp := by
    unfold Arpeggiator.releaseHeld
    dsimp only
    split_ifs <;> rfl
  have hch : (a.releaseHeld settings k clockActive notesKey x
      ArpReturnInstruction.fresh).1.outputMIDIChannelForNoteCurrentlyOnPostArp
        = a.outputMIDIChannelForNoteCurrentlyOnPostArp := by
    unfold Arpeggiator.releaseHeld
    dsimp only
    split_ifs <;> rfl
  have hins : (a.releaseHeld settings k clockActive notesKey x ArpReturnInstruction.fresh).2
      = if a.notes.length = 1
          ∧ a.whichNoteCurrentlyOnPostArp = (notesKey : Int) ∧ a.gateCurrentlyActive = true then
          { ArpReturnInstruction.fresh with
            noteCodeOffPostArp := a.noteCodeCurrentlyOnPostArp
            outputMIDIChannelOff := a.outputMIDIChannelForNoteCurrentlyOnPostArp }
        else ArpReturnInstruction.fresh := by
    unfold Arpeggiator.releaseHeld
    dsimp only
    rw [if_neg (by simp [hact])]
  refine ⟨?_, hch⟩
  rw [hins, sounding_of_held a hn]
  by_cases h1 : a.notes.length = 1
  · have hw : a.whichNoteCurrentlyOnPostArp = (notesKey : Int) := by
      obtain ⟨i1, i2, _⟩ := hi
      rw [h1] at i2 hk
      simp at i2
      omega
    rw [sounding_of_empty _ (by rw [hlen, h1])]
    by_cases hgate : a.gateCurrentlyActive = true
    · have hcond : a.notes.length = 1
          ∧ a.whichNoteCurrentlyOnPostArp = (notesKey : Int) ∧ a.gateCurrentlyActive = true :=
        ⟨h1, hw, hgate⟩
      rw [if_pos hcond, if_pos hgate]
      exact gateStep_off _ _ _ rfl rfl rfl
    · have hcond : ¬ (a.notes.length = 1
          ∧ a.whichNoteCurrentlyOnPostArp = (notesKey : Int) ∧ a.gateCurrentlyActive = true) :=
        fun h => hgate h.2.2
      rw [if_neg hcond, if_neg hgate]
      exact gateStep_quiet _ _ _ rfl rfl
  · have hcond : ¬ (a.notes.length = 1
        ∧ a.whichNoteCurrentlyOnPostArp = (notesKey : Int) ∧ a.gateCurrentlyActive = true) :=
      fun h => h1 h.1
    rw [if_neg hcond, sounding_of_held _ (by rw [hlen]; omega), hg, hc]
    exact gateStep_quiet _ _ _ rfl rfl

theorem noteOff_gate (settings : Option ArpeggiatorSettings) (k : Int) (clockActive : Bool)
    (a : Arpeggiator) (hact : isArpActive settings = true) (hi : IndexOk a) :
    gateStep a.outputMIDIChannelForNoteCurrentlyOnPostArp a.sounding
        (a.noteOff settings k clockActive ArpReturnInstruction.fresh).2
      = some (a.noteOff settings k clockActive ArpReturnInstruction.fresh).1.sounding
      ∧ (a.noteOff settings k clockActive
          ArpReturnInstruction.fresh).1.outputMIDIChannelForNoteCurrentlyOnPostArp
          = a.outputMIDIChannelForNoteCurrentlyOnPostArp := by
  unfold Arpeggiator.noteOff
  dsimp only
  rw [(resetRatchetIfEmpty_gate _).1, (resetRatchetIfEmpty_gate _).2]
  cases hx : a.notes[search a.notes k]? with
  | none => exact ⟨gateStep_quiet _ _ _ rfl rfl, rfl⟩
  | some x =>
    dsimp only
    split_ifs
    · have hk : search a.notes k < a.notes.length := by
        rw [List.getElem?_eq_some_iff] at hx
        exact hx.1
      exact releaseHeld_gate settings k clockActive _ x a hact hk hi
    · exact ⟨gateStep_quiet _ _ _ rfl rfl, rfl⟩

theorem afterNoteInserted_gate (settings : Option ArpeggiatorSettings) (k : Int)
    (env : NoteOnEnv) (notesKey : Nat) (x : ArpNote) (a : Arpeggiator)
    (r : Arpeggiator × ArpReturnInstruction)
    (hact : isArpActive settings = true) (hn : a.notes.length ≠ 0)
    (h : a.afterNoteInserted settings k env notesKey x ArpReturnInstruction.fresh = some r) :
    gateStep a.outputMIDIChannelForNoteCurrentlyOnPostArp
        (if a.notes.length = 1 then none else a.sounding) r.2 = some r.1.sounding
      ∧ r.1.outputMIDIChannelForNoteCurrentlyOnPostArp
          = a.outputMIDIChannelForNoteCurrentlyOnPostArp := by
  unfold Arpeggiator.afterNoteInserted at h
  cases settings with
  | none => simp [isArpActive] at hact
  | some s =>
    have hm : s.mode ≠ ArpMode.OFF := by simpa [isArpActive] using hact
    dsimp only at h
    rw [if_pos hm] at h
    split_ifs at h with h1 h2 h3
    · obtain ⟨e1, e2, _, y, e4⟩ := switchNoteOn_emits _ _ _ _ _ _ h
      obtain ⟨n1, _⟩ := switchNoteOn_spec _ _ _ _ _ _ h
      have n1' : r.1.notes = a.notes := n1
      rw [if_pos h1, sounding_of_held _ (by rw [n1']; exact hn), if_pos e1, e4]
      exact ⟨gateStep_on _ _ _ rfl rfl, e2⟩
    · simp only [Option.some.injEq] at h
      subst h
      rw [if_pos h1]
      refine ⟨?_, rfl⟩
      have hs : Arpeggiator.sounding
          { a with playedFirstArpeggiatedNoteYet := false, gateCurrentlyActive := false }
          = none := by
        simp [Arpeggiator.sounding]
      rw [hs]
      exact gateStep_quiet _ _ _ rfl rfl
    · simp only [Option.some.injEq] at h
      subst h
      rw [if_neg h1]
      exact ⟨gateStep_quiet _ _ _ rfl rfl, rfl⟩
    · simp only [Option.some.injEq] at h
      subst h
      rw [if_neg h1]
      exact ⟨gateStep_quiet _ _ _ rfl rfl, rfl⟩

theorem noteInserted_gate (settings : Option ArpeggiatorSettings) (k : Int)
    (fromMIDIChannel : Int) (env : NoteOnEnv) (notesKey : Nat)
    (arpNote arpNoteAsPlayed : Option Nat) (a : Arpeggiator)
    (r : Arpeggiator × ArpReturnInstruction)
    (hact : isArpActive settings = true) (hn : a.notes.length ≠ 0)
    (h : a.noteInserted settings k fromMIDIChannel env notesKey arpNote arpNoteAsPlayed
      ArpReturnInstruction.fresh = some r) :
    gateStep a.outputMIDIChannelForNoteCurrentlyOnPostArp
        (if a.notes.length = 1 then none else a.sounding) r.2 = some r.1.sounding
      ∧ r.1.outputMIDIChannelForNoteCurrentlyOnPostArp
          = a.outputMIDIChannelForNoteCurrentlyOnPostArp := by
  unfold Arpeggiator.noteInserted at h
  simp only [Option.bind_eq_some] at h
  obtain ⟨i, _, j, _, x, _, y, _, h⟩ := h
  have hlen : (a.notes.set i { x with channel := fromMIDIChannel }).length = a.notes.length :=
    List.length_set _ _ _
  have g := afterNoteInserted_gate settings k env notesKey _ _ r hact
    (by simpa using hn) h
  simpa [Arpeggiator.sounding] using g

theorem insertNote_gate (settings : Option ArpeggiatorSettings) (k velocity : Int)
    (fromMIDIChannel : Int) (mpeValues : List Int) (env : NoteOnEnv) (notesKey : Nat)
    (a : Arpeggiator) (r : Arpeggiator × ArpReturnInstruction)
    (hact : isArpActive settings = true) (hk : notesKey ≤ a.notes.length)
    (ha1 : env.notesAllocationOk = true) (ha2 : env.notesAsPlayedAllocationOk = true)
    (h : a.insertNote settings k velocity fromMIDIChannel mpeValues env notesKey
      ArpReturnInstruction.fresh = some r) :
    gateStep a.outputMIDIChannelForNoteCurrentlyOnPostArp a.sounding r.2 = some r.1.sounding
      ∧ r.1.outputMIDIChannelForNoteCurrentlyOnPostArp
          = a.outputMIDIChannelForNoteCurrentlyOnPostArp := by
  unfold Arpeggiator.insertNote insertAtIndex at h
  rw [if_pos ha1] at h
  dsimp only at h
  rw [if_pos ha2] at h
  dsimp only at h
  have hlen : ((a.notes.take notesKey ++ env.notesSlot :: a.notes.drop notesKey).set notesKey
      (fillSlot env.notesSlot k velocity mpeValues)).length = a.notes.length + 1 := by
    simp only [List.length_set, List.length_append, List.length_take, List.length_cons,
      List.length_drop]
    omega
  have g := noteInserted_gate settings k fromMIDIChannel env notesKey _ _ _ r hact
    (by dsimp only; rw [hlen]; omega) h
  dsimp only at g
  rw [hlen] at g
  refine ⟨?_, g.2⟩
  have hs : (if a.notes.length + 1 = 1 then none else
      Arpeggiator.sounding { a with
        notes := (a.notes.take notesKey ++ env.notesSlot :: a.notes.drop notesKey).set notesKey
          (fillSlot env.notesSlot k velocity mpeValues)
        notesAsPlayed :=
          (a.notesAsPlayed.take a.notesAsPlayed.length
              ++ env.notesAsPlayedSlot :: a.notesAsPlayed.drop a.notesAsPlayed.length).set
            a.notesAsPlayed.length (fillSlot env.notesAsPlayedSlot k velocity mpeValues) })
      = a.sounding := by
    by_cases h0 : a.notes.length = 0
    · rw [if_pos (by omega), sounding_of_empty a h0]
    · rw [if_neg (by omega), sounding_of_held a h0,
        sounding_of_held _ (by dsimp only; rw [hlen]; omega)]
  rw [← hs]
  exact g.1

theorem noteOn_gate (settings : Option ArpeggiatorSettings) (k velocity : Int)
    (fromMIDIChannel : Int) (mpeValues : List Int) (env : NoteOnEnv) (a : Arpeggiator)
    (r : Arpeggiator × ArpReturnInstruction)
    (hact : isArpActive settings = true)
    (ha1 : env.notesAllocationOk = true) (ha2 : env.notesAsPlayedAllocationOk = true)
    (h : a.noteOn settings k velocity fromMIDIChannel mpeValues env ArpReturnInstruction.fresh
      = some r) :
    gateStep a.outputMIDIChannelForNoteCurrentlyOnPostArp a.sounding r.2 = some r.1.sounding
      ∧ r.1.outputMIDIChannelForNoteCurrentlyOnPostArp
          = a.outputMIDIChannelForNoteCurrentlyOnPostArp := by
  unfold Arpeggiator.noteOn Arpeggiator.noteOnSearch at h
  dsimp only at h
  split_ifs at h
  · simp only [Option.some.injEq] at h
    subst h
    exact ⟨gateStep_quiet _ _ _ rfl rfl, rfl⟩
  · exact insertNote_gate settings k velocity fromMIDIChannel mpeValues env _
      { a with lastVelocity := velocity } r hact (search_le_length _ _) ha1 ha2 h

theorem call_gate (a : Arpeggiator) (e : Event) (r : Arpeggiator × ArpReturnInstruction)
    (hi : IndexOk a) (hact : e.arpActive = true) (halloc : e.allocationsSucceed = true)
    (h : a.call ArpReturnInstruction.fresh e = some r) :
    gateStep a.outputMIDIChannelForNoteCurrentlyOnPostArp a.sounding r.2 = some r.1.sounding
      ∧ r.1.outputMIDIChannelForNoteCurrentlyOnPostArp
          = a.outputMIDIChannelForNoteCurrentlyOnPostArp := by
  cases e with
  | noteOn settings k velocity fromMIDIChannel mpeValues env =>
    simp only [Event.allocationsSucceed, Bool.and_eq_true] at halloc
    exact noteOn_gate settings k velocity fromMIDIChannel mpeValues env a r hact halloc.1
      halloc.2 h
  | noteOff settings k clockActive =>
    simp only [Arpeggiator.call, Option.some.injEq] at h
    subst h
    exact noteOff_gate settings k clockActive a hact hi
  | render settings numSamples gateThreshold phaseIncrement sequenceLength ratchAmount
      ratchProb clockActive rn ro =>
    exact render_gate _ _ _ _ _ _ _ _ _ _ a r h
  | doTickForward settings clipCurrentPos currentlyPlayingReversed clockActive rc rm rn ro =>
    simp only [Arpeggiator.call, Option.map_eq_some'] at h
    obtain ⟨t, ht, rfl⟩ := h
    exact doTickForward_gate _ _ _ _ _ _ _ _ a t ht
  | setRatchetingAvailable available =>
    simp only [Arpeggiator.call, Option.some.injEq] at h
    subst h
    exact ⟨gateStep_quiet _ _ _ rfl rfl, rfl⟩

/-- On the melodic engine the gates of a sequence of calls do not overlap when the arpeggiator
is active in every call and every insertion succeeds. -/
theorem trace_gates (es : List Event) (a : Arpeggiator) (hi : IndexOk a)
    (hact : ∀ e ∈ es, e.arpActive = true)
    (halloc : ∀ e ∈ es, e.allocationsSucceed = true) :
    gatesDisjoint a.outputMIDIChannelForNoteCurrentlyOnPostArp a.sounding (a.trace es)
      = true := by
  induction es generalizing a with
  | nil => rfl
  | cons e es ih =>
    unfold Arpeggiator.trace
    cases hc : a.call ArpReturnInstruction.fresh e with
    | none => rfl
    | some r =>
      dsimp only
      obtain ⟨g1, g2⟩ := call_gate a e r hi (hact e (List.mem_cons_self _ _))
        (halloc e (List.mem_cons_self _ _)) hc
      unfold gatesDisjoint
      rw [g1]
      dsimp only
      rw [← g2]
      exact ih r.1 ((call_spec a _ e r hc).2.2 hi)
        (fun e' he' => hact e' (List.mem_cons_of_mem _ he'))
        (fun e' he' => halloc e' (List.mem_cons_of_mem _ he'))

theorem drumSelectOctave_frame (settings : ArpeggiatorSettings) (rnd : Nat)
    (d d' : ArpeggiatorForDrum)
    (h : ArpeggiatorForDrum.selectOctave settings rnd d = some d') :
    d'.gateCurrentlyActive = d.gateCurrentlyActive
      ∧ d'.outputMIDIChannelForNoteCurrentlyOnPostArp
          = d.outputMIDIChannelForNoteCurrentlyOnPostArp
      ∧ d'.arpNote = d.arpNote := by
  unfold ArpeggiatorForDrum.selectOctave at h
  dsimp only at h
  split_ifs at h <;>
    first
    | (simp only [Option.some.injEq] at h; subst h; exact ⟨rfl, rfl, rfl⟩)
    | (simp only [Option.map_eq_some'] at h
       obtain ⟨b, hb, rfl⟩ := h
       first
       | exact ⟨rfl, rfl, rfl⟩
       | (have hb' := carryOnSequenceForSingle_frame _ _ _ _ hb
          refine ⟨?_, ?_, rfl⟩
          · show b.gateCurrentlyActive = _
            rw [hb']
          · show b.outputMIDIChannelForNoteCurrentlyOnPostArp = _
            rw [hb']))

theorem drumSwitchNoteOn_emits (settings : ArpeggiatorSettings) (rnd : Nat)
    (d : ArpeggiatorForDrum) (instruction : ArpReturnInstruction)
    (r : ArpeggiatorForDrum × ArpReturnInstruction)
    (h : d.switchNoteOn settings rnd instruction = some r) :
    r.1.gateCurrentlyActive = true
      ∧ r.1.outputMIDIChannelForNoteCurrentlyOnPostArp
          = d.outputMIDIChannelForNoteCurrentlyOnPostArp
      ∧ r.1.arpNote = d.arpNote
      ∧ r.2 = { instruction with
          noteCodeOnPostArp := r.1.noteCodeCurrentlyOnPostArp
          arpNoteOn := some d.arpNote } := by
  unfold ArpeggiatorForDrum.switchNoteOn at h
  simp only [Option.map_eq_some'] at h
  obtain ⟨d1, h1, rfl⟩ := h
  obtain ⟨f1, f2, f3⟩ := drumSelectOctave_frame _ _ _ _ h1
  refine ⟨f1, f2, f3, ?_⟩
  dsimp only
  rw [f3]

theorem drumSounding_eq (d d' : ArpeggiatorForDrum)
    (hg : d'.gateCurrentlyActive = d.gateCurrentlyActive)
    (hn : d'.arpNote.velocity = d.arpNote.velocity)
    (hc : d'.noteCodeCurrentlyOnPostArp = d.noteCodeCurrentlyOnPostArp) :
    d'.sounding = d.sounding := by
  simp only [ArpeggiatorForDrum.sounding, hg, hn, hc]

theorem drumSounding_of_off (d : ArpeggiatorForDrum) (hn : d.arpNote.velocity = 0) :
    d.sounding = none := by
  simp [ArpeggiatorForDrum.sounding, hn]

theorem drumSounding_of_held (d : ArpeggiatorForDrum) (hn : d.arpNote.velocity ≠ 0) :
    d.sounding
      = if d.gateCurrentlyActive = true then soundOf d.noteCodeCurrentlyOnPostArp else none := by
  simp [ArpeggiatorForDrum.sounding, hn]

theorem drumOffThenOn_gate (settings : ArpeggiatorSettings) (rnd : Nat) (clockActive : Bool)
    (d : ArpeggiatorForDrum) (r : ArpeggiatorForDrum × ArpReturnInstruction)
    (hn : d.arpNote.velocity ≠ 0)
    (h : ArpeggiatorForDrum.switchNoteOn settings rnd
      { d with toArpeggiatorBase :=
        (switchAnyNoteOff clockActive d.toArpeggiatorBase ArpReturnInstruction.fresh).1 }
      (switchAnyNoteOff clockActive d.toArpeggiatorBase ArpReturnInstruction.fresh).2 = some r) :
    gateStep d.outputMIDIChannelForNoteCurrentlyOnPostArp d.sounding r.2 = some r.1.sounding
      ∧ r.1.outputMIDIChannelForNoteCurrentlyOnPostArp
          = d.outputMIDIChannelForNoteCurrentlyOnPostArp := by
  obtain ⟨e1, e2, e3, e4⟩ := drumSwitchNoteOn_emits _ _ _ _ _ h
  obtain ⟨o1, _, _, o4, _⟩ :=
    switchAnyNoteOff_eq clockActive d.toArpeggiatorBase ArpReturnInstruction.fresh
  have e3' : r.1.arpNote = d.arpNote := e3
  have hs : r.1.sounding = soundOf r.1.noteCodeCurrentlyOnPostArp := by
    simp [ArpeggiatorForDrum.sounding, e1, e3', hn]
  refine ⟨?_, e2.trans o4⟩
  rw [hs, e4, o1, drumSounding_of_held d hn]
  by_cases hg : d.gateCurrentlyActive = true
  · rw [if_pos hg, if_pos hg]
    exact gateStep_off_on _ _ _ _ rfl rfl rfl
  · rw [if_neg hg, if_neg hg]
    exact gateStep_on _ _ _ rfl rfl

theorem drumOffOnly_gate (clockActive : Bool) (d : ArpeggiatorForDrum)
    (hn : d.arpNote.velocity ≠ 0) :
    gateStep d.outputMIDIChannelForNoteCurrentlyOnPostArp d.sounding
        (switchAnyNoteOff clockActive d.toArpeggiatorBase ArpReturnInstruction.fresh).2
      = some (ArpeggiatorForDrum.sounding { d with toArpeggiatorBase :=
          (switchAnyNoteOff clockActive d.toArpeggiatorBase ArpReturnInstruction.fresh).1 })
      ∧ (switchAnyNoteOff clockActive d.toArpeggiatorBase
          ArpReturnInstruction.fresh).1.outputMIDIChannelForNoteCurrentlyOnPostArp
          = d.outputMIDIChannelForNoteCurrentlyOnPostArp := by
  obtain ⟨o1, o2, _, o4, _⟩ :=
    switchAnyNoteOff_eq clockActive d.toArpeggiatorBase ArpReturnInstruction.fresh
  have hs : ArpeggiatorForDrum.sounding { d with toArpeggiatorBase :=
      (switchAnyNoteOff clockActive d.toArpeggiatorBase ArpReturnInstruction.fresh).1 }
      = none := by
    simp [ArpeggiatorForDrum.sounding, o2]
  refine ⟨?_, o4⟩
  rw [hs, o1, drumSounding_of_held d hn]
  by_cases hg : d.gateCurrentlyActive = true
  · rw [if_pos hg, if_pos hg]
    exact gateStep_off _ _ _ rfl rfl rfl
  · rw [if_neg hg, if_neg hg]
    exact gateStep_quiet _ _ _ rfl rfl

theorem drumRenderGate_gate (settings : ArpeggiatorSettings) (gateThreshold : Nat)
    (clockActive : Bool) (rnd : Nat) (d : ArpeggiatorForDrum)
    (r : ArpeggiatorForDrum × ArpReturnInstruction) (hn : d.arpNote.velocity ≠ 0)
    (h : d.renderGate settings gateThreshold clockActive rnd ArpReturnInstruction.fresh
      = some r) :
    gateStep d.outputMIDIChannelForNoteCurrentlyOnPostArp d.sounding r.2 = some r.1.sounding
      ∧ r.1.outputMIDIChannelForNoteCurrentlyOnPostArp
          = d.outputMIDIChannelForNoteCurrentlyOnPostArp := by
  unfold ArpeggiatorForDrum.renderGate at h
  dsimp only at h
  split_ifs at h
  · exact drumOffThenOn_gate settings rnd clockActive d r hn h
  · simp only [Option.some.injEq] at h
    subst h
    exact drumOffOnly_gate clockActive d hn
  · simp only [Option.some.injEq] at h
    subst h
    exact ⟨gateStep_quiet _ _ _ rfl rfl, rfl⟩

theorem drumRender_gate (settings : ArpeggiatorSettings) (numSamples : Nat)
    (gateThreshold phaseIncrement sequenceLength ratchAmount ratchProb : Nat)
    (clockActive : Bool) (rnd : Nat) (d : ArpeggiatorForDrum)
    (r : ArpeggiatorForDrum × ArpReturnInstruction)
    (h : d.render settings numSamples gateThreshold phaseIncrement sequenceLength ratchAmount
      ratchProb clockActive rnd ArpReturnInstruction.fresh = some r) :
    gateStep d.outputMIDIChannelForNoteCurrentlyOnPostArp d.sounding r.2 = some r.1.sounding
      ∧ r.1.outputMIDIChannelForNoteCurrentlyOnPostArp
          = d.outputMIDIChannelForNoteCurrentlyOnPostArp := by
  unfold ArpeggiatorForDrum.render at h
  dsimp only at h
  split_ifs at h with hc
  · simp only [Option.some.injEq] at h
    subst h
    exact ⟨gateStep_quiet _ _ _ rfl rfl, rfl⟩
  · simp only [Option.map_eq_some'] at h
    obtain ⟨r', hr', rfl⟩ := h
    have hn : d.arpNote.velocity ≠ 0 := by
      intro h0
      apply hc
      right
      simp [ArpeggiatorForDrum.hasAnyInputNotesActive, h0]
    exact drumRenderGate_gate settings gateThreshold clockActive rnd
      { d with toArpeggiatorBase :=
        updateAutomation sequenceLength ratchAmount ratchProb d.toArpeggiatorBase } r' hn hr'

theorem drumTickBoundary_gate (settings : ArpeggiatorSettings) (ticksPerPeriod : Nat)
    (clockActive : Bool) (rnd : Nat) (d : ArpeggiatorForDrum)
    (r : ArpeggiatorForDrum × ArpReturnInstruction)
    (h : d.tickBoundary settings ticksPerPeriod clockActive rnd ArpReturnInstruction.fresh
      = some r) :
    gateStep d.outputMIDIChannelForNoteCurrentlyOnPostArp d.sounding r.2 = some r.1.sounding
      ∧ r.1.outputMIDIChannelForNoteCurrentlyOnPostArp
          = d.outputMIDIChannelForNoteCurrentlyOnPostArp := by
  unfold ArpeggiatorForDrum.tickBoundary at h
  dsimp only at h
  split_ifs at h with hc
  · simp only [Option.map_eq_some'] at h
    obtain ⟨r', hr', rfl⟩ := h
    have hn : d.arpNote.velocity ≠ 0 := by
      simpa [ArpeggiatorForDrum.hasAnyInputNotesActive] using hc
    exact drumOffThenOn_gate settings rnd clockActive d r' hn hr'
  · simp only [Option.some.injEq] at h
    subst h
    exact ⟨gateStep_quiet _ _ _ rfl rfl, rfl⟩

theorem drumTickPeriod_gate (settings : ArpeggiatorSettings) (clipCurrentPos : Nat)
    (currentlyPlayingReversed clockActive : Bool) (rc rm rnd : Nat) (d : ArpeggiatorForDrum)
    (r : DrumTickResult)
    (h : d.tickPeriod settings clipCurrentPos currentlyPlayingReversed clockActive rc rm rnd
      ArpReturnInstruction.fresh = some r) :
    gateStep d.outputMIDIChannelForNoteCurrentlyOnPostArp d.sounding r.instruction
        = some r.arp.sounding
      ∧ r.arp.outputMIDIChannelForNoteCurrentlyOnPostArp
          = d.outputMIDIChannelForNoteCurrentlyOnPostArp := by
  unfold ArpeggiatorForDrum.tickPeriod at h
  dsimp only at h
  simp only [Option.bind_eq_some] at h
  obtain ⟨P, _, how, _, h⟩ := h
  obtain ⟨s1, s2, s3⟩ := setupRatchetForTick_gate settings rc rm d.toArpeggiatorBase
  have hs : ArpeggiatorForDrum.sounding
      { d with toArpeggiatorBase := setupRatchetForTick settings rc rm d.toArpeggiatorBase }
      = d.sounding :=
    drumSounding_eq _ _ s1 rfl s2
  split_ifs at h
  · simp only [Option.map_eq_some'] at h
    obtain ⟨r', hr', rfl⟩ := h
    obtain ⟨g1, g2⟩ := drumTickBoundary_gate _ _ _ _ _ _ hr'
    rw [hs] at g1
    exact ⟨by rw [← s3]; exact g1, g2.trans s3⟩
  · simp only [Option.some.injEq] at h
    subst h
    exact ⟨by rw [← hs]; exact gateStep_quiet _ _ _ rfl rfl, s3⟩
  · simp only [Option.some.injEq] at h
    subst h
    exact ⟨by rw [← hs]; exact gateStep_quiet _ _ _ rfl rfl, s3⟩

theorem drumDoTickForward_gate (settings : ArpeggiatorSettings) (clipCurrentPos : Nat)
    (currentlyPlayingReversed clockActive : Bool) (rc rm rnd : Nat) (d : ArpeggiatorForDrum)
    (r : DrumTickResult)
    (h : d.doTickForward settings clipCurrentPos currentlyPlayingReversed clockActive rc rm rnd
      ArpReturnInstruction.fresh = some r) :
    gateStep d.outputMIDIChannelForNoteCurrentlyOnPostArp d.sounding r.instruction
        = some r.arp.sounding
      ∧ r.arp.outputMIDIChannelForNoteCurrentlyOnPostArp
          = d.outputMIDIChannelForNoteCurrentlyOnPostArp := by
  unfold ArpeggiatorForDrum.doTickForward at h
  split_ifs at h
  · simp only [Option.some.injEq] at h
    subst h
    exact ⟨gateStep_quiet _ _ _ rfl rfl, rfl⟩
  · exact drumTickPeriod_gate _ _ _ _ _ _ _
      { d with playedFirstArpeggiatedNoteYet := false } r h
  · exact drumTickPeriod_gate _ _ _ _ _ _ _ d r h

theorem drumNoteOff_gate (settings : Option ArpeggiatorSettings) (d : ArpeggiatorForDrum)
    (hact : isArpActive settings = true) (hn : d.arpNote.velocity ≠ 0) :
    gateStep d.outputMIDIChannelForNoteCurrentlyOnPostArp d.sounding
        (d.noteOff settings ArpReturnInstruction.fresh).2
      = some (d.noteOff settings ArpReturnInstruction.fresh).1.sounding
      ∧ (d.noteOff settings
          ArpReturnInstruction.fresh).1.outputMIDIChannelForNoteCurrentlyOnPostArp
          = d.outputMIDIChannelForNoteCurrentlyOnPostArp := by
  have hins : (d.noteOff settings ArpReturnInstruction.fresh).2
      = if d.gateCurrentlyActive = true then
          { ArpReturnInstruction.fresh with
            noteCodeOffPostArp := d.noteCodeCurrentlyOnPostArp
            outputMIDIChannelOff := d.outputMIDIChannelForNoteCurrentlyOnPostArp }
        else ArpReturnInstruction.fresh := by
    unfold ArpeggiatorForDrum.noteOff
    dsimp only
    rw [if_neg (show ¬ (isArpActive settings = false) by simp [hact])]
  have hs : (d.noteOff settings ArpReturnInstruction.fresh).1.sounding = none :=
    drumSounding_of_off _ rfl
  refine ⟨?_, rfl⟩
  rw [hs, hins, drumSounding_of_held d hn]
  by_cases hg : d.gateCurrentlyActive = true
  · rw [if_pos hg, if_pos hg]
    exact gateStep_off _ _ _ rfl rfl rfl
  · rw [if_neg hg, if_neg hg]
    exact gateStep_quiet _ _ _ rfl rfl

theorem drumNoteOn_gate (settings : Option ArpeggiatorSettings) (k velocity : Int)
    (fromMIDIChannel : Int) (mpeValues : List Int) (clockActive : Bool) (rnd : Nat)
    (d : ArpeggiatorForDrum) (r : ArpeggiatorForDrum × ArpReturnInstruction)
    (hact : isArpActive settings = true) (hv : velocity ≠ 0)
    (h : d.noteOn settings k velocity fromMIDIChannel mpeValues clockActive rnd
      ArpReturnInstruction.fresh = some r) :
    gateStep d.outputMIDIChannelForNoteCurrentlyOnPostArp d.sounding r.2 = some r.1.sounding
      ∧ r.1.outputMIDIChannelForNoteCurrentlyOnPostArp
          = d.outputMIDIChannelForNoteCurrentlyOnPostArp := by
  unfold ArpeggiatorForDrum.noteOn ArpeggiatorForDrum.afterNoteWritten at h
  cases settings with
  | none => simp [isArpActive] at hact
  | some s =>
    have hm : s.mode ≠ ArpMode.OFF := by simpa [isArpActive] using hact
    dsimp only at h
    rw [if_pos hm] at h
    split_ifs at h with h1 h2
    · obtain ⟨e1, e2, e3, e4⟩ := drumSwitchNoteOn_emits _ _ _ _ _ h
      have e3' : r.1.arpNote.velocity = velocity := by
        rw [e3]
      have h0 : d.arpNote.velocity = 0 := by simpa using h1
      rw [drumSounding_of_off d h0, drumSounding_of_held _ (by rw [e3']; exact hv), if_pos e1,
        e4]
      exact ⟨gateStep_on _ _ _ rfl rfl, e2⟩
    · simp only [Option.some.injEq] at h
      subst h
      have h0 : d.arpNote.velocity = 0 := by simpa using h1
      rw [drumSounding_of_off d h0]
      refine ⟨?_, rfl⟩
      have hs : ∀ x : ArpeggiatorForDrum, x.gateCurrentlyActive = false → x.sounding = none := by
        intro x hx
        simp [ArpeggiatorForDrum.sounding, hx]
      rw [hs _ rfl]
      exact gateStep_quiet _ _ _ rfl rfl
    · simp only [Option.some.injEq] at h
      subst h
      have h0 : d.arpNote.velocity ≠ 0 := by simpa using h1
      refine ⟨?_, rfl⟩
      rw [drumSounding_of_held d h0, drumSounding_of_held _ (by exact hv)]
      exact gateStep_quiet _ _ _ rfl rfl

theorem drumCall_gate (d : ArpeggiatorForDrum) (e : DrumEvent)
    (r : ArpeggiatorForDrum × ArpReturnInstruction)
    (hact : e.arpActive = true) (ht : e.wellTimed d = true)
    (h : d.call ArpReturnInstruction.fresh e = some r) :
    gateStep d.outputMIDIChannelForNoteCurrentlyOnPostArp d.sounding r.2 = some r.1.sounding
      ∧ r.1.outputMIDIChannelForNoteCurrentlyOnPostArp
          = d.outputMIDIChannelForNoteCurrentlyOnPostArp := by
  cases e with
  | noteOn settings k velocity fromMIDIChannel mpeValues clockActive rnd =>
    have hv : velocity ≠ 0 := by simpa [DrumEvent.wellTimed] using ht
    exact drumNoteOn_gate settings k velocity fromMIDIChannel mpeValues clockActive rnd d r hact
      hv h
  | noteOff settings =>
    simp only [ArpeggiatorForDrum.call, Option.some.injEq] at h
    subst h
    have hn : d.arpNote.velocity ≠ 0 := by
      simpa [DrumEvent.wellTimed, ArpeggiatorForDrum.hasAnyInputNotesActive] using ht
    exact drumNoteOff_gate settings d hact hn
  | render settings numSamples gateThreshold phaseIncrement sequenceLength ratchAmount
      ratchProb clockActive rnd =>
    exact drumRender_gate _ _ _ _ _ _ _ _ _ d r h
  | doTickForward settings clipCurrentPos currentlyPlayingReversed clockActive rc rm rnd =>
    simp only [ArpeggiatorForDrum.call, Option.map_eq_some'] at h
    obtain ⟨t, ht', rfl⟩ := h
    exact drumDoTickForward_gate _ _ _ _ _ _ _ d t ht'
  | setRatchetingAvailable available =>
    simp only [ArpeggiatorForDrum.call, Option.some.injEq] at h
    subst h
    exact ⟨gateStep_quiet _ _ _ rfl rfl, rfl⟩

/-- On the drum engine the gates of a sequence of calls do not overlap when the arpeggiator is
active in every call and every call fits the state of the drum note. -/
theorem drumTrace_gates (es : List DrumEvent) (d : ArpeggiatorForDrum)
    (hact : ∀ e ∈ es, e.arpActive = true) (ht : d.wellTimed es = true) :
    gatesDisjoint d.outputMIDIChannelForNoteCurrentlyOnPostArp d.sounding (d.trace es)
      = true := by
  induction es generalizing d with
  | nil => rfl
  | cons e es ih =>
    unfold ArpeggiatorForDrum.trace
    unfold ArpeggiatorForDrum.wellTimed at ht
    cases hc : d.call ArpReturnInstruction.fresh e with
    | none => rfl
    | some r =>
      rw [hc] at ht
      simp only [Bool.and_eq_true] at ht
      dsimp only
      obtain ⟨g1, g2⟩ := drumCall_gate d e r (hact e (List.mem_cons_self _ _)) ht.1 hc
      unfold gatesDisjoint
      rw [g1]
      dsimp only
      rw [← g2]
      exact ih r.1 (fun e' he' => hact e' (List.mem_cons_of_mem _ he')) ht.2

/-- The instructions of the example calls on the melodic engine, as (note-on, note-off) pairs. -/
theorem gates_example_melodic :
    (Arpeggiator.initial.trace gateCalls).map
        (fun ins => (ins.noteCodeOnPostArp, ins.noteCodeOffPostArp))
      = [(60, ARP_NOTE_NONE), (ARP_NOTE_NONE, 60), (ARP_NOTE_NONE, ARP_NOTE_NONE),
         (64, ARP_NOTE_NONE), (ARP_NOTE_NONE, ARP_NOTE_NONE), (ARP_NOTE_NONE, 64)] := by
  decide

/-- The instructions of the example calls on the drum engine, as (note-on, note-off) pairs. -/
theorem gates_example_drum :
    (ArpeggiatorForDrum.initial.trace drumGateCalls).map
        (fun ins => (ins.noteCodeOnPostArp, ins.noteCodeOffPostArp))
      = [(60, ARP_NOTE_NONE), (ARP_NOTE_NONE, 60), (72, ARP_NOTE_NONE),
         (ARP_NOTE_NONE, 72)] := by
  decide

/-- When the second insertion of a note-on fails, the call returns before the gate flag is
cleared: the note-off for 60 that the release emitted is emitted once more by the next render
call. -/
theorem lostRelease_example :
    (Arpeggiator.initial.trace lostReleaseCalls).map
        (fun ins => (ins.noteCodeOnPostArp, ins.noteCodeOffPostArp))
      = [(60, ARP_NOTE_NONE), (ARP_NOTE_NONE, 60), (ARP_NOTE_NONE, ARP_NOTE_NONE),
         (ARP_NOTE_NONE, 60)]
    ∧ (∀ e ∈ lostReleaseCalls, e.arpActive = true)
    ∧ gatesDisjoint Arpeggiator.initial.outputMIDIChannelForNoteCurrentlyOnPostArp none
        (Arpeggiator.initial.trace lostReleaseCalls) = false := by
  decide

/-- C14, amended: no overlapping gates. For every sequence of calls of the public entry points
on the melodic engine with the arpeggiator active in every call, every collection insertion
succeeding and the sounding index in range at the start, and for every such sequence on the drum
engine in which every note-on has a nonzero velocity and every note-off is made while the drum
note is held: a note-on is never emitted while an earlier emitted note-on is unanswered unless
the same instruction carries the note-off for that pitch and the recorded output channel, and no
note-off is emitted without an unanswered note-on, so no note-on receives more than one
note-off. The instructions are those of the calls up to the first call without a result. -/
theorem gates_disjoint (a : Arpeggiator) (d : ArpeggiatorForDrum) (es : List Event)
    (ds : List DrumEvent) (hi : IndexOk a)
    (hact : ∀ e ∈ es, e.arpActive = true)
    (halloc : ∀ e ∈ es, e.allocationsSucceed = true)
    (hdact : ∀ e ∈ ds, e.arpActive = true)
    (ht : d.wellTimed ds = true) :
    gatesDisjoint a.outputMIDIChannelForNoteCurrentlyOnPostArp a.sounding (a.trace es) = true
      ∧ gatesDisjoint d.outputMIDIChannelForNoteCurrentlyOnPostArp d.sounding (d.trace ds)
          = true :=
  ⟨trace_gates es a hi hact halloc, drumTrace_gates ds d hdact ht⟩

theorem gates_disjoint_witness :
    IndexOk Arpeggiator.initial
      ∧ (∀ e ∈ gateCalls, e.arpActive = true)
      ∧ (∀ e ∈ gateCalls, e.allocationsSucceed = true)
      ∧ (∀ e ∈ drumGateCalls, e.arpActive = true)
      ∧ ArpeggiatorForDrum.initial.wellTimed drumGateCalls = true
      ∧ gatesDisjoint Arpeggiator.initial.outputMIDIChannelForNoteCurrentlyOnPostArp
          Arpeggiator.initial.sounding (Arpeggiator.initial.trace gateCalls) = true
      ∧ gatesDisjoint ArpeggiatorForDrum.initial.outputMIDIChannelForNoteCurrentlyOnPostArp
          ArpeggiatorForDrum.initial.sounding (ArpeggiatorForDrum.initial.trace drumGateCalls)
          = true :=
  ⟨by simp [Arpeggiator.initial, IndexOk], by decide, by decide, by decide, by decide,
    gates_disjoint Arpeggiator.initial ArpeggiatorForDrum.initial gateCalls drumGateCalls
      (by simp [Arpeggiator.initial, IndexOk]) (by decide) (by decide) (by decide) (by decide)⟩

/-- C24: at sync level 128th the code comment allows at most 4 subdivisions ("8 not allowed"),
but `std::max((uint8_t)4, ratchetNotesNumber)` is a lower bound. After a render call with the
ratchet amount automation at its maximum (amount 3) and with the draws 0 and 3, ratchet setup
at the 128th level leaves a triggered ratchet with multiplier 3 and 8 subdivisions. -/
theorem maybeSetupNewRatchet_128th_eight :
    Arpeggiator.initial.run fullRatchetCalls = some fullRatchetEngine
    ∧ fullRatchetEngine.ratchetAmount = 3
    ∧ (maybeSetupNewRatchet (settings128th SyncType.SYNC_TYPE_EVEN) 0 3
        fullRatchetEngine.toArpeggiatorBase).isRatcheting = true
    ∧ (maybeSetupNewRatchet (settings128th SyncType.SYNC_TYPE_EVEN) 0 3
        fullRatchetEngine.toArpeggiatorBase).ratchetNotesMultiplier = 3
    ∧ (maybeSetupNewRatchet (settings128th SyncType.SYNC_TYPE_EVEN) 0 3
        fullRatchetEngine.toArpeggiatorBase).ratchetNotesNumber = 8 := by
  decide

/-- C26: the tick period can be zero. After the calls `fullRatchetCalls`, a tick at the 128th
level (period `3 << 1 = 6` for EVEN, `6 * 2 / 3 = 4` for TRIPLET) with the draws 0 and 3 sets up
a ratchet of multiplier 3, the period becomes `6 >> 3 = 0` (and `4 >> 3 = 0`), and
`clipCurrentPos % ticksPerPeriod` is a modulo by zero: the call has no result. -/
theorem doTickForward_period_zero :
    Arpeggiator.initial.run fullRatchetCalls = some fullRatchetEngine
    ∧ ticksPerPeriodOf (settings128th SyncType.SYNC_TYPE_EVEN) = some 6
    ∧ shiftForRatchet 6 (setupRatchetForTick (settings128th SyncType.SYNC_TYPE_EVEN) 0 3
        fullRatchetEngine.toArpeggiatorBase) = 0
    ∧ fullRatchetEngine.doTickForward (settings128th SyncType.SYNC_TYPE_EVEN) 0 false true
        0 3 0 0 ArpReturnInstruction.fresh = none
    ∧ ticksPerPeriodOf (settings128th SyncType.SYNC_TYPE_TRIPLET) = some 4
    ∧ shiftForRatchet 4 (setupRatchetForTick (settings128th SyncType.SYNC_TYPE_TRIPLET) 0 3
        fullRatchetEngine.toArpeggiatorBase) = 0
    ∧ fullRatchetEngine.doTickForward (settings128th SyncType.SYNC_TYPE_TRIPLET) 0 false true
        0 3 0 0 ArpReturnInstruction.fresh = none := by
  decide

/-- C25: on the drum engine octave mode UP_DOWN does not behave as octave mode ALTERNATE,
although the comment in `ArpeggiatorForDrum::switchNoteOn` says so. From a fresh sequence with
2 octaves and no sequence-length ceiling, six steps emit 60, 72, 72, 60, 60, 72 with UP_DOWN
(each edge octave is repeated) and 60, 72, 60, 72, 60, 72 with ALTERNATE; with 3 octaves
they emit 60, 72, 84, 84, 72, 60 and 60, 72, 84, 72, 60, 72. -/
theorem drum_upDown_alternate_differ :
    ArpeggiatorForDrum.initial.pitches
        (exampleSettings ArpNoteMode.UP ArpOctaveMode.UP_DOWN 2) (fun _ => 0) 6 0
      = [60, 72, 72, 60, 60, 72]
    ∧ ArpeggiatorForDrum.initial.pitches
        (exampleSettings ArpNoteMode.UP ArpOctaveMode.ALTERNATE 2) (fun _ => 0) 6 0
      = [60, 72, 60, 72, 60, 72]
    ∧ ArpeggiatorForDrum.initial.pitches
        (exampleSettings ArpNoteMode.UP ArpOctaveMode.UP_DOWN 3) (fun _ => 0) 6 0
      = [60, 72, 84, 84, 72, 60]
    ∧ ArpeggiatorForDrum.initial.pitches
        (exampleSettings ArpNoteMode.UP ArpOctaveMode.ALTERNATE 3) (fun _ => 0) 6 0
      = [60, 72, 84, 72, 60, 72] := by
  decide

/-- With a single octave the drum step advance is the same under UP_DOWN and ALTERNATE. -/
theorem drumSwitchNoteOn_one_octave (settings : ArpeggiatorSettings) (rnd : Nat)
    (d : ArpeggiatorForDrum) (instruction : ArpReturnInstruction)
    (hK : settings.numOctaves = 1) :
    d.switchNoteOn { settings with octaveMode := ArpOctaveMode.UP_DOWN } rnd instruction
      = d.switchNoteOn { settings with octaveMode := ArpOctaveMode.ALTERNATE } rnd
          instruction := by
  unfold ArpeggiatorForDrum.switchNoteOn ArpeggiatorForDrum.selectOctave
    carryOnSequenceForSingleNoteArpeggio
  simp [hK]

/-- C23, counterexample to the claim as stated: the engine holds 60, 64 and 67 in the middle of
a ratchet on its third note (subdivision index 1, counter of notes played since the last octave
change 3). The re-trigger emits 67 again and leaves the sounding index, the octave and the
steps-played counter as they were, but the counter of notes played since the last octave change
becomes 4: `randomNotesPlayedFromOctave++` stands below the label `finishSwitchNoteOn`. -/
theorem switchNoteOn_retrigger_counterexample :
    midRatchetTraversal.ratchetNotesIndex = 1
    ∧ midRatchetTraversal.randomNotesPlayedFromOctave = 3
    ∧ (midRatchetTraversal.switchNoteOn (exampleSettings ArpNoteMode.UP ArpOctaveMode.UP 2) 0 0
        ArpReturnInstruction.fresh).map
        (fun r => (r.2.noteCodeOnPostArp, r.1.whichNoteCurrentlyOnPostArp, r.1.currentOctave,
          r.1.notesPlayedFromSequence, r.1.ratchetNotesIndex,
          r.1.randomNotesPlayedFromOctave))
      = some (67, 2, 0, 3, 2, 4) := by
  decide

/-- C23, amended. A melodic step advance entered with a nonzero ratchet subdivision index and a
sounding index inside the collections returns, and emits the note at the sounding index of
the collection the note mode reads from, in the current octave. It leaves the sounding index,
the current octave, both directions and the steps-played-in-sequence counter unchanged; it sets
the gate flag and the sequence-started flag, increments the counter of notes played since the
last octave change by one and increments the ratchet subdivision index by one while the ratchet
is active; nothing else changes except the recorded sounding pitch. -/
theorem switchNoteOn_retrigger (settings : ArpeggiatorSettings) (rn ro : Nat) (a : Arpeggiator)
    (instruction : ArpReturnInstruction)
    (hri : 0 < a.ratchetNotesIndex)
    (h0 : 0 ≤ a.whichNoteCurrentlyOnPostArp)
    (hn : a.whichNoteCurrentlyOnPostArp < (a.notes.length : Int))
    (hlen : a.notesAsPlayed.length = a.notes.length) :
    ∃ r x, a.switchNoteOn settings rn ro instruction = some r
      ∧ (if settings.noteMode = ArpNoteMode.AS_PLAYED then a.notesAsPlayed else a.notes)[
          a.whichNoteCurrentlyOnPostArp.toNat]? = some x
      ∧ r.2 = { instruction with
          noteCodeOnPostArp := x.noteCode + a.currentOctave * 12
          arpNoteOn := some x }
      ∧ r.1.whichNoteCurrentlyOnPostArp = a.whichNoteCurrentlyOnPostArp
      ∧ r.1.currentOctave = a.currentOctave
      ∧ r.1.currentDirection = a.currentDirection
      ∧ r.1.currentOctaveDirection = a.currentOctaveDirection
      ∧ r.1.notesPlayedFromSequence = a.notesPlayedFromSequence
      ∧ r.1.randomNotesPlayedFromOctave = a.randomNotesPlayedFromOctave + 1
      ∧ r.1.ratchetNotesIndex
          = (if a.isRatcheting then a.ratchetNotesIndex + 1 else a.ratchetNotesIndex)
      ∧ r.1.gateCurrentlyActive = true
      ∧ r.1.playedFirstArpeggiatedNoteYet = true
      ∧ r.1 = retriggered a x := by
  have hlt : a.whichNoteCurrentlyOnPostArp.toNat
      < (if settings.noteMode = ArpNoteMode.AS_PLAYED then a.notesAsPlayed
         else a.notes).length := by
    split_ifs <;> omega
  obtain ⟨x, hx⟩ : ∃ x, (if settings.noteMode = ArpNoteMode.AS_PLAYED then a.notesAsPlayed
      else a.notes)[a.whichNoteCurrentlyOnPostArp.toNat]? = some x :=
    ⟨_, List.getElem?_eq_getElem hlt⟩
  have h1 : ¬ (a.whichNoteCurrentlyOnPostArp < 0
      ∨ a.whichNoteCurrentlyOnPostArp ≥ (a.notes.length : Int)) := by omega
  have hri' : a.ratchetNotesIndex > 0 := hri
  have key : a.switchNoteOn settings rn ro instruction
      = some (retriggered a x, { instruction with
          noteCodeOnPostArp := x.noteCode + a.currentOctave * 12
          arpNoteOn := some x }) := by
    unfold Arpeggiator.switchNoteOn Arpeggiator.finishSwitchNoteOn retriggered
    by_cases hm : settings.noteMode = ArpNoteMode.AS_PLAYED
    · simp only [hm, if_true] at hx
      by_cases hr : a.isRatcheting = true
      · simp [hri', h1, hm, getElement, h0, hx, hr]
      · simp [hri', h1, hm, getElement, h0, hx, hr]
    · simp only [hm, if_false] at hx
      by_cases hr : a.isRatcheting = true
      · simp [hri', h1, hm, getElement, h0, hx, hr]
      · simp [hri', h1, hm, getElement, h0, hx, hr]
  exact ⟨_, x, key, hx, rfl, rfl, rfl, rfl, rfl, rfl, rfl, rfl, rfl, rfl, rfl⟩

theorem switchNoteOn_retrigger_witness :
    ∃ r x, midRatchetTraversal.switchNoteOn
          (exampleSettings ArpNoteMode.UP ArpOctaveMode.UP 2) 0 0 ArpReturnInstruction.fresh
        = some r
      ∧ (if (exampleSettings ArpNoteMode.UP ArpOctaveMode.UP 2).noteMode = ArpNoteMode.AS_PLAYED
          then midRatchetTraversal.notesAsPlayed else midRatchetTraversal.notes)[
          midRatchetTraversal.whichNoteCurrentlyOnPostArp.toNat]? = some x
      ∧ r.2 = { ArpReturnInstruction.fresh with
          noteCodeOnPostArp := x.noteCode + midRatchetTraversal.currentOctave * 12
          arpNoteOn := some x }
      ∧ r.1.whichNoteCurrentlyOnPostArp = midRatchetTraversal.whichNoteCurrentlyOnPostArp
      ∧ r.1.currentOctave = midRatchetTraversal.currentOctave
      ∧ r.1.currentDirection = midRatchetTraversal.currentDirection
      ∧ r.1.currentOctaveDirection = midRatchetTraversal.currentOctaveDirection
      ∧ r.1.notesPlayedFromSequence = midRatchetTraversal.notesPlayedFromSequence
      ∧ r.1.randomNotesPlayedFromOctave = midRatchetTraversal.randomNotesPlayedFromOctave + 1
      ∧ r.1.ratchetNotesIndex
          = (if midRatchetTraversal.isRatcheting then midRatchetTraversal.ratchetNotesIndex + 1
             else midRatchetTraversal.ratchetNotesIndex)
      ∧ r.1.gateCurrentlyActive = true
      ∧ r.1.playedFirstArpeggiatedNoteYet = true
      ∧ r.1 = retriggered midRatchetTraversal x :=
  switchNoteOn_retrigger (exampleSettings ArpNoteMode.UP ArpOctaveMode.UP 2) 0 0
    midRatchetTraversal ArpReturnInstruction.fresh (by decide) (by decide) (by decide)
    (by decide)

/-- C22: with note mode AS_PLAYED the sounding note is not preserved across a note-on. 64 is
pressed (it sounds, index 0 of the insertion-order collection), then 60 is pressed: 60 is
appended to the insertion-order collection (64, 60), but the sounding index is compared with the
position of 60 in the sorted collection (0) and shifted to 1, where the insertion-order
collection holds 60. The next step advance then wraps and emits 76: the note 60 is skipped in
the first pass. -/
theorem noteOn_asPlayed_index_moves :
    Arpeggiator.initial.run
        [exampleNoteOn (some (exampleSettings ArpNoteMode.AS_PLAYED ArpOctaveMode.UP 2)) 64]
      = some asPlayedEngine
    ∧ codes asPlayedEngine.notesAsPlayed = [64]
    ∧ asPlayedEngine.whichNoteCurrentlyOnPostArp = 0
    ∧ asPlayedEngine.noteCodeCurrentlyOnPostArp = 64
    ∧ asPlayedEngine.soundingIdentity (exampleSettings ArpNoteMode.AS_PLAYED ArpOctaveMode.UP 2)
        = some 64
    ∧ (asPlayedEngine.noteOn (some (exampleSettings ArpNoteMode.AS_PLAYED ArpOctaveMode.UP 2))
          60 100 0 [0, 0, 0] exampleEnv ArpReturnInstruction.fresh).map
        (fun r => (codes r.1.notes, codes r.1.notesAsPlayed, r.1.whichNoteCurrentlyOnPostArp,
          r.1.soundingIdentity (exampleSettings ArpNoteMode.AS_PLAYED ArpOctaveMode.UP 2)))
      = some ([60, 64], [64, 60], 1, some 60)
    ∧ ((asPlayedEngine.noteOn (some (exampleSettings ArpNoteMode.AS_PLAYED ArpOctaveMode.UP 2))
          60 100 0 [0, 0, 0] exampleEnv ArpReturnInstruction.fresh).bind
        fun r => (r.1.switchNoteOn (exampleSettings ArpNoteMode.AS_PLAYED ArpOctaveMode.UP 2)
          0 0 ArpReturnInstruction.fresh).map fun r' => r'.2.noteCodeOnPostArp)
      = some 76 := by
  decide

theorem getElem?_insert_lt (xs : List ArpNote) (k j : Nat) (y : ArpNote) (hj : j < k)
    (hk : k ≤ xs.length) : (xs.take k ++ y :: xs.drop k)[j]? = xs[j]? := by
  have h1 : j < (xs.take k).length := by
    rw [List.length_take]; omega
  rw [List.getElem?_append_left h1, List.getElem?_take_of_lt hj]

theorem getElem?_insert_gt (xs : List ArpNote) (k w : Nat) (y : ArpNote) (hw : k ≤ w)
    (hk : k ≤ xs.length) : (xs.take k ++ y :: xs.drop k)[w + 1]? = xs[w]? := by
  have h1 : (xs.take k).length = k := by
    rw [List.length_take]; omega
  have h2 : (xs.take k).length ≤ w + 1 := by omega
  rw [List.getElem?_append_right h2, h1]
  have h3 : w + 1 - k = (w - k) + 1 := by omega
  rw [h3, List.getElem?_cons_succ, List.getElem?_drop]
  congr 1
  omega

theorem noteInserted_new (s : ArpeggiatorSettings) (k : Int) (fromMIDIChannel : Int)
    (env : NoteOnEnv) (i j : Nat) (x y : ArpNote) (a : Arpeggiator)
    (instruction : ArpReturnInstruction)
    (hm : s.mode ≠ ArpMode.OFF) (hx : a.notes[i]? = some x) (hy : a.notesAsPlayed[j]? = some y)
    (hn : a.notes.length ≠ 1) :
    a.noteInserted (some s) k fromMIDIChannel env i (some i) (some j) instruction
      = some ({ a with
          notes := a.notes.set i { x with channel := fromMIDIChannel }
          notesAsPlayed := a.notesAsPlayed.set j { y with channel := fromMIDIChannel }
          whichNoteCurrentlyOnPostArp :=
            if a.whichNoteCurrentlyOnPostArp ≥ (i : Int) then a.whichNoteCurrentlyOnPostArp + 1
            else a.whichNoteCurrentlyOnPostArp }, instruction) := by
  unfold Arpeggiator.noteInserted Arpeggiator.afterNoteInserted
  simp only [Option.some_bind, hx, hy]
  rw [if_pos hm, if_neg (by rw [List.length_set]; exact hn)]
  split_ifs <;> rfl

theorem set_append_singleton (xs : List ArpNote) (s f : ArpNote) :
    (xs.take xs.length ++ s :: xs.drop xs.length).set xs.length f = xs ++ [f] := by
  rw [set_insert xs xs.length s f (Nat.le_refl _), List.take_length, List.drop_length]

/-- The result of `Arpeggiator::noteOn` with the arpeggiator active for an identity that is not
held, while at least one note is held and both insertions succeed: the note is inserted at its
sorted position and appended to the insertion-order collection, the sounding index is shifted
when it is at or after the sorted position, and the instruction is left as it was. -/
theorem noteOn_new_held (s : ArpeggiatorSettings) (k velocity : Int) (fromMIDIChannel : Int)
    (mpeValues : List Int) (env : NoteOnEnv) (a : Arpeggiator)
    (instruction : ArpReturnInstruction)
    (hm : s.mode ≠ ArpMode.OFF)
    (hex : a.noteExists k (search a.notes k) = false)
    (hheld : 1 ≤ a.notes.length)
    (ha1 : env.notesAllocationOk = true) (ha2 : env.notesAsPlayedAllocationOk = true) :
    a.noteOn (some s) k velocity fromMIDIChannel mpeValues env instruction
      = some ({ a with
          lastVelocity := velocity
          notes := a.notes.take (search a.notes k)
            ++ { fillSlot env.notesSlot k velocity mpeValues with channel := fromMIDIChannel }
              :: a.notes.drop (search a.notes k)
          notesAsPlayed := a.notesAsPlayed
            ++ [{ fillSlot env.notesAsPlayedSlot k velocity mpeValues with
                  channel := fromMIDIChannel }]
          whichNoteCurrentlyOnPostArp :=
            if a.whichNoteCurrentlyOnPostArp ≥ (search a.notes k : Int) then
              a.whichNoteCurrentlyOnPostArp + 1
            else a.whichNoteCurrentlyOnPostArp }, instruction) := by
  have hK : search a.notes k ≤ a.notes.length := search_le_length _ _
  have hex' : Arpeggiator.noteExists { a with lastVelocity := velocity } k (search a.notes k)
      = false := hex
  unfold Arpeggiator.noteOn Arpeggiator.noteOnSearch
  dsimp only
  rw [if_neg (by rw [hex']; simp)]
  unfold Arpeggiator.insertNote insertAtIndex
  rw [if_pos ha1]
  dsimp only
  rw [if_pos ha2]
  dsimp only
  rw [set_insert a.notes _ _ _ hK, set_append_singleton]
  rw [noteInserted_new s k fromMIDIChannel env _ _
    (fillSlot env.notesSlot k velocity mpeValues)
    (fillSlot env.notesAsPlayedSlot k velocity mpeValues) _ instruction hm
    (getElem_insert a.notes _ _ hK)
    (by simp)
    (by simp only [List.length_append, List.length_take, List.length_cons, List.length_drop]
        omega)]
  dsimp only
  rw [set_insert a.notes _ _ _ hK]
  simp

/-- Sounding note preserved across note-on in the note modes that read the sorted collection
(UP, DOWN, UP_DOWN, RANDOM): when a new identity is added while the arpeggiator is active, at
least one note is held, the sounding index is inside the collection and both insertions succeed,
the call returns and the note at the sounding index of the sorted collection has the same
identity after the call as before it. -/
theorem noteOn_keeps_sounding_sorted (s : ArpeggiatorSettings) (k velocity : Int)
    (fromMIDIChannel : Int) (mpeValues : List Int) (env : NoteOnEnv) (a : Arpeggiator)
    (instruction : ArpReturnInstruction)
    (hm : s.mode ≠ ArpMode.OFF) (hnm : s.noteMode ≠ ArpNoteMode.AS_PLAYED)
    (hex : a.noteExists k (search a.notes k) = false)
    (h0 : 0 ≤ a.whichNoteCurrentlyOnPostArp)
    (hn : a.whichNoteCurrentlyOnPostArp < (a.notes.length : Int))
    (ha1 : env.notesAllocationOk = true) (ha2 : env.notesAsPlayedAllocationOk = true) :
    ∃ r c, a.noteOn (some s) k velocity fromMIDIChannel mpeValues env instruction = some r
      ∧ a.soundingIdentity s = some c
      ∧ r.1.soundingIdentity s = some c := by
  have hheld : 1 ≤ a.notes.length := by omega
  have hK : search a.notes k ≤ a.notes.length := search_le_length _ _
  have hlt : a.whichNoteCurrentlyOnPostArp.toNat < a.notes.length := by omega
  refine ⟨_, (a.notes.get ⟨a.whichNoteCurrentlyOnPostArp.toNat, hlt⟩).noteCode,
    noteOn_new_held s k velocity fromMIDIChannel mpeValues env a instruction hm hex hheld ha1 ha2,
    ?_, ?_⟩
  · unfold Arpeggiator.soundingIdentity getElement
    rw [if_neg hnm, if_pos h0, List.getElem?_eq_getElem hlt]
    rfl
  · unfold Arpeggiator.soundingIdentity getElement
    rw [if_neg hnm]
    dsimp only
    by_cases hge : a.whichNoteCurrentlyOnPostArp ≥ (search a.notes k : Int)
    · rw [if_pos hge, if_pos (by omega)]
      have e : (a.whichNoteCurrentlyOnPostArp + 1).toNat
          = a.whichNoteCurrentlyOnPostArp.toNat + 1 := by omega
      rw [e, getElem?_insert_gt a.notes _ _ _ (by omega) hK, List.getElem?_eq_getElem hlt]
      rfl
    · rw [if_neg hge, if_pos h0,
        getElem?_insert_lt a.notes _ _ _ (by omega) hK, List.getElem?_eq_getElem hlt]
      rfl

theorem carryOnSequenceForSingle_down (settings : ArpeggiatorSettings) (rnd : Nat)
    (b : ArpeggiatorBase) (ho : settings.octaveMode = ArpOctaveMode.DOWN)
    (hK128 : settings.numOctaves ≤ 128)
    (h0 : 0 ≤ b.currentOctave) (h1 : b.currentOctave < (settings.numOctaves : Int)) :
    carryOnSequenceForSingleNoteArpeggio settings rnd b
      = some { b with
          currentOctaveDirection := if settings.numOctaves = 1 then 1 else -1
          currentOctave :=
            if b.currentOctave - 1 < 0 then (settings.numOctaves : Int) - 1
            else b.currentOctave - 1 } := by
  have e : toInt8 (b.currentOctave + -1) = b.currentOctave - 1 := by
    rw [toInt8_eq _ (by omega) (by omega)]
    ring
  have e1 : toInt8 ((settings.numOctaves : Int) - 1) = (settings.numOctaves : Int) - 1 :=
    toInt8_eq _ (by omega) (by omega)
  unfold carryOnSequenceForSingleNoteArpeggio
  by_cases hone : settings.numOctaves = 1
  · have hz : b.currentOctave = 0 := by omega
    simp [hone, hz]
  · have h3 : ¬ b.currentOctave - 1 ≥ (settings.numOctaves : Int) := by omega
    simp only [hone, ho, if_false]
    simp [e, e1]
    split_ifs <;> first | rfl | omega

theorem carryOnSequence_downDown (settings : ArpeggiatorSettings) (rn ro : Nat)
    (a : Arpeggiator)
    (hn : settings.noteMode = ArpNoteMode.DOWN) (ho : settings.octaveMode = ArpOctaveMode.DOWN)
    (hK128 : settings.numOctaves ≤ 128)
    (hdir : a.currentDirection = -1)
    (hwn : a.whichNoteCurrentlyOnPostArp < (a.notes.length : Int))
    (ho0 : 0 ≤ a.currentOctave) (ho1 : a.currentOctave < (settings.numOctaves : Int)) :
    a.carryOnSequence settings rn ro
      = some (if a.whichNoteCurrentlyOnPostArp - 1 < 0 then
          { a with
            whichNoteCurrentlyOnPostArp := (a.notes.length : Int) - 1
            randomNotesPlayedFromOctave := 0
            currentOctaveDirection := if settings.numOctaves = 1 then 1 else -1
            currentOctave :=
              if a.currentOctave - 1 < 0 then (settings.numOctaves : Int) - 1
              else a.currentOctave - 1 }
        else { a with whichNoteCurrentlyOnPostArp := a.whichNoteCurrentlyOnPostArp - 1 }) := by
  have h3 : ¬ a.whichNoteCurrentlyOnPostArp + -1 ≥ (a.notes.length : Int) := by omega
  have e : a.whichNoteCurrentlyOnPostArp + -1 = a.whichNoteCurrentlyOnPostArp - 1 := by ring
  unfold Arpeggiator.carryOnSequence Arpeggiator.advanceNote Arpeggiator.advanceOctave
  simp only [hn, ho, hdir, alternateBounce]
  have h4 : ¬ (a.notes.length : Int) ≤ a.whichNoteCurrentlyOnPostArp - 1 := by omega
  by_cases h : a.whichNoteCurrentlyOnPostArp - 1 < 0
  · have h' : a.whichNoteCurrentlyOnPostArp + -1 < 0 := by omega
    simp [h, h', h3, h4, hdir, carryOnSequenceForSingle_down, ho, hK128, ho0, ho1]
  · have h' : ¬ a.whichNoteCurrentlyOnPostArp + -1 < 0 := by omega
    simp [h, h', h3, h4, hdir, e]

theorem switchNoteOn_downDown_next (settings : ArpeggiatorSettings) (rn ro : Nat)
    (a : Arpeggiator) (instruction : ArpReturnInstruction)
    (hn : settings.noteMode = ArpNoteMode.DOWN) (ho : settings.octaveMode = ArpOctaveMode.DOWN)
    (hK128 : settings.numOctaves ≤ 128)
    (hp : a.playedFirstArpeggiatedNoteYet = true) (hmax : a.maxSequenceLength = 0)
    (hri : a.ratchetNotesIndex = 0) (hrat : a.isRatcheting = false)
    (hdir : a.currentDirection = -1) (hw0 : 0 ≤ a.whichNoteCurrentlyOnPostArp)
    (hwn : a.whichNoteCurrentlyOnPostArp < (a.notes.length : Int))
    (ho0 : 0 ≤ a.currentOctave) (ho1 : a.currentOctave < (settings.numOctaves : Int)) :
    ∃ r x, a.switchNoteOn settings rn ro instruction = some r
      ∧ r.1.notes = a.notes ∧ r.1.maxSequenceLength = 0 ∧ r.1.ratchetNotesIndex = 0
      ∧ r.1.isRatcheting = false ∧ r.1.playedFirstArpeggiatedNoteYet = true
      ∧ r.1.currentDirection = -1
      ∧ r.1.whichNoteCurrentlyOnPostArp
          = (if a.whichNoteCurrentlyOnPostArp - 1 < 0 then (a.notes.length : Int) - 1
             else a.whichNoteCurrentlyOnPostArp - 1)
      ∧ r.1.currentOctave
          = (if a.whichNoteCurrentlyOnPostArp - 1 < 0 then
               (if a.currentOctave - 1 < 0 then (settings.numOctaves : Int) - 1
                else a.currentOctave - 1)
             else a.currentOctave)
      ∧ a.notes[r.1.whichNoteCurrentlyOnPostArp.toNat]? = some x
      ∧ r.2.noteCodeOnPostArp = x.noteCode + r.1.currentOctave * 12 := by
  have hfull : ¬ (settings.noteMode = ArpNoteMode.RANDOM
      ∧ settings.octaveMode = ArpOctaveMode.RANDOM) := by simp [hn]
  have hnm : settings.noteMode ≠ ArpNoteMode.AS_PLAYED := by rw [hn]; decide
  rw [switchNoteOn_of_ratchetNotesIndex_zero _ _ _ _ _ hri]
  generalize ha1 : ({ a with gateCurrentlyActive := true } : Arpeggiator) = a1
  have hp1 : a1.playedFirstArpeggiatedNoteYet = true := by rw [← ha1]; exact hp
  have hmax1 : a1.maxSequenceLength = 0 := by rw [← ha1]; exact hmax
  have hrat1 : a1.isRatcheting = false := by rw [← ha1]; exact hrat
  have hri1 : a1.ratchetNotesIndex = 0 := by rw [← ha1]; exact hri
  have hdir1 : a1.currentDirection = -1 := by rw [← ha1]; exact hdir
  have hw1 : a1.whichNoteCurrentlyOnPostArp = a.whichNoteCurrentlyOnPostArp := by
    rw [← ha1]
  have ho1' : a1.currentOctave = a.currentOctave := by rw [← ha1]
  have hnotes1 : a1.notes = a.notes := by rw [← ha1]
  have hlen1 : a1.notes.length = a.notes.length := by rw [hnotes1]
  clear ha1
  have hoa0 : 0 ≤ a1.currentOctave := by rw [ho1']; exact ho0
  have hoa1 : a1.currentOctave < (settings.numOctaves : Int) := by rw [ho1']; exact ho1
  rw [selectStep_carryOn _ _ _ _ hfull hp1 (by omega)]
  by_cases h1 : a1.notes.length = 1
  · have hw : a1.whichNoteCurrentlyOnPostArp = 0 := by omega
    have hwa : a.whichNoteCurrentlyOnPostArp = 0 := by omega
    have hlen : a.notes.length = 1 := by rw [← hnotes1]; exact h1
    obtain ⟨x, hx⟩ : ∃ x, a.notes[0]? = some x :=
      ⟨a.notes.get ⟨0, by omega⟩, List.getElem?_eq_getElem _⟩
    rw [if_pos h1,
      carryOnSequenceForSingle_down settings ro a1.toArpeggiatorBase ho hK128 hoa0 hoa1]
    simp only [Option.map_some', Option.some_bind]
    rw [finishSwitchNoteOn_eq (x := x)]
    · refine ⟨_, x, rfl, ?_⟩
      have hpos : 0 < a.notes.length := by omega
      have hx' : a.notes[0] = x := by simpa [List.getElem?_eq_getElem hpos] using hx
      simp [Arpeggiator.countStep, hnotes1, hmax1, hri1, hrat1, hdir1, hw, hwa, ← ho1', hlen,
        hx']
    · exact hrat1
    · simp [Arpeggiator.countStep, hw]
    · simp [Arpeggiator.countStep, hw, hnotes1, hlen]
    · simp [Arpeggiator.countStep, hw, hnotes1, hnm, hx]
  · rw [if_neg h1,
      carryOnSequence_downDown settings rn ro a1 hn ho hK128 hdir1 (by omega) hoa0 hoa1]
    simp only [Option.map_some', Option.some_bind]
    by_cases hwrap : a.whichNoteCurrentlyOnPostArp - 1 < 0
    · have hwrap1 : a1.whichNoteCurrentlyOnPostArp - 1 < 0 := by omega
      have hpos : 0 < a.notes.length := by omega
      have hlast : ((a.notes.length : Int) - 1).toNat = a.notes.length - 1 := by omega
      obtain ⟨x, hx⟩ : ∃ x, a.notes[a.notes.length - 1]? = some x :=
        ⟨a.notes.get ⟨a.notes.length - 1, by omega⟩, List.getElem?_eq_getElem _⟩
      rw [if_pos hwrap1, finishSwitchNoteOn_eq (x := x)]
      · refine ⟨_, x, rfl, ?_⟩
        simp [Arpeggiator.countStep, hnotes1, hmax1, hri1, hrat1, hdir1, hwrap, ← ho1', hlast,
          hx]
      · exact hrat1
      · simp [Arpeggiator.countStep, hnotes1]; omega
      · simp [Arpeggiator.countStep, hnotes1]
      · simp [Arpeggiator.countStep, hnotes1, hnm, hlast, hx]
    · have hwrap1 : ¬ a1.whichNoteCurrentlyOnPostArp - 1 < 0 := by omega
      obtain ⟨x, hx⟩ : ∃ x, a.notes[a.whichNoteCurrentlyOnPostArp.toNat - 1]? = some x :=
        ⟨a.notes.get ⟨a.whichNoteCurrentlyOnPostArp.toNat - 1, by omega⟩,
          List.getElem?_eq_getElem _⟩
      rw [if_neg hwrap1, finishSwitchNoteOn_eq (x := x)]
      · refine ⟨_, x, rfl, ?_⟩
        simp [Arpeggiator.countStep, hnotes1, hmax1, hri1, hrat1, hdir1, hwrap, ho1', hw1, hx]
      · exact hrat1
      · simp [Arpeggiator.countStep]; omega
      · simp [Arpeggiator.countStep, hnotes1]; omega
      · simp [Arpeggiator.countStep, hnotes1, hnm, hw1, hx]

theorem switchNoteOn_downDown_start (settings : ArpeggiatorSettings) (rn ro : Nat)
    (a : Arpeggiator) (instruction : ArpReturnInstruction)
    (hn : settings.noteMode = ArpNoteMode.DOWN) (ho : settings.octaveMode = ArpOctaveMode.DOWN)
    (hK : 1 ≤ settings.numOctaves) (hK128 : settings.numOctaves ≤ 128)
    (hp : a.playedFirstArpeggiatedNoteYet = false)
    (hri : a.ratchetNotesIndex = 0) (hrat : a.isRatcheting = false)
    (hne : 1 ≤ a.notes.length) :
    ∃ r x, a.switchNoteOn settings rn ro instruction = some r
      ∧ r.1.notes = a.notes ∧ r.1.maxSequenceLength = a.maxSequenceLength
      ∧ r.1.ratchetNotesIndex = 0
      ∧ r.1.isRatcheting = false ∧ r.1.playedFirstArpeggiatedNoteYet = true
      ∧ r.1.currentDirection = -1
      ∧ r.1.whichNoteCurrentlyOnPostArp = (a.notes.length : Int) - 1
      ∧ r.1.currentOctave = (settings.numOctaves : Int) - 1
      ∧ a.notes[a.notes.length - 1]? = some x
      ∧ r.2.noteCodeOnPostArp = x.noteCode + ((settings.numOctaves : Int) - 1) * 12 := by
  obtain ⟨x, hx⟩ : ∃ x, a.notes[a.notes.length - 1]? = some x :=
    ⟨a.notes.get ⟨a.notes.length - 1, by omega⟩, List.getElem?_eq_getElem _⟩
  have hpos : 0 < a.notes.length := by omega
  have hlast : ((a.notes.length : Int) - 1).toNat = a.notes.length - 1 := by omega
  have hfull : ¬ (settings.noteMode = ArpNoteMode.RANDOM
      ∧ settings.octaveMode = ArpOctaveMode.RANDOM) := by simp [hn]
  have hnm : settings.noteMode ≠ ArpNoteMode.AS_PLAYED := by rw [hn]; decide
  rw [switchNoteOn_of_ratchetNotesIndex_zero _ _ _ _ _ hri,
    selectStep_start settings rn ro { a with gateCurrentlyActive := true } hfull hp]
  have e : Arpeggiator.startSequence settings rn ro { a with gateCurrentlyActive := true }
      = some { a with
          gateCurrentlyActive := true
          notesPlayedFromSequence := 0
          randomNotesPlayedFromOctave := 0
          whichNoteCurrentlyOnPostArp := (a.notes.length : Int) - 1
          currentDirection := -1
          currentOctave := (settings.numOctaves : Int) - 1
          currentOctaveDirection := -1 } := by
    have e1 : toInt8 ((settings.numOctaves : Int) - 1) = (settings.numOctaves : Int) - 1 :=
      toInt8_eq _ (by omega) (by omega)
    simp [Arpeggiator.startSequence, hn, ho, e1]
  rw [e]
  simp only [Option.map_some', Option.some_bind]
  rw [finishSwitchNoteOn_eq (x := x)]
  · refine ⟨_, x, rfl, ?_⟩
    simp [Arpeggiator.countStep, hri, hrat, hx]
  · exact hrat
  · simp [Arpeggiator.countStep]; omega
  · simp [Arpeggiator.countStep]
  · simp [Arpeggiator.countStep, hnm, hlast, hx]

theorem downDown_step (settings : ArpeggiatorSettings) (rn ro : Nat) (ns : List ArpNote)
    (i : Nat) (a : Arpeggiator) (instruction : ArpReturnInstruction)
    (hn : settings.noteMode = ArpNoteMode.DOWN) (ho : settings.octaveMode = ArpOctaveMode.DOWN)
    (hK : 1 ≤ settings.numOctaves) (hK128 : settings.numOctaves ≤ 128) (hns : 1 ≤ ns.length)
    (h : DownDownState ns settings.numOctaves i a) :
    ∃ r x, a.switchNoteOn settings rn ro instruction = some r
      ∧ DownDownState ns settings.numOctaves (i + 1) r.1
      ∧ ns[ns.length - 1 - i % ns.length]? = some x
      ∧ r.2.noteCodeOnPostArp
          = x.noteCode
            + 12 * ((settings.numOctaves - 1 - (i / ns.length) % settings.numOctaves : Nat)
                : Int) := by
  obtain ⟨hnotes, hmax, hri, hrat, h0, hpos⟩ := h
  subst hnotes
  have hKpos : 0 < settings.numOctaves := hK
  rcases Nat.eq_zero_or_pos i with hi | hi
  · subst hi
    obtain ⟨r, x, hr, g1, g2, g3, g4, g5, g6, g7, g8, g9, g10⟩ :=
      switchNoteOn_downDown_start settings rn ro a instruction hn ho hK hK128 (h0 rfl) hri hrat
        hns
    have c1 : ((a.notes.length - 1 : Nat) : Int) = (a.notes.length : Int) - 1 := by omega
    have c2 : ((settings.numOctaves - 1 : Nat) : Int) = (settings.numOctaves : Int) - 1 := by
      omega
    refine ⟨r, x, hr, ⟨g1, by rw [g2, hmax], g3, g4, by simp, fun _ => ⟨g5, ?_, ?_, g6⟩⟩, ?_, ?_⟩
    · simpa [c1] using g7
    · simpa [c2] using g8
    · simpa using g9
    · rw [g10]
      simp only [Nat.zero_div, Nat.zero_mod, Nat.sub_zero, c2]
      ring
  · obtain ⟨j, rfl⟩ : ∃ j, i = j + 1 := ⟨i - 1, by omega⟩
    obtain ⟨hp, hw, hoct, hdir⟩ := hpos hi
    simp only [Nat.add_sub_cancel] at hw hoct
    have hrlt : j % a.notes.length < a.notes.length := Nat.mod_lt _ hns
    have hqlt : j / a.notes.length % settings.numOctaves < settings.numOctaves :=
      Nat.mod_lt _ hKpos
    obtain ⟨r, x, hr, g1, g2, g3, g4, g5, g6, g7, g8, g9, g10⟩ :=
      switchNoteOn_downDown_next settings rn ro a instruction hn ho hK128 hp hmax hri hrat hdir
        (by omega) (by omega) (by omega) (by omega)
    have key : r.1.whichNoteCurrentlyOnPostArp
          = ((a.notes.length - 1 - (j + 1) % a.notes.length : Nat) : Int)
        ∧ r.1.currentOctave
          = ((settings.numOctaves - 1
              - ((j + 1) / a.notes.length) % settings.numOctaves : Nat) : Int) := by
      rw [g7, g8, hw, hoct]
      rcases succ_mod_cases j a.notes.length hns with ⟨e1, e2, e3⟩ | ⟨e1, e2, e3⟩
      · rw [e2, e3]
        have c1 : ((a.notes.length - 1 - j % a.notes.length : Nat) : Int) - 1 < 0 := by omega
        rcases succ_mod_cases (j / a.notes.length) settings.numOctaves hKpos with
          ⟨f1, f2, f3⟩ | ⟨f1, f2, f3⟩
        · rw [f2]
          have c2 : ((settings.numOctaves - 1
              - j / a.notes.length % settings.numOctaves : Nat) : Int) - 1 < 0 := by omega
          rw [if_pos c1, if_pos c1, if_pos c2]
          constructor <;> omega
        · rw [f2]
          have c2 : ¬ ((settings.numOctaves - 1
              - j / a.notes.length % settings.numOctaves : Nat) : Int) - 1 < 0 := by omega
          rw [if_pos c1, if_pos c1, if_neg c2]
          constructor <;> omega
      · rw [e2, e3]
        have c1 : ¬ ((a.notes.length - 1 - j % a.notes.length : Nat) : Int) - 1 < 0 := by omega
        rw [if_neg c1, if_neg c1]
        constructor <;> omega
    refine ⟨r, x, hr, ⟨g1, g2, g3, g4, by simp, fun _ => ⟨g5, ?_, ?_, g6⟩⟩, ?_, ?_⟩
    · simpa using key.1
    · simpa using key.2
    · rw [key.1] at g9
      simpa using g9
    · rw [g10, key.2]
      ring

theorem downDown_times (settings : ArpeggiatorSettings) (rndNote rndOctave : Nat → Nat)
    (a : Arpeggiator)
    (hn : settings.noteMode = ArpNoteMode.DOWN) (ho : settings.octaveMode = ArpOctaveMode.DOWN)
    (hK : 1 ≤ settings.numOctaves) (hK128 : settings.numOctaves ≤ 128)
    (hne : 1 ≤ a.notes.length)
    (hmax : a.maxSequenceLength = 0) (hri : a.ratchetNotesIndex = 0)
    (hrat : a.isRatcheting = false) (hp : a.playedFirstArpeggiatedNoteYet = false) (k : Nat) :
    ∃ a', a.switchNoteOnTimes settings rndNote rndOctave k = some a'
      ∧ DownDownState a.notes settings.numOctaves k a' := by
  induction k with
  | zero =>
    exact ⟨a, rfl, rfl, hmax, hri, hrat, fun _ => hp, fun h => absurd h (by omega)⟩
  | succ k ih =>
    obtain ⟨a', h1, h2⟩ := ih
    obtain ⟨r, _, hr, h3, _⟩ := downDown_step settings (rndNote k) (rndOctave k) a.notes k a'
      ArpReturnInstruction.fresh hn ho hK hK128 hne h2
    exact ⟨r.1, by simp [Arpeggiator.switchNoteOnTimes, h1, hr], h3⟩

/-- C21, counterexample to the claim as stated: the octave index is an 8-bit signed member.
With the notes 60, 64, 67 and K = 129 octaves the fresh DOWN/DOWN sequence stores the start
octave K - 1 = 128 as -128, so step 0 emits 67 - 12 * 128 instead of 67 + 12 * 128. -/
theorem switchNoteOn_downDown_counterexample :
    ((heldEngine [60, 64, 67] [60, 64, 67]).nthSwitchNoteOn
        (exampleSettings ArpNoteMode.DOWN ArpOctaveMode.DOWN 129) (fun _ => 0) (fun _ => 0)
        0).map (fun r => (r.1.currentOctave, r.2.noteCodeOnPostArp))
      = some (-128, 67 - 12 * 128) := by
  decide

/-- C21, amended: DOWN/DOWN mirrors UP/UP. With n >= 1 held notes `s_0, ..., s_(n-1)` in the
sorted collection (whatever their identities, so in particular for distinct ascending ones),
K octaves with 1 <= K <= 128, no sequence-length ceiling, no ratchet and a fresh sequence, with
noteMode=DOWN and octaveMode=DOWN the `i`-th call of `switchNoteOn` (i = 0, 1, 2, ...) returns
and emits the pitch `s_(n-1-(i mod n)) + 12 * (K-1-((i div n) mod K))`, for every random draw:
the UP/UP sequence with note order and octave order both reversed. -/
theorem switchNoteOn_downDown_pitch (settings : ArpeggiatorSettings)
    (rndNote rndOctave : Nat → Nat) (a : Arpeggiator) (i : Nat)
    (hn : settings.noteMode = ArpNoteMode.DOWN) (ho : settings.octaveMode = ArpOctaveMode.DOWN)
    (hK : 1 ≤ settings.numOctaves) (hK128 : settings.numOctaves ≤ 128)
    (hne : 1 ≤ a.notes.length)
    (hmax : a.maxSequenceLength = 0) (hri : a.ratchetNotesIndex = 0)
    (hrat : a.isRatcheting = false) (hp : a.playedFirstArpeggiatedNoteYet = false) :
    ∃ r s, a.nthSwitchNoteOn settings rndNote rndOctave i = some r
      ∧ a.notes[a.notes.length - 1 - i % a.notes.length]? = some s
      ∧ r.2.noteCodeOnPostArp
          = s.noteCode
            + 12 * ((settings.numOctaves - 1
                - (i / a.notes.length) % settings.numOctaves : Nat) : Int) := by
  obtain ⟨a', h1, h2⟩ :=
    downDown_times settings rndNote rndOctave a hn ho hK hK128 hne hmax hri hrat hp i
  obtain ⟨r, s, hr, _, h3, h4⟩ := downDown_step settings (rndNote i) (rndOctave i) a.notes i a'
    ArpReturnInstruction.fresh hn ho hK hK128 hne h2
  exact ⟨r, s, by simp [Arpeggiator.nthSwitchNoteOn, h1, hr], h3, h4⟩

theorem switchNoteOn_downDown_pitch_witness :
    ∃ r s, (heldEngine [60, 64, 67] [60, 64, 67]).nthSwitchNoteOn
        (exampleSettings ArpNoteMode.DOWN ArpOctaveMode.DOWN 2) (fun _ => 0) (fun _ => 0) 4
        = some r
      ∧ (heldEngine [60, 64, 67] [60, 64, 67]).notes[
          (heldEngine [60, 64, 67] [60, 64, 67]).notes.length - 1
            - 4 % (heldEngine [60, 64, 67] [60, 64, 67]).notes.length]? = some s
      ∧ r.2.noteCodeOnPostArp
          = s.noteCode
            + 12 * (((exampleSettings ArpNoteMode.DOWN ArpOctaveMode.DOWN 2).numOctaves - 1
                - (4 / (heldEngine [60, 64, 67] [60, 64, 67]).notes.length)
                  % (exampleSettings ArpNoteMode.DOWN ArpOctaveMode.DOWN 2).numOctaves : Nat)
                : Int) :=
  switchNoteOn_downDown_pitch (exampleSettings ArpNoteMode.DOWN ArpOctaveMode.DOWN 2)
    (fun _ => 0) (fun _ => 0) (heldEngine [60, 64, 67] [60, 64, 67]) 4 rfl rfl (by decide)
    (by decide) (by decide) rfl rfl rfl rfl

/-- Notes 60, 64, 67 with 2 octaves give 79, 76, 72, 67, 64, 60, 79 in DOWN/DOWN. -/
theorem downDown_example :
    (List.range 7).map (fun i =>
        ((heldEngine [60, 64, 67] [60, 64, 67]).nthSwitchNoteOn
          (exampleSettings ArpNoteMode.DOWN ArpOctaveMode.DOWN 2) (fun _ => 0) (fun _ => 0)
          i).map fun r => r.2.noteCodeOnPostArp)
      = [some 79, some 76, some 72, some 67, some 64, some 60, some 79] := by
  decide

/-- At the 128th sync level a triggered ratchet has 4 subdivisions unless the draw selects the
multiplier 3, in which case it has 8: `std::max` keeps the larger value. -/
theorem maybeSetupNewRatchet_128th_number (settings : ArpeggiatorSettings)
    (rndChance rndMultiplier : Nat) (b : ArpeggiatorBase) (hamount : b.ratchetAmount ≤ 3)
    (h8 : settings.syncLevel = SYNC_LEVEL_128TH)
    (hr : (maybeSetupNewRatchet settings rndChance rndMultiplier b).isRatcheting = true) :
    (maybeSetupNewRatchet settings rndChance rndMultiplier b).ratchetNotesNumber
        = (if rndMultiplier % (b.ratchetAmount + 1) = 3 then 8 else 4)
      ∧ (maybeSetupNewRatchet settings rndChance rndMultiplier b).ratchetNotesMultiplier
        = (if rndMultiplier % (b.ratchetAmount + 1) = 3 then 3 else 2) := by
  have hm : rndMultiplier % (b.ratchetAmount + 1) ≤ 3 := by
    have := Nat.mod_lt rndMultiplier (by omega : 0 < b.ratchetAmount + 1)
    omega
  have h89 : SYNC_LEVEL_128TH ≠ SYNC_LEVEL_256TH := by decide
  unfold maybeSetupNewRatchet at hr ⊢
  dsimp only at hr ⊢
  generalize rndMultiplier % (b.ratchetAmount + 1) = m at hm hr ⊢
  by_cases c : decide (b.ratchetProbability > rndChance ∧ b.ratchetAmount > 0) = true
  · rw [if_pos c]
    clear hr
    rw [h8, if_neg h89, if_pos rfl]
    interval_cases m <;> simp [Nat.shiftLeft_eq]
  · rw [if_neg c] at hr
    simp at hr
    simp at c
    omega

theorem ticksPerPeriodOf_lower (settings : ArpeggiatorSettings) (P0 : Nat)
    (hL1 : 1 ≤ settings.syncLevel) (hL9 : settings.syncLevel ≤ 9)
    (hP : ticksPerPeriodOf settings = some P0) :
    2 ≤ P0
      ∧ (settings.syncLevel ≤ 8 → 4 ≤ P0)
      ∧ (settings.syncLevel ≤ 8 → settings.syncType = SyncType.SYNC_TYPE_DOTTED → 8 ≤ P0)
      ∧ (settings.syncLevel ≤ 7 → 8 ≤ P0) := by
  unfold ticksPerPeriodOf at hP
  rw [if_pos hL9] at hP
  dsimp only at hP
  generalize settings.syncLevel = L at hL1 hL9 hP ⊢
  cases hT : settings.syncType <;> rw [hT] at hP <;>
    simp only [Option.some.injEq] at hP <;> subst hP <;>
    interval_cases L <;> simp [Nat.shiftLeft_eq]

theorem setupRatchetForTick_multiplier (settings : ArpeggiatorSettings)
    (rndChance rndMultiplier : Nat) (b : ArpeggiatorBase) (hfresh : b.isRatcheting = false)
    (hr : (setupRatchetForTick settings rndChance rndMultiplier b).ratchetingIsAvailable = true
      ∧ (setupRatchetForTick settings rndChance rndMultiplier b).isRatcheting = true) :
    (setupRatchetForTick settings rndChance rndMultiplier b).ratchetNotesMultiplier
      = (if settings.syncLevel = SYNC_LEVEL_256TH then 1
         else if settings.syncLevel = SYNC_LEVEL_128TH then
           max 2 (rndMultiplier % (b.ratchetAmount + 1))
         else rndMultiplier % (b.ratchetAmount + 1)) := by
  unfold setupRatchetForTick maybeSetupNewRatchet at hr ⊢
  dsimp only at hr ⊢
  split_ifs at hr ⊢ <;> first | rfl | simp_all

/-- Where the tick period stays positive: for every sync level in 1..9, every sync type, every
ratchet amount in 0..3 and both draws, when ratchet setup runs on an engine that is not
ratcheting, the period after the ratchet shift is at least 1 unless the sync level is 128th, the
sync type is not DOTTED and the draw selects the multiplier 3. -/
theorem shiftForRatchet_pos (settings : ArpeggiatorSettings) (rndChance rndMultiplier : Nat)
    (b : ArpeggiatorBase) (P0 : Nat)
    (hL1 : 1 ≤ settings.syncLevel) (hL9 : settings.syncLevel ≤ 9)
    (hamount : b.ratchetAmount ≤ 3) (hfresh : b.isRatcheting = false)
    (hP : ticksPerPeriodOf settings = some P0)
    (hnot : ¬ (settings.syncLevel = SYNC_LEVEL_128TH
      ∧ settings.syncType ≠ SyncType.SYNC_TYPE_DOTTED
      ∧ rndMultiplier % (b.ratchetAmount + 1) = 3)) :
    1 ≤ shiftForRatchet P0 (setupRatchetForTick settings rndChance rndMultiplier b) := by
  have hm : rndMultiplier % (b.ratchetAmount + 1) ≤ 3 := by
    have := Nat.mod_lt rndMultiplier (by omega : 0 < b.ratchetAmount + 1)
    omega
  obtain ⟨p1, p2, p3, p4⟩ := ticksPerPeriodOf_lower settings P0 hL1 hL9 hP
  unfold shiftForRatchet
  split_ifs with hr
  · rw [setupRatchetForTick_multiplier settings rndChance rndMultiplier b hfresh hr,
      Nat.shiftRight_eq_div_pow]
    apply Nat.div_pos _ (Nat.pos_pow_of_pos _ (by decide))
    generalize rndMultiplier % (b.ratchetAmount + 1) = m at hm hnot
    simp only [SYNC_LEVEL_128TH, SYNC_LEVEL_256TH] at hnot ⊢
    split_ifs with c9 c8
    · simpa using p1
    · have h4 := p2 (by omega)
      by_cases hd : settings.syncType = SyncType.SYNC_TYPE_DOTTED
      · have h8 := p3 (by omega) hd
        interval_cases m <;> simp <;> omega
      · have hm3 : m ≠ 3 := fun h => hnot ⟨c8, hd, h⟩
        interval_cases m <;> simp <;> omega
    · have h8 := p4 (by omega)
      interval_cases m <;> simp <;> omega
  · omega

end Deluge
